import Mathlib

/-!
# Adept front-end: function declarations and the special-function cache

A shallow embedding of `src/PARSE/parse_func.c` (the head of a declaration, its
argument list with backfill and variable-arity markers, the return type, the
prototype checks of the management functions, the polymorphic index, the body,
function aliases) and of `src/IRGEN/ir_cache.c` (the special-function cache),
with the properties of the specification proved about them.

Conventions of the embedding:

* a C array is a list whose length is the allocated capacity; each slot is an
  `Option`, `none` standing for memory that has not been written since the
  allocation (`malloc` / the uncopied tail after `grow`);
* a pointer that may be `NULL` is an `Option`; a heap value is the value itself,
  so a deep copy (`ast_type_clone`, `ast_expr_clone`, `strclone`) yields an equal
  value that no later update of the original can reach;
* a function returning `errorcode_t` returns `Except String _`: `.ok` is
  `SUCCESS` together with the state it leaves, `.error msg` is `FAILURE` after
  the diagnostic `msg` was handed to `compiler_panic`;
* `parse_func` and `parse_func_alias` return `Except (String × parse_ctx_t) _`:
  the diagnostic of a `FAILURE` comes with the context, and so the AST, that the
  failing step found;
* trait sets are bit sets over `Nat`.
-/

set_option autoImplicit false

namespace Adept

/-! ## Tokens (`include/TOKEN/token_data.h`) -/

abbrev tokenid_t := Nat

def TOKEN_NONE : tokenid_t := 0x00
def TOKEN_WORD : tokenid_t := 0x01
def TOKEN_STRING : tokenid_t := 0x02
def TOKEN_MULTIPLY : tokenid_t := 0x06
def TOKEN_ASSIGN : tokenid_t := 0x08
def TOKEN_LESSTHAN : tokenid_t := 0x0B
def TOKEN_GREATERTHAN : tokenid_t := 0x0C
def TOKEN_OPEN : tokenid_t := 0x10
def TOKEN_CLOSE : tokenid_t := 0x11
def TOKEN_BEGIN : tokenid_t := 0x12
def TOKEN_END : tokenid_t := 0x13
def TOKEN_NEWLINE : tokenid_t := 0x14
def TOKEN_NEXT : tokenid_t := 0x22
def TOKEN_BRACKET_OPEN : tokenid_t := 0x23
def TOKEN_BRACKET_CLOSE : tokenid_t := 0x24
def TOKEN_GENERIC_INT : tokenid_t := 0x26
def TOKEN_ELLIPSIS : tokenid_t := 0x34
def TOKEN_POLYMORPH : tokenid_t := 0x42
def TOKEN_STRONG_ARROW : tokenid_t := 0x47
def TOKEN_RANGE : tokenid_t := 0x48
def TOKEN_POLYCOUNT : tokenid_t := 0x4A
def TOKEN_POD : tokenid_t := 0x4B
def TOKEN_ALIAS : tokenid_t := 0x4C
def TOKEN_EXTERNAL : tokenid_t := 0x61
def TOKEN_FOREIGN : tokenid_t := 0x65
def TOKEN_FUNC : tokenid_t := 0x66
def TOKEN_IMPLICIT : tokenid_t := 0x6A
def TOKEN_IN : tokenid_t := 0x6C
def TOKEN_INOUT : tokenid_t := 0x6D
def TOKEN_OUT : tokenid_t := 0x73
def TOKEN_STDCALL : tokenid_t := 0x7D
def TOKEN_VERBATIM : tokenid_t := 0x8D

/-- Modelled from the spec: a source location (`source_t` of `UTIL/ground.h`, not
among the sources): an origin index and an offset. -/
structure source_t where
  object_index : Nat
  index : Nat
deriving DecidableEq, Repr

/-- Modelled from the spec: the sentinel source of synthesized nodes. -/
def NULL_SOURCE : source_t := ⟨0, 0⟩

/-- Modelled from the spec: a token (`token_t` of `LEX/token.h`, not among the
sources) is a kind and a payload; the payload of a word token is its text, and
the text of the other tokens is kept for the single-token expressions only. -/
structure token_t where
  id : tokenid_t
  data : String
deriving DecidableEq, Repr

/-! ## AST expressions and types -/

/-- Modelled from the spec: AST expressions (`AST/ast_expr.h` is not among the
sources). The functions embedded here inspect one expression kind only, the
polymorphic count `$#N`; every other expression is kept as a node carrying its
kind and text. -/
inductive ast_expr_t where
  | polycount (name : String) (source : source_t)
  | other (id : Nat) (text : String) (source : source_t)
deriving DecidableEq, Repr

/-- Deep copy of an expression: the copy is an equal value. -/
def ast_expr_clone (e : ast_expr_t) : ast_expr_t := e

/-- Modelled from the spec: the type elements of §3 (`AST/ast_type.h` is not
among the sources). Every element carries its source, as the C elements do. -/
inductive ast_elem_t where
  | base (name : String) (source : source_t)
  | pointer (source : source_t)
  | fixed_array (length : Nat) (source : source_t)
  | var_fixed_array (length : ast_expr_t) (source : source_t)
  | polymorph (name : String) (allow_auto_conversion : Bool) (source : source_t)
  | polycount (name : String) (source : source_t)
  | generic_base (name : String) (generics : List (List ast_elem_t))
      (name_is_polymorphic : Bool) (source : source_t)
  | func (arg_types : List (List ast_elem_t)) (return_type : List ast_elem_t)
      (source : source_t)

/-- The AST type: an ordered sequence of elements read outside-in, and the source
of the whole type. -/
structure ast_type_t where
  elements : List ast_elem_t
  source : source_t

/-- The number of elements of a type (`elements_length`). -/
def ast_type_t.elements_length (t : ast_type_t) : Nat := t.elements.length

/-- Deep copy of a type: the copy is an equal value. -/
def ast_type_clone (t : ast_type_t) : ast_type_t := t

/-- Modelled from the spec: two length expressions of var-fixed-arrays are the
same up to sources. -/
def ast_expr_identical : ast_expr_t → ast_expr_t → Bool
  | .polycount n _, .polycount m _ => n == m
  | .other i s _, .other j t _ => i == j && s == t
  | _, _ => false

mutual
/-- Modelled from the spec: structural identity of two elements, sources
disregarded. -/
def ast_elem_identical : ast_elem_t → ast_elem_t → Bool
  | .base n _, .base m _ => n == m
  | .pointer _, .pointer _ => true
  | .fixed_array n _, .fixed_array m _ => n == m
  | .var_fixed_array e _, .var_fixed_array f _ => ast_expr_identical e f
  | .polymorph n c _, .polymorph m d _ => n == m && c == d
  | .polycount n _, .polycount m _ => n == m
  | .generic_base n g p _, .generic_base m h q _ =>
      n == m && p == q && ast_elems_list_identical g h
  | .func a r _, .func b s _ => ast_elems_list_identical a b && ast_elems_identical r s
  | _, _ => false
/-- Structural identity of two element sequences of the same length. -/
def ast_elems_identical : List ast_elem_t → List ast_elem_t → Bool
  | [], [] => true
  | a :: as, b :: bs => ast_elem_identical a b && ast_elems_identical as bs
  | _, _ => false
/-- Structural identity of two lists of element sequences. -/
def ast_elems_list_identical : List (List ast_elem_t) → List (List ast_elem_t) → Bool
  | [], [] => true
  | a :: as, b :: bs => ast_elems_identical a b && ast_elems_list_identical as bs
  | _, _ => false
end

/-- Modelled from the spec: `ast_types_identical` (`AST/ast_type.h`, not among the
sources), the structural identity of two types: the same elements in the same
order, whatever their sources. -/
def ast_types_identical (a b : ast_type_t) : Bool :=
  ast_elems_identical a.elements b.elements

/-- Modelled from the spec: `ast_type_make_base`, the one-element type `name`. -/
def ast_type_make_base (name : String) : ast_type_t :=
  ⟨[.base name NULL_SOURCE], NULL_SOURCE⟩

/-- Modelled from the spec: `ast_type_make_base_ptr`, the type `*name`. -/
def ast_type_make_base_ptr (name : String) : ast_type_t :=
  ⟨[.pointer NULL_SOURCE, .base name NULL_SOURCE], NULL_SOURCE⟩

/-- Modelled from the spec: `ast_type_make_polymorph`, the type `$name`. -/
def ast_type_make_polymorph (name : String) (allow_auto_conversion : Bool) : ast_type_t :=
  ⟨[.polymorph name allow_auto_conversion NULL_SOURCE], NULL_SOURCE⟩

/-- Modelled from the spec: `ast_type_is_base`: a single base element. -/
def ast_type_is_base (t : ast_type_t) : Bool :=
  match t.elements with
  | [.base _ _] => true
  | _ => false

/-- Modelled from the spec: `ast_type_is_base_of`: the single base element of
the name given. -/
def ast_type_is_base_of (t : ast_type_t) (name : String) : Bool :=
  match t.elements with
  | [.base n _] => n == name
  | _ => false

/-- Modelled from the spec: `ast_type_is_void`: the base type `void`. -/
def ast_type_is_void (t : ast_type_t) : Bool := ast_type_is_base_of t "void"

/-- Modelled from the spec: `ast_type_is_base_ptr`: a pointer to a base. -/
def ast_type_is_base_ptr (t : ast_type_t) : Bool :=
  match t.elements with
  | [.pointer _, .base _ _] => true
  | _ => false

/-- Modelled from the spec: `ast_type_is_polymorph`: a single polymorph. -/
def ast_type_is_polymorph (t : ast_type_t) : Bool :=
  match t.elements with
  | [.polymorph _ _ _] => true
  | _ => false

/-- Modelled from the spec: `ast_type_is_polymorph_ptr`: a pointer to a
polymorph. -/
def ast_type_is_polymorph_ptr (t : ast_type_t) : Bool :=
  match t.elements with
  | [.pointer _, .polymorph _ _ _] => true
  | _ => false

/-- Modelled from the spec: `ast_type_is_generic_base`: a single generic base. -/
def ast_type_is_generic_base (t : ast_type_t) : Bool :=
  match t.elements with
  | [.generic_base _ _ _ _] => true
  | _ => false

/-- Modelled from the spec: `ast_type_is_generic_base_ptr`: a pointer to a
generic base. -/
def ast_type_is_generic_base_ptr (t : ast_type_t) : Bool :=
  match t.elements with
  | [.pointer _, .generic_base _ _ _ _] => true
  | _ => false

/-- Modelled from the spec: `ast_type_is_pointer`: the outermost element is a
pointer, and an element follows it. -/
def ast_type_is_pointer (t : ast_type_t) : Bool :=
  match t.elements with
  | .pointer _ :: _ :: _ => true
  | _ => false

/-- Modelled from the spec: `ast_type_is_fixed_array`: the outermost element is
a fixed array, and an element follows it. -/
def ast_type_is_fixed_array (t : ast_type_t) : Bool :=
  match t.elements with
  | .fixed_array _ _ :: _ :: _ => true
  | _ => false

/-- Modelled from the spec: `ast_type_is_pointer_to`: `t` is one pointer element
in front of a type structurally identical to `target`. -/
def ast_type_is_pointer_to (t target : ast_type_t) : Bool :=
  match t.elements with
  | .pointer _ :: rest => !rest.isEmpty && ast_elems_identical rest target.elements
  | _ => false

mutual
/-- Modelled from the spec: an element mentions a polymorph or a polycount,
itself or in a type nested in it. -/
def ast_elem_has_polymorph : ast_elem_t → Bool
  | .polymorph _ _ _ => true
  | .polycount _ _ => true
  | .generic_base _ generics name_is_polymorphic _ =>
      name_is_polymorphic || ast_elems_list_has_polymorph generics
  | .func arg_types return_type _ =>
      ast_elems_list_has_polymorph arg_types || ast_elems_has_polymorph return_type
  | _ => false
/-- Some element of the sequence mentions a polymorph or a polycount. -/
def ast_elems_has_polymorph : List ast_elem_t → Bool
  | [] => false
  | e :: es => ast_elem_has_polymorph e || ast_elems_has_polymorph es
/-- Some sequence of the list mentions a polymorph or a polycount. -/
def ast_elems_list_has_polymorph : List (List ast_elem_t) → Bool
  | [] => false
  | t :: ts => ast_elems_has_polymorph t || ast_elems_list_has_polymorph ts
end

/-- Modelled from the spec: `ast_type_has_polymorph`: the type mentions a
polymorph or a polycount. -/
def ast_type_has_polymorph (t : ast_type_t) : Bool := ast_elems_has_polymorph t.elements

mutual
/-- The element is a var-fixed-array whose length is a polycount expression, or
holds one in a type nested in it, at any depth. -/
def ast_elem_has_polycount_length : ast_elem_t → Bool
  | .var_fixed_array (.polycount _ _) _ => true
  | .generic_base _ generics _ _ => ast_elems_list_has_polycount_length generics
  | .func arg_types return_type _ =>
      ast_elems_list_has_polycount_length arg_types
        || ast_elems_has_polycount_length return_type
  | _ => false
/-- Some element of the sequence is or holds such a var-fixed-array. -/
def ast_elems_has_polycount_length : List ast_elem_t → Bool
  | [] => false
  | e :: es => ast_elem_has_polycount_length e || ast_elems_has_polycount_length es
/-- Some sequence of the list holds such a var-fixed-array. -/
def ast_elems_list_has_polycount_length : List (List ast_elem_t) → Bool
  | [] => false
  | t :: ts => ast_elems_has_polycount_length t || ast_elems_list_has_polycount_length ts
end

/-! ## The special-function cache (`src/IRGEN/ir_cache.c`) -/

/-- Modelled from the spec: the tri-state of `UTIL/ground.h` (not among the
sources). -/
inductive troolean where
  | TROOLEAN_FALSE
  | TROOLEAN_TRUE
  | TROOLEAN_UNKNOWN
deriving DecidableEq, Repr

export troolean (TROOLEAN_FALSE TROOLEAN_TRUE TROOLEAN_UNKNOWN)

abbrev hash_t := Nat

/-- The fields of a cache entry (`ir_gen_sf_cache_entry_t`); the `next` pointer of
an entry is kept beside it, as the list of the entries behind it. -/
structure ir_gen_sf_cache_entry_t where
  ast_type : ast_type_t
  has_pass : troolean
  has_defer : troolean
  has_assign : troolean

/-- One element of `storage`: the entry embedded in the array, and its `next`
pointer, the chain of separately allocated entries (`NULL` is the empty chain). -/
structure ir_gen_sf_cache_slot_t where
  entry : ir_gen_sf_cache_entry_t
  next : List ir_gen_sf_cache_entry_t

structure ir_gen_sf_cache_t where
  capacity : Nat
  storage : List ir_gen_sf_cache_slot_t

/-- Modelled from the spec: the number of buckets (`IR_GEN_SF_CACHE_SIZE` of
`IRGEN/ir_cache.h`, not among the sources). -/
def IR_GEN_SF_CACHE_SIZE : Nat := 1024

/-- An entry of all-zero bytes (`memset(_, 0, _)`): a type of no elements; the
tri-states of such an entry are never read before they are set. -/
def ir_gen_sf_cache_entry_zero : ir_gen_sf_cache_entry_t :=
  ⟨⟨[], NULL_SOURCE⟩, TROOLEAN_FALSE, TROOLEAN_FALSE, TROOLEAN_FALSE⟩

/-- Modelled from the spec: `ir_gen_sf_cache_entry_is_occupied` (a macro of
`IRGEN/ir_cache.h`, not among the sources): a slot is empty until a key is stored
in it, and a well-formed key has at least one element. -/
def ir_gen_sf_cache_entry_is_occupied (e : ir_gen_sf_cache_entry_t) : Bool :=
  e.ast_type.elements_length != 0

/-- The embedding of `ir_gen_sf_cache_init`. -/
def ir_gen_sf_cache_init : ir_gen_sf_cache_t :=
  { capacity := IR_GEN_SF_CACHE_SIZE
    storage := List.replicate IR_GEN_SF_CACHE_SIZE ⟨ir_gen_sf_cache_entry_zero, []⟩ }

/-- The entry written on a miss: a clone of the key and three unknowns. -/
def ir_gen_sf_cache_new_entry (type : ast_type_t) : ir_gen_sf_cache_entry_t :=
  { ast_type := ast_type_clone type
    has_pass := TROOLEAN_UNKNOWN
    has_defer := TROOLEAN_UNKNOWN
    has_assign := TROOLEAN_UNKNOWN }

/-- The `while(true)` loop of `ir_gen_sf_cache_locate_or_insert`, standing at
`entry` whose `next` pointer is `next`: the new value of that pointer, and how
many links behind `entry` the returned entry lies. -/
def ir_gen_sf_cache_walk (type : ast_type_t) :
    ir_gen_sf_cache_entry_t → List ir_gen_sf_cache_entry_t →
      List ir_gen_sf_cache_entry_t × Nat
  | entry, [] =>
    if ast_types_identical type entry.ast_type then ([], 0)
    else ([ir_gen_sf_cache_new_entry type], 1)
  | entry, e :: rest =>
    if ast_types_identical type entry.ast_type then (e :: rest, 0)
    else
      let r := ir_gen_sf_cache_walk type e rest
      (e :: r.1, r.2 + 1)

/-- The embedding of `ir_gen_sf_cache_locate_or_insert` on one element of
`storage`. -/
def ir_gen_sf_cache_slot_locate_or_insert (type : ast_type_t)
    (slot : ir_gen_sf_cache_slot_t) : ir_gen_sf_cache_slot_t × Nat :=
  if ir_gen_sf_cache_entry_is_occupied slot.entry then
    let r := ir_gen_sf_cache_walk type slot.entry slot.next
    ({ slot with next := r.1 }, r.2)
  else
    ({ slot with entry :=
        { slot.entry with
          ast_type := ast_type_clone type
          has_pass := TROOLEAN_UNKNOWN
          has_defer := TROOLEAN_UNKNOWN
          has_assign := TROOLEAN_UNKNOWN } }, 0)

/-- A pointer to an entry of the cache: the bucket, and the number of `next` links
between the embedded entry of the bucket and the entry. -/
structure ir_gen_sf_cache_ptr where
  bucket : Nat
  depth : Nat
deriving DecidableEq, Repr

/-- The embedding of `ir_gen_sf_cache_locate_or_insert`; `ast_type_hash`
(`AST/ast_type.h`, not among the sources) is a parameter. -/
def ir_gen_sf_cache_locate_or_insert (ast_type_hash : ast_type_t → hash_t)
    (cache : ir_gen_sf_cache_t) (type : ast_type_t) :
    ir_gen_sf_cache_t × ir_gen_sf_cache_ptr :=
  let hash := ast_type_hash type
  let index := hash % cache.capacity
  match cache.storage[index]? with
  | none => (cache, ⟨index, 0⟩)
  | some slot =>
    let r := ir_gen_sf_cache_slot_locate_or_insert type slot
    ({ cache with storage := cache.storage.set index r.1 }, ⟨index, r.2⟩)

/-- The entry a pointer designates, if the chain is that long. -/
def ir_gen_sf_cache_deref (cache : ir_gen_sf_cache_t) (p : ir_gen_sf_cache_ptr) :
    Option ir_gen_sf_cache_entry_t :=
  match cache.storage[p.bucket]? with
  | none => none
  | some slot => (slot.entry :: slot.next)[p.depth]?

/-- The entries of one element of `storage`, in chain order: none while the
embedded entry is unoccupied. -/
def ir_gen_sf_cache_slot_entries (slot : ir_gen_sf_cache_slot_t) :
    List ir_gen_sf_cache_entry_t :=
  if ir_gen_sf_cache_entry_is_occupied slot.entry then slot.entry :: slot.next else []

/-- The entries of bucket `b`, in chain order. -/
def ir_gen_sf_cache_bucket (cache : ir_gen_sf_cache_t) (b : Nat) :
    List ir_gen_sf_cache_entry_t :=
  match cache.storage[b]? with
  | none => []
  | some slot => ir_gen_sf_cache_slot_entries slot

/-- The number of entries held by the cache. -/
def ir_gen_sf_cache_count (cache : ir_gen_sf_cache_t) : Nat :=
  (cache.storage.map (fun slot => (ir_gen_sf_cache_slot_entries slot).length)).sum

/-- The key of `e` is structurally identical to the query `type`: the test of the
loop of `ir_gen_sf_cache_locate_or_insert`. -/
def ir_gen_sf_cache_hit (type : ast_type_t) (e : ir_gen_sf_cache_entry_t) : Bool :=
  ast_types_identical type e.ast_type

/-- No chain hangs behind an embedded entry that is unoccupied. -/
def ir_gen_sf_cache_slot_ok (slot : ir_gen_sf_cache_slot_t) : Prop :=
  ir_gen_sf_cache_entry_is_occupied slot.entry = false → slot.next = []

/-- The shape every cache keeps: as many buckets as the capacity, at least one,
and every element of `storage` either unoccupied and alone or a chain. -/
def ir_gen_sf_cache_wf (cache : ir_gen_sf_cache_t) : Prop :=
  0 < cache.capacity ∧ cache.storage.length = cache.capacity ∧
  ∀ slot ∈ cache.storage, ir_gen_sf_cache_slot_ok slot

/-- The cache states reached from `ir_gen_sf_cache_init` by calls of
`ir_gen_sf_cache_locate_or_insert` on well-formed types. -/
inductive ir_gen_sf_cache_reachable (ast_type_hash : ast_type_t → hash_t) :
    ir_gen_sf_cache_t → Prop where
  | init : ir_gen_sf_cache_reachable ast_type_hash ir_gen_sf_cache_init
  | locate_or_insert (cache : ir_gen_sf_cache_t) (type : ast_type_t) :
      ir_gen_sf_cache_reachable ast_type_hash cache → 1 ≤ type.elements_length →
      ir_gen_sf_cache_reachable ast_type_hash
        (ir_gen_sf_cache_locate_or_insert ast_type_hash cache type).1


/-- The cache after a run of `ir_gen_sf_cache_locate_or_insert` calls, one for each
type of the list in turn. -/
def ir_gen_sf_cache_run (ast_type_hash : ast_type_t → hash_t) (cache : ir_gen_sf_cache_t)
    (types : List ast_type_t) : ir_gen_sf_cache_t :=
  types.foldl (fun c t => (ir_gen_sf_cache_locate_or_insert ast_type_hash c t).1) cache

/-- A small cache of two buckets for the examples: `int` sits in bucket 1 and is
known to have a `__pass__` and no `__defer__`. -/
def ir_gen_sf_cache_example : ir_gen_sf_cache_t :=
  { capacity := 2
    storage :=
      [⟨ir_gen_sf_cache_entry_zero, []⟩,
       ⟨⟨ast_type_make_base "int", TROOLEAN_TRUE, TROOLEAN_FALSE, TROOLEAN_UNKNOWN⟩, []⟩] }

/-! ## AST functions (`AST/ast.h`, not among the sources) -/

abbrev trait_t := Nat

def TRAIT_NONE : trait_t := 0x0000

/-- Modelled from the spec: the traits of a function are bits of a trait set; the
bit of each trait is that of `AST/ast.h` (not among the sources). -/
def AST_FUNC_FOREIGN : trait_t := 0x0001
/-- The C-style `...` trait. -/
def AST_FUNC_VARARG : trait_t := 0x0002
/-- The native `name ...` trait. -/
def AST_FUNC_VARIADIC : trait_t := 0x0200

/-- The trait of the entry point. -/
def AST_FUNC_MAIN : trait_t := 0x0004
/-- The trait of the `stdcall` prefix. -/
def AST_FUNC_STDCALL : trait_t := 0x0008
/-- The trait of a polymorphic function. -/
def AST_FUNC_POLYMORPHIC : trait_t := 0x0010
/-- The trait of the management method `__defer__`. -/
def AST_FUNC_DEFER : trait_t := 0x0040
/-- The trait of the management function `__pass__`. -/
def AST_FUNC_PASS : trait_t := 0x0080
/-- The trait of the `implicit` prefix. -/
def AST_FUNC_IMPLICIT : trait_t := 0x0400

/-- Modelled from the spec: the type trait of an argument is `TRAIT_NONE` or POD. -/
def AST_FUNC_ARG_TYPE_TRAIT_POD : trait_t := 0x0001

/-- The C test `traits & flag`. -/
def trait_t.has (traits flag : trait_t) : Bool := traits &&& flag != 0

/-- Modelled from the spec: the flow of an argument. -/
inductive flow_t where
  | FLOW_IN
  | FLOW_OUT
  | FLOW_INOUT
deriving DecidableEq, Repr

export flow_t (FLOW_IN FLOW_OUT FLOW_INOUT)

/-- Modelled from the spec: a statement of a function body (`AST/ast_expr.h` is
not among the sources). The functions embedded here build one statement kind
only, the `return` of a single-line body; every other statement is kept as the
expression node the statement parser made of it. -/
inductive ast_stmt_t where
  | ret (source : source_t) (value : ast_expr_t)
  | other (expr : ast_expr_t)
deriving DecidableEq, Repr

/-- Modelled from the spec: the AST function record of §3, restricted to the
fields `parse_func` and `parse_func_arguments` read or write. An argument array is a list of
slots as long as its allocation, `none` being a slot not written yet; the slots
of `arg_names` and `arg_defaults` hold pointers, `some none` being `NULL`. The
arrays `arg_names` and `arg_defaults` may themselves be `NULL`. -/
structure ast_func_t where
  name : String
  source : source_t
  traits : trait_t
  arity : Nat
  arg_names : Option (List (Option (Option String)))
  arg_types : List (Option ast_type_t)
  arg_sources : List (Option source_t)
  arg_flows : List (Option flow_t)
  arg_type_traits : List (Option trait_t)
  arg_defaults : Option (List (Option (Option ast_expr_t)))
  return_type : ast_type_t
  variadic_arg_name : Option String
  variadic_source : source_t
  statements : List ast_stmt_t := []

/-- Modelled from the spec: the function record as `ast_func_create_template`
(`AST/ast.h`, not among the sources) hands it to `parse_func_arguments`: no
argument, no argument array, no return type yet. -/
def ast_func_create_template (name : String) (source : source_t) (traits : trait_t) :
    ast_func_t :=
  { name := name
    source := source
    traits := traits
    arity := 0
    arg_names := none
    arg_types := []
    arg_sources := []
    arg_flows := []
    arg_type_traits := []
    arg_defaults := none
    return_type := ⟨[], NULL_SOURCE⟩
    variadic_arg_name := none
    variadic_source := NULL_SOURCE }

/-- The value of a pointer slot: what was stored, a slot never written reading as
`NULL`. -/
def slot_ptr {α : Type} (array : List (Option (Option α))) (index : Nat) : Option α :=
  match array[index]? with
  | some (some p) => p
  | _ => none

/-- The value of a slot, if it was written. -/
def slot_val {α : Type} (array : List (Option α)) (index : Nat) : Option α :=
  match array[index]? with
  | some v => v
  | none => none

/-- Modelled from the spec: `grow` (`UTIL/util.h`, not among the sources): a fresh
block of `new_length` units that starts with the first `old_length` units of the
old block. -/
def grow {α : Type} (memory : List (Option α)) (old_length new_length : Nat) :
    List (Option α) :=
  (List.range new_length).map (fun k => if k < old_length then slot_val memory k else none)

/-! ## The AST root (`AST/ast.h`, not among the sources) -/

/-- Modelled from the spec: an entry of `polymorphic_funcs[]` or
`polymorphic_methods[]`: the name, the id of the function in `funcs[]`, and the
grouping hint, `-1` while it is not calculated. -/
structure ast_polymorphic_func_t where
  name : String
  ast_func_id : Nat
  is_beginning_of_group : Int
deriving DecidableEq, Repr

/-- Modelled from the spec: a function alias of §4.1.5. -/
structure ast_func_alias_t where
  from_name : String
  to_name : String
  arg_types : List ast_type_t
  arity : Nat
  required_traits : trait_t
  source : source_t
  match_first_of_name : Bool

/-- Modelled from the spec: the `__variadic_array__` and `__initializer_list__`
return-type metadata of the AST root (`ast.common`). -/
structure ast_shared_common_t where
  ast_variadic_array : Option ast_type_t := none
  ast_variadic_source : source_t := NULL_SOURCE
  ast_initializer_list : Option ast_type_t := none
  ast_initializer_list_source : source_t := NULL_SOURCE

/-- Modelled from the spec: the AST root of §6, restricted to what `parse_func`
reads or writes. A growable array is the list of its elements, so that
`funcs_length` is the length of `funcs`, and `expand` followed by a write to the
slot at the old length is an append. -/
structure ast_t where
  funcs : List ast_func_t := []
  func_aliases : List ast_func_alias_t := []
  polymorphic_funcs : List ast_polymorphic_func_t := []
  polymorphic_methods : List ast_polymorphic_func_t := []
  common : ast_shared_common_t := {}

/-- Modelled from the spec: the compiler handle of the input contract of §4.1,
restricted to what `parse_func` reads: the flag `COLON_COLON` of its options
(the test `compiler->traits & COMPILER_COLON_COLON`) and the entry-point name. -/
structure compiler_t where
  colon_colon : Bool := false
  entry_point : String := "main"

/-! ## The parse context (`PARSE/parse_ctx.h`, not among the sources) -/

/-- Modelled from the spec: the composite whose domain is being parsed. -/
structure ast_composite_t where
  name : String
  source : source_t
  is_polymorphic : Bool
  generics : List String

/-- Modelled from the spec: the `ParseContext` of §2: the token list with its
sources, the cursor, the composite association and the polymorphic-prerequisite
flag, which the argument parser uses, and the AST under construction, the
compiler handle, the optional pre-name, the next-builtin-traits flag and the
function whose body is being parsed, which `parse_func` uses besides. -/
structure parse_ctx_t where
  tokens : List token_t
  sources : List source_t
  i : Nat
  composite_association : Option ast_composite_t
  allow_polymorphic_prereqs : Bool
  ast : ast_t := {}
  compiler : compiler_t := {}
  prename : Option String := none
  next_builtin_traits : trait_t := TRAIT_NONE
  func : Option ast_func_t := none

/-- The read `tokens[k].id`; past the end of the token list it yields
`TOKEN_NONE`. -/
def parse_ctx_t.token_id (ctx : parse_ctx_t) (k : Nat) : tokenid_t :=
  match ctx.tokens[k]? with
  | some t => t.id
  | none => TOKEN_NONE

/-- The read `sources[k]`. -/
def parse_ctx_t.source_at (ctx : parse_ctx_t) (k : Nat) : source_t :=
  match ctx.sources[k]? with
  | some s => s
  | none => NULL_SOURCE

/-- Modelled from the spec: `parse_ctx_peek`, the kind of the current token. -/
def parse_ctx_peek (ctx : parse_ctx_t) : tokenid_t := ctx.token_id ctx.i

/-- The first position from `k` on that holds no newline token, at most `n`
positions further. -/
def skip_newlines (ctx : parse_ctx_t) : Nat → Nat → Nat
  | 0, k => k
  | n + 1, k => if ctx.token_id k == TOKEN_NEWLINE then skip_newlines ctx n (k + 1) else k

/-- Modelled from the spec: `parse_ignore_newlines` (`PARSE/parse_util.h`, not among
the sources) moves the cursor over the newline tokens and fails, with the message
given, when no token is left after them. -/
def parse_ignore_newlines (ctx : parse_ctx_t) (error_message : String) :
    Except String parse_ctx_t :=
  let k := skip_newlines ctx (ctx.tokens.length - ctx.i) ctx.i
  if ctx.tokens.length ≤ k then .error error_message else .ok { ctx with i := k }

/-- Modelled from the spec: `parse_take_word` (`PARSE/parse_util.h`, not among the
sources): the text of the current token if it is a word, the cursor moving past
it; `NULL` otherwise, the caller failing with the message it passed. -/
def parse_take_word (ctx : parse_ctx_t) : Option String × parse_ctx_t :=
  match ctx.tokens[ctx.i]? with
  | some t => if t.id == TOKEN_WORD then (some t.data, { ctx with i := ctx.i + 1 }) else (none, ctx)
  | none => (none, ctx)

/-- Modelled from the spec: `parse_eat` (`PARSE/parse_util.h`, not among the
sources): the current token must be of the kind given and is passed over. -/
def parse_eat (ctx : parse_ctx_t) (id : tokenid_t) (error_message : String) :
    Except String parse_ctx_t :=
  if parse_ctx_peek ctx != id then .error error_message else .ok { ctx with i := ctx.i + 1 }

/-- The type parser, the expression parser and the statement parser
(`PARSE/parse_type.h`, `PARSE/parse_expr.h`, `PARSE/parse_stmt.h`, not among the
sources) are parameters of the embedding: on success each yields the node parsed
and the cursor behind it, on failure the diagnostic it gave. So is
`parse_prepend_namespace` (`PARSE/parse_util.h`, not among the sources), which
yields the name given, qualified by the namespace that is open. -/
structure parse_externals_t where
  parse_type : parse_ctx_t → Except String (ast_type_t × Nat)
  parse_expr : parse_ctx_t → Except String (ast_expr_t × Nat)
  parse_stmts : parse_ctx_t → Except String (List ast_stmt_t × Nat)
  parse_prepend_namespace : parse_ctx_t → String → String

/-! ## `parse_func_arguments` and its helpers (`src/PARSE/parse_func.c`) -/

/-- The embedding of `parse_func_grow_arguments`: the function and the capacity
after the call. -/
def parse_func_grow_arguments (func : ast_func_t) (backfill capacity : Nat) :
    ast_func_t × Nat :=
  if capacity == 0 then
    ({ func with
        arg_names := if func.traits.has AST_FUNC_FOREIGN then none else some (List.replicate 4 none)
        arg_types := List.replicate 4 none
        arg_sources := List.replicate 4 none
        arg_flows := List.replicate 4 none
        arg_type_traits := List.replicate 4 none }, 4)
  else if func.arity + backfill != capacity then (func, capacity)
  else
    let capacity := capacity * 2
    ({ func with
        arg_names :=
          if !func.traits.has AST_FUNC_FOREIGN || func.arg_names.isSome then
            some (grow (func.arg_names.getD []) (func.arity + backfill) capacity)
          else func.arg_names
        arg_types := grow func.arg_types func.arity capacity
        arg_sources := grow func.arg_sources (func.arity + backfill) capacity
        arg_flows := grow func.arg_flows (func.arity + backfill) capacity
        arg_type_traits := grow func.arg_type_traits (func.arity + backfill) capacity
        arg_defaults := func.arg_defaults.map (fun d => grow d (func.arity + backfill) capacity) },
      capacity)

/-- The body of the loop of `parse_func_backfill_arguments`, at loop counter `i`
with `backfill` arguments pending: the function and the flag
`backfill_default_values` after it (`*backfill -= 1` is left to the loop). -/
def parse_func_backfill_step (master_arg_index : Nat) (master_type_trait : Option trait_t)
    (master_default : Option ast_expr_t) (i backfill : Nat) (func : ast_func_t)
    (backfill_default_values : Bool) : ast_func_t × Bool :=
  let arg_index := func.arity + backfill - i - 1
  let func := { func with
    arg_types := (func.arg_types.set arg_index
      ((slot_val func.arg_types master_arg_index).map ast_type_clone))
    arg_type_traits := func.arg_type_traits.set arg_index master_type_trait }
  let r :=
    if backfill_default_values then
      if master_default.isSome && (slot_ptr (func.arg_defaults.getD []) arg_index).isNone then
        ({ func with arg_defaults := (func.arg_defaults.map
            (fun d => d.set arg_index (some (master_default.map ast_expr_clone)))) }, true)
      else (func, false)
    else (func, false)
  ({ r.1 with arity := r.1.arity + 1 }, r.2)

/-- The loop of `parse_func_backfill_arguments`, entered with the loop counter
`i`, the pending count `backfill` and the flag `backfill_default_values`. -/
def parse_func_backfill_loop (master_arg_index : Nat) (master_type_trait : Option trait_t)
    (master_default : Option ast_expr_t) :
    Nat → Nat → ast_func_t → Bool → ast_func_t
  | _, 0, func, _ => func
  | i, backfill + 1, func, backfill_default_values =>
    let s := parse_func_backfill_step master_arg_index master_type_trait master_default
      i (backfill + 1) func backfill_default_values
    parse_func_backfill_loop master_arg_index master_type_trait master_default (i + 1) backfill
      s.1 s.2

/-- The embedding of `parse_func_backfill_arguments`: the function after the call;
the pending count it leaves is 0. -/
def parse_func_backfill_arguments (func : ast_func_t) (backfill : Nat) : ast_func_t :=
  let master_arg_index := func.arity + backfill
  let master_type_trait := slot_val func.arg_type_traits master_arg_index
  let master_default :=
    match func.arg_defaults with
    | none => none
    | some d => slot_ptr d master_arg_index
  parse_func_backfill_loop master_arg_index master_type_trait master_default 0 backfill func true

/-- The embedding of `parse_func_default_arg_value_if_applicable`. -/
def parse_func_default_arg_value_if_applicable (ext : parse_externals_t) (ctx : parse_ctx_t)
    (func : ast_func_t) (capacity backfill : Nat) : Except String (parse_ctx_t × ast_func_t) :=
  if parse_ctx_peek ctx != TOKEN_ASSIGN then .ok (ctx, func)
  else if (slot_ptr (func.arg_defaults.getD []) (func.arity + backfill)).isSome then
    .error "Function argument already has default value"
  else
    match parse_eat ctx TOKEN_ASSIGN
        "INTERNAL ERROR: parse_func_default_arg_value() expected '=' token" with
    | .error e => .error e
    | .ok ctx =>
      let arg_defaults :=
        match func.arg_defaults with
        | some d => d
        | none => (List.range capacity).map
            (fun k => if k < func.arity + backfill then some none else none)
      match ext.parse_expr ctx with
      | .error e => .error e
      | .ok (e, i) =>
        .ok ({ ctx with i := i },
             { func with arg_defaults := some (arg_defaults.set (func.arity + backfill) (some (some e))) })

/-- The `switch` that opens `parse_func_argument`: the flow of the argument, and
the context behind the flow keyword if there is one. -/
def parse_func_argument_flow (ctx : parse_ctx_t) : flow_t × parse_ctx_t :=
  if ctx.token_id ctx.i == TOKEN_IN then (FLOW_IN, { ctx with i := ctx.i + 1 })
  else if ctx.token_id ctx.i == TOKEN_OUT then (FLOW_OUT, { ctx with i := ctx.i + 1 })
  else if ctx.token_id ctx.i == TOKEN_INOUT then (FLOW_INOUT, { ctx with i := ctx.i + 1 })
  else (FLOW_IN, ctx)

/-- The start of `parse_func_argument`, up to the test for a lone ellipsis: the
flow, the source and (when the defaults array exists) a `NULL` default are stored
in slot `arity + backfill`. -/
def parse_func_argument_start (ctx : parse_ctx_t) (func : ast_func_t) (backfill : Nat) :
    parse_ctx_t × ast_func_t :=
  let r := parse_func_argument_flow ctx
  let ctx := r.2
  (ctx,
   { func with
      arg_flows := (func.arg_flows.set (func.arity + backfill) (some r.1))
      arg_sources := (func.arg_sources.set (func.arity + backfill) (some (ctx.source_at ctx.i)))
      arg_defaults := (func.arg_defaults.map (fun d => d.set (func.arity + backfill) (some none))) })

/-- The look-ahead of the foreign branch of `parse_func_argument`: a word is an
argument name when the token after it, newlines skipped, is neither `,` nor `)`. -/
def parse_func_argument_is_name (ctx : parse_ctx_t) : Bool :=
  if ctx.token_id ctx.i == TOKEN_WORD then
    let lookahead := skip_newlines ctx (ctx.tokens.length - (ctx.i + 1)) (ctx.i + 1)
    ctx.token_id lookahead != TOKEN_NEXT && ctx.token_id lookahead != TOKEN_CLOSE
  else false

/-- The diagnostic of the foreign ambiguity, `name` being the text of the type
taken for the previous argument (`ast_type_str`, not among the sources). -/
def parse_func_ambiguous_message (type : Option ast_type_t) : String :=
  let name := match type with
    | some ⟨[.base n _], _⟩ => n
    | _ => ""
  "'" ++ name ++ "' is ambiguous, did you mean '" ++ name
    ++ " Type' (as a parameter name) or '_ " ++ name ++ "' (as a type name)?"

/-- The part of `parse_func_argument` that reads the argument name: optional in
a foreign function, required otherwise. -/
def parse_func_argument_name (ctx : parse_ctx_t) (func : ast_func_t) (capacity backfill : Nat) :
    Except String (parse_ctx_t × ast_func_t) :=
  if func.traits.has AST_FUNC_FOREIGN then
    if parse_func_argument_is_name ctx then
      if func.arg_names.isNone && func.arity != 0
          && ((slot_val func.arg_types (func.arity - 1)).map ast_type_is_base).getD false then
        .error (parse_func_ambiguous_message (slot_val func.arg_types (func.arity - 1)))
      else
        let arg_names := match func.arg_names with
          | some names => names
          | none => List.replicate capacity (some none)
        let r := parse_take_word ctx
        .ok (r.2, { func with arg_names := some (arg_names.set (func.arity + backfill) (some r.1)) })
    else .ok (ctx, func)
  else
    match parse_take_word ctx with
    | (none, _) => .error "Expected argument name before argument type"
    | (some name, ctx) =>
      .ok (ctx, { func with arg_names :=
        (func.arg_names.map (fun names => names.set (func.arity + backfill) (some (some name)))) })

/-- The end of `parse_func_argument`, behind the optional `POD`: the type of the
argument is parsed into slot `arity + backfill`, a default value may follow, the
pending arguments are backfilled and the argument itself is counted. -/
def parse_func_argument_type (ext : parse_externals_t) (ctx : parse_ctx_t) (func : ast_func_t)
    (capacity backfill : Nat) : Except String (parse_ctx_t × ast_func_t × Nat × Bool) :=
  match parse_ignore_newlines ctx "Expected type" with
  | .error e => .error e
  | .ok ctx =>
  match ext.parse_type ctx with
  | .error e => .error e
  | .ok (type, i) =>
  let ctx := { ctx with i := i }
  let func := { func with
    arg_types := (func.arg_types.set (func.arity + backfill) (some type)) }
  match parse_ignore_newlines ctx "Expected type" with
  | .error e => .error e
  | .ok ctx =>
  match parse_func_default_arg_value_if_applicable ext ctx func capacity backfill with
  | .error e => .error e
  | .ok (ctx, func) =>
  let func := parse_func_backfill_arguments func backfill
  .ok (ctx, { func with arity := func.arity + 1 }, 0, true)

/-- The part of `parse_func_argument` behind the argument name: a named ellipsis,
a pending argument, or a solid one. -/
def parse_func_argument_after_name (ext : parse_externals_t) (ctx : parse_ctx_t)
    (func : ast_func_t) (capacity backfill : Nat) :
    Except String (parse_ctx_t × ast_func_t × Nat × Bool) :=
  if ctx.token_id ctx.i == TOKEN_ELLIPSIS then
    if func.traits.has AST_FUNC_FOREIGN then
      .error "Foreign functions cannot have Adept-style named variadic arguments"
    else if backfill != 0 then
      .error "Expected type for previous arguments before ellipsis"
    else
      .ok ({ ctx with i := ctx.i + 1 },
           { func with
              traits := func.traits ||| AST_FUNC_VARIADIC
              variadic_arg_name := slot_ptr (func.arg_names.getD []) (func.arity + backfill)
              arg_names := (func.arg_names.map
                (fun names => names.set (func.arity + backfill) (some none)))
              variadic_source := ctx.source_at (ctx.i + 1 - 2) },
           backfill, false)
  else
    match parse_ignore_newlines ctx "Expected type" with
    | .error e => .error e
    | .ok ctx =>
    match parse_func_default_arg_value_if_applicable ext ctx func capacity backfill with
    | .error e => .error e
    | .ok (ctx, func) =>
    match parse_ignore_newlines ctx "Expected type" with
    | .error e => .error e
    | .ok ctx =>
    if !func.traits.has AST_FUNC_FOREIGN && ctx.token_id ctx.i == TOKEN_NEXT then
      let ctx := { ctx with i := ctx.i + 1 }
      if ctx.token_id ctx.i == TOKEN_CLOSE then
        .error "Expected type after ',' in argument list"
      else .ok (ctx, func, backfill + 1, false)
    else if ctx.token_id ctx.i == TOKEN_POD then
      parse_func_argument_type ext { ctx with i := ctx.i + 1 }
        { func with arg_type_traits := (func.arg_type_traits.set (func.arity + backfill)
            (some AST_FUNC_ARG_TYPE_TRAIT_POD)) }
        capacity backfill
    else
      parse_func_argument_type ext ctx
        { func with arg_type_traits := (func.arg_type_traits.set (func.arity + backfill)
            (some TRAIT_NONE)) }
        capacity backfill

/-- The embedding of `parse_func_argument`: on success the context, the function,
the pending count and `*out_is_solid`. -/
def parse_func_argument (ext : parse_externals_t) (ctx : parse_ctx_t) (func : ast_func_t)
    (capacity backfill : Nat) : Except String (parse_ctx_t × ast_func_t × Nat × Bool) :=
  let s := parse_func_argument_start ctx func backfill
  if s.1.token_id s.1.i == TOKEN_ELLIPSIS then
    if backfill != 0 then .error "Expected type for previous arguments before ellipsis"
    else
      .ok ({ s.1 with i := s.1.i + 1 },
           { s.2 with traits := s.2.traits ||| AST_FUNC_VARARG }, backfill, false)
  else
    match parse_func_argument_name s.1 s.2 capacity backfill with
    | .error e => .error e
    | .ok (ctx, func) => parse_func_argument_after_name ext ctx func capacity backfill

/-- One type of `parse_collapse_polycount_var_fixed_arrays`: each element that is
a var-fixed-array whose length is a polycount expression becomes the polycount
element of the same name and source. -/
def parse_collapse_polycount_elem : ast_elem_t → ast_elem_t
  | .var_fixed_array (.polycount name source) _ => .polycount name source
  | e => e

/-- The inner loop of `parse_collapse_polycount_var_fixed_arrays`, over the
elements of one type. -/
def parse_collapse_polycount_type (type : ast_type_t) : ast_type_t :=
  { type with elements := type.elements.map parse_collapse_polycount_elem }

/-- The embedding of `parse_collapse_polycount_var_fixed_arrays` on the first
`length` slots of an array of types. -/
def parse_collapse_polycount_var_fixed_arrays (types : List (Option ast_type_t)) (length : Nat) :
    List (Option ast_type_t) :=
  (types.take length).map (Option.map parse_collapse_polycount_type) ++ types.drop length

/-- The argument `this` that `parse_func_arguments` inserts in the domain of a
composite. -/
def parse_func_this_type (composite : ast_composite_t) : ast_type_t :=
  if composite.is_polymorphic then
    ⟨[.pointer NULL_SOURCE,
      .generic_base composite.name
        (composite.generics.map (fun g => (ast_type_make_polymorph g false).elements))
        false NULL_SOURCE], NULL_SOURCE⟩
  else ast_type_make_base_ptr composite.name

/-- The `while` loop of `parse_func_arguments`; `fuel` bounds the number of
iterations, and running out of it is reported as a failure of its own. -/
def parse_func_arguments_loop (ext : parse_externals_t) :
    Nat → parse_ctx_t → ast_func_t → Nat → Nat → Except String (parse_ctx_t × ast_func_t × Nat)
  | 0, _, _, _, _ => .error "out of fuel"
  | fuel + 1, ctx, func, capacity, backfill =>
    if ctx.token_id ctx.i == TOKEN_CLOSE then .ok (ctx, func, backfill)
    else
      match parse_ignore_newlines ctx "Expected function argument" with
      | .error e => .error e
      | .ok ctx =>
      let g := parse_func_grow_arguments func backfill capacity
      let func := g.1
      let capacity := g.2
      match parse_func_argument ext ctx func capacity backfill with
      | .error e => .error e
      | .ok (ctx, func, backfill, is_solid) =>
      if !is_solid then parse_func_arguments_loop ext fuel ctx func capacity backfill
      else
        let takes_variable_arity :=
          func.traits.has AST_FUNC_VARARG || func.traits.has AST_FUNC_VARIADIC
        match parse_ignore_newlines ctx "Expected type after ',' in argument list" with
        | .error e => .error e
        | .ok ctx =>
        if ctx.token_id ctx.i == TOKEN_NEXT && !takes_variable_arity then
          let ctx := { ctx with i := ctx.i + 1 }
          if ctx.token_id ctx.i == TOKEN_CLOSE then
            .error "Expected type after ',' in argument list"
          else parse_func_arguments_loop ext fuel ctx func capacity backfill
        else if ctx.token_id ctx.i != TOKEN_CLOSE then
          .error (if takes_variable_arity then "Expected ')' after variadic argument"
                  else "Expected ',' after argument type")
        else parse_func_arguments_loop ext fuel ctx func capacity backfill

/-- The embedding of `parse_func_arguments`. -/
def parse_func_arguments (ext : parse_externals_t) (fuel : Nat) (ctx : parse_ctx_t)
    (func : ast_func_t) : Except String (parse_ctx_t × ast_func_t) :=
  let backfill := 0
  let capacity := 0
  let func := { func with variadic_arg_name := none }
  match parse_ignore_newlines ctx "Expected '(' after function name" with
  | .error e => .error e
  | .ok ctx =>
  let r : Except String (ast_func_t × Nat) :=
    match ctx.composite_association with
    | none => .ok (func, capacity)
    | some composite =>
      if func.traits.has AST_FUNC_FOREIGN then
        .error "Cannot declare foreign function inside of struct domain"
      else
        let g := parse_func_grow_arguments func backfill capacity
        let func := g.1
        .ok ({ func with
               arg_types := (func.arg_types.set 0 (some (parse_func_this_type composite)))
               arg_names := (func.arg_names.map (fun names => names.set 0 (some (some "this"))))
               arg_sources := (func.arg_sources.set 0 (some composite.source))
               arg_flows := (func.arg_flows.set 0 (some FLOW_IN))
               arg_type_traits := (func.arg_type_traits.set 0 (some TRAIT_NONE))
               arity := func.arity + 1 }, g.2)
  match r with
  | .error e => .error e
  | .ok (func, capacity) =>
  if ctx.token_id ctx.i != TOKEN_OPEN then .ok (ctx, func)
  else
    let ctx := { ctx with i := ctx.i + 1, allow_polymorphic_prereqs := true }
    match parse_func_arguments_loop ext fuel ctx func capacity backfill with
    | .error e => .error e
    | .ok (ctx, func, backfill) =>
    let ctx := { ctx with allow_polymorphic_prereqs := false }
    if backfill != 0 then .error "Expected argument type before end of argument list"
    else
      let func := { func with
        arg_types := parse_collapse_polycount_var_fixed_arrays func.arg_types func.arity
        return_type := parse_collapse_polycount_type func.return_type }
      .ok ({ ctx with i := ctx.i + 1 }, func)

/-! ## The shape of the argument arrays -/

/-- An array of `capacity` slots whose first `lo` slots have been written and
whose slots from `hi` on have not. -/
def slots_filled {α : Type} (array : List (Option α)) (capacity lo hi : Nat) : Prop :=
  array.length = capacity
  ∧ (∀ j, j < lo → (slot_val array j).isSome = true)
  ∧ (∀ j, hi ≤ j → slot_val array j = none)

/-- An array of `capacity` pointer slots whose first `lo` slots hold a pointer that
is not `NULL` and whose slots from `hi` on hold none. -/
def slots_named {α : Type} (array : List (Option (Option α))) (capacity lo hi : Nat) : Prop :=
  array.length = capacity
  ∧ (∀ j, j < lo → (slot_ptr array j).isSome = true)
  ∧ (∀ j, hi ≤ j → slot_ptr array j = none)

/-- The state of the argument arrays between two turns of the loop of
`parse_func_arguments`, `backfill` arguments being pending: the types and the type
traits are written for the counted arguments and for no other slot; the sources,
the flows and (when the array exists) the defaults are written for the counted
and the pending arguments, and for no slot beyond the next one; in a function
that is not foreign the names are stored for the counted and the pending
arguments, and no other slot holds a name. -/
structure parse_func_arguments_inv (func : ast_func_t) (capacity backfill : Nat) : Prop where
  bound : func.arity + backfill ≤ capacity
  types : slots_filled func.arg_types capacity func.arity func.arity
  type_traits : slots_filled func.arg_type_traits capacity func.arity func.arity
  sources : slots_filled func.arg_sources capacity (func.arity + backfill)
    (func.arity + backfill + 1)
  flows : slots_filled func.arg_flows capacity (func.arity + backfill)
    (func.arity + backfill + 1)
  defaults : ∀ ds, func.arg_defaults = some ds →
    slots_filled ds capacity (func.arity + backfill) (func.arity + backfill + 1)
  names : func.traits.has AST_FUNC_FOREIGN = false →
    slots_named (func.arg_names.getD []) capacity (func.arity + backfill)
      (func.arity + backfill)
  fresh : capacity = 0 → func.arg_defaults = none

/-- The state of the argument arrays inside `parse_func_argument`, once the flow
and the source of the current argument are stored in slot `arity + backfill`: the
names are stored below slot `named`, and no type or type trait is written from
slot `typed` on. -/
structure parse_func_argument_mid (func : ast_func_t) (capacity backfill named typed : Nat) :
    Prop where
  bound : func.arity + backfill < capacity
  types : slots_filled func.arg_types capacity func.arity typed
  type_traits : slots_filled func.arg_type_traits capacity func.arity typed
  sources : slots_filled func.arg_sources capacity (func.arity + backfill + 1)
    (func.arity + backfill + 1)
  flows : slots_filled func.arg_flows capacity (func.arity + backfill + 1)
    (func.arity + backfill + 1)
  defaults : ∀ ds, func.arg_defaults = some ds →
    slots_filled ds capacity (func.arity + backfill + 1) (func.arity + backfill + 1)
  names : func.traits.has AST_FUNC_FOREIGN = false →
    slots_named (func.arg_names.getD []) capacity named named

/-! ## A fragment of the type and expression parsers, for the examples -/

/-- Modelled from the spec: the type parser on the types the examples use: any
number of `*`, each a pointer element, and of `[$#N]`, each a var-fixed-array
element whose length is the polycount expression, then a word, the base type of
that name, or a polymorph `$T`, or a generic base `<T> Name` of one type
argument. -/
def parse_type_fragment (ctx : parse_ctx_t) : Nat → Nat → List ast_elem_t →
    Except String (ast_type_t × Nat)
  | 0, _, _ => .error "Expected type"
  | n + 1, k, elements =>
    match ctx.tokens[k]? with
    | some t =>
      if t.id == TOKEN_MULTIPLY then
        parse_type_fragment ctx n (k + 1) (elements ++ [.pointer (ctx.source_at k)])
      else if t.id == TOKEN_WORD then
        .ok (⟨elements ++ [.base t.data (ctx.source_at k)], ctx.source_at ctx.i⟩, k + 1)
      else if t.id == TOKEN_POLYMORPH then
        .ok (⟨elements ++ [.polymorph t.data false (ctx.source_at k)], ctx.source_at ctx.i⟩, k + 1)
      else if t.id == TOKEN_BRACKET_OPEN && ctx.token_id (k + 1) == TOKEN_POLYCOUNT
          && ctx.token_id (k + 2) == TOKEN_BRACKET_CLOSE then
        parse_type_fragment ctx n (k + 3) (elements ++
          [.var_fixed_array
            (.polycount ((ctx.tokens[k + 1]?).map token_t.data |>.getD "") (ctx.source_at (k + 1)))
            (ctx.source_at k)])
      else if t.id == TOKEN_LESSTHAN then
        match parse_type_fragment ctx n (k + 1) [] with
        | .error e => .error e
        | .ok (generic, k2) =>
          if ctx.token_id k2 == TOKEN_GREATERTHAN && ctx.token_id (k2 + 1) == TOKEN_WORD then
            .ok (⟨elements ++
              [.generic_base ((ctx.tokens[k2 + 1]?).map token_t.data |>.getD "")
                [generic.elements] false (ctx.source_at k)], ctx.source_at ctx.i⟩, k2 + 2)
          else .error "Expected type"
      else .error "Expected type"
    | none => .error "Expected type"

/-- Modelled from the spec: the expression parser on the expressions the examples
use: a single literal token. -/
def parse_expr_fragment (ctx : parse_ctx_t) : Except String (ast_expr_t × Nat) :=
  match ctx.tokens[ctx.i]? with
  | some t =>
    if t.id == TOKEN_GENERIC_INT then .ok (.other t.id t.data (ctx.source_at ctx.i), ctx.i + 1)
    else .error "Expected expression"
  | none => .error "Expected expression"

/-- Modelled from the spec: the statement parser on the bodies the examples use:
the empty statement list, up to and including the closing `}`. -/
def parse_stmts_fragment (ctx : parse_ctx_t) : Except String (List ast_stmt_t × Nat) :=
  let k := skip_newlines ctx (ctx.tokens.length - ctx.i) ctx.i
  if ctx.token_id k == TOKEN_END then .ok ([], k + 1) else .error "Expected statement"

/-- The fragments as the external parsers of the examples; no namespace is
open. -/
def parse_fragment : parse_externals_t :=
  { parse_type := fun ctx => parse_type_fragment ctx (ctx.tokens.length - ctx.i) ctx.i []
    parse_expr := parse_expr_fragment
    parse_stmts := parse_stmts_fragment
    parse_prepend_namespace := fun _ name => name }

/-- A context at the start of a token list, outside any composite; token `k` has
the source `(0, k)`. -/
def parse_ctx_of (tokens : List token_t) : parse_ctx_t :=
  { tokens := tokens
    sources := (List.range tokens.length).map (fun k => ⟨0, k⟩)
    i := 0
    composite_association := none
    allow_polymorphic_prereqs := false }

/-- The tokens of `(a, b, c int = 7) void`. -/
def tokens_backfill_7 : List token_t :=
  [⟨TOKEN_OPEN, ""⟩, ⟨TOKEN_WORD, "a"⟩, ⟨TOKEN_NEXT, ""⟩, ⟨TOKEN_WORD, "b"⟩, ⟨TOKEN_NEXT, ""⟩,
   ⟨TOKEN_WORD, "c"⟩, ⟨TOKEN_WORD, "int"⟩, ⟨TOKEN_ASSIGN, ""⟩, ⟨TOKEN_GENERIC_INT, "7"⟩,
   ⟨TOKEN_CLOSE, ""⟩, ⟨TOKEN_WORD, "void"⟩]

/-- The tokens of `(a = 9, b, c int = 7) void`. -/
def tokens_backfill_9_7 : List token_t :=
  [⟨TOKEN_OPEN, ""⟩, ⟨TOKEN_WORD, "a"⟩, ⟨TOKEN_ASSIGN, ""⟩, ⟨TOKEN_GENERIC_INT, "9"⟩,
   ⟨TOKEN_NEXT, ""⟩, ⟨TOKEN_WORD, "b"⟩, ⟨TOKEN_NEXT, ""⟩,
   ⟨TOKEN_WORD, "c"⟩, ⟨TOKEN_WORD, "int"⟩, ⟨TOKEN_ASSIGN, ""⟩, ⟨TOKEN_GENERIC_INT, "7"⟩,
   ⟨TOKEN_CLOSE, ""⟩, ⟨TOKEN_WORD, "void"⟩]

/-- The tokens of `(items ...) void`. -/
def tokens_variadic : List token_t :=
  [⟨TOKEN_OPEN, ""⟩, ⟨TOKEN_WORD, "items"⟩, ⟨TOKEN_ELLIPSIS, ""⟩, ⟨TOKEN_CLOSE, ""⟩,
   ⟨TOKEN_WORD, "void"⟩]

/-- The tokens of `(... items ...) void`. -/
def tokens_vararg_variadic : List token_t :=
  [⟨TOKEN_OPEN, ""⟩, ⟨TOKEN_ELLIPSIS, ""⟩, ⟨TOKEN_WORD, "items"⟩, ⟨TOKEN_ELLIPSIS, ""⟩,
   ⟨TOKEN_CLOSE, ""⟩, ⟨TOKEN_WORD, "void"⟩]

/-- The tokens of `(... a int) void`. -/
def tokens_vararg_then_argument : List token_t :=
  [⟨TOKEN_OPEN, ""⟩, ⟨TOKEN_ELLIPSIS, ""⟩, ⟨TOKEN_WORD, "a"⟩, ⟨TOKEN_WORD, "int"⟩,
   ⟨TOKEN_CLOSE, ""⟩, ⟨TOKEN_WORD, "void"⟩]

/-- The tokens of `(... ...) void`. -/
def tokens_vararg_twice : List token_t :=
  [⟨TOKEN_OPEN, ""⟩, ⟨TOKEN_ELLIPSIS, ""⟩, ⟨TOKEN_ELLIPSIS, ""⟩, ⟨TOKEN_CLOSE, ""⟩,
   ⟨TOKEN_WORD, "void"⟩]

/-- The tokens of `(a, ...) void`. -/
def tokens_pending_ellipsis : List token_t :=
  [⟨TOKEN_OPEN, ""⟩, ⟨TOKEN_WORD, "a"⟩, ⟨TOKEN_NEXT, ""⟩, ⟨TOKEN_ELLIPSIS, ""⟩,
   ⟨TOKEN_CLOSE, ""⟩, ⟨TOKEN_WORD, "void"⟩]

/-- The function `f` of the examples when its argument list starts: the template
of a function without traits, its arrays allocated. -/
def func_example : ast_func_t :=
  (parse_func_grow_arguments (ast_func_create_template "f" ⟨0, 0⟩ TRAIT_NONE) 0 0).1

/-- The same for a foreign function. -/
def func_example_foreign : ast_func_t :=
  (parse_func_grow_arguments (ast_func_create_template "f" ⟨0, 0⟩ AST_FUNC_FOREIGN) 0 0).1

/-- The function of `func f(a, b, c int = 7)` when `c int = 7` has been read and
the backfill is about to start: two arguments pending, `NULL` defaults for them,
the default `7` for `c`. -/
def func_backfill_example : ast_func_t :=
  { func_example with
    arg_names := some [some (some "a"), some (some "b"), some (some "c"), none]
    arg_types := [none, none, some (ast_type_make_base "int"), none]
    arg_type_traits := [none, none, some TRAIT_NONE, none]
    arg_defaults := some [some none, some none,
      some (some (.other TOKEN_GENERIC_INT "7" ⟨0, 8⟩)), none] }

/-- The tokens of `(...) void`. -/
def tokens_vararg : List token_t :=
  [⟨TOKEN_OPEN, ""⟩, ⟨TOKEN_ELLIPSIS, ""⟩, ⟨TOKEN_CLOSE, ""⟩, ⟨TOKEN_WORD, "void"⟩]

/-- The tokens of `(a, b, c int) void`. -/
def tokens_backfill : List token_t :=
  [⟨TOKEN_OPEN, ""⟩, ⟨TOKEN_WORD, "a"⟩, ⟨TOKEN_NEXT, ""⟩, ⟨TOKEN_WORD, "b"⟩, ⟨TOKEN_NEXT, ""⟩,
   ⟨TOKEN_WORD, "c"⟩, ⟨TOKEN_WORD, "int"⟩, ⟨TOKEN_CLOSE, ""⟩, ⟨TOKEN_WORD, "void"⟩]

/-- The function of `func f(a, b, c int)` when `a,` and `b,` have been read: two
arguments pending, their names, sources and flows stored, no type yet. -/
def func_pending_example : ast_func_t :=
  { func_example with
    arg_names := some [some (some "a"), some (some "b"), none, none]
    arg_sources := [some ⟨0, 1⟩, some ⟨0, 3⟩, none, none]
    arg_flows := [some FLOW_IN, some FLOW_IN, none, none] }

/-! ## `parse_func_head` and `parse_func_body` (`src/PARSE/parse_func.c`) -/

/-- Modelled from the spec: the prefixes of §4.1.1 (`ast_func_prefixes_t` of
`AST/ast.h`, not among the sources). -/
structure ast_func_prefixes_t where
  is_stdcall : Bool := false
  is_verbatim : Bool := false
  is_implicit : Bool := false
  is_external : Bool := false
deriving DecidableEq, Repr

/-- Modelled from the spec: the head of a function declaration
(`ast_func_head_t` of `AST/ast.h`, not among the sources), the fields being those
`parse_func_head` fills in. -/
structure ast_func_head_t where
  name : String
  source : source_t
  is_foreign : Bool
  is_entry : Bool
  prefixes : ast_func_prefixes_t
  export_name : Option String

/-- Modelled from the spec: the traits that `ast_func_create_template` derives
from a head: foreign, the entry point, the management names `__defer__` and
`__pass__`, and the prefixes `stdcall` and `implicit`. -/
def ast_func_head_t.traits (head : ast_func_head_t) : trait_t :=
  (if head.is_foreign then AST_FUNC_FOREIGN else TRAIT_NONE)
  ||| (if head.is_entry then AST_FUNC_MAIN else TRAIT_NONE)
  ||| (if head.name == "__defer__" then AST_FUNC_DEFER else TRAIT_NONE)
  ||| (if head.name == "__pass__" then AST_FUNC_PASS else TRAIT_NONE)
  ||| (if head.prefixes.is_stdcall then AST_FUNC_STDCALL else TRAIT_NONE)
  ||| (if head.prefixes.is_implicit then AST_FUNC_IMPLICIT else TRAIT_NONE)

/-- Modelled from the spec: `ast_func_create_template` on the head of a
declaration: the template of that name and source, with the traits of the
head. -/
def ast_func_head_t.create_template (head : ast_func_head_t) : ast_func_t :=
  ast_func_create_template head.name head.source head.traits

/-- The source of an expression (`expr->source`). -/
def ast_expr_t.source : ast_expr_t → source_t
  | .polycount _ source => source
  | .other _ _ source => source

/-- Modelled from the spec: `parse_eat_string` (`PARSE/parse_util.h`, not among
the sources): the text of the current token if it is a string literal, the
cursor moving past it; `NULL` otherwise. -/
def parse_eat_string (ctx : parse_ctx_t) : Option String × parse_ctx_t :=
  match ctx.tokens[ctx.i]? with
  | some t =>
    if t.id == TOKEN_STRING then (some t.data, { ctx with i := ctx.i + 1 }) else (none, ctx)
  | none => (none, ctx)

/-- Modelled from the spec: `parse_eat_word` (`PARSE/parse_util.h`, not among the
sources): the text of the current token if it is a word, the cursor moving past
it; `NULL` otherwise, the caller failing with the message it passed. -/
def parse_eat_word (ctx : parse_ctx_t) : Option String × parse_ctx_t :=
  match ctx.tokens[ctx.i]? with
  | some t => if t.id == TOKEN_WORD then (some t.data, { ctx with i := ctx.i + 1 }) else (none, ctx)
  | none => (none, ctx)

/-- The loop of `parse_func_prefixes`. It ends at the first token that is no
prefix keyword; past the end of the token list the kind read is `TOKEN_NONE`, so
the number of tokens left bounds its turns. -/
def parse_func_prefixes_loop :
    Nat → parse_ctx_t → ast_func_prefixes_t → parse_ctx_t × ast_func_prefixes_t
  | 0, ctx, out_prefixes => (ctx, out_prefixes)
  | n + 1, ctx, out_prefixes =>
    if parse_ctx_peek ctx == TOKEN_STDCALL then
      parse_func_prefixes_loop n { ctx with i := ctx.i + 1 } { out_prefixes with is_stdcall := true }
    else if parse_ctx_peek ctx == TOKEN_VERBATIM then
      parse_func_prefixes_loop n { ctx with i := ctx.i + 1 } { out_prefixes with is_verbatim := true }
    else if parse_ctx_peek ctx == TOKEN_IMPLICIT then
      parse_func_prefixes_loop n { ctx with i := ctx.i + 1 } { out_prefixes with is_implicit := true }
    else if parse_ctx_peek ctx == TOKEN_EXTERNAL then
      parse_func_prefixes_loop n { ctx with i := ctx.i + 1 } { out_prefixes with is_external := true }
    else (ctx, out_prefixes)

/-- The embedding of `parse_func_prefixes`: the context behind the prefixes and
the flags read. -/
def parse_func_prefixes (ctx : parse_ctx_t) : parse_ctx_t × ast_func_prefixes_t :=
  parse_func_prefixes_loop (ctx.tokens.length - ctx.i) ctx {}

/-- The name a declaration is given: the stashed pre-name under `COLON_COLON`,
which is consumed, or else the word at the cursor. -/
def parse_func_take_name (ctx : parse_ctx_t) : Option String × parse_ctx_t :=
  if ctx.compiler.colon_colon && ctx.prename.isSome then
    (ctx.prename, { ctx with prename := none })
  else parse_take_word ctx

/-- The embedding of `parse_func_head`. -/
def parse_func_head (ext : parse_externals_t) (ctx : parse_ctx_t) :
    Except String (parse_ctx_t × ast_func_head_t) :=
  let source := ctx.source_at ctx.i
  let p := parse_func_prefixes ctx
  let ctx := p.1
  let id := parse_ctx_peek ctx
  let ctx := { ctx with i := ctx.i + 1 }
  let is_foreign := id == TOKEN_FOREIGN
  if id != TOKEN_FUNC && !is_foreign then
    .error "Expected 'func' or 'foreign' keyword after 'stdcall' keyword"
  else
    let s := parse_eat_string ctx
    let custom_export_name := s.1
    let n := parse_func_take_name s.2
    match n.1 with
    | none =>
      .error (if is_foreign then "Expected function name after 'foreign' keyword"
              else "Expected function name after 'func' keyword")
    | some name =>
      let ctx := n.2
      let name :=
        if ctx.composite_association.isNone then ext.parse_prepend_namespace ctx name else name
      let export_name :=
        match custom_export_name with
        | some e => some e
        | none => if p.2.is_external then some name else none
      .ok (ctx, { name := name
                  source := source
                  is_foreign := is_foreign
                  is_entry := ctx.compiler.entry_point == name
                  prefixes := p.2
                  export_name := export_name })

/-- The embedding of `parse_func_body`: on success the context behind the body
and the function with its statements. -/
def parse_func_body (ext : parse_externals_t) (ctx : parse_ctx_t) (func : ast_func_t) :
    Except String (parse_ctx_t × ast_func_t) :=
  if func.traits.has AST_FUNC_FOREIGN then .ok (ctx, func)
  else
    match parse_ignore_newlines ctx "Expected function body" with
    | .error e => .error e
    | .ok ctx =>
    if parse_ctx_peek ctx == TOKEN_ASSIGN then
      if ast_type_is_void func.return_type then
        .error "Cannot return 'void' from single line function"
      else
        let ctx := { ctx with i := ctx.i + 1, func := some func }
        match parse_ignore_newlines ctx "Expected function body" with
        | .error e => .error e
        | .ok ctx =>
        match ext.parse_expr ctx with
        | .error e => .error e
        | .ok (return_expression, i) =>
          .ok ({ ctx with i := i },
               { func with statements := [.ret return_expression.source return_expression] })
    else
      match parse_eat ctx TOKEN_BEGIN "Expected '\x7b' after function prototype" with
      | .error e => .error e
      | .ok ctx =>
        let ctx := { ctx with func := some func }
        match ext.parse_stmts ctx with
        | .error e => .error e
        | .ok (stmts, i) => .ok ({ ctx with i := i }, { func with statements := stmts })

/-! ## The prototype checks of `parse_func` (`src/PARSE/parse_func.c`) -/

/-- The read `func->arg_types[k]`; a slot that was never written reads as the
type without elements. -/
def ast_func_t.arg_type (func : ast_func_t) (k : Nat) : ast_type_t :=
  (slot_val func.arg_types k).getD ⟨[], NULL_SOURCE⟩

/-- The test `strcmp(func->arg_names[k], text) == 0`. -/
def ast_func_t.arg_name_is (func : ast_func_t) (k : Nat) (text : String) : Bool :=
  slot_ptr (func.arg_names.getD []) k == some text

/-- The test `func->arg_type_traits[k] != trait`. -/
def ast_func_t.arg_type_trait_differs (func : ast_func_t) (k : Nat) (trait : trait_t) : Bool :=
  slot_val func.arg_type_traits k != some trait

/-- The test, shared by three checks, that the type is a base-pointer, a
polymorph-pointer or a generic-base-pointer. -/
def ast_type_is_management_ptr (t : ast_type_t) : Bool :=
  ast_type_is_base_ptr t || ast_type_is_polymorph_ptr t || ast_type_is_generic_base_ptr t

/-- The check of `__defer__` (lines 78-90 of `parse_func`). -/
def parse_func_check_defer (func : ast_func_t) : Except String Unit :=
  if func.traits == AST_FUNC_DEFER && (
      !ast_type_is_void func.return_type
      || func.arity != 1
      || !func.arg_name_is 0 "this"
      || !ast_type_is_management_ptr (func.arg_type 0)
      || func.arg_type_trait_differs 0 TRAIT_NONE) then
    .error "Management method __defer__ must be declared as 'func __defer__(this *T) void'"
  else .ok ()

/-- The check of `__pass__` (lines 92-104 of `parse_func`). -/
def parse_func_check_pass (func : ast_func_t) : Except String Unit :=
  if func.traits == AST_FUNC_PASS && (
      !(ast_type_is_base func.return_type
        || ast_type_is_polymorph func.return_type
        || ast_type_is_generic_base func.return_type
        || ast_type_is_fixed_array func.return_type)
      || func.arity != 1
      || !ast_types_identical func.return_type (func.arg_type 0)
      || func.arg_type_trait_differs 0 AST_FUNC_ARG_TYPE_TRAIT_POD) then
    .error "Management function __pass__ must be declared as 'func __pass__(value POD T) T'"
  else .ok ()

/-- The check of `__assign__` (lines 106-120 of `parse_func`). -/
def parse_func_check_assign (func : ast_func_t) : Except String Unit :=
  if func.name == "__assign__" && (
      func.traits != TRAIT_NONE
      || !ast_type_is_void func.return_type
      || func.arity != 2
      || !func.arg_name_is 0 "this"
      || !ast_type_is_management_ptr (func.arg_type 0)
      || !ast_type_is_pointer_to (func.arg_type 0) (func.arg_type 1)
      || func.arg_type_trait_differs 0 TRAIT_NONE) then
    .error ("Management method __assign__ must be declared like "
      ++ "'func __assign__(this *T, other T) void'")
  else .ok ()

/-- The check of `__access__` (lines 122-132 of `parse_func`). -/
def parse_func_check_access (func : ast_func_t) : Except String Unit :=
  if func.name == "__access__" && (
      func.traits != TRAIT_NONE
      || func.arity != 2
      || !ast_type_is_pointer (func.arg_type 0)
      || !ast_type_is_pointer func.return_type
      || !func.arg_name_is 0 "this"
      || func.arg_type_trait_differs 0 TRAIT_NONE) then
    .error ("Management method __access__ must be declared like "
      ++ "'__access__(this *T, index $Key) *$Value'")
  else .ok ()

/-- The check of `__array__` (lines 134-144 of `parse_func`). -/
def parse_func_check_array (func : ast_func_t) : Except String Unit :=
  if func.name == "__array__" && (
      func.traits != TRAIT_NONE
      || func.arity != 1
      || !ast_type_is_pointer (func.arg_type 0)
      || !ast_type_is_pointer func.return_type
      || !func.arg_name_is 0 "this"
      || func.arg_type_trait_differs 0 TRAIT_NONE) then
    .error ("Management method __array__ must be declared like "
      ++ "'__array__(this *T) *$ArrayElementType'")
  else .ok ()

/-- The check of `__length__` (lines 146-156 of `parse_func`). -/
def parse_func_check_length (func : ast_func_t) : Except String Unit :=
  if func.name == "__length__" && (
      func.traits != TRAIT_NONE
      || func.arity != 1
      || !ast_type_is_pointer (func.arg_type 0)
      || !ast_type_is_base_of func.return_type "usize"
      || !func.arg_name_is 0 "this"
      || func.arg_type_trait_differs 0 TRAIT_NONE) then
    .error "Management method __length__ must be declared like '__length__(this *T) usize'"
  else .ok ()

/-- The block of `__variadic_array__` (lines 158-190 of `parse_func`): on success
the AST root it leaves. Of the two diagnostics of a second definition, the first
is the one reported. -/
def parse_func_check_variadic_array (ast : ast_t) (func : ast_func_t) : Except String ast_t :=
  if func.name == "__variadic_array__" then
    if ast.common.ast_variadic_array.isSome then
      .error "The function __variadic_array__ can only be defined once"
    else if ast_type_is_void func.return_type then
      .error "The function __variadic_array__ must return a value"
    else if func.traits != TRAIT_NONE
        || func.arity != 4
        || !ast_type_is_base_of (func.arg_type 0) "ptr"
        || !ast_type_is_base_of (func.arg_type 1) "usize"
        || !ast_type_is_base_of (func.arg_type 2) "usize"
        || !ast_type_is_base_of (func.arg_type 3) "ptr"
        || func.arg_type_trait_differs 0 TRAIT_NONE
        || func.arg_type_trait_differs 1 TRAIT_NONE
        || func.arg_type_trait_differs 2 TRAIT_NONE
        || func.arg_type_trait_differs 3 TRAIT_NONE then
      .error ("Special function __variadic_array__ must be declared like:\n"
        ++ "'__variadic_array__(pointer ptr, bytes usize, length usize, maybe_types ptr) ReturnType'")
    else if ast.common.ast_variadic_array.isNone then
      .ok { ast with common := { ast.common with
              ast_variadic_array := some (ast_type_clone func.return_type)
              ast_variadic_source := func.source } }
    else .ok ast
  else .ok ast

/-- The block of `__initializer_list__` (lines 192-213 of `parse_func`): on
success the AST root it leaves. -/
def parse_func_check_initializer_list (ast : ast_t) (func : ast_func_t) : Except String ast_t :=
  if func.name == "__initializer_list__" then
    if ast_type_is_void func.return_type then
      .error "The function __initializer_list__ must return a value"
    else if func.traits != TRAIT_NONE
        || func.arity != 2
        || !ast_type_is_base_of (func.arg_type 1) "usize"
        || func.arg_type_trait_differs 0 TRAIT_NONE
        || func.arg_type_trait_differs 1 TRAIT_NONE then
      .error ("Special function __initializer_list__ must be declared like:\n"
        ++ "'__initializer_list__(array *$T, length usize) <$T> ReturnType'")
    else if ast.common.ast_initializer_list.isNone then
      .ok { ast with common := { ast.common with
              ast_initializer_list := some (ast_type_clone func.return_type)
              ast_initializer_list_source := func.source } }
    else .ok ast
  else .ok ast

/-- The table `math_management_funcs` of `parse_func`. -/
def math_management_funcs : List String :=
  ["__add__", "__divide__", "__equals__", "__greater_than__",
   "__greater_than_or_equal__", "__less_than__", "__less_than_or_equal__",
   "__modulus__", "__multiply__", "__not_equals__", "__subtract__"]

/-- Modelled from the spec: the byte order of two texts (`strcmp`), on their
characters. -/
def strcmp_chars : List Char → List Char → Ordering
  | [], [] => .eq
  | [], _ :: _ => .lt
  | _ :: _, [] => .gt
  | a :: as, b :: bs =>
    if a = b then strcmp_chars as bs else if a < b then .lt else .gt

/-- Modelled from the spec: `strcmp`. -/
def strcmp (a b : String) : Ordering := strcmp_chars a.data b.data

/-- The loop of the binary search, on the half-open range from `first` to
`last`; its turns are bounded by the length of the range. -/
def binary_string_search_loop (strings : List String) (target : String) :
    Nat → Nat → Nat → Option Nat
  | 0, _, _ => none
  | fuel + 1, first, last =>
    if first < last then
      let middle := (first + last) / 2
      match strcmp (strings.getD middle "") target with
      | .eq => some middle
      | .gt => binary_string_search_loop strings target fuel first middle
      | .lt => binary_string_search_loop strings target fuel (middle + 1) last
    else none

/-- Modelled from the spec: `binary_string_search` (`UTIL/search.h`, not among the
sources): the binary search of a table of texts in ascending byte order; the
index of the target, or `none` for the `-1` of a target that is not found. -/
def binary_string_search (strings : List String) (string_count : Nat) (target : String) :
    Option Nat :=
  binary_string_search_loop strings target (string_count + 1) 0 string_count

/-- The check of the math-management functions (lines 215-236 of
`parse_func`). -/
def parse_func_check_math (func : ast_func_t) : Except String Unit :=
  let math_func_index :=
    binary_string_search math_management_funcs math_management_funcs.length func.name
  if math_func_index.isSome then
    if func.arity != 2 then
      .error ("Management method " ++ func.name ++ " must take two arguments")
    else if ast_type_is_pointer (func.arg_type 0) then
      .error ("Management method " ++ func.name
        ++ " cannot have a pointer as the first argument")
    else .ok ()
  else .ok ()

/-- The checks of the management methods, in the order of `parse_func` (lines
77-156). -/
def parse_func_check_methods (func : ast_func_t) : Except String Unit :=
  match parse_func_check_defer func with
  | .error e => .error e
  | .ok _ =>
  match parse_func_check_pass func with
  | .error e => .error e
  | .ok _ =>
  match parse_func_check_assign func with
  | .error e => .error e
  | .ok _ =>
  match parse_func_check_access func with
  | .error e => .error e
  | .ok _ =>
  match parse_func_check_array func with
  | .error e => .error e
  | .ok _ => parse_func_check_length func

/-- All the prototype checks of `parse_func`, in its order (lines 77-236): on
success the AST root they leave. None of them writes before it can fail, and a
function that a later block rejects has not the name of an earlier one, so on
failure the AST root is the one given. -/
def parse_func_checks (ast : ast_t) (func : ast_func_t) : Except String ast_t :=
  match parse_func_check_methods func with
  | .error e => .error e
  | .ok _ =>
  match parse_func_check_variadic_array ast func with
  | .error e => .error e
  | .ok ast2 =>
  match parse_func_check_initializer_list ast2 func with
  | .error e => .error e
  | .ok ast3 =>
  match parse_func_check_math func with
  | .error e => .error e
  | .ok _ => .ok ast3

/-! ## `parse_func_alias` (`src/PARSE/parse_func.c`) -/

/-- The loop of `parse_func_alias_args`; `fuel` bounds the number of
iterations, and running out of it is reported as a failure of its own. The state
is the context, the types listed so far, their count and the traits required. -/
def parse_func_alias_args_loop (ext : parse_externals_t) :
    Nat → parse_ctx_t → List ast_type_t → Nat → trait_t →
      Except String (parse_ctx_t × List ast_type_t × Nat × trait_t)
  | 0, _, _, _, _ => .error "out of fuel"
  | fuel + 1, ctx, arg_types, arity, required_traits =>
    if ctx.token_id ctx.i == TOKEN_CLOSE then .ok (ctx, arg_types, arity, required_traits)
    else
      match parse_ignore_newlines ctx "Expected argument type for function alias" with
      | .error e => .error e
      | .ok ctx =>
      let r : Except String (parse_ctx_t × List ast_type_t × Nat × trait_t) :=
        if ctx.token_id ctx.i == TOKEN_ELLIPSIS then
          .ok ({ ctx with i := ctx.i + 1 }, arg_types, arity, required_traits ||| AST_FUNC_VARARG)
        else if ctx.token_id ctx.i == TOKEN_RANGE then
          .ok ({ ctx with i := ctx.i + 1 }, arg_types, arity,
               required_traits ||| AST_FUNC_VARIADIC)
        else
          match ext.parse_type ctx with
          | .error e => .error e
          | .ok (type, i) => .ok ({ ctx with i := i }, arg_types ++ [type], arity + 1,
                                  required_traits)
      match r with
      | .error e => .error e
      | .ok (ctx, arg_types, arity, required_traits) =>
      match parse_ignore_newlines ctx "Expected argument type for function alias" with
      | .error e => .error e
      | .ok ctx =>
      if ctx.token_id ctx.i == TOKEN_NEXT then
        if required_traits.has AST_FUNC_VARARG || required_traits.has AST_FUNC_VARIADIC then
          .error "Expected ')' after variadic argument"
        else
          let ctx := { ctx with i := ctx.i + 1 }
          if ctx.token_id ctx.i == TOKEN_CLOSE then
            .error "Expected type after ',' in argument types"
          else parse_func_alias_args_loop ext fuel ctx arg_types arity required_traits
      else if ctx.token_id ctx.i != TOKEN_CLOSE then
        let takes_variable_arity :=
          required_traits.has AST_FUNC_VARIADIC || required_traits.has AST_FUNC_VARARG
        .error (if takes_variable_arity then "Expected ')' after variadic argument"
                else "Expected ',' after argument type")
      else parse_func_alias_args_loop ext fuel ctx arg_types arity required_traits

/-- The embedding of `parse_func_alias_args`: on success the context, the types
listed (`*out_arg_types`, `NULL` being the empty list), `*out_arity`,
`*out_required_traits` and `*out_match_first_of_name`. -/
def parse_func_alias_args (ext : parse_externals_t) (fuel : Nat) (ctx : parse_ctx_t) :
    Except String (parse_ctx_t × List ast_type_t × Nat × trait_t × Bool) :=
  let out_match_first_of_name := ctx.token_id ctx.i != TOKEN_OPEN
  if out_match_first_of_name then .ok (ctx, [], 0, TRAIT_NONE, true)
  else
    match parse_eat ctx TOKEN_OPEN "Expected '(' after function alias name" with
    | .error e => .error e
    | .ok ctx =>
    match parse_func_alias_args_loop ext fuel ctx [] 0 TRAIT_NONE with
    | .error e => .error e
    | .ok (ctx, arg_types, arity, required_traits) =>
    match parse_eat ctx TOKEN_CLOSE "Expected ')' after function alias argument types" with
    | .error e => .error e
    | .ok ctx => .ok (ctx, arg_types, arity, required_traits, false)

/-- The embedding of `parse_func_alias`. On `FAILURE` the diagnostic comes with the
context as the failing step found it. -/
def parse_func_alias (ext : parse_externals_t) (fuel MAX_FUNCID : Nat) (ctx : parse_ctx_t) :
    Except (String × parse_ctx_t) parse_ctx_t :=
  let source := ctx.source_at ctx.i
  let ctx := { ctx with i := ctx.i + 1 }
  match parse_eat ctx TOKEN_ALIAS "Expected 'alias' keyword for function alias" with
  | .error e => .error (e, ctx)
  | .ok ctx =>
  let n := parse_func_take_name ctx
  match n.1 with
  | none => .error ("Expected function alias name", ctx)
  | some name =>
  let ctx := n.2
  let from_name := ext.parse_prepend_namespace ctx name
  match parse_func_alias_args ext fuel ctx with
  | .error e => .error (e, ctx)
  | .ok (ctx, arg_types, arity, required_traits, match_first_of_name) =>
  match parse_eat ctx TOKEN_STRONG_ARROW
      "Expected '=>' after argument types for function alias" with
  | .error e => .error (e, ctx)
  | .ok ctx =>
  match parse_eat_word ctx with
  | (none, _) => .error ("Expected function alias destination name", ctx)
  | (some to_name, ctx) =>
    if ctx.ast.func_aliases.length ≥ MAX_FUNCID then
      .error ("Maximum number of AST function aliases reached\n", ctx)
    else
      .ok { ctx with ast := { ctx.ast with func_aliases := ctx.ast.func_aliases ++
              [{ from_name := from_name
                 to_name := to_name
                 arg_types := arg_types
                 arity := arity
                 required_traits := required_traits
                 source := source
                 match_first_of_name := match_first_of_name }] } }

/-! ## `parse_func` (`src/PARSE/parse_func.c`) -/

/-- Modelled from the spec: `ast_func_is_polymorphic` (`AST/ast.h`, not among the
sources): some argument type or the return type mentions a polymorph or a
polycount. -/
def ast_func_is_polymorphic (func : ast_func_t) : Bool :=
  (List.range func.arity).any (fun k => ast_type_has_polymorph (func.arg_type k))
  || ast_type_has_polymorph func.return_type

/-- The write `*func = value` through the pointer `func = &ast->funcs[ast_func_id]`
that `parse_func` holds. -/
def parse_ctx_t.store_func (ctx : parse_ctx_t) (ast_func_id : Nat) (func : ast_func_t) :
    parse_ctx_t :=
  { ctx with ast := { ctx.ast with funcs := ctx.ast.funcs.set ast_func_id func } }

/-- What `parse_func` holds once the return type is parsed (line 75): the
context, whose AST has the function at index `ast_func_id` of `funcs`, the head of
the declaration, and the function itself. -/
structure parse_func_signature_t where
  ctx : parse_ctx_t
  func_head : ast_func_head_t
  ast_func_id : Nat
  func : ast_func_t

/-- Lines 37-75 of `parse_func`, for a declaration that is no alias: the limit on
the number of functions, the head, the new record in `ast->funcs`, the argument
list and the return type. On `FAILURE` the diagnostic comes with the context as the
failing step found it, the function record being in `funcs` once it was
appended; what is left in the record when the argument list fails is not traced,
the record kept there is the template. -/
def parse_func_signature (ext : parse_externals_t) (fuel MAX_FUNCID : Nat) (ctx : parse_ctx_t) :
    Except (String × parse_ctx_t) parse_func_signature_t :=
  if ctx.ast.funcs.length ≥ MAX_FUNCID then
    .error ("Maximum number of AST functions reached\n", ctx)
  else
    match parse_func_head ext ctx with
    | .error e => .error (e, ctx)
    | .ok (ctx, func_head) =>
    if func_head.is_foreign && ctx.composite_association.isSome then
      .error ("Cannot declare foreign function within struct domain", ctx)
    else
      let ast_func_id := ctx.ast.funcs.length
      let func := func_head.create_template
      let func :=
        if ctx.next_builtin_traits != TRAIT_NONE then
          { func with traits := func.traits ||| ctx.next_builtin_traits }
        else func
      let ctx := { ctx with
        ast := { ctx.ast with funcs := ctx.ast.funcs ++ [func] }
        next_builtin_traits := TRAIT_NONE }
      match parse_func_arguments ext fuel ctx func with
      | .error e => .error (e, ctx)
      | .ok (ctx, func) =>
      match parse_ignore_newlines ctx "Expected '\x7b' after function head" with
      | .error e => .error (e, ctx.store_func ast_func_id func)
      | .ok ctx =>
      let beginning_token_id := ctx.token_id ctx.i
      if !func_head.is_foreign
          && (beginning_token_id == TOKEN_BEGIN || beginning_token_id == TOKEN_ASSIGN) then
        let func := { func with return_type := ast_type_make_base "void" }
        .ok ⟨ctx.store_func ast_func_id func, func_head, ast_func_id, func⟩
      else
        match ext.parse_type ctx with
        | .error e =>
          .error (e, ctx.store_func ast_func_id { func with return_type := ⟨[], NULL_SOURCE⟩ })
        | .ok (type, i) =>
          let func := { func with return_type := type }
          .ok ⟨{ ctx with i := i }.store_func ast_func_id func, func_head, ast_func_id, func⟩

/-- Lines 238-261 of `parse_func`: a polymorphic function is refused when it is
foreign, and is remembered in `polymorphic_funcs`, and in `polymorphic_methods`
when it is a method, otherwise. -/
def parse_func_polymorphic (ctx : parse_ctx_t) (func_head : ast_func_head_t)
    (ast_func_id : Nat) (func : ast_func_t) : Except String (parse_ctx_t × ast_func_t) :=
  if ast_func_is_polymorphic func then
    if func_head.is_foreign then .error "Cannot declare polymorphic foreign functions"
    else
      let func := { func with traits := func.traits ||| AST_FUNC_POLYMORPHIC }
      let poly_func : ast_polymorphic_func_t :=
        { name := func.name, ast_func_id := ast_func_id, is_beginning_of_group := -1 }
      let ast := { ctx.ast with polymorphic_funcs := ctx.ast.polymorphic_funcs ++ [poly_func] }
      let ast :=
        if func.arity != 0 && func.arg_name_is 0 "this" then
          let poly_method : ast_polymorphic_func_t :=
            { name := func.name, ast_func_id := ast_func_id, is_beginning_of_group := -1 }
          { ast with polymorphic_methods := ast.polymorphic_methods ++ [poly_method] }
        else ast
      .ok ({ ctx with ast := ast }, func)
  else .ok (ctx, func)

/-- Lines 77-264 of `parse_func`: the prototype checks, the polymorphic index and
the body, on what the signature left. -/
def parse_func_finish (ext : parse_externals_t) (s : parse_func_signature_t) :
    Except (String × parse_ctx_t) parse_ctx_t :=
  match parse_func_checks s.ctx.ast s.func with
  | .error e => .error (e, s.ctx)
  | .ok ast =>
  let ctx := { s.ctx with ast := ast }
  match parse_func_polymorphic ctx s.func_head s.ast_func_id s.func with
  | .error e => .error (e, ctx)
  | .ok (ctx, func) =>
  let ctx := ctx.store_func s.ast_func_id func
  match parse_func_body ext ctx func with
  | .error e => .error (e, ctx)
  | .ok (ctx, func) => .ok (ctx.store_func s.ast_func_id func)

/-- The embedding of `parse_func`. `MAX_FUNCID` (`UTIL/ground.h`, not among the
sources) is a parameter, and an id below it is taken to fit `funcid_t`; `fuel`
bounds the turns of the argument loops. `.ok` is `SUCCESS` with the context left;
`.error` is `FAILURE` with the diagnostic and the context as the failing step
found it. -/
def parse_func (ext : parse_externals_t) (fuel MAX_FUNCID : Nat) (ctx : parse_ctx_t) :
    Except (String × parse_ctx_t) parse_ctx_t :=
  if ctx.token_id (ctx.i + 1) == TOKEN_ALIAS && ctx.token_id ctx.i == TOKEN_FUNC then
    parse_func_alias ext fuel MAX_FUNCID ctx
  else
    match parse_func_signature ext fuel MAX_FUNCID ctx with
    | .error e => .error e
    | .ok s => parse_func_finish ext s

/-- The context without its cursor and its polymorphic-prerequisite flag: the
part of the context that the argument parser leaves alone. -/
def parse_ctx_t.frame (ctx : parse_ctx_t) : parse_ctx_t :=
  { ctx with i := 0, allow_polymorphic_prereqs := false }

/-- The diagnostic of a `FAILURE` of `parse_func`; `none` on `SUCCESS`. -/
def parse_func_diagnostic (r : Except (String × parse_ctx_t) parse_ctx_t) : Option String :=
  match r with
  | .ok _ => none
  | .error (e, _) => some e

/-- The context `parse_func` leaves, on `SUCCESS` and on `FAILURE`. -/
def parse_func_left (r : Except (String × parse_ctx_t) parse_ctx_t) : parse_ctx_t :=
  match r with
  | .ok ctx => ctx
  | .error (_, ctx) => ctx

/-! ## Declarations for the examples of `parse_func` -/

/-- The tokens of `func name(this *Foo) ret` followed by the empty body. -/
def tokens_method (name ret : String) : List token_t :=
  [⟨TOKEN_FUNC, ""⟩, ⟨TOKEN_WORD, name⟩, ⟨TOKEN_OPEN, ""⟩, ⟨TOKEN_WORD, "this"⟩,
   ⟨TOKEN_MULTIPLY, ""⟩, ⟨TOKEN_WORD, "Foo"⟩, ⟨TOKEN_CLOSE, ""⟩, ⟨TOKEN_WORD, ret⟩,
   ⟨TOKEN_BEGIN, ""⟩, ⟨TOKEN_END, ""⟩]

/-- The tokens of `func __defer__(this *Foo, ...) int` followed by the empty
body. -/
def tokens_defer_vararg : List token_t :=
  [⟨TOKEN_FUNC, ""⟩, ⟨TOKEN_WORD, "__defer__"⟩, ⟨TOKEN_OPEN, ""⟩, ⟨TOKEN_WORD, "this"⟩,
   ⟨TOKEN_MULTIPLY, ""⟩, ⟨TOKEN_WORD, "Foo"⟩, ⟨TOKEN_NEXT, ""⟩, ⟨TOKEN_ELLIPSIS, ""⟩,
   ⟨TOKEN_CLOSE, ""⟩, ⟨TOKEN_WORD, "int"⟩, ⟨TOKEN_BEGIN, ""⟩, ⟨TOKEN_END, ""⟩]

/-- The tokens of `func __pass__(value POD Foo) ret` followed by the empty
body. -/
def tokens_pass (ret : String) : List token_t :=
  [⟨TOKEN_FUNC, ""⟩, ⟨TOKEN_WORD, "__pass__"⟩, ⟨TOKEN_OPEN, ""⟩, ⟨TOKEN_WORD, "value"⟩,
   ⟨TOKEN_POD, ""⟩, ⟨TOKEN_WORD, "Foo"⟩, ⟨TOKEN_CLOSE, ""⟩, ⟨TOKEN_WORD, ret⟩,
   ⟨TOKEN_BEGIN, ""⟩, ⟨TOKEN_END, ""⟩]

/-- The tokens of `func __pass__(value POD Foo, ...) int` followed by the empty
body. -/
def tokens_pass_vararg : List token_t :=
  [⟨TOKEN_FUNC, ""⟩, ⟨TOKEN_WORD, "__pass__"⟩, ⟨TOKEN_OPEN, ""⟩, ⟨TOKEN_WORD, "value"⟩,
   ⟨TOKEN_POD, ""⟩, ⟨TOKEN_WORD, "Foo"⟩, ⟨TOKEN_NEXT, ""⟩, ⟨TOKEN_ELLIPSIS, ""⟩,
   ⟨TOKEN_CLOSE, ""⟩, ⟨TOKEN_WORD, "int"⟩, ⟨TOKEN_BEGIN, ""⟩, ⟨TOKEN_END, ""⟩]

/-- The tokens of `func name(a [*]Foo, b second) ret` followed by the empty body,
the first argument being a pointer or not. -/
def tokens_binary (name : String) (pointer : Bool) (second ret : String) : List token_t :=
  [⟨TOKEN_FUNC, ""⟩, ⟨TOKEN_WORD, name⟩, ⟨TOKEN_OPEN, ""⟩, ⟨TOKEN_WORD, "this"⟩]
  ++ (if pointer then [⟨TOKEN_MULTIPLY, ""⟩] else [])
  ++ [⟨TOKEN_WORD, "Foo"⟩, ⟨TOKEN_NEXT, ""⟩, ⟨TOKEN_WORD, "other"⟩, ⟨TOKEN_WORD, second⟩,
      ⟨TOKEN_CLOSE, ""⟩, ⟨TOKEN_WORD, ret⟩, ⟨TOKEN_BEGIN, ""⟩, ⟨TOKEN_END, ""⟩]

/-- The tokens of `func __variadic_array__(pointer ptr, bytes usize, length usize,
maybe_types ptr) ret` followed by the empty body. -/
def tokens_variadic_array (ret : String) : List token_t :=
  [⟨TOKEN_FUNC, ""⟩, ⟨TOKEN_WORD, "__variadic_array__"⟩, ⟨TOKEN_OPEN, ""⟩,
   ⟨TOKEN_WORD, "pointer"⟩, ⟨TOKEN_WORD, "ptr"⟩, ⟨TOKEN_NEXT, ""⟩,
   ⟨TOKEN_WORD, "bytes"⟩, ⟨TOKEN_WORD, "usize"⟩, ⟨TOKEN_NEXT, ""⟩,
   ⟨TOKEN_WORD, "length"⟩, ⟨TOKEN_WORD, "usize"⟩, ⟨TOKEN_NEXT, ""⟩,
   ⟨TOKEN_WORD, "maybe_types"⟩, ⟨TOKEN_WORD, "ptr"⟩, ⟨TOKEN_CLOSE, ""⟩,
   ⟨TOKEN_WORD, ret⟩, ⟨TOKEN_BEGIN, ""⟩, ⟨TOKEN_END, ""⟩]

/-- The tokens of `func __initializer_list__(array ptr, length usize) ret`
followed by the empty body. -/
def tokens_initializer_list (ret : String) : List token_t :=
  [⟨TOKEN_FUNC, ""⟩, ⟨TOKEN_WORD, "__initializer_list__"⟩, ⟨TOKEN_OPEN, ""⟩,
   ⟨TOKEN_WORD, "array"⟩, ⟨TOKEN_WORD, "ptr"⟩, ⟨TOKEN_NEXT, ""⟩,
   ⟨TOKEN_WORD, "length"⟩, ⟨TOKEN_WORD, "usize"⟩, ⟨TOKEN_CLOSE, ""⟩,
   ⟨TOKEN_WORD, ret⟩, ⟨TOKEN_BEGIN, ""⟩, ⟨TOKEN_END, ""⟩]

/-- The tokens of `foreign bar($T) void`. -/
def tokens_foreign_polymorphic : List token_t :=
  [⟨TOKEN_FOREIGN, ""⟩, ⟨TOKEN_WORD, "bar"⟩, ⟨TOKEN_OPEN, ""⟩, ⟨TOKEN_POLYMORPH, "T"⟩,
   ⟨TOKEN_CLOSE, ""⟩, ⟨TOKEN_WORD, "void"⟩]

/-- The tokens of `func get(name *$T) $T` followed by the empty body. -/
def tokens_polymorphic (name : String) : List token_t :=
  [⟨TOKEN_FUNC, ""⟩, ⟨TOKEN_WORD, "get"⟩, ⟨TOKEN_OPEN, ""⟩, ⟨TOKEN_WORD, name⟩,
   ⟨TOKEN_MULTIPLY, ""⟩, ⟨TOKEN_POLYMORPH, "T"⟩, ⟨TOKEN_CLOSE, ""⟩, ⟨TOKEN_POLYMORPH, "T"⟩,
   ⟨TOKEN_BEGIN, ""⟩, ⟨TOKEN_END, ""⟩]

/-- The tokens of `func f(a [$#N] int, b <[$#N] int> Box) [$#N] int` followed by
the empty body. -/
def tokens_polycount_nested : List token_t :=
  [⟨TOKEN_FUNC, ""⟩, ⟨TOKEN_WORD, "f"⟩, ⟨TOKEN_OPEN, ""⟩, ⟨TOKEN_WORD, "a"⟩,
   ⟨TOKEN_BRACKET_OPEN, ""⟩, ⟨TOKEN_POLYCOUNT, "N"⟩, ⟨TOKEN_BRACKET_CLOSE, ""⟩,
   ⟨TOKEN_WORD, "int"⟩, ⟨TOKEN_NEXT, ""⟩, ⟨TOKEN_WORD, "b"⟩, ⟨TOKEN_LESSTHAN, ""⟩,
   ⟨TOKEN_BRACKET_OPEN, ""⟩, ⟨TOKEN_POLYCOUNT, "N"⟩, ⟨TOKEN_BRACKET_CLOSE, ""⟩,
   ⟨TOKEN_WORD, "int"⟩, ⟨TOKEN_GREATERTHAN, ""⟩, ⟨TOKEN_WORD, "Box"⟩, ⟨TOKEN_CLOSE, ""⟩,
   ⟨TOKEN_BRACKET_OPEN, ""⟩, ⟨TOKEN_POLYCOUNT, "N"⟩, ⟨TOKEN_BRACKET_CLOSE, ""⟩,
   ⟨TOKEN_WORD, "int"⟩, ⟨TOKEN_BEGIN, ""⟩, ⟨TOKEN_END, ""⟩]

/-- A context at the start of a token list, in the domain of the composite
given. -/
def parse_ctx_in (composite : ast_composite_t) (tokens : List token_t) : parse_ctx_t :=
  { parse_ctx_of tokens with composite_association := some composite }

/-- The composite `Foo`, not polymorphic. -/
def composite_example : ast_composite_t :=
  { name := "Foo", source := ⟨0, 100⟩, is_polymorphic := false, generics := [] }

/-- The polymorphic composite `<$A, $B> Pair`. -/
def composite_example_polymorphic : ast_composite_t :=
  { name := "Pair", source := ⟨0, 200⟩, is_polymorphic := true, generics := ["A", "B"] }

/-- The tokens of `(a int) void`. -/
def tokens_one_argument : List token_t :=
  [⟨TOKEN_OPEN, ""⟩, ⟨TOKEN_WORD, "a"⟩, ⟨TOKEN_WORD, "int"⟩, ⟨TOKEN_CLOSE, ""⟩,
   ⟨TOKEN_WORD, "void"⟩]

/-! ## The token ids (`include/TOKEN/token_data.h`) -/

/-- The `#define` lines of the lexer tokens, in the order of the header: the name
of the token and its id. -/
def token_ids : List (String × Nat) :=
  [("TOKEN_NONE", 0x00), ("TOKEN_WORD", 0x01), ("TOKEN_STRING", 0x02), ("TOKEN_CSTRING", 0x03),
   ("TOKEN_ADD", 0x04), ("TOKEN_SUBTRACT", 0x05), ("TOKEN_MULTIPLY", 0x06),
   ("TOKEN_DIVIDE", 0x07), ("TOKEN_ASSIGN", 0x08), ("TOKEN_EQUALS", 0x09),
   ("TOKEN_NOTEQUALS", 0x0A), ("TOKEN_LESSTHAN", 0x0B), ("TOKEN_GREATERTHAN", 0x0C),
   ("TOKEN_LESSTHANEQ", 0x0D), ("TOKEN_GREATERTHANEQ", 0x0E), ("TOKEN_NOT", 0x0F),
   ("TOKEN_OPEN", 0x10), ("TOKEN_CLOSE", 0x11), ("TOKEN_BEGIN", 0x12), ("TOKEN_END", 0x13),
   ("TOKEN_NEWLINE", 0x14), ("TOKEN_BYTE", 0x15), ("TOKEN_UBYTE", 0x16), ("TOKEN_SHORT", 0x17),
   ("TOKEN_USHORT", 0x18), ("TOKEN_INT", 0x19), ("TOKEN_UINT", 0x1A), ("TOKEN_LONG", 0x1B),
   ("TOKEN_ULONG", 0x1C), ("TOKEN_USIZE", 0x1D), ("TOKEN_FLOAT", 0x1E), ("TOKEN_DOUBLE", 0x1F),
   ("TOKEN_MEMBER", 0x20), ("TOKEN_ADDRESS", 0x21), ("TOKEN_NEXT", 0x22),
   ("TOKEN_BRACKET_OPEN", 0x23), ("TOKEN_BRACKET_CLOSE", 0x24), ("TOKEN_MODULUS", 0x25),
   ("TOKEN_GENERIC_INT", 0x26), ("TOKEN_GENERIC_FLOAT", 0x27), ("TOKEN_ADD_ASSIGN", 0x28),
   ("TOKEN_SUBTRACT_ASSIGN", 0x29), ("TOKEN_MULTIPLY_ASSIGN", 0x2A),
   ("TOKEN_DIVIDE_ASSIGN", 0x2B), ("TOKEN_MODULUS_ASSIGN", 0x2C), ("TOKEN_BIT_AND_ASSIGN", 0x2D),
   ("TOKEN_BIT_OR_ASSIGN", 0x2E), ("TOKEN_BIT_XOR_ASSIGN", 0x2F), ("TOKEN_BIT_LS_ASSIGN", 0x30),
   ("TOKEN_BIT_RS_ASSIGN", 0x31), ("TOKEN_BIT_LGC_LS_ASSIGN", 0x32),
   ("TOKEN_BIT_LGC_RS_ASSIGN", 0x33), ("TOKEN_ELLIPSIS", 0x34), ("TOKEN_UBERAND", 0x35),
   ("TOKEN_UBEROR", 0x36), ("TOKEN_TERMINATE_JOIN", 0x37), ("TOKEN_COLON", 0x38),
   ("TOKEN_BIT_OR", 0x39), ("TOKEN_BIT_XOR", 0x3A), ("TOKEN_BIT_LSHIFT", 0x3B),
   ("TOKEN_BIT_RSHIFT", 0x3C), ("TOKEN_BIT_COMPLEMENT", 0x3D), ("TOKEN_BIT_LGC_LSHIFT", 0x3E),
   ("TOKEN_BIT_LGC_RSHIFT", 0x3F), ("TOKEN_ASSOCIATE", 0x40), ("TOKEN_META", 0x41),
   ("TOKEN_POLYMORPH", 0x42), ("TOKEN_MAYBE", 0x43), ("TOKEN_INCREMENT", 0x44),
   ("TOKEN_DECREMENT", 0x45), ("TOKEN_TOGGLE", 0x46), ("TOKEN_STRONG_ARROW", 0x47),
   ("TOKEN_RANGE", 0x48), ("TOKEN_GIVES", 0x49), ("TOKEN_POLYCOUNT", 0x4A), ("TOKEN_POD", 0x4B),
   ("TOKEN_ALIAS", 0x4C), ("TOKEN_ALIGNOF", 0x4D), ("TOKEN_AND", 0x4E), ("TOKEN_AS", 0x4F),
   ("TOKEN_AT", 0x50), ("TOKEN_BREAK", 0x51), ("TOKEN_CASE", 0x52), ("TOKEN_CAST", 0x53),
   ("TOKEN_CONST", 0x54), ("TOKEN_CONSTRUCTOR", 0x55), ("TOKEN_CONTINUE", 0x56),
   ("TOKEN_DEF", 0x57), ("TOKEN_DEFAULT", 0x58), ("TOKEN_DEFER", 0x59), ("TOKEN_DEFINE", 0x5A),
   ("TOKEN_DELETE", 0x5B), ("TOKEN_EACH", 0x5C), ("TOKEN_ELSE", 0x5D), ("TOKEN_EMBED", 0x5E),
   ("TOKEN_ENUM", 0x5F), ("TOKEN_EXHAUSTIVE", 0x60), ("TOKEN_EXTERNAL", 0x61),
   ("TOKEN_FALLTHROUGH", 0x62), ("TOKEN_FALSE", 0x63), ("TOKEN_FOR", 0x64),
   ("TOKEN_FOREIGN", 0x65), ("TOKEN_FUNC", 0x66), ("TOKEN_FUNCPTR", 0x67),
   ("TOKEN_GLOBAL", 0x68), ("TOKEN_IF", 0x69), ("TOKEN_IMPLICIT", 0x6A), ("TOKEN_IMPORT", 0x6B),
   ("TOKEN_IN", 0x6C), ("TOKEN_INOUT", 0x6D), ("TOKEN_LLVM_ASM", 0x6E),
   ("TOKEN_NAMESPACE", 0x6F), ("TOKEN_NEW", 0x70), ("TOKEN_NULL", 0x71), ("TOKEN_OR", 0x72),
   ("TOKEN_OUT", 0x73), ("TOKEN_PACKED", 0x74), ("TOKEN_PRAGMA", 0x75), ("TOKEN_PRIVATE", 0x76),
   ("TOKEN_PUBLIC", 0x77), ("TOKEN_RECORD", 0x78), ("TOKEN_REPEAT", 0x79),
   ("TOKEN_RETURN", 0x7A), ("TOKEN_SIZEOF", 0x7B), ("TOKEN_STATIC", 0x7C),
   ("TOKEN_STDCALL", 0x7D), ("TOKEN_STRUCT", 0x7E), ("TOKEN_SWITCH", 0x7F),
   ("TOKEN_THREAD_LOCAL", 0x80), ("TOKEN_TRUE", 0x81), ("TOKEN_TYPEINFO", 0x82),
   ("TOKEN_TYPENAMEOF", 0x83), ("TOKEN_UNDEF", 0x84), ("TOKEN_UNION", 0x85),
   ("TOKEN_UNLESS", 0x86), ("TOKEN_UNTIL", 0x87), ("TOKEN_USING", 0x88), ("TOKEN_VA_ARG", 0x89),
   ("TOKEN_VA_COPY", 0x8A), ("TOKEN_VA_END", 0x8B), ("TOKEN_VA_START", 0x8C),
   ("TOKEN_VERBATIM", 0x8D), ("TOKEN_WHILE", 0x8E), ("TOKEN_BIT_AND", 0x21)]

/-- The id of the last lexer token. -/
def MAX_LEX_TOKEN : Nat := 0x8E

/-- The id of the first keyword token. -/
def BEGINNING_OF_KEYWORD_TOKENS : Nat := 0x4B

/-- The `#define` lines of the deprecated `TOKEN_PKG_*` tokens. -/
def token_pkg_ids : List (String × Nat) :=
  [("TOKEN_PKG_WBOOL", 0xD0), ("TOKEN_PKG_WBYTE", 0xD1), ("TOKEN_PKG_WDOUBLE", 0xD2),
   ("TOKEN_PKG_WFLOAT", 0xD3), ("TOKEN_PKG_WINT", 0xD4), ("TOKEN_PKG_WLONG", 0xD5),
   ("TOKEN_PKG_WSHORT", 0xD6), ("TOKEN_PKG_WUBYTE", 0xD7), ("TOKEN_PKG_WUINT", 0xD8),
   ("TOKEN_PKG_WULONG", 0xD9), ("TOKEN_PKG_WUSHORT", 0xDA), ("TOKEN_PKG_WUSIZE", 0xDB)]

/-- The entries of the header whose id is a keyword id, in the order of the
header. -/
def token_keyword_ids : List (String × Nat) :=
  token_ids.filter (fun e => BEGINNING_OF_KEYWORD_TOKENS ≤ e.2 && e.2 ≤ MAX_LEX_TOKEN)

/-- Modelled from the spec: `global_token_keywords_list` (declared `extern` in the
header, its definition is not among the sources): the spellings of the keywords,
in the order of their ids. -/
def global_token_keywords_list : List String :=
  ["POD", "alias", "alignof", "and", "as", "at", "break", "case", "cast", "const", "constructor",
   "continue", "def", "default", "defer", "define", "delete", "each", "else", "embed", "enum",
   "exhaustive", "external", "fallthrough", "false", "for", "foreign", "func", "funcptr",
   "global", "if", "implicit", "import", "in", "inout", "llvm_asm", "namespace", "new", "null",
   "or", "out", "packed", "pragma", "private", "public", "record", "repeat", "return", "sizeof",
   "static", "stdcall", "struct", "switch", "thread_local", "true", "typeinfo", "typenameof",
   "undef", "union", "unless", "until", "using", "va_arg", "va_copy", "va_end", "va_start",
   "verbatim", "while"]

/-- The upper-case letter of a lower-case ASCII letter; any other character is
left alone. -/
def ascii_upper (c : Char) : Char :=
  if 97 ≤ c.toNat ∧ c.toNat ≤ 122 then Char.ofNat (c.toNat - 32) else c

/-- The name of the token that a keyword spelling names: `TOKEN_` and the
spelling in upper case. -/
def token_name_of_keyword (spelling : String) : String :=
  "TOKEN_" ++ String.mk (spelling.data.map ascii_upper)

/-- The names of the header that share the id of another name. -/
def token_ids_shared : List (String × Nat) :=
  token_ids.filter (fun e => token_ids.any (fun f => f.2 == e.2 && f.1 != e.1))

/-! ## Declarations for the later properties of `parse_func` -/

/-- The four cases of the `switch` of `parse_func_prefixes`: the token kinds that
keep its loop going. -/
def func_prefix_keyword (id : tokenid_t) : Bool :=
  id == TOKEN_STDCALL || id == TOKEN_VERBATIM || id == TOKEN_IMPLICIT || id == TOKEN_EXTERNAL

/-- The flags of the keywords that occur among the `n` tokens from the cursor
on. -/
def func_prefixes_among (ctx : parse_ctx_t) (n : Nat) : ast_func_prefixes_t :=
  { is_stdcall := (List.range n).any (fun k => ctx.token_id (ctx.i + k) == TOKEN_STDCALL)
    is_verbatim := (List.range n).any (fun k => ctx.token_id (ctx.i + k) == TOKEN_VERBATIM)
    is_implicit := (List.range n).any (fun k => ctx.token_id (ctx.i + k) == TOKEN_IMPLICIT)
    is_external := (List.range n).any (fun k => ctx.token_id (ctx.i + k) == TOKEN_EXTERNAL) }

/-- The tokens of `stdcall stdcall func f() void` followed by the empty body. -/
def tokens_stdcall_twice : List token_t :=
  [⟨TOKEN_STDCALL, ""⟩, ⟨TOKEN_STDCALL, ""⟩, ⟨TOKEN_FUNC, ""⟩, ⟨TOKEN_WORD, "f"⟩,
   ⟨TOKEN_OPEN, ""⟩, ⟨TOKEN_CLOSE, ""⟩, ⟨TOKEN_WORD, "void"⟩, ⟨TOKEN_BEGIN, ""⟩,
   ⟨TOKEN_END, ""⟩]

/-- The tokens of `external implicit external stdcall verbatim foreign f`. -/
def tokens_prefixes_mixed : List token_t :=
  [⟨TOKEN_EXTERNAL, ""⟩, ⟨TOKEN_IMPLICIT, ""⟩, ⟨TOKEN_EXTERNAL, ""⟩, ⟨TOKEN_STDCALL, ""⟩,
   ⟨TOKEN_VERBATIM, ""⟩, ⟨TOKEN_FOREIGN, ""⟩, ⟨TOKEN_WORD, "f"⟩]

/-- The tokens of `(cstring)`, the argument list of `foreign puts(cstring)`. -/
def tokens_foreign_lone : List token_t :=
  [⟨TOKEN_OPEN, ""⟩, ⟨TOKEN_WORD, "cstring"⟩, ⟨TOKEN_CLOSE, ""⟩]

/-- The tokens of `(msg cstring)`, the argument list of
`foreign puts(msg cstring)`. -/
def tokens_foreign_named : List token_t :=
  [⟨TOKEN_OPEN, ""⟩, ⟨TOKEN_WORD, "msg"⟩, ⟨TOKEN_WORD, "cstring"⟩, ⟨TOKEN_CLOSE, ""⟩]

/-- The template of the foreign function `puts`. -/
def func_puts : ast_func_t :=
  ast_func_create_template "puts" ⟨0, 0⟩ AST_FUNC_FOREIGN

/-- What the examples read of a parsed argument list: the cursor, the arity,
whether there is a names array, the name of the first argument, and whether the
type of the first argument is the base type of the name given. -/
def parse_func_arguments_summary (type_name : String)
    (r : Except String (parse_ctx_t × ast_func_t)) :
    Option (Nat × Nat × Bool × Option String × Bool) :=
  r.toOption.map (fun r => (r.1.i, r.2.arity, r.2.arg_names.isSome,
    slot_ptr (r.2.arg_names.getD []) 0, ast_type_is_base_of (r.2.arg_type 0) type_name))

/-- The tokens of `(cstring, n int)`. -/
def tokens_foreign_ambiguous : List token_t :=
  [⟨TOKEN_OPEN, ""⟩, ⟨TOKEN_WORD, "cstring"⟩, ⟨TOKEN_NEXT, ""⟩, ⟨TOKEN_WORD, "n"⟩,
   ⟨TOKEN_WORD, "int"⟩, ⟨TOKEN_CLOSE, ""⟩]

/-- The tokens of `(*cstring, n int)`. -/
def tokens_foreign_pointer_then_named : List token_t :=
  [⟨TOKEN_OPEN, ""⟩, ⟨TOKEN_MULTIPLY, ""⟩, ⟨TOKEN_WORD, "cstring"⟩, ⟨TOKEN_NEXT, ""⟩,
   ⟨TOKEN_WORD, "n"⟩, ⟨TOKEN_WORD, "int"⟩, ⟨TOKEN_CLOSE, ""⟩]

/-- The foreign function of `(cstring, n int)` when `cstring,` has been read: one
argument, of the base type `cstring`, and no names array. -/
def func_foreign_one : ast_func_t :=
  { func_example_foreign with
    arity := 1
    arg_types := [some ⟨[.base "cstring" ⟨0, 1⟩], ⟨0, 1⟩⟩, none, none, none]
    arg_sources := [some ⟨0, 1⟩, none, none, none]
    arg_flows := [some FLOW_IN, none, none, none]
    arg_type_traits := [some TRAIT_NONE, none, none, none] }

/-- The tokens of `foreign puts(msg) => something`. -/
def tokens_foreign_puts_arrow : List token_t :=
  [⟨TOKEN_FOREIGN, ""⟩, ⟨TOKEN_WORD, "puts"⟩, ⟨TOKEN_OPEN, ""⟩, ⟨TOKEN_WORD, "msg"⟩,
   ⟨TOKEN_CLOSE, ""⟩, ⟨TOKEN_STRONG_ARROW, ""⟩, ⟨TOKEN_WORD, "something"⟩]

/-- Lines 54-59 of `parse_func`: the template of the head, with the traits that
`ctx->next_builtin_traits` held. -/
def parse_func_template (ctx : parse_ctx_t) (func_head : ast_func_head_t) : ast_func_t :=
  if ctx.next_builtin_traits != TRAIT_NONE then
    { func_head.create_template with
      traits := func_head.create_template.traits ||| ctx.next_builtin_traits }
  else func_head.create_template

/-- Lines 50-59 of `parse_func`: the context once the template is the new last
element of `ast->funcs` and `ctx->next_builtin_traits` is cleared. -/
def parse_func_begin (ctx : parse_ctx_t) (func_head : ast_func_head_t) : parse_ctx_t :=
  { ctx with
    ast := { ctx.ast with funcs := ctx.ast.funcs ++ [parse_func_template ctx func_head] }
    next_builtin_traits := TRAIT_NONE }

/-- Lines 43-62 of `parse_func`, when every step of them succeeds: the head, the
context at the first token behind the argument list, newlines skipped, and the
function as the argument list left it. -/
def parse_func_before_return_type (ext : parse_externals_t) (fuel : Nat) (ctx : parse_ctx_t) :
    Option (ast_func_head_t × parse_ctx_t × ast_func_t) :=
  match parse_func_head ext ctx with
  | .error _ => none
  | .ok (ctxH, func_head) =>
    if func_head.is_foreign && ctxH.composite_association.isSome then none
    else
      match parse_func_arguments ext fuel (parse_func_begin ctxH func_head)
          (parse_func_template ctxH func_head) with
      | .error _ => none
      | .ok (ctxA, funcA) =>
        match parse_ignore_newlines ctxA "Expected '\x7b' after function head" with
        | .error _ => none
        | .ok ctxN => some (func_head, ctxN, funcA)

/-- The tokens of `func f() ` followed by the empty body. -/
def tokens_no_return_type : List token_t :=
  [⟨TOKEN_FUNC, ""⟩, ⟨TOKEN_WORD, "f"⟩, ⟨TOKEN_OPEN, ""⟩, ⟨TOKEN_CLOSE, ""⟩,
   ⟨TOKEN_BEGIN, ""⟩, ⟨TOKEN_END, ""⟩]

/-- The tokens of `foreign f() ` followed by `{`, which starts no type. -/
def tokens_foreign_no_return_type : List token_t :=
  [⟨TOKEN_FOREIGN, ""⟩, ⟨TOKEN_WORD, "f"⟩, ⟨TOKEN_OPEN, ""⟩, ⟨TOKEN_CLOSE, ""⟩,
   ⟨TOKEN_BEGIN, ""⟩, ⟨TOKEN_END, ""⟩]

/-- The tokens of `func f() int = 7`. -/
def tokens_single_line : List token_t :=
  [⟨TOKEN_FUNC, ""⟩, ⟨TOKEN_WORD, "f"⟩, ⟨TOKEN_OPEN, ""⟩, ⟨TOKEN_CLOSE, ""⟩,
   ⟨TOKEN_WORD, "int"⟩, ⟨TOKEN_ASSIGN, ""⟩, ⟨TOKEN_GENERIC_INT, "7"⟩]

/-- The tokens of `func f() = 7`. -/
def tokens_single_line_omitted : List token_t :=
  [⟨TOKEN_FUNC, ""⟩, ⟨TOKEN_WORD, "f"⟩, ⟨TOKEN_OPEN, ""⟩, ⟨TOKEN_CLOSE, ""⟩,
   ⟨TOKEN_ASSIGN, ""⟩, ⟨TOKEN_GENERIC_INT, "7"⟩]

/-- The tokens of `func f() void = 7`. -/
def tokens_single_line_void : List token_t :=
  [⟨TOKEN_FUNC, ""⟩, ⟨TOKEN_WORD, "f"⟩, ⟨TOKEN_OPEN, ""⟩, ⟨TOKEN_CLOSE, ""⟩,
   ⟨TOKEN_WORD, "void"⟩, ⟨TOKEN_ASSIGN, ""⟩, ⟨TOKEN_GENERIC_INT, "7"⟩]

/-- The function `f` of `func f() int = 7` when its body is parsed. -/
def func_single_line : ast_func_t :=
  { ast_func_create_template "f" ⟨0, 0⟩ TRAIT_NONE with return_type := ast_type_make_base "int" }

/-- The tokens of `func alias f(int, long, ...) => g`. -/
def tokens_alias_vararg : List token_t :=
  [⟨TOKEN_FUNC, ""⟩, ⟨TOKEN_ALIAS, ""⟩, ⟨TOKEN_WORD, "f"⟩, ⟨TOKEN_OPEN, ""⟩,
   ⟨TOKEN_WORD, "int"⟩, ⟨TOKEN_NEXT, ""⟩, ⟨TOKEN_WORD, "long"⟩, ⟨TOKEN_NEXT, ""⟩,
   ⟨TOKEN_ELLIPSIS, ""⟩, ⟨TOKEN_CLOSE, ""⟩, ⟨TOKEN_STRONG_ARROW, ""⟩, ⟨TOKEN_WORD, "g"⟩]

/-- The tokens of `func alias f => g`. -/
def tokens_alias_first : List token_t :=
  [⟨TOKEN_FUNC, ""⟩, ⟨TOKEN_ALIAS, ""⟩, ⟨TOKEN_WORD, "f"⟩, ⟨TOKEN_STRONG_ARROW, ""⟩,
   ⟨TOKEN_WORD, "g"⟩]

/-- The tokens of `func alias f(..) => g`. -/
def tokens_alias_variadic : List token_t :=
  [⟨TOKEN_FUNC, ""⟩, ⟨TOKEN_ALIAS, ""⟩, ⟨TOKEN_WORD, "f"⟩, ⟨TOKEN_OPEN, ""⟩,
   ⟨TOKEN_RANGE, ""⟩, ⟨TOKEN_CLOSE, ""⟩, ⟨TOKEN_STRONG_ARROW, ""⟩, ⟨TOKEN_WORD, "g"⟩]

/-- What the examples read of the aliases of an AST: of each alias the two names,
the arity, the traits required and whether it matches the first function of the
name. -/
def ast_func_aliases_summary (ast : ast_t) : List (String × String × Nat × trait_t × Bool) :=
  ast.func_aliases.map (fun a =>
    (a.from_name, a.to_name, a.arity, a.required_traits, a.match_first_of_name))

/-- The names of the base types that the aliases of an AST list. -/
def ast_func_aliases_types (ast : ast_t) : List (List (Option String)) :=
  ast.func_aliases.map (fun a => a.arg_types.map (fun t =>
    match t.elements with
    | [.base name _] => some name
    | _ => none))

/-- The types `types` are listed from the cursor of `ctx` on, in this order: the
first one is what the type parser yields at the cursor, newlines skipped, and the
ones that follow are listed in order behind the `,` that follows it, newlines
skipped. -/
def alias_types_in_order (ext : parse_externals_t) : parse_ctx_t → List ast_type_t → Prop
  | _, [] => True
  | ctx, t :: ts =>
    ∃ c i, parse_ignore_newlines ctx "Expected argument type for function alias" = .ok c
      ∧ ext.parse_type c = .ok (t, i)
      ∧ (ts = [] ∨ ∃ c2,
          parse_ignore_newlines { c with i := i } "Expected argument type for function alias"
            = .ok c2
          ∧ c2.token_id c2.i = TOKEN_NEXT
          ∧ alias_types_in_order ext { c2 with i := c2.i + 1 } ts)

/-- A context at the start of a token list whose AST already holds the
functions and the aliases given. -/
def parse_ctx_with (tokens : List token_t) (funcs : List ast_func_t)
    (func_aliases : List ast_func_alias_t) : parse_ctx_t :=
  { parse_ctx_of tokens with ast := { funcs := funcs, func_aliases := func_aliases } }

/-- An alias of the examples. -/
def alias_example : ast_func_alias_t :=
  { from_name := "h", to_name := "k", arg_types := [], arity := 0,
    required_traits := TRAIT_NONE, source := ⟨0, 0⟩, match_first_of_name := true }

/-- The tokens of `func f(a)`, whose argument has no type. -/
def tokens_argument_without_type : List token_t :=
  [⟨TOKEN_FUNC, ""⟩, ⟨TOKEN_WORD, "f"⟩, ⟨TOKEN_OPEN, ""⟩, ⟨TOKEN_WORD, "a"⟩,
   ⟨TOKEN_CLOSE, ""⟩]

/-- The tokens of `func f() void { x`, whose body is not closed. -/
def tokens_body_not_closed : List token_t :=
  [⟨TOKEN_FUNC, ""⟩, ⟨TOKEN_WORD, "f"⟩, ⟨TOKEN_OPEN, ""⟩, ⟨TOKEN_CLOSE, ""⟩,
   ⟨TOKEN_WORD, "void"⟩, ⟨TOKEN_BEGIN, ""⟩, ⟨TOKEN_WORD, "x"⟩]

/-- The tokens of `func 7`, whose head has no name. -/
def tokens_head_without_name : List token_t :=
  [⟨TOKEN_FUNC, ""⟩, ⟨TOKEN_GENERIC_INT, "7"⟩]

/-- The parenthesised list of a function alias, read from the cursor of `ctx`
on: the types `types` in this order, each but the first behind a `,` that no `)`
follows, then at most one arity marker, `...` for `AST_FUNC_VARARG` or `..` for
`AST_FUNC_VARIADIC`, which nothing but newlines parts from the `)`; `traits` holds
the trait of the marker, or none, and `ctxEnd` is the context on the `)`. -/
def alias_args_listed (ext : parse_externals_t) :
    parse_ctx_t → List ast_type_t → trait_t → parse_ctx_t → Prop
  | ctx, [], traits, ctxEnd =>
    (ctx.token_id ctx.i = TOKEN_CLOSE ∧ traits = TRAIT_NONE ∧ ctxEnd = ctx)
    ∨ (ctx.token_id ctx.i ≠ TOKEN_CLOSE
      ∧ ∃ c, parse_ignore_newlines ctx "Expected argument type for function alias" = .ok c
        ∧ ((c.token_id c.i = TOKEN_ELLIPSIS ∧ traits = AST_FUNC_VARARG)
          ∨ (c.token_id c.i = TOKEN_RANGE ∧ traits = AST_FUNC_VARIADIC))
        ∧ parse_ignore_newlines { c with i := c.i + 1 }
            "Expected argument type for function alias" = .ok ctxEnd
        ∧ ctxEnd.token_id ctxEnd.i = TOKEN_CLOSE)
  | ctx, t :: ts, traits, ctxEnd =>
    ctx.token_id ctx.i ≠ TOKEN_CLOSE
    ∧ ∃ c i c2, parse_ignore_newlines ctx "Expected argument type for function alias" = .ok c
      ∧ c.token_id c.i ≠ TOKEN_ELLIPSIS ∧ c.token_id c.i ≠ TOKEN_RANGE
      ∧ ext.parse_type c = .ok (t, i)
      ∧ parse_ignore_newlines { c with i := i } "Expected argument type for function alias"
          = .ok c2
      ∧ ((c2.token_id c2.i = TOKEN_CLOSE ∧ ts = [] ∧ traits = TRAIT_NONE ∧ ctxEnd = c2)
        ∨ (c2.token_id c2.i = TOKEN_NEXT ∧ c2.token_id (c2.i + 1) ≠ TOKEN_CLOSE
          ∧ alias_args_listed ext { c2 with i := c2.i + 1 } ts traits ctxEnd))

/-- The tokens of `func alias f(..., int) => g`: a `,` follows the marker. -/
def tokens_alias_marker_next : List token_t :=
  [⟨TOKEN_FUNC, ""⟩, ⟨TOKEN_ALIAS, ""⟩, ⟨TOKEN_WORD, "f"⟩, ⟨TOKEN_OPEN, ""⟩,
   ⟨TOKEN_ELLIPSIS, ""⟩, ⟨TOKEN_NEXT, ""⟩, ⟨TOKEN_WORD, "int"⟩, ⟨TOKEN_CLOSE, ""⟩,
   ⟨TOKEN_STRONG_ARROW, ""⟩, ⟨TOKEN_WORD, "g"⟩]

/-- The tokens of `func alias f(int, ... ..) => g`: a second marker follows the
first. -/
def tokens_alias_two_markers : List token_t :=
  [⟨TOKEN_FUNC, ""⟩, ⟨TOKEN_ALIAS, ""⟩, ⟨TOKEN_WORD, "f"⟩, ⟨TOKEN_OPEN, ""⟩,
   ⟨TOKEN_WORD, "int"⟩, ⟨TOKEN_NEXT, ""⟩, ⟨TOKEN_ELLIPSIS, ""⟩, ⟨TOKEN_RANGE, ""⟩,
   ⟨TOKEN_CLOSE, ""⟩, ⟨TOKEN_STRONG_ARROW, ""⟩, ⟨TOKEN_WORD, "g"⟩]

/-- The tokens of `func alias f(int, long,) => g`: a `,` stands directly before
the `)`. -/
def tokens_alias_next_close : List token_t :=
  [⟨TOKEN_FUNC, ""⟩, ⟨TOKEN_ALIAS, ""⟩, ⟨TOKEN_WORD, "f"⟩, ⟨TOKEN_OPEN, ""⟩,
   ⟨TOKEN_WORD, "int"⟩, ⟨TOKEN_NEXT, ""⟩, ⟨TOKEN_WORD, "long"⟩, ⟨TOKEN_NEXT, ""⟩,
   ⟨TOKEN_CLOSE, ""⟩, ⟨TOKEN_STRONG_ARROW, ""⟩, ⟨TOKEN_WORD, "g"⟩]

/-- The tokens of `func f(a, b)`, whose list ends in names without a type. -/
def tokens_untyped_names : List token_t :=
  [⟨TOKEN_FUNC, ""⟩, ⟨TOKEN_WORD, "f"⟩, ⟨TOKEN_OPEN, ""⟩, ⟨TOKEN_WORD, "a"⟩,
   ⟨TOKEN_NEXT, ""⟩, ⟨TOKEN_WORD, "b"⟩, ⟨TOKEN_CLOSE, ""⟩]

/-- The tokens of `(a, b, c POD int) void`. -/
def tokens_backfill_pod : List token_t :=
  [⟨TOKEN_OPEN, ""⟩, ⟨TOKEN_WORD, "a"⟩, ⟨TOKEN_NEXT, ""⟩, ⟨TOKEN_WORD, "b"⟩, ⟨TOKEN_NEXT, ""⟩,
   ⟨TOKEN_WORD, "c"⟩, ⟨TOKEN_POD, ""⟩, ⟨TOKEN_WORD, "int"⟩, ⟨TOKEN_CLOSE, ""⟩,
   ⟨TOKEN_WORD, "void"⟩]

/-- The tokens of `(in a, out b, c POD int, inout d long) void`. -/
def tokens_backfill_flows : List token_t :=
  [⟨TOKEN_OPEN, ""⟩, ⟨TOKEN_IN, ""⟩, ⟨TOKEN_WORD, "a"⟩, ⟨TOKEN_NEXT, ""⟩, ⟨TOKEN_OUT, ""⟩,
   ⟨TOKEN_WORD, "b"⟩, ⟨TOKEN_NEXT, ""⟩, ⟨TOKEN_WORD, "c"⟩, ⟨TOKEN_POD, ""⟩,
   ⟨TOKEN_WORD, "int"⟩, ⟨TOKEN_NEXT, ""⟩, ⟨TOKEN_INOUT, ""⟩, ⟨TOKEN_WORD, "d"⟩,
   ⟨TOKEN_WORD, "long"⟩, ⟨TOKEN_CLOSE, ""⟩, ⟨TOKEN_WORD, "void"⟩]

/-- What the examples read of the flows and the type traits of a parsed argument
list: the arity, and the flow and the type trait of each of the first `n`
slots. -/
def parse_func_arguments_flows (n : Nat) (r : Except String (parse_ctx_t × ast_func_t)) :
    Option (Nat × List (Option flow_t) × List (Option trait_t)) :=
  r.toOption.map (fun p =>
    (p.2.arity, (List.range n).map (slot_val p.2.arg_flows),
      (List.range n).map (slot_val p.2.arg_type_traits)))

/-- The keys of a cache are in place: every entry lies in the bucket that the
hash of its key selects, is a well-formed type, and no two entries of a bucket
have structurally identical keys, so that a key is identical to the key of any
entry before it in the chain in no bucket. -/
def ir_gen_sf_cache_keys_ok (ast_type_hash : ast_type_t → hash_t) (cache : ir_gen_sf_cache_t) :
    Prop :=
  (∀ b e, e ∈ ir_gen_sf_cache_bucket cache b →
    ast_type_hash e.ast_type % cache.capacity = b ∧ 1 ≤ e.ast_type.elements_length)
  ∧ ∀ b, (ir_gen_sf_cache_bucket cache b).Pairwise
      (fun x y => ast_types_identical x.ast_type y.ast_type = false)

/-! ## The reads of the argument arrays made by the checks of `parse_func` -/

/-- A read of a slot of an argument array: `func->arg_names[k]`,
`func->arg_types[k]` or `func->arg_type_traits[k]`. -/
inductive parse_func_read_t where
  | arg_names (k : Nat)
  | arg_types (k : Nat)
  | arg_type_traits (k : Nat)
deriving DecidableEq, Repr

/-- The index of a read. -/
def parse_func_read_t.index : parse_func_read_t → Nat
  | .arg_names k => k
  | .arg_types k => k
  | .arg_type_traits k => k

/-- The embedding of `parse_free_unbackfilled_arguments`, which changes no
value that the embedding holds: each of its `backfill` turns reads a slot of
`func->arg_names` without a test of the pointer, so that the call is defined
(`some`) when the names array is there at every turn. -/
def parse_free_unbackfilled_arguments (func : ast_func_t) (backfill : Nat) : Option Unit :=
  if (List.range backfill).all (fun _ => func.arg_names.isSome) then some () else none

/-- The call of `parse_free_unbackfilled_arguments` that a failing
`parse_func_argument` makes, as the pointer `func->arg_names` and the count
`*backfill` that the call is given; `none` when `parse_func_argument` succeeds.
Every failing path makes the call: the lone ellipsis with arguments pending, the
ambiguity of a foreign argument and the missing name with the function as the
start of the argument left it, every path to the label `failure` with the names
array as the name step left it; the count is the one the function was entered
with. -/
def parse_func_argument_freed (ext : parse_externals_t) (ctx : parse_ctx_t) (func : ast_func_t)
    (capacity backfill : Nat) : Option (Option (List (Option (Option String))) × Nat) :=
  let s := parse_func_argument_start ctx func backfill
  if s.1.token_id s.1.i == TOKEN_ELLIPSIS then
    if backfill != 0 then some (s.2.arg_names, backfill) else none
  else
    match parse_func_argument_name s.1 s.2 capacity backfill with
    | .error _ => some (s.2.arg_names, backfill)
    | .ok (ctx, func) =>
      match parse_func_argument_after_name ext ctx func capacity backfill with
      | .error _ => some (func.arg_names, backfill)
      | .ok _ => none

/-- The call of `parse_free_unbackfilled_arguments` that a failing run of the
loop of `parse_func_arguments` makes, its own or the one of `parse_func_argument`;
`none` when the loop ends on the `)` (or runs out of fuel). -/
def parse_func_arguments_loop_freed (ext : parse_externals_t) :
    Nat → parse_ctx_t → ast_func_t → Nat → Nat →
      Option (Option (List (Option (Option String))) × Nat)
  | 0, _, _, _, _ => none
  | fuel + 1, ctx, func, capacity, backfill =>
    if ctx.token_id ctx.i == TOKEN_CLOSE then none
    else
      match parse_ignore_newlines ctx "Expected function argument" with
      | .error _ => some (func.arg_names, backfill)
      | .ok ctx =>
      let g := parse_func_grow_arguments func backfill capacity
      let func := g.1
      let capacity := g.2
      match parse_func_argument ext ctx func capacity backfill with
      | .error _ => parse_func_argument_freed ext ctx func capacity backfill
      | .ok (ctx, func, backfill, is_solid) =>
      if !is_solid then parse_func_arguments_loop_freed ext fuel ctx func capacity backfill
      else
        let takes_variable_arity :=
          func.traits.has AST_FUNC_VARARG || func.traits.has AST_FUNC_VARIADIC
        match parse_ignore_newlines ctx "Expected type after ',' in argument list" with
        | .error _ => some (func.arg_names, backfill)
        | .ok ctx =>
        if ctx.token_id ctx.i == TOKEN_NEXT && !takes_variable_arity then
          let ctx := { ctx with i := ctx.i + 1 }
          if ctx.token_id ctx.i == TOKEN_CLOSE then some (func.arg_names, backfill)
          else parse_func_arguments_loop_freed ext fuel ctx func capacity backfill
        else if ctx.token_id ctx.i != TOKEN_CLOSE then some (func.arg_names, backfill)
        else parse_func_arguments_loop_freed ext fuel ctx func capacity backfill

/-- The call of `parse_free_unbackfilled_arguments` that a failing
`parse_func_arguments` makes: the one of its loop, or the one of the final test
of the pending count; `none` when it succeeds, and when it fails before the
list. -/
def parse_func_arguments_freed (ext : parse_externals_t) (fuel : Nat) (ctx : parse_ctx_t)
    (func : ast_func_t) : Option (Option (List (Option (Option String))) × Nat) :=
  let backfill := 0
  let capacity := 0
  let func := { func with variadic_arg_name := none }
  match parse_ignore_newlines ctx "Expected '(' after function name" with
  | .error _ => none
  | .ok ctx =>
  let r : Option (ast_func_t × Nat) :=
    match ctx.composite_association with
    | none => some (func, capacity)
    | some composite =>
      if func.traits.has AST_FUNC_FOREIGN then none
      else
        let g := parse_func_grow_arguments func backfill capacity
        let func := g.1
        some ({ func with
                arg_types := (func.arg_types.set 0 (some (parse_func_this_type composite)))
                arg_names := (func.arg_names.map (fun names => names.set 0 (some (some "this"))))
                arg_sources := (func.arg_sources.set 0 (some composite.source))
                arg_flows := (func.arg_flows.set 0 (some FLOW_IN))
                arg_type_traits := (func.arg_type_traits.set 0 (some TRAIT_NONE))
                arity := func.arity + 1 }, g.2)
  match r with
  | none => none
  | some (func, capacity) =>
  if ctx.token_id ctx.i != TOKEN_OPEN then none
  else
    let ctx := { ctx with i := ctx.i + 1, allow_polymorphic_prereqs := true }
    match parse_func_arguments_loop ext fuel ctx func capacity backfill with
    | .error _ => parse_func_arguments_loop_freed ext fuel ctx func capacity backfill
    | .ok (_, func, backfill) =>
    if backfill != 0 then some (func.arg_names, backfill) else none

/-- The tokens of `foreign f(a, $T c)`: the word before the `,` is a type, and
the list fails at `c`, which no `,` parts from the type before it, no names array
being there. -/
def tokens_foreign_words : List token_t :=
  [⟨TOKEN_FOREIGN, ""⟩, ⟨TOKEN_WORD, "f"⟩, ⟨TOKEN_OPEN, ""⟩, ⟨TOKEN_WORD, "a"⟩,
   ⟨TOKEN_NEXT, ""⟩, ⟨TOKEN_POLYMORPH, "T"⟩, ⟨TOKEN_WORD, "c"⟩, ⟨TOKEN_CLOSE, ""⟩]

/-- The state of the loop of `parse_func_arguments` as the calls of
`parse_free_unbackfilled_arguments` need it: a foreign function has no argument
pending, and a function that is not foreign has its names array, or else its
arrays are not allocated yet and no argument is pending. -/
def parse_func_arguments_names_ok (func : ast_func_t) (capacity backfill : Nat) : Prop :=
  (func.traits.has AST_FUNC_FOREIGN = true ∧ backfill = 0)
  ∨ (func.traits.has AST_FUNC_FOREIGN = false
    ∧ (func.arg_names.isSome = true ∨ (capacity = 0 ∧ backfill = 0)))

/-! ## The start of the argument loop -/

/-- Lines 377-426 of `parse_func_arguments`, for a function that is not refused
there: the function and the capacity of its arrays when the argument loop
starts. `variadic_arg_name` is cleared (line 379), and in the domain of a
composite `this` is the first argument (lines 383-426). -/
def parse_func_arguments_begin (ctx : parse_ctx_t) (func : ast_func_t) : ast_func_t × Nat :=
  let backfill := 0
  let capacity := 0
  let func := { func with variadic_arg_name := none }
  match ctx.composite_association with
  | none => (func, capacity)
  | some composite =>
    let g := parse_func_grow_arguments func backfill capacity
    let func := g.1
    ({ func with
       arg_types := (func.arg_types.set 0 (some (parse_func_this_type composite)))
       arg_names := (func.arg_names.map (fun names => names.set 0 (some (some "this"))))
       arg_sources := (func.arg_sources.set 0 (some composite.source))
       arg_flows := (func.arg_flows.set 0 (some FLOW_IN))
       arg_type_traits := (func.arg_type_traits.set 0 (some TRAIT_NONE))
       arity := func.arity + 1 }, g.2)

/-- For the examples: of a var-fixed-array whose length is a polycount expression,
`true` with the name and the source of the expression; of a polycount element,
`false` with its name and source; of any other element, nothing. -/
def ast_elem_t.polycount_of : ast_elem_t → Option (Bool × String × source_t)
  | .var_fixed_array (.polycount name source) _ => some (true, name, source)
  | .polycount name source => some (false, name, source)
  | _ => none

/-! ## Structural identity is symmetric and transitive -/

theorem ast_expr_identical_symm (a b : ast_expr_t) (h : ast_expr_identical a b = true) :
    ast_expr_identical b a = true := by
  cases a <;> cases b <;> simp_all [ast_expr_identical]

theorem ast_expr_identical_trans (a b c : ast_expr_t) (h : ast_expr_identical a b = true)
    (h2 : ast_expr_identical b c = true) : ast_expr_identical a c = true := by
  cases a <;> cases b <;> cases c <;> simp_all [ast_expr_identical]

mutual
theorem ast_elem_identical_symm : ∀ a b : ast_elem_t,
    ast_elem_identical a b = true → ast_elem_identical b a = true
  | .base _ _, .base _ _, h => by simp_all [ast_elem_identical]
  | .pointer _, .pointer _, _ => by simp [ast_elem_identical]
  | .fixed_array _ _, .fixed_array _ _, h => by simp_all [ast_elem_identical]
  | .var_fixed_array e _, .var_fixed_array f _, h => by
      simp only [ast_elem_identical] at h ⊢
      exact ast_expr_identical_symm _ _ h
  | .polymorph _ _ _, .polymorph _ _ _, h => by simp_all [ast_elem_identical]
  | .polycount _ _, .polycount _ _, h => by simp_all [ast_elem_identical]
  | .generic_base n g p _, .generic_base m k q _, h => by
      simp only [ast_elem_identical, Bool.and_eq_true, beq_iff_eq] at h ⊢
      exact ⟨⟨h.1.1.symm, h.1.2.symm⟩, ast_elems_list_identical_symm g k h.2⟩
  | .func a r _, .func b s _, h => by
      simp only [ast_elem_identical, Bool.and_eq_true] at h ⊢
      exact ⟨ast_elems_list_identical_symm a b h.1, ast_elems_identical_symm r s h.2⟩
theorem ast_elems_identical_symm : ∀ a b : List ast_elem_t,
    ast_elems_identical a b = true → ast_elems_identical b a = true
  | [], [], _ => by simp [ast_elems_identical]
  | x :: xs, y :: ys, h => by
      simp only [ast_elems_identical, Bool.and_eq_true] at h ⊢
      exact ⟨ast_elem_identical_symm x y h.1, ast_elems_identical_symm xs ys h.2⟩
theorem ast_elems_list_identical_symm : ∀ a b : List (List ast_elem_t),
    ast_elems_list_identical a b = true → ast_elems_list_identical b a = true
  | [], [], _ => by simp [ast_elems_list_identical]
  | x :: xs, y :: ys, h => by
      simp only [ast_elems_list_identical, Bool.and_eq_true] at h ⊢
      exact ⟨ast_elems_identical_symm x y h.1, ast_elems_list_identical_symm xs ys h.2⟩
end

mutual
theorem ast_elem_identical_trans : ∀ a b c : ast_elem_t,
    ast_elem_identical a b = true → ast_elem_identical b c = true →
    ast_elem_identical a c = true
  | .base _ _, .base _ _, .base _ _, h, h2 => by simp_all [ast_elem_identical]
  | .pointer _, .pointer _, .pointer _, _, _ => by simp [ast_elem_identical]
  | .fixed_array _ _, .fixed_array _ _, .fixed_array _ _, h, h2 => by
      simp_all [ast_elem_identical]
  | .var_fixed_array e _, .var_fixed_array f _, .var_fixed_array g _, h, h2 => by
      simp only [ast_elem_identical] at h h2 ⊢
      exact ast_expr_identical_trans _ _ _ h h2
  | .polymorph _ _ _, .polymorph _ _ _, .polymorph _ _ _, h, h2 => by
      simp_all [ast_elem_identical]
  | .polycount _ _, .polycount _ _, .polycount _ _, h, h2 => by simp_all [ast_elem_identical]
  | .generic_base n g p _, .generic_base m k q _, .generic_base o l r _, h, h2 => by
      simp only [ast_elem_identical, Bool.and_eq_true, beq_iff_eq] at h h2 ⊢
      exact ⟨⟨h.1.1.trans h2.1.1, h.1.2.trans h2.1.2⟩,
        ast_elems_list_identical_trans g k l h.2 h2.2⟩
  | .func a r _, .func b s _, .func c t _, h, h2 => by
      simp only [ast_elem_identical, Bool.and_eq_true] at h h2 ⊢
      exact ⟨ast_elems_list_identical_trans a b c h.1 h2.1,
        ast_elems_identical_trans r s t h.2 h2.2⟩
theorem ast_elems_identical_trans : ∀ a b c : List ast_elem_t,
    ast_elems_identical a b = true → ast_elems_identical b c = true →
    ast_elems_identical a c = true
  | [], [], [], _, _ => by simp [ast_elems_identical]
  | x :: xs, y :: ys, z :: zs, h, h2 => by
      simp only [ast_elems_identical, Bool.and_eq_true] at h h2 ⊢
      exact ⟨ast_elem_identical_trans x y z h.1 h2.1, ast_elems_identical_trans xs ys zs h.2 h2.2⟩
theorem ast_elems_list_identical_trans : ∀ a b c : List (List ast_elem_t),
    ast_elems_list_identical a b = true → ast_elems_list_identical b c = true →
    ast_elems_list_identical a c = true
  | [], [], [], _, _ => by simp [ast_elems_list_identical]
  | x :: xs, y :: ys, z :: zs, h, h2 => by
      simp only [ast_elems_list_identical, Bool.and_eq_true] at h h2 ⊢
      exact ⟨ast_elems_identical_trans x y z h.1 h2.1,
        ast_elems_list_identical_trans xs ys zs h.2 h2.2⟩
end

theorem ast_expr_identical_refl (a : ast_expr_t) : ast_expr_identical a a = true := by
  cases a <;> simp [ast_expr_identical]

mutual
theorem ast_elem_identical_refl : ∀ a : ast_elem_t, ast_elem_identical a a = true
  | .base _ _ => by simp [ast_elem_identical]
  | .pointer _ => by simp [ast_elem_identical]
  | .fixed_array _ _ => by simp [ast_elem_identical]
  | .var_fixed_array e _ => by simp [ast_elem_identical, ast_expr_identical_refl]
  | .polymorph _ _ _ => by simp [ast_elem_identical]
  | .polycount _ _ => by simp [ast_elem_identical]
  | .generic_base _ g _ _ => by
      simp [ast_elem_identical, ast_elems_list_identical_refl g]
  | .func a r _ => by
      simp [ast_elem_identical, ast_elems_list_identical_refl a, ast_elems_identical_refl r]
theorem ast_elems_identical_refl : ∀ a : List ast_elem_t, ast_elems_identical a a = true
  | [] => by simp [ast_elems_identical]
  | x :: xs => by
      simp [ast_elems_identical, ast_elem_identical_refl x, ast_elems_identical_refl xs]
theorem ast_elems_list_identical_refl :
    ∀ a : List (List ast_elem_t), ast_elems_list_identical a a = true
  | [] => by simp [ast_elems_list_identical]
  | x :: xs => by
      simp [ast_elems_list_identical, ast_elems_identical_refl x,
        ast_elems_list_identical_refl xs]
end

/-- Identical element sequences have the same length. -/
theorem ast_elems_identical_length : ∀ a b : List ast_elem_t,
    ast_elems_identical a b = true → a.length = b.length
  | [], [], _ => rfl
  | x :: xs, y :: ys, h => by
      simp only [ast_elems_identical, Bool.and_eq_true] at h
      simp [ast_elems_identical_length xs ys h.2]

theorem ast_types_identical_refl (a : ast_type_t) : ast_types_identical a a = true :=
  ast_elems_identical_refl _

/-- A clone is structurally identical to its original. -/
theorem ast_types_identical_clone (a : ast_type_t) :
    ast_types_identical a (ast_type_clone a) = true :=
  ast_elems_identical_refl _

theorem ast_types_identical_symm (a b : ast_type_t) (h : ast_types_identical a b = true) :
    ast_types_identical b a = true :=
  ast_elems_identical_symm _ _ h

theorem ast_types_identical_trans (a b c : ast_type_t) (h : ast_types_identical a b = true)
    (h2 : ast_types_identical b c = true) : ast_types_identical a c = true :=
  ast_elems_identical_trans _ _ _ h h2

/-- Two queries identical to one type hit the same entries. -/
theorem ir_gen_sf_cache_hit_congr (t1 t2 t : ast_type_t)
    (h1 : ast_types_identical t1 t = true) (h2 : ast_types_identical t2 t = true) :
    ir_gen_sf_cache_hit t2 = ir_gen_sf_cache_hit t1 := by
  funext e
  unfold ir_gen_sf_cache_hit
  have h12 : ast_types_identical t1 t2 = true :=
    ast_types_identical_trans _ _ _ h1 (ast_types_identical_symm _ _ h2)
  have h21 := ast_types_identical_symm _ _ h12
  cases ha : ast_types_identical t1 e.ast_type <;> cases hb : ast_types_identical t2 e.ast_type
  · rfl
  · have := ast_types_identical_trans _ _ _ h12 hb
    simp_all
  · have := ast_types_identical_trans _ _ _ h21 ha
    simp_all
  · rfl

/-! ## The chain walk -/

/-- The walk returns the position of the first hit among `entry :: next`, or the
length of the chain when there is none. -/
theorem ir_gen_sf_cache_walk_snd (type : ast_type_t) :
    ∀ (next : List ir_gen_sf_cache_entry_t) (entry : ir_gen_sf_cache_entry_t),
      (ir_gen_sf_cache_walk type entry next).2
        = (entry :: next).findIdx (ir_gen_sf_cache_hit type)
  | [], entry => by
      by_cases h : ast_types_identical type entry.ast_type = true <;>
        simp [ir_gen_sf_cache_walk, List.findIdx_cons, ir_gen_sf_cache_hit, h]
  | e :: rest, entry => by
      have ih := ir_gen_sf_cache_walk_snd type rest e
      by_cases h : ast_types_identical type entry.ast_type = true
      · simp [ir_gen_sf_cache_walk, List.findIdx_cons, ir_gen_sf_cache_hit, h]
      · rw [List.findIdx_cons]
        simp only [ir_gen_sf_cache_walk, h, ir_gen_sf_cache_hit, Bool.false_eq_true, if_false,
          cond_false, ih]

/-- The walk leaves the chain alone on a hit and appends the new entry on a miss. -/
theorem ir_gen_sf_cache_walk_fst (type : ast_type_t) :
    ∀ (next : List ir_gen_sf_cache_entry_t) (entry : ir_gen_sf_cache_entry_t),
      (ir_gen_sf_cache_walk type entry next).1
        = if (entry :: next).any (ir_gen_sf_cache_hit type) then next
          else next ++ [ir_gen_sf_cache_new_entry type]
  | [], entry => by
      by_cases h : ast_types_identical type entry.ast_type = true <;>
        simp [ir_gen_sf_cache_walk, ir_gen_sf_cache_hit, h]
  | e :: rest, entry => by
      have ih := ir_gen_sf_cache_walk_fst type rest e
      by_cases h : ast_types_identical type entry.ast_type = true
      · simp [ir_gen_sf_cache_walk, ir_gen_sf_cache_hit, h]
      · simp only [ir_gen_sf_cache_walk, h, Bool.false_eq_true, if_false, ih]
        by_cases h2 : (e :: rest).any (ir_gen_sf_cache_hit type) = true
        · simp [h2, List.any_cons]
        · have h3 : (entry :: e :: rest).any (ir_gen_sf_cache_hit type) = false := by
            rw [List.any_cons]
            simp only [Bool.not_eq_true] at h h2
            simp [ir_gen_sf_cache_hit, h, h2]
          simp only [Bool.not_eq_true] at h2
          rw [h3, h2]
          simp

/-! ## One element of `storage` -/

theorem ir_gen_sf_cache_slot_entries_after (type : ast_type_t) (slot : ir_gen_sf_cache_slot_t)
    (hok : ir_gen_sf_cache_slot_ok slot) (htype : 1 ≤ type.elements_length) :
    ir_gen_sf_cache_slot_entries (ir_gen_sf_cache_slot_locate_or_insert type slot).1
      = if (ir_gen_sf_cache_slot_entries slot).any (ir_gen_sf_cache_hit type)
        then ir_gen_sf_cache_slot_entries slot
        else ir_gen_sf_cache_slot_entries slot ++ [ir_gen_sf_cache_new_entry type] := by
  unfold ir_gen_sf_cache_slot_locate_or_insert ir_gen_sf_cache_slot_entries
  by_cases hocc : ir_gen_sf_cache_entry_is_occupied slot.entry = true
  · simp only [hocc, if_true, ir_gen_sf_cache_walk_fst]
    by_cases hany : (slot.entry :: slot.next).any (ir_gen_sf_cache_hit type) = true
    · simp [hany]
    · simp only [Bool.not_eq_true] at hany
      simp [hany]
  · simp only [Bool.not_eq_true] at hocc
    have hnext := hok hocc
    have hnew : ir_gen_sf_cache_entry_is_occupied
        { slot.entry with ast_type := ast_type_clone type, has_pass := TROOLEAN_UNKNOWN,
                          has_defer := TROOLEAN_UNKNOWN, has_assign := TROOLEAN_UNKNOWN } = true := by
      simp [ir_gen_sf_cache_entry_is_occupied, ast_type_clone]
      omega
    simp [hocc, hnew, hnext, ir_gen_sf_cache_new_entry]

theorem ir_gen_sf_cache_slot_depth (type : ast_type_t) (slot : ir_gen_sf_cache_slot_t) :
    (ir_gen_sf_cache_slot_locate_or_insert type slot).2
      = (ir_gen_sf_cache_slot_entries slot).findIdx (ir_gen_sf_cache_hit type) := by
  unfold ir_gen_sf_cache_slot_locate_or_insert ir_gen_sf_cache_slot_entries
  by_cases hocc : ir_gen_sf_cache_entry_is_occupied slot.entry = true
  · simp only [hocc, if_true, ir_gen_sf_cache_walk_snd]
  · simp [hocc]

theorem ir_gen_sf_cache_slot_hit (type : ast_type_t) (slot : ir_gen_sf_cache_slot_t)
    (hany : (ir_gen_sf_cache_slot_entries slot).any (ir_gen_sf_cache_hit type) = true) :
    (ir_gen_sf_cache_slot_locate_or_insert type slot).1 = slot := by
  unfold ir_gen_sf_cache_slot_locate_or_insert
  unfold ir_gen_sf_cache_slot_entries at hany
  by_cases hocc : ir_gen_sf_cache_entry_is_occupied slot.entry = true
  · simp only [hocc, if_true] at hany ⊢
    rw [ir_gen_sf_cache_walk_fst, hany]
    simp
  · simp [hocc] at hany

theorem ir_gen_sf_cache_slot_ok_after (type : ast_type_t) (slot : ir_gen_sf_cache_slot_t)
    (hok : ir_gen_sf_cache_slot_ok slot) :
    ir_gen_sf_cache_slot_ok (ir_gen_sf_cache_slot_locate_or_insert type slot).1 := by
  unfold ir_gen_sf_cache_slot_ok ir_gen_sf_cache_slot_locate_or_insert
  by_cases hocc : ir_gen_sf_cache_entry_is_occupied slot.entry = true
  · simp [hocc]
  · simp only [Bool.not_eq_true] at hocc
    simp [hocc, hok hocc]

/-- The entries before a call are a prefix of the entries after it, whatever the
slot and the type. -/
theorem ir_gen_sf_cache_slot_entries_mono (type : ast_type_t) (slot : ir_gen_sf_cache_slot_t) :
    ir_gen_sf_cache_slot_entries slot
      <+: ir_gen_sf_cache_slot_entries (ir_gen_sf_cache_slot_locate_or_insert type slot).1 := by
  unfold ir_gen_sf_cache_slot_locate_or_insert ir_gen_sf_cache_slot_entries
  by_cases hocc : ir_gen_sf_cache_entry_is_occupied slot.entry = true
  · simp only [hocc, if_true, ir_gen_sf_cache_walk_fst]
    by_cases hany : (slot.entry :: slot.next).any (ir_gen_sf_cache_hit type) = true
    · simp [hany]
    · simp only [Bool.not_eq_true] at hany
      simp only [hany, Bool.false_eq_true, if_false]
      exact ⟨[ir_gen_sf_cache_new_entry type], by simp⟩
  · simp only [Bool.not_eq_true] at hocc
    simp only [hocc, Bool.false_eq_true, if_false]
    exact List.nil_prefix

/-! ## The whole cache -/

theorem ir_gen_sf_cache_init_wf : ir_gen_sf_cache_wf ir_gen_sf_cache_init := by
  refine ⟨by decide, by simp [ir_gen_sf_cache_init], ?_⟩
  intro slot hslot
  simp only [ir_gen_sf_cache_init, List.mem_replicate] at hslot
  rw [hslot.2]
  intro _
  rfl

theorem ir_gen_sf_cache_locate_or_insert_wf (hash : ast_type_t → hash_t)
    (cache : ir_gen_sf_cache_t) (type : ast_type_t) (hwf : ir_gen_sf_cache_wf cache) :
    ir_gen_sf_cache_wf (ir_gen_sf_cache_locate_or_insert hash cache type).1 := by
  obtain ⟨hcap, hlen, hok⟩ := hwf
  unfold ir_gen_sf_cache_locate_or_insert
  have hidx : hash type % cache.capacity < cache.storage.length := by
    rw [hlen]; exact Nat.mod_lt _ hcap
  simp only [List.getElem?_eq_getElem hidx]
  refine ⟨hcap, by simpa using hlen, ?_⟩
  intro slot hslot
  rcases List.mem_or_eq_of_mem_set hslot with h | h
  · exact hok slot h
  · rw [h]
    exact ir_gen_sf_cache_slot_ok_after type _ (hok _ (List.getElem_mem hidx))

theorem ir_gen_sf_cache_reachable_wf (hash : ast_type_t → hash_t) (cache : ir_gen_sf_cache_t)
    (h : ir_gen_sf_cache_reachable hash cache) : ir_gen_sf_cache_wf cache := by
  induction h with
  | init => exact ir_gen_sf_cache_init_wf
  | locate_or_insert cache type _ _ ih => exact ir_gen_sf_cache_locate_or_insert_wf hash cache type ih

/-- The bucket of the query after the call. -/
theorem ir_gen_sf_cache_bucket_after (hash : ast_type_t → hash_t) (cache : ir_gen_sf_cache_t)
    (type : ast_type_t) (hwf : ir_gen_sf_cache_wf cache) (htype : 1 ≤ type.elements_length) :
    ir_gen_sf_cache_bucket (ir_gen_sf_cache_locate_or_insert hash cache type).1
        (hash type % cache.capacity)
      = if (ir_gen_sf_cache_bucket cache (hash type % cache.capacity)).any
            (ir_gen_sf_cache_hit type)
        then ir_gen_sf_cache_bucket cache (hash type % cache.capacity)
        else ir_gen_sf_cache_bucket cache (hash type % cache.capacity)
          ++ [ir_gen_sf_cache_new_entry type] := by
  obtain ⟨hcap, hlen, hok⟩ := hwf
  have hidx : hash type % cache.capacity < cache.storage.length := by
    rw [hlen]; exact Nat.mod_lt _ hcap
  unfold ir_gen_sf_cache_locate_or_insert ir_gen_sf_cache_bucket
  simp only [List.getElem?_eq_getElem hidx, List.getElem?_set_self hidx]
  exact ir_gen_sf_cache_slot_entries_after type _ (hok _ (List.getElem_mem hidx)) htype

theorem ir_gen_sf_cache_locate_or_insert_none (hash : ast_type_t → hash_t)
    (cache : ir_gen_sf_cache_t) (type : ast_type_t)
    (h : cache.storage[hash type % cache.capacity]? = none) :
    ir_gen_sf_cache_locate_or_insert hash cache type
      = (cache, ⟨hash type % cache.capacity, 0⟩) := by
  unfold ir_gen_sf_cache_locate_or_insert
  simp only [h]

theorem ir_gen_sf_cache_locate_or_insert_some (hash : ast_type_t → hash_t)
    (cache : ir_gen_sf_cache_t) (type : ast_type_t) (slot : ir_gen_sf_cache_slot_t)
    (h : cache.storage[hash type % cache.capacity]? = some slot) :
    ir_gen_sf_cache_locate_or_insert hash cache type
      = (⟨cache.capacity, cache.storage.set (hash type % cache.capacity)
              (ir_gen_sf_cache_slot_locate_or_insert type slot).1⟩,
          ⟨hash type % cache.capacity, (ir_gen_sf_cache_slot_locate_or_insert type slot).2⟩) := by
  unfold ir_gen_sf_cache_locate_or_insert
  simp only [h]

/-- The other buckets after the call. -/
theorem ir_gen_sf_cache_bucket_other (hash : ast_type_t → hash_t) (cache : ir_gen_sf_cache_t)
    (type : ast_type_t) (b : Nat) (hb : b ≠ hash type % cache.capacity) :
    ir_gen_sf_cache_bucket (ir_gen_sf_cache_locate_or_insert hash cache type).1 b
      = ir_gen_sf_cache_bucket cache b := by
  cases hget : cache.storage[hash type % cache.capacity]? with
  | none => rw [ir_gen_sf_cache_locate_or_insert_none hash cache type hget]
  | some slot =>
    rw [ir_gen_sf_cache_locate_or_insert_some hash cache type slot hget]
    unfold ir_gen_sf_cache_bucket
    simp only
    rw [List.getElem?_set_ne (Ne.symm hb)]

/-- The pointer the call returns. -/
theorem ir_gen_sf_cache_ptr_after (hash : ast_type_t → hash_t) (cache : ir_gen_sf_cache_t)
    (type : ast_type_t) (hwf : ir_gen_sf_cache_wf cache) :
    (ir_gen_sf_cache_locate_or_insert hash cache type).2
      = ⟨hash type % cache.capacity,
          (ir_gen_sf_cache_bucket cache (hash type % cache.capacity)).findIdx
            (ir_gen_sf_cache_hit type)⟩ := by
  obtain ⟨hcap, hlen, hok⟩ := hwf
  have hidx : hash type % cache.capacity < cache.storage.length := by
    rw [hlen]; exact Nat.mod_lt _ hcap
  unfold ir_gen_sf_cache_locate_or_insert ir_gen_sf_cache_bucket
  simp only [List.getElem?_eq_getElem hidx, ir_gen_sf_cache_slot_depth]

/-- Writing back the element read changes nothing. -/
theorem list_set_getElem_same {α : Type} :
    ∀ (l : List α) (i : Nat) (h : i < l.length), l.set i l[i] = l
  | _ :: _, 0, _ => rfl
  | a :: l, i + 1, h => by
      simp only [List.set_cons_succ, List.getElem_cons_succ]
      rw [list_set_getElem_same l i (by simpa using h)]

/-- A hit writes nothing. -/
theorem ir_gen_sf_cache_unchanged_of_hit (hash : ast_type_t → hash_t)
    (cache : ir_gen_sf_cache_t) (type : ast_type_t)
    (hany : (ir_gen_sf_cache_bucket cache (hash type % cache.capacity)).any
      (ir_gen_sf_cache_hit type) = true) :
    (ir_gen_sf_cache_locate_or_insert hash cache type).1 = cache := by
  unfold ir_gen_sf_cache_bucket at hany
  cases hget : cache.storage[hash type % cache.capacity]? with
  | none => rw [ir_gen_sf_cache_locate_or_insert_none hash cache type hget]
  | some slot =>
    rw [ir_gen_sf_cache_locate_or_insert_some hash cache type slot hget]
    rw [hget] at hany
    simp only at hany ⊢
    rw [ir_gen_sf_cache_slot_hit type slot hany]
    have hlt : hash type % cache.capacity < cache.storage.length := by
      by_contra hnot
      rw [List.getElem?_eq_none (Nat.le_of_not_lt hnot)] at hget
      cases hget
    have hslot : cache.storage[hash type % cache.capacity] = slot := by
      rw [List.getElem?_eq_getElem hlt] at hget
      exact Option.some.inj hget
    rw [← hslot, list_set_getElem_same _ _ hlt]

/-- Every bucket before a call is a prefix of the same bucket after it. -/
theorem ir_gen_sf_cache_bucket_mono (hash : ast_type_t → hash_t) (cache : ir_gen_sf_cache_t)
    (type : ast_type_t) (b : Nat) :
    ir_gen_sf_cache_bucket cache b
      <+: ir_gen_sf_cache_bucket (ir_gen_sf_cache_locate_or_insert hash cache type).1 b := by
  by_cases hb : b = hash type % cache.capacity
  · subst hb
    cases hget : cache.storage[hash type % cache.capacity]? with
    | none =>
      rw [ir_gen_sf_cache_locate_or_insert_none hash cache type hget]
    | some slot =>
      rw [ir_gen_sf_cache_locate_or_insert_some hash cache type slot hget]
      unfold ir_gen_sf_cache_bucket
      rw [hget]
      have hlt : hash type % cache.capacity < cache.storage.length := by
        by_contra hnot
        rw [List.getElem?_eq_none (Nat.le_of_not_lt hnot)] at hget
        cases hget
      simp only [List.getElem?_set_self hlt]
      exact ir_gen_sf_cache_slot_entries_mono type slot
  · rw [ir_gen_sf_cache_bucket_other hash cache type b hb]

/-- Replacing one element of a list moves the sum of a measure by the difference
of the two measures. -/
theorem list_sum_map_set {α : Type} (f : α → Nat) :
    ∀ (l : List α) (i : Nat) (x : α) (h : i < l.length),
      ((l.set i x).map f).sum + f (l[i]) = (l.map f).sum + f x
  | a :: l, 0, x, _ => by simp; omega
  | a :: l, i + 1, x, h => by
      have ih := list_sum_map_set f l i x (by simpa using h)
      simp only [List.set_cons_succ, List.map_cons, List.sum_cons, List.getElem_cons_succ]
      omega

/-- The entry count after a call. -/
theorem ir_gen_sf_cache_count_after (hash : ast_type_t → hash_t) (cache : ir_gen_sf_cache_t)
    (type : ast_type_t) (hwf : ir_gen_sf_cache_wf cache) (htype : 1 ≤ type.elements_length) :
    ir_gen_sf_cache_count (ir_gen_sf_cache_locate_or_insert hash cache type).1
      = if (ir_gen_sf_cache_bucket cache (hash type % cache.capacity)).any
            (ir_gen_sf_cache_hit type)
        then ir_gen_sf_cache_count cache else ir_gen_sf_cache_count cache + 1 := by
  by_cases hany : (ir_gen_sf_cache_bucket cache (hash type % cache.capacity)).any
      (ir_gen_sf_cache_hit type) = true
  · rw [ir_gen_sf_cache_unchanged_of_hit hash cache type hany]
    simp [hany]
  · simp only [Bool.not_eq_true] at hany
    have hafter := ir_gen_sf_cache_bucket_after hash cache type hwf htype
    obtain ⟨hcap, hlen, hok⟩ := hwf
    have hidx : hash type % cache.capacity < cache.storage.length := by
      rw [hlen]; exact Nat.mod_lt _ hcap
    simp only [hany, Bool.false_eq_true, if_false] at hafter ⊢
    unfold ir_gen_sf_cache_locate_or_insert ir_gen_sf_cache_bucket at hafter
    simp only [List.getElem?_eq_getElem hidx, List.getElem?_set_self hidx] at hafter
    unfold ir_gen_sf_cache_locate_or_insert ir_gen_sf_cache_count
    simp only [List.getElem?_eq_getElem hidx]
    have hsum := list_sum_map_set (fun slot => (ir_gen_sf_cache_slot_entries slot).length)
      cache.storage (hash type % cache.capacity)
      (ir_gen_sf_cache_slot_locate_or_insert type cache.storage[hash type % cache.capacity]).1 hidx
    simp only [hafter, List.length_append, List.length_singleton] at hsum
    omega

theorem ir_gen_sf_cache_bucket_init (b : Nat) :
    ir_gen_sf_cache_bucket ir_gen_sf_cache_init b = [] := by
  unfold ir_gen_sf_cache_bucket ir_gen_sf_cache_init
  by_cases hb : b < IR_GEN_SF_CACHE_SIZE
  · rw [List.getElem?_eq_getElem (by simpa using hb)]
    simp [ir_gen_sf_cache_slot_entries, ir_gen_sf_cache_entry_is_occupied,
      ir_gen_sf_cache_entry_zero, ast_type_t.elements_length]
  · rw [List.getElem?_eq_none (by simpa using hb)]

/-- In a bucket that holds an entry, a pointer designates the entry at its depth. -/
theorem ir_gen_sf_cache_deref_bucket (cache : ir_gen_sf_cache_t) (b k : Nat)
    (h : ir_gen_sf_cache_bucket cache b ≠ []) :
    ir_gen_sf_cache_deref cache ⟨b, k⟩ = (ir_gen_sf_cache_bucket cache b)[k]? := by
  unfold ir_gen_sf_cache_deref
  unfold ir_gen_sf_cache_bucket at h ⊢
  cases hget : cache.storage[b]? with
  | none => simp [hget] at h
  | some slot =>
    simp only [hget] at h ⊢
    unfold ir_gen_sf_cache_slot_entries at h ⊢
    by_cases hocc : ir_gen_sf_cache_entry_is_occupied slot.entry = true
    · simp [hocc]
    · simp [hocc] at h

/-- The position of the first hit of a list is kept by every extension of it. -/
theorem list_findIdx_of_extension {α : Type} (p : α → Bool) (l l2 : List α) (hpre : l <+: l2)
    (h : l.findIdx p < l.length) : l2.findIdx p = l.findIdx p := by
  obtain ⟨t, rfl⟩ := hpre
  rw [List.findIdx_append]
  simp [h]

/-- The length of the entry list of a slot grows by at most one. -/
theorem ir_gen_sf_cache_slot_entries_length (type : ast_type_t)
    (slot : ir_gen_sf_cache_slot_t) (hok : ir_gen_sf_cache_slot_ok slot) :
    (ir_gen_sf_cache_slot_entries (ir_gen_sf_cache_slot_locate_or_insert type slot).1).length
        = (ir_gen_sf_cache_slot_entries slot).length
      ∨ (ir_gen_sf_cache_slot_entries (ir_gen_sf_cache_slot_locate_or_insert type slot).1).length
        = (ir_gen_sf_cache_slot_entries slot).length + 1 := by
  by_cases htype : 1 ≤ type.elements_length
  · rw [ir_gen_sf_cache_slot_entries_after type slot hok htype]
    by_cases hany : (ir_gen_sf_cache_slot_entries slot).any (ir_gen_sf_cache_hit type) = true
    · simp [hany]
    · simp [hany]
  · unfold ir_gen_sf_cache_slot_locate_or_insert ir_gen_sf_cache_slot_entries
    by_cases hocc : ir_gen_sf_cache_entry_is_occupied slot.entry = true
    · simp only [hocc, if_true, ir_gen_sf_cache_walk_fst]
      by_cases hany : (slot.entry :: slot.next).any (ir_gen_sf_cache_hit type) = true
      · simp [hany]
      · simp only [Bool.not_eq_true] at hany
        simp [hany]
    · simp only [Bool.not_eq_true] at hocc
      have hnew : ir_gen_sf_cache_entry_is_occupied
          { slot.entry with ast_type := ast_type_clone type, has_pass := TROOLEAN_UNKNOWN,
                            has_defer := TROOLEAN_UNKNOWN, has_assign := TROOLEAN_UNKNOWN }
            = false := by
        simp only [ir_gen_sf_cache_entry_is_occupied, ast_type_clone, bne_eq_false_iff_eq]
        omega
      simp [hocc, hnew]

/-- The entry count grows by nothing or by one, whatever the type. -/
theorem ir_gen_sf_cache_count_step (hash : ast_type_t → hash_t) (cache : ir_gen_sf_cache_t)
    (type : ast_type_t) (hwf : ir_gen_sf_cache_wf cache) :
    ir_gen_sf_cache_count (ir_gen_sf_cache_locate_or_insert hash cache type).1
        = ir_gen_sf_cache_count cache
      ∨ ir_gen_sf_cache_count (ir_gen_sf_cache_locate_or_insert hash cache type).1
        = ir_gen_sf_cache_count cache + 1 := by
  obtain ⟨hcap, hlen, hok⟩ := hwf
  have hidx : hash type % cache.capacity < cache.storage.length := by
    rw [hlen]; exact Nat.mod_lt _ hcap
  rw [ir_gen_sf_cache_locate_or_insert_some hash cache type _ (List.getElem?_eq_getElem hidx)]
  unfold ir_gen_sf_cache_count
  have hsum := list_sum_map_set (fun slot => (ir_gen_sf_cache_slot_entries slot).length)
    cache.storage (hash type % cache.capacity)
    (ir_gen_sf_cache_slot_locate_or_insert type cache.storage[hash type % cache.capacity]).1 hidx
  have hstep := ir_gen_sf_cache_slot_entries_length type
    cache.storage[hash type % cache.capacity] (hok _ (List.getElem_mem hidx))
  simp only at hsum ⊢
  omega

theorem ir_gen_sf_cache_run_mono (hash : ast_type_t → hash_t) (b : Nat) :
    ∀ (types : List ast_type_t) (cache : ir_gen_sf_cache_t),
      ir_gen_sf_cache_bucket cache b <+: ir_gen_sf_cache_bucket (ir_gen_sf_cache_run hash cache types) b
  | [], _ => List.prefix_refl _
  | t :: ts, cache =>
    (ir_gen_sf_cache_bucket_mono hash cache t b).trans
      (ir_gen_sf_cache_run_mono hash b ts (ir_gen_sf_cache_locate_or_insert hash cache t).1)

theorem ir_gen_sf_cache_run_wf (hash : ast_type_t → hash_t) :
    ∀ (types : List ast_type_t) (cache : ir_gen_sf_cache_t), ir_gen_sf_cache_wf cache →
      ir_gen_sf_cache_wf (ir_gen_sf_cache_run hash cache types)
  | [], _, h => h
  | t :: ts, cache, h =>
    ir_gen_sf_cache_run_wf hash ts _ (ir_gen_sf_cache_locate_or_insert_wf hash cache t h)

theorem ir_gen_sf_cache_run_capacity (hash : ast_type_t → hash_t) :
    ∀ (types : List ast_type_t) (cache : ir_gen_sf_cache_t),
      (ir_gen_sf_cache_run hash cache types).capacity = cache.capacity
  | [], _ => rfl
  | t :: ts, cache => by
    have h := ir_gen_sf_cache_run_capacity hash ts (ir_gen_sf_cache_locate_or_insert hash cache t).1
    have h2 : (ir_gen_sf_cache_locate_or_insert hash cache t).1.capacity = cache.capacity := by
      cases hget : cache.storage[hash t % cache.capacity]? with
      | none => rw [ir_gen_sf_cache_locate_or_insert_none hash cache t hget]
      | some slot => rw [ir_gen_sf_cache_locate_or_insert_some hash cache t slot hget]
    exact h.trans h2

/-- After a call on a well-formed type the first hit of that type in its bucket is
the entry returned. -/
theorem ir_gen_sf_cache_first_hit_after (hash : ast_type_t → hash_t) (cache : ir_gen_sf_cache_t)
    (type : ast_type_t) (hwf : ir_gen_sf_cache_wf cache) (htype : 1 ≤ type.elements_length) :
    (ir_gen_sf_cache_bucket (ir_gen_sf_cache_locate_or_insert hash cache type).1
        (hash type % cache.capacity)).findIdx (ir_gen_sf_cache_hit type)
      = (ir_gen_sf_cache_locate_or_insert hash cache type).2.depth
    ∧ (ir_gen_sf_cache_locate_or_insert hash cache type).2.depth
      < (ir_gen_sf_cache_bucket (ir_gen_sf_cache_locate_or_insert hash cache type).1
        (hash type % cache.capacity)).length := by
  rw [ir_gen_sf_cache_bucket_after hash cache type hwf htype,
    ir_gen_sf_cache_ptr_after hash cache type hwf]
  simp only
  by_cases hany : (ir_gen_sf_cache_bucket cache (hash type % cache.capacity)).any
      (ir_gen_sf_cache_hit type) = true
  · simp only [hany, if_true, true_and]
    exact List.findIdx_lt_length_of_exists (by simpa using hany)
  · simp only [Bool.not_eq_true] at hany
    simp only [hany, Bool.false_eq_true, if_false]
    have hnone : ∀ x ∈ ir_gen_sf_cache_bucket cache (hash type % cache.capacity),
        ir_gen_sf_cache_hit type x = false := by
      intro x hx
      have := List.any_eq_false.mp hany x hx
      simpa using this
    have hidx : (ir_gen_sf_cache_bucket cache (hash type % cache.capacity)).findIdx
        (ir_gen_sf_cache_hit type)
          = (ir_gen_sf_cache_bucket cache (hash type % cache.capacity)).length := by
      rw [List.findIdx_eq_length]
      intro x hx
      simp [hnone x hx]
    have hrefl : ir_gen_sf_cache_hit type (ir_gen_sf_cache_new_entry type) = true := by
      exact ast_types_identical_clone type
    rw [List.findIdx_append, hidx]
    simp [List.findIdx_cons, hrefl]

/-! ## The claims about the special-function cache -/

/-- C8. Stability of the special-function cache: in any cache state reached from
`ir_gen_sf_cache_init` by calls on well-formed types, with a hash that agrees on
structurally identical types, a call with a well-formed type identical to `T` and a
later call with another type identical to `T`, whatever calls come in between,
return the same pointer (same bucket, same depth in the chain), and the later call
leaves the cache as it found it. -/
theorem ir_gen_sf_cache_locate_or_insert_stable (hash : ast_type_t → hash_t)
    (hhash : ∀ a b, ast_types_identical a b = true → hash a = hash b)
    (cache : ir_gen_sf_cache_t) (hreach : ir_gen_sf_cache_reachable hash cache)
    (T T1 T2 : ast_type_t) (between : List ast_type_t)
    (h1 : ast_types_identical T1 T = true) (h2 : ast_types_identical T2 T = true)
    (hT1 : 1 ≤ T1.elements_length) :
    (ir_gen_sf_cache_locate_or_insert hash
        (ir_gen_sf_cache_run hash (ir_gen_sf_cache_locate_or_insert hash cache T1).1 between)
        T2).2
      = (ir_gen_sf_cache_locate_or_insert hash cache T1).2
    ∧ (ir_gen_sf_cache_locate_or_insert hash
        (ir_gen_sf_cache_run hash (ir_gen_sf_cache_locate_or_insert hash cache T1).1 between)
        T2).1
      = ir_gen_sf_cache_run hash (ir_gen_sf_cache_locate_or_insert hash cache T1).1 between := by
  have hwf := ir_gen_sf_cache_reachable_wf hash cache hreach
  have hwf1 := ir_gen_sf_cache_locate_or_insert_wf hash cache T1 hwf
  have hwf2 := ir_gen_sf_cache_run_wf hash between _ hwf1
  have hcap1 : (ir_gen_sf_cache_locate_or_insert hash cache T1).1.capacity = cache.capacity := by
    exact ir_gen_sf_cache_run_capacity hash [T1] cache
  have hcap2 := ir_gen_sf_cache_run_capacity hash between
    (ir_gen_sf_cache_locate_or_insert hash cache T1).1
  have hh : hash T2 = hash T1 := (hhash T2 T h2).trans (hhash T1 T h1).symm
  have hhit := ir_gen_sf_cache_hit_congr T1 T2 T h1 h2
  obtain ⟨hfirst, hlt⟩ := ir_gen_sf_cache_first_hit_after hash cache T1 hwf hT1
  have hpre := ir_gen_sf_cache_run_mono hash (hash T1 % cache.capacity) between
    (ir_gen_sf_cache_locate_or_insert hash cache T1).1
  have hidx := list_findIdx_of_extension (ir_gen_sf_cache_hit T1) _ _ hpre (by rw [hfirst]; exact hlt)
  have hptr := ir_gen_sf_cache_ptr_after hash
    (ir_gen_sf_cache_run hash (ir_gen_sf_cache_locate_or_insert hash cache T1).1 between) T2 hwf2
  rw [hcap2, hcap1, hh, hhit, hidx, hfirst] at hptr
  refine ⟨?_, ?_⟩
  · rw [hptr, ir_gen_sf_cache_ptr_after hash cache T1 hwf]
  · apply ir_gen_sf_cache_unchanged_of_hit
    rw [hcap2, hcap1, hh, hhit]
    have hlt2 : (ir_gen_sf_cache_bucket
        (ir_gen_sf_cache_run hash (ir_gen_sf_cache_locate_or_insert hash cache T1).1 between)
        (hash T1 % cache.capacity)).findIdx (ir_gen_sf_cache_hit T1)
          < (ir_gen_sf_cache_bucket
        (ir_gen_sf_cache_run hash (ir_gen_sf_cache_locate_or_insert hash cache T1).1 between)
        (hash T1 % cache.capacity)).length := by
      rw [hidx, hfirst]
      exact Nat.lt_of_lt_of_le hlt hpre.length_le
    obtain ⟨x, hx, hpx⟩ := List.findIdx_lt_length.mp hlt2
    exact List.any_eq_true.mpr ⟨x, hx, hpx⟩

/-- The witness of C8: in the fresh cache, with the number of elements as hash,
`int` is looked up, then `*int` and `long`, then `int` again from another place of
the source text. -/
theorem ir_gen_sf_cache_locate_or_insert_stable_witness :
    (ir_gen_sf_cache_locate_or_insert ast_type_t.elements_length
        (ir_gen_sf_cache_run ast_type_t.elements_length
          (ir_gen_sf_cache_locate_or_insert ast_type_t.elements_length ir_gen_sf_cache_init
            (ast_type_make_base "int")).1
          [ast_type_make_base_ptr "int", ast_type_make_base "long"])
        ⟨[.base "int" ⟨1, 7⟩], ⟨1, 7⟩⟩).2
      = (ir_gen_sf_cache_locate_or_insert ast_type_t.elements_length ir_gen_sf_cache_init
          (ast_type_make_base "int")).2
    ∧ (ir_gen_sf_cache_locate_or_insert ast_type_t.elements_length
        (ir_gen_sf_cache_run ast_type_t.elements_length
          (ir_gen_sf_cache_locate_or_insert ast_type_t.elements_length ir_gen_sf_cache_init
            (ast_type_make_base "int")).1
          [ast_type_make_base_ptr "int", ast_type_make_base "long"])
        ⟨[.base "int" ⟨1, 7⟩], ⟨1, 7⟩⟩).1
      = ir_gen_sf_cache_run ast_type_t.elements_length
          (ir_gen_sf_cache_locate_or_insert ast_type_t.elements_length ir_gen_sf_cache_init
            (ast_type_make_base "int")).1
          [ast_type_make_base_ptr "int", ast_type_make_base "long"] :=
  ir_gen_sf_cache_locate_or_insert_stable ast_type_t.elements_length
    (fun a b h => by
      unfold ast_types_identical at h
      unfold ast_type_t.elements_length
      exact ast_elems_identical_length a.elements b.elements h)
    ir_gen_sf_cache_init ir_gen_sf_cache_reachable.init
    (ast_type_make_base "int") (ast_type_make_base "int") ⟨[.base "int" ⟨1, 7⟩], ⟨1, 7⟩⟩
    [ast_type_make_base_ptr "int", ast_type_make_base "long"]
    (by decide) (by decide) (by decide)

/-- C9. `ir_gen_sf_cache_locate_or_insert` on a well-formed type, in a cache of the
shape every reachable cache has. On a miss (no key of the bucket of the type is
structurally identical to it) the bucket gains exactly one entry, at its end (the
embedded head entry when the bucket was empty), every other bucket is as before,
the new entry holds a clone of the type and three `TROOLEAN_UNKNOWN`, and the
pointer returned designates it. On a hit the cache is unchanged and the pointer
returned designates the first entry of the chain whose key is identical to the
query. -/
theorem ir_gen_sf_cache_locate_or_insert_spec (hash : ast_type_t → hash_t)
    (cache : ir_gen_sf_cache_t) (type : ast_type_t)
    (hwf : ir_gen_sf_cache_wf cache) (htype : 1 ≤ type.elements_length) :
    ((∀ e ∈ ir_gen_sf_cache_bucket cache (hash type % cache.capacity),
          ast_types_identical type e.ast_type = false) →
        ir_gen_sf_cache_bucket (ir_gen_sf_cache_locate_or_insert hash cache type).1
            (hash type % cache.capacity)
          = ir_gen_sf_cache_bucket cache (hash type % cache.capacity)
            ++ [⟨ast_type_clone type, TROOLEAN_UNKNOWN, TROOLEAN_UNKNOWN, TROOLEAN_UNKNOWN⟩]
        ∧ (∀ b, b ≠ hash type % cache.capacity →
            ir_gen_sf_cache_bucket (ir_gen_sf_cache_locate_or_insert hash cache type).1 b
              = ir_gen_sf_cache_bucket cache b)
        ∧ ir_gen_sf_cache_count (ir_gen_sf_cache_locate_or_insert hash cache type).1
            = ir_gen_sf_cache_count cache + 1
        ∧ (ir_gen_sf_cache_locate_or_insert hash cache type).2
            = ⟨hash type % cache.capacity,
                (ir_gen_sf_cache_bucket cache (hash type % cache.capacity)).length⟩
        ∧ ir_gen_sf_cache_deref (ir_gen_sf_cache_locate_or_insert hash cache type).1
              (ir_gen_sf_cache_locate_or_insert hash cache type).2
            = some ⟨ast_type_clone type, TROOLEAN_UNKNOWN, TROOLEAN_UNKNOWN, TROOLEAN_UNKNOWN⟩)
    ∧ (∀ (k : Nat) (e : ir_gen_sf_cache_entry_t),
        (ir_gen_sf_cache_bucket cache (hash type % cache.capacity))[k]? = some e →
        ast_types_identical type e.ast_type = true →
        (∀ (j : Nat) (x : ir_gen_sf_cache_entry_t), j < k →
          (ir_gen_sf_cache_bucket cache (hash type % cache.capacity))[j]? = some x →
          ast_types_identical type x.ast_type = false) →
        (ir_gen_sf_cache_locate_or_insert hash cache type).1 = cache
        ∧ (ir_gen_sf_cache_locate_or_insert hash cache type).2
            = ⟨hash type % cache.capacity, k⟩
        ∧ ir_gen_sf_cache_deref (ir_gen_sf_cache_locate_or_insert hash cache type).1
              (ir_gen_sf_cache_locate_or_insert hash cache type).2 = some e) := by
  refine ⟨?_, ?_⟩
  · intro hmiss
    have hany : (ir_gen_sf_cache_bucket cache (hash type % cache.capacity)).any
        (ir_gen_sf_cache_hit type) = false := by
      rw [List.any_eq_false]
      intro x hx
      simp [ir_gen_sf_cache_hit, hmiss x hx]
    have hbucket := ir_gen_sf_cache_bucket_after hash cache type hwf htype
    have hcount := ir_gen_sf_cache_count_after hash cache type hwf htype
    have hptr := ir_gen_sf_cache_ptr_after hash cache type hwf
    simp only [hany, Bool.false_eq_true, if_false] at hbucket hcount
    have hidx : (ir_gen_sf_cache_bucket cache (hash type % cache.capacity)).findIdx
        (ir_gen_sf_cache_hit type)
          = (ir_gen_sf_cache_bucket cache (hash type % cache.capacity)).length := by
      rw [List.findIdx_eq_length]
      intro x hx
      simp [ir_gen_sf_cache_hit, hmiss x hx]
    rw [hidx] at hptr
    refine ⟨hbucket, fun b hb => ir_gen_sf_cache_bucket_other hash cache type b hb, hcount,
      hptr, ?_⟩
    rw [hptr, ir_gen_sf_cache_deref_bucket _ _ _ (by rw [hbucket]; simp), hbucket]
    simp [ir_gen_sf_cache_new_entry]
  · intro k e hk he hbefore
    have hklt : k < (ir_gen_sf_cache_bucket cache (hash type % cache.capacity)).length := by
      by_contra hnot
      rw [List.getElem?_eq_none (Nat.le_of_not_lt hnot)] at hk
      cases hk
    have hke : (ir_gen_sf_cache_bucket cache (hash type % cache.capacity))[k] = e := by
      rw [List.getElem?_eq_getElem hklt] at hk
      exact Option.some.inj hk
    have hmem : e ∈ ir_gen_sf_cache_bucket cache (hash type % cache.capacity) := by
      rw [← hke]; exact List.getElem_mem hklt
    have hany : (ir_gen_sf_cache_bucket cache (hash type % cache.capacity)).any
        (ir_gen_sf_cache_hit type) = true :=
      List.any_eq_true.mpr ⟨e, hmem, he⟩
    have hsame := ir_gen_sf_cache_unchanged_of_hit hash cache type hany
    have hptr := ir_gen_sf_cache_ptr_after hash cache type hwf
    have hidx : (ir_gen_sf_cache_bucket cache (hash type % cache.capacity)).findIdx
        (ir_gen_sf_cache_hit type) = k := by
      rw [List.findIdx_eq hklt]
      refine ⟨by rw [hke]; exact he, ?_⟩
      intro j hj
      have hjlt : j < (ir_gen_sf_cache_bucket cache (hash type % cache.capacity)).length :=
        Nat.lt_trans hj hklt
      have := hbefore j _ hj (List.getElem?_eq_getElem hjlt)
      simpa [ir_gen_sf_cache_hit] using this
    rw [hidx] at hptr
    refine ⟨hsame, hptr, ?_⟩
    rw [hptr, hsame, ir_gen_sf_cache_deref_bucket _ _ _ (List.ne_nil_of_mem hmem), hk]

/-- The witness of C9: `int` is a miss in the fresh cache. -/
theorem ir_gen_sf_cache_locate_or_insert_spec_witness :
    (ir_gen_sf_cache_locate_or_insert ast_type_t.elements_length ir_gen_sf_cache_init
        (ast_type_make_base "int")).2 = ⟨1, 0⟩
    ∧ ir_gen_sf_cache_deref
        (ir_gen_sf_cache_locate_or_insert ast_type_t.elements_length ir_gen_sf_cache_init
          (ast_type_make_base "int")).1 ⟨1, 0⟩
      = some ⟨ast_type_make_base "int", TROOLEAN_UNKNOWN, TROOLEAN_UNKNOWN, TROOLEAN_UNKNOWN⟩
    ∧ ir_gen_sf_cache_count
        (ir_gen_sf_cache_locate_or_insert ast_type_t.elements_length ir_gen_sf_cache_init
          (ast_type_make_base "int")).1 = ir_gen_sf_cache_count ir_gen_sf_cache_init + 1 := by
  have h := (ir_gen_sf_cache_locate_or_insert_spec ast_type_t.elements_length
    ir_gen_sf_cache_init (ast_type_make_base "int") ir_gen_sf_cache_init_wf (by decide)).1
    (by intro e he; rw [ir_gen_sf_cache_bucket_init] at he; cases he)
  obtain ⟨_, _, hcount, hptr, hderef⟩ := h
  rw [ir_gen_sf_cache_bucket_init] at hptr
  rw [hptr] at hderef
  exact ⟨hptr, hderef, hcount⟩

/-- C10. Monotonicity of the cache: a call of `ir_gen_sf_cache_locate_or_insert`,
on any type, keeps every entry where it was (same bucket, same place in the chain)
with the key and the three tri-states it had, so every bucket before the call is a
prefix of the same bucket after it; and the number of entries grows by 0 or 1. -/
theorem ir_gen_sf_cache_locate_or_insert_monotonic (hash : ast_type_t → hash_t)
    (cache : ir_gen_sf_cache_t) (type : ast_type_t) (hwf : ir_gen_sf_cache_wf cache) :
    (∀ (b k : Nat) (e : ir_gen_sf_cache_entry_t),
        (ir_gen_sf_cache_bucket cache b)[k]? = some e →
        (ir_gen_sf_cache_bucket (ir_gen_sf_cache_locate_or_insert hash cache type).1 b)[k]?
          = some e)
    ∧ (∀ b, ir_gen_sf_cache_bucket cache b
        <+: ir_gen_sf_cache_bucket (ir_gen_sf_cache_locate_or_insert hash cache type).1 b)
    ∧ (ir_gen_sf_cache_count (ir_gen_sf_cache_locate_or_insert hash cache type).1
          = ir_gen_sf_cache_count cache
        ∨ ir_gen_sf_cache_count (ir_gen_sf_cache_locate_or_insert hash cache type).1
          = ir_gen_sf_cache_count cache + 1) := by
  refine ⟨?_, fun b => ir_gen_sf_cache_bucket_mono hash cache type b,
    ir_gen_sf_cache_count_step hash cache type hwf⟩
  intro b k e hk
  obtain ⟨t, ht⟩ := ir_gen_sf_cache_bucket_mono hash cache type b
  have hklt : k < (ir_gen_sf_cache_bucket cache b).length := by
    by_contra hnot
    rw [List.getElem?_eq_none (Nat.le_of_not_lt hnot)] at hk
    cases hk
  rw [← ht, List.getElem?_append_left hklt]
  exact hk

theorem ir_gen_sf_cache_example_wf : ir_gen_sf_cache_wf ir_gen_sf_cache_example := by
  refine ⟨by decide, rfl, ?_⟩
  intro slot hslot
  simp only [ir_gen_sf_cache_example, List.mem_cons, List.mem_singleton, List.not_mem_nil,
    or_false] at hslot
  rcases hslot with h | h <;> subst h <;> intro _ <;> rfl

/-- The witness of C10: in the example cache, where `int` is known to have a
`__pass__`, looking `long` up (same bucket under the length hash) leaves the
entry of `int` first in its bucket with its answers. -/
theorem ir_gen_sf_cache_locate_or_insert_monotonic_witness :
    (ir_gen_sf_cache_bucket
        (ir_gen_sf_cache_locate_or_insert ast_type_t.elements_length ir_gen_sf_cache_example
          (ast_type_make_base "long")).1 1)[0]?
      = some ⟨ast_type_make_base "int", TROOLEAN_TRUE, TROOLEAN_FALSE, TROOLEAN_UNKNOWN⟩ :=
  (ir_gen_sf_cache_locate_or_insert_monotonic ast_type_t.elements_length
    ir_gen_sf_cache_example (ast_type_make_base "long") ir_gen_sf_cache_example_wf).1 1 0 _ rfl

/-! ## The backfill loop -/

/-- What one turn of the backfill loop leaves alone. -/
theorem parse_func_backfill_step_frame (m : Nat) (tt : Option trait_t) (md : Option ast_expr_t)
    (i k : Nat) (func : ast_func_t) (bdv : Bool) :
    (parse_func_backfill_step m tt md i k func bdv).1.arity = func.arity + 1
    ∧ (parse_func_backfill_step m tt md i k func bdv).1.traits = func.traits
    ∧ (parse_func_backfill_step m tt md i k func bdv).1.arg_names = func.arg_names
    ∧ (parse_func_backfill_step m tt md i k func bdv).1.arg_sources = func.arg_sources
    ∧ (parse_func_backfill_step m tt md i k func bdv).1.arg_flows = func.arg_flows
    ∧ (parse_func_backfill_step m tt md i k func bdv).1.return_type = func.return_type
    ∧ (parse_func_backfill_step m tt md i k func bdv).1.variadic_arg_name
        = func.variadic_arg_name
    ∧ (parse_func_backfill_step m tt md i k func bdv).1.arg_types
        = func.arg_types.set (func.arity + k - i - 1)
            ((slot_val func.arg_types m).map ast_type_clone)
    ∧ (parse_func_backfill_step m tt md i k func bdv).1.arg_type_traits
        = func.arg_type_traits.set (func.arity + k - i - 1) tt := by
  unfold parse_func_backfill_step
  cases bdv <;> simp; split <;> simp

/-- The defaults after one turn of the backfill loop. -/
theorem parse_func_backfill_step_defaults (m : Nat) (tt : Option trait_t)
    (md : Option ast_expr_t) (i k : Nat) (func : ast_func_t) (bdv : Bool) :
    (parse_func_backfill_step m tt md i k func bdv).2
        = (bdv && md.isSome
            && (slot_ptr (func.arg_defaults.getD []) (func.arity + k - i - 1)).isNone)
    ∧ (parse_func_backfill_step m tt md i k func bdv).1.arg_defaults
        = if (bdv && md.isSome
            && (slot_ptr (func.arg_defaults.getD []) (func.arity + k - i - 1)).isNone) = true
          then func.arg_defaults.map
            (fun d => d.set (func.arity + k - i - 1) (some (md.map ast_expr_clone)))
          else func.arg_defaults := by
  unfold parse_func_backfill_step
  cases bdv
  · simp
  · by_cases h : (md.isSome
        && (slot_ptr (func.arg_defaults.getD []) (func.arity + k - i - 1)).isNone) = true
    · simp only [h, if_true, Bool.true_and]
      exact ⟨trivial, trivial⟩
    · simp only [Bool.not_eq_true] at h
      simp only [h, if_true, Bool.true_and, Bool.false_eq_true, if_false]
      exact ⟨trivial, trivial⟩

/-- What the loop of `parse_func_backfill_arguments` leaves alone, and the arity
it produces. -/
theorem parse_func_backfill_loop_frame (m : Nat) (tt : Option trait_t) (md : Option ast_expr_t) :
    ∀ (k i : Nat) (func : ast_func_t) (bdv : Bool),
      (parse_func_backfill_loop m tt md i k func bdv).arity = func.arity + k
      ∧ (parse_func_backfill_loop m tt md i k func bdv).traits = func.traits
      ∧ (parse_func_backfill_loop m tt md i k func bdv).arg_names = func.arg_names
      ∧ (parse_func_backfill_loop m tt md i k func bdv).arg_sources = func.arg_sources
      ∧ (parse_func_backfill_loop m tt md i k func bdv).arg_flows = func.arg_flows
      ∧ (parse_func_backfill_loop m tt md i k func bdv).return_type = func.return_type
      ∧ (parse_func_backfill_loop m tt md i k func bdv).variadic_arg_name = func.variadic_arg_name
  | 0, i, func, bdv => by simp [parse_func_backfill_loop]
  | k + 1, i, func, bdv => by
      rw [parse_func_backfill_loop]
      obtain ⟨h1, h2, h3, h4, h5, h6, h7⟩ :=
        parse_func_backfill_loop_frame m tt md k (i + 1)
          (parse_func_backfill_step m tt md i (k + 1) func bdv).1
          (parse_func_backfill_step m tt md i (k + 1) func bdv).2
      obtain ⟨g1, g2, g3, g4, g5, g6, g7, _, _⟩ :=
        parse_func_backfill_step_frame m tt md i (k + 1) func bdv
      rw [h1, h2, h3, h4, h5, h6, h7, g1, g2, g3, g4, g5, g6, g7]
      simp
      omega

/-- The types after the backfill loop: the pending slots hold a clone of the
master type, the other slots are as before. -/
theorem parse_func_backfill_loop_types (m : Nat) (tt : Option trait_t) (md : Option ast_expr_t) :
    ∀ (k i : Nat) (func : ast_func_t) (bdv : Bool) (base : Nat),
      func.arity = base + i → base + k ≤ m → ∀ idx : Nat,
      (parse_func_backfill_loop m tt md i k func bdv).arg_types[idx]?
        = if base ≤ idx ∧ idx < base + k ∧ idx < func.arg_types.length
          then some ((slot_val func.arg_types m).map ast_type_clone)
          else func.arg_types[idx]?
  | 0, i, func, bdv, base, _, _, idx => by
      rw [parse_func_backfill_loop]
      have : ¬ (base ≤ idx ∧ idx < base + 0 ∧ idx < func.arg_types.length) := by omega
      rw [if_neg this]
  | k + 1, i, func, bdv, base, harity, hm, idx => by
      rw [parse_func_backfill_loop]
      obtain ⟨g1, _, _, _, _, _, _, g8, _⟩ :=
        parse_func_backfill_step_frame m tt md i (k + 1) func bdv
      have hidx : func.arity + (k + 1) - i - 1 = base + k := by omega
      rw [hidx] at g8
      have ih := parse_func_backfill_loop_types m tt md k (i + 1)
        (parse_func_backfill_step m tt md i (k + 1) func bdv).1
        (parse_func_backfill_step m tt md i (k + 1) func bdv).2 base
        (by rw [g1]; omega) (by omega) idx
      rw [ih, g8]
      have hmaster : slot_val (func.arg_types.set (base + k)
          ((slot_val func.arg_types m).map ast_type_clone)) m = slot_val func.arg_types m := by
        unfold slot_val
        rw [List.getElem?_set_ne (by omega)]
      rw [hmaster, List.length_set, List.getElem?_set]
      by_cases h1 : base + k = idx
      · subst h1
        by_cases h2 : base + k < func.arg_types.length
        · simp [h2]
        · simp [h2]
          omega
      · by_cases h3 : base ≤ idx ∧ idx < base + k ∧ idx < func.arg_types.length
        · rw [if_pos h3, if_pos (by omega)]
        · rw [if_neg h3, if_neg h1, if_neg (by omega)]

/-- The type traits after the backfill loop. -/
theorem parse_func_backfill_loop_type_traits (m : Nat) (tt : Option trait_t)
    (md : Option ast_expr_t) :
    ∀ (k i : Nat) (func : ast_func_t) (bdv : Bool) (base : Nat),
      func.arity = base + i → ∀ idx : Nat,
      (parse_func_backfill_loop m tt md i k func bdv).arg_type_traits[idx]?
        = if base ≤ idx ∧ idx < base + k ∧ idx < func.arg_type_traits.length
          then some tt
          else func.arg_type_traits[idx]?
  | 0, i, func, bdv, base, _, idx => by
      rw [parse_func_backfill_loop]
      have : ¬ (base ≤ idx ∧ idx < base + 0 ∧ idx < func.arg_type_traits.length) := by omega
      rw [if_neg this]
  | k + 1, i, func, bdv, base, harity, idx => by
      rw [parse_func_backfill_loop]
      obtain ⟨g1, _, _, _, _, _, _, _, g9⟩ :=
        parse_func_backfill_step_frame m tt md i (k + 1) func bdv
      have hidx : func.arity + (k + 1) - i - 1 = base + k := by omega
      rw [hidx] at g9
      have ih := parse_func_backfill_loop_type_traits m tt md k (i + 1)
        (parse_func_backfill_step m tt md i (k + 1) func bdv).1
        (parse_func_backfill_step m tt md i (k + 1) func bdv).2 base
        (by rw [g1]; omega) idx
      rw [ih, g9, List.length_set, List.getElem?_set]
      by_cases h1 : base + k = idx
      · subst h1
        by_cases h2 : base + k < func.arg_type_traits.length
        · simp [h2]
        · simp [h2]
          omega
      · by_cases h3 : base ≤ idx ∧ idx < base + k ∧ idx < func.arg_type_traits.length
        · rw [if_pos h3, if_pos (by omega)]
        · rw [if_neg h3, if_neg h1, if_neg (by omega)]

theorem slot_ptr_set_ne {α : Type} (array : List (Option (Option α))) (j l : Nat)
    (v : Option (Option α)) (h : j ≠ l) : slot_ptr (array.set j v) l = slot_ptr array l := by
  unfold slot_ptr
  rw [List.getElem?_set_ne h]

theorem parse_func_backfill_loop_defaults_none (m : Nat) (tt : Option trait_t)
    (md : Option ast_expr_t) :
    ∀ (k i : Nat) (func : ast_func_t) (bdv : Bool), func.arg_defaults = none →
      (parse_func_backfill_loop m tt md i k func bdv).arg_defaults = none
  | 0, _, _, _, h => by rw [parse_func_backfill_loop]; exact h
  | k + 1, i, func, bdv, h => by
      rw [parse_func_backfill_loop]
      apply parse_func_backfill_loop_defaults_none m tt md k
      rw [(parse_func_backfill_step_defaults m tt md i (k + 1) func bdv).2, h]
      simp

/-- The defaults after the backfill loop: reading the pending slots from the
right, each slot takes a clone of the master default as long as no slot with a
default of its own has been met; every other slot is as before. -/
theorem parse_func_backfill_loop_defaults (m : Nat) (tt : Option trait_t)
    (md : Option ast_expr_t) :
    ∀ (k i : Nat) (func : ast_func_t) (bdv : Bool) (base : Nat)
      (ds : List (Option (Option ast_expr_t))),
      func.arity = base + i → func.arg_defaults = some ds →
      ∃ ds2, (parse_func_backfill_loop m tt md i k func bdv).arg_defaults = some ds2
        ∧ ds2.length = ds.length
        ∧ ∀ idx : Nat,
          ((bdv = true ∧ md.isSome = true ∧ base ≤ idx ∧ idx < base + k ∧ idx < ds.length
              ∧ (∀ l, idx ≤ l → l < base + k → slot_ptr ds l = none)) →
            ds2[idx]? = some (some (md.map ast_expr_clone)))
          ∧ (¬ (bdv = true ∧ md.isSome = true ∧ base ≤ idx ∧ idx < base + k
              ∧ (∀ l, idx ≤ l → l < base + k → slot_ptr ds l = none)) →
            ds2[idx]? = ds[idx]?)
  | 0, i, func, bdv, base, ds, _, hds => by
      rw [parse_func_backfill_loop]
      refine ⟨ds, hds, rfl, fun idx => ⟨fun h => ?_, fun _ => rfl⟩⟩
      omega
  | k + 1, i, func, bdv, base, ds, harity, hds => by
      rw [parse_func_backfill_loop]
      obtain ⟨g1, _⟩ := parse_func_backfill_step_frame m tt md i (k + 1) func bdv
      obtain ⟨hflag, hdef⟩ := parse_func_backfill_step_defaults m tt md i (k + 1) func bdv
      have hidx : func.arity + (k + 1) - i - 1 = base + k := by omega
      rw [hidx, hds] at hflag hdef
      simp only [Option.getD_some, Option.map_some'] at hflag hdef
      by_cases hc : (bdv && md.isSome && (slot_ptr ds (base + k)).isNone) = true
      · -- this turn stores a clone in slot `base + k`
        rw [if_pos hc] at hdef
        simp only [Bool.and_eq_true, Option.isNone_iff_eq_none] at hc
        obtain ⟨⟨hb, hmd⟩, hnull⟩ := hc
        obtain ⟨ds2, h2, hlen, hall⟩ := parse_func_backfill_loop_defaults m tt md k (i + 1)
          (parse_func_backfill_step m tt md i (k + 1) func bdv).1
          (parse_func_backfill_step m tt md i (k + 1) func bdv).2 base _
          (by rw [g1]; omega) hdef
        refine ⟨ds2, h2, by rw [hlen, List.length_set], fun idx => ⟨fun hP => ?_, fun hnP => ?_⟩⟩
        · obtain ⟨_, _, hlo, hhi, hin, hinh⟩ := hP
          by_cases hj : idx = base + k
          · subst hj
            rw [(hall (base + k)).2 (by omega), List.getElem?_set_self hin]
          · refine (hall idx).1 ⟨?_, hmd, hlo, by omega, by rw [List.length_set]; exact hin, ?_⟩
            · rw [hflag]; simp [hb, hmd, hnull]
            · intro l hl1 hl2
              rw [slot_ptr_set_ne _ _ _ _ (by omega)]
              exact hinh l hl1 (by omega)
        · by_cases hj : idx = base + k
          · subst hj
            exfalso
            apply hnP
            refine ⟨hb, hmd, by omega, by omega, ?_⟩
            intro l hl1 hl2
            have : l = base + k := by omega
            rw [this]; exact hnull
          · rw [(hall idx).2 ?_, List.getElem?_set_ne (Ne.symm hj)]
            intro hP1
            obtain ⟨_, _, hlo, hhi, hinh⟩ := hP1
            apply hnP
            refine ⟨hb, hmd, hlo, by omega, ?_⟩
            intro l hl1 hl2
            by_cases hl : l = base + k
            · rw [hl]; exact hnull
            · have := hinh l hl1 (by omega)
              rw [slot_ptr_set_ne _ _ _ _ (Ne.symm hl)] at this
              exact this
      · -- this turn stores no default and clears the flag
        rw [if_neg hc] at hdef
        simp only [Bool.not_eq_true] at hc
        rw [hc] at hflag
        obtain ⟨ds2, h2, hlen, hall⟩ := parse_func_backfill_loop_defaults m tt md k (i + 1)
          (parse_func_backfill_step m tt md i (k + 1) func bdv).1
          (parse_func_backfill_step m tt md i (k + 1) func bdv).2 base _
          (by rw [g1]; omega) hdef
        refine ⟨ds2, h2, hlen, fun idx => ⟨fun hP => ?_, fun _ => ?_⟩⟩
        · exfalso
          obtain ⟨hb, hmd, hlo, hhi, hin, hinh⟩ := hP
          have hnull := hinh (base + k) (by omega) (by omega)
          simp [hb, hmd, hnull] at hc
        · exact (hall idx).2 (by rw [hflag]; simp)

/-! ## The pieces of `parse_func_argument` -/

theorem parse_eat_ok (ctx ctx2 : parse_ctx_t) (id : tokenid_t) (msg : String)
    (h : parse_eat ctx id msg = .ok ctx2) : ctx2 = { ctx with i := ctx.i + 1 } := by
  unfold parse_eat at h
  split at h
  · cases h
  · cases h; rfl

theorem parse_ignore_newlines_ok (ctx ctx2 : parse_ctx_t) (msg : String)
    (h : parse_ignore_newlines ctx msg = .ok ctx2) :
    ctx2.tokens = ctx.tokens ∧ ctx2.sources = ctx.sources
    ∧ ctx2.composite_association = ctx.composite_association := by
  unfold parse_ignore_newlines at h
  simp only at h
  split at h
  · cases h
  · cases h; exact ⟨rfl, rfl, rfl⟩

/-- A successful default-value step changes the defaults array only, and only in
the slot of the current argument - unless it creates the array, with `NULL` in
every slot before that one. -/
theorem parse_func_default_arg_value_frame (ext : parse_externals_t) (ctx ctx2 : parse_ctx_t)
    (func func2 : ast_func_t) (capacity backfill : Nat)
    (h : parse_func_default_arg_value_if_applicable ext ctx func capacity backfill
      = .ok (ctx2, func2)) :
    (func2 = func
      ∨ ((slot_ptr (func.arg_defaults.getD []) (func.arity + backfill)) = none
        ∧ ∃ e, func2 = { func with arg_defaults := (some
          ((match func.arg_defaults with
            | some d => d
            | none => (List.range capacity).map
                (fun k => if k < func.arity + backfill then some none else none)).set
            (func.arity + backfill) (some (some e)))) }))
    ∧ ctx2.tokens = ctx.tokens ∧ ctx2.sources = ctx.sources := by
  unfold parse_func_default_arg_value_if_applicable at h
  split at h
  · cases h; exact ⟨Or.inl rfl, rfl, rfl⟩
  · split at h
    · cases h
    · rename_i hnull
      cases hE : parse_eat ctx TOKEN_ASSIGN
          "INTERNAL ERROR: parse_func_default_arg_value() expected '=' token" with
      | error e => rw [hE] at h; cases h
      | ok ctx1 =>
        rw [hE] at h
        have hctx := parse_eat_ok _ _ _ _ hE
        simp only at h
        cases hP : ext.parse_expr ctx1 with
        | error e => rw [hP] at h; cases h
        | ok r =>
          obtain ⟨e, i⟩ := r
          rw [hP] at h
          simp only [Except.ok.injEq, Prod.mk.injEq] at h
          obtain ⟨h1, h2⟩ := h
          subst h1 h2 hctx
          refine ⟨Or.inr ⟨?_, e, rfl⟩, rfl, rfl⟩
          simpa using hnull

theorem parse_take_word_some (ctx ctx2 : parse_ctx_t) (name : String)
    (h : parse_take_word ctx = (some name, ctx2)) :
    ctx.tokens[ctx.i]? = some ⟨TOKEN_WORD, name⟩ ∧ ctx2 = { ctx with i := ctx.i + 1 } := by
  unfold parse_take_word at h
  split at h
  · rename_i t ht
    split at h
    · rename_i hid
      simp only [Prod.mk.injEq, Option.some.injEq] at h
      obtain ⟨h1, h2⟩ := h
      subst h1 h2
      refine ⟨?_, rfl⟩
      rw [ht]
      have : t.id = TOKEN_WORD := by simpa using hid
      cases t
      simp_all
    · cases h
  · cases h

/-- A successful name step changes the names array only; in a function that is
not foreign it reads a word token and stores its text in the current slot. -/
theorem parse_func_argument_name_frame (ctx ctx2 : parse_ctx_t) (func func2 : ast_func_t)
    (capacity backfill : Nat)
    (h : parse_func_argument_name ctx func capacity backfill = .ok (ctx2, func2)) :
    ctx2.tokens = ctx.tokens ∧ ctx2.sources = ctx.sources
    ∧ (∃ names, func2 = { func with arg_names := names })
    ∧ (func.traits.has AST_FUNC_FOREIGN = false →
        ∃ name, ctx.tokens[ctx.i]? = some ⟨TOKEN_WORD, name⟩
          ∧ ctx2 = { ctx with i := ctx.i + 1 }
          ∧ func2 = { func with arg_names := (func.arg_names.map
              (fun names => names.set (func.arity + backfill) (some (some name)))) }) := by
  unfold parse_func_argument_name at h
  split at h
  · rename_i hforeign
    split at h
    · split at h
      · cases h
      · simp only [Except.ok.injEq, Prod.mk.injEq] at h
        obtain ⟨h1, h2⟩ := h
        subst h1 h2
        refine ⟨?_, ?_, ⟨_, rfl⟩, fun hf => by rw [hforeign] at hf; cases hf⟩
        · unfold parse_take_word
          split
          · split <;> rfl
          · rfl
        · unfold parse_take_word
          split
          · split <;> rfl
          · rfl
    · cases h
      exact ⟨rfl, rfl, ⟨_, rfl⟩, fun hf => by rw [hforeign] at hf; cases hf⟩
  · split at h
    · cases h
    · rename_i name ctx1 hword
      simp only [Except.ok.injEq, Prod.mk.injEq] at h
      obtain ⟨h1, h2⟩ := h
      subst h1 h2
      obtain ⟨htok, hctx⟩ := parse_take_word_some _ _ _ hword
      subst hctx
      exact ⟨rfl, rfl, ⟨_, rfl⟩, fun _ => ⟨name, htok, rfl, rfl⟩⟩

/-- A successful end of `parse_func_argument`: the type parsed is stored in the
current slot, a default may be stored, the pending arguments are backfilled. -/
theorem parse_func_argument_type_ok (ext : parse_externals_t) (ctx ctx2 : parse_ctx_t)
    (func func2 : ast_func_t) (capacity backfill backfill2 : Nat) (is_solid : Bool)
    (h : parse_func_argument_type ext ctx func capacity backfill
      = .ok (ctx2, func2, backfill2, is_solid)) :
    backfill2 = 0 ∧ is_solid = true
    ∧ ∃ ctxC type ctxD ctxE funcE,
        (∃ i, ext.parse_type ctxC = .ok (type, i))
        ∧ parse_func_default_arg_value_if_applicable ext ctxD
            { func with
              arg_types := (func.arg_types.set (func.arity + backfill) (some type)) }
            capacity backfill = .ok (ctxE, funcE)
        ∧ func2 = { parse_func_backfill_arguments funcE backfill with
            arity := (parse_func_backfill_arguments funcE backfill).arity + 1 } := by
  unfold parse_func_argument_type at h
  cases hA : parse_ignore_newlines ctx "Expected type" with
  | error e => rw [hA] at h; cases h
  | ok ctxC =>
    rw [hA] at h
    simp only at h
    cases hT : ext.parse_type ctxC with
    | error e => rw [hT] at h; cases h
    | ok r =>
      obtain ⟨type, i⟩ := r
      rw [hT] at h
      simp only at h
      cases hB : parse_ignore_newlines { ctxC with i := i } "Expected type" with
      | error e => rw [hB] at h; cases h
      | ok ctxD =>
        rw [hB] at h
        simp only at h
        cases hD : parse_func_default_arg_value_if_applicable ext ctxD
            { func with
              arg_types := (func.arg_types.set (func.arity + backfill) (some type)) }
            capacity backfill with
        | error e => rw [hD] at h; cases h
        | ok r =>
          obtain ⟨ctxE, funcE⟩ := r
          rw [hD] at h
          simp only [Except.ok.injEq, Prod.mk.injEq] at h
          obtain ⟨_, h2, h3, h4⟩ := h
          exact ⟨h3.symm, h4.symm, ctxC, type, ctxD, ctxE, funcE, ⟨i, hT⟩, hD, h2.symm⟩

/-- The three ways `parse_func_argument_after_name` succeeds. -/
theorem parse_func_argument_after_name_ok (ext : parse_externals_t) (ctxN ctx2 : parse_ctx_t)
    (funcN func2 : ast_func_t) (capacity backfill backfill2 : Nat) (is_solid : Bool)
    (h : parse_func_argument_after_name ext ctxN funcN capacity backfill
      = .ok (ctx2, func2, backfill2, is_solid)) :
    -- a named ellipsis
    (backfill = 0 ∧ backfill2 = 0 ∧ is_solid = false
      ∧ funcN.traits.has AST_FUNC_FOREIGN = false
      ∧ ctxN.token_id ctxN.i = TOKEN_ELLIPSIS
      ∧ func2 = { funcN with
          traits := funcN.traits ||| AST_FUNC_VARIADIC
          variadic_arg_name := slot_ptr (funcN.arg_names.getD []) (funcN.arity + backfill)
          arg_names := (funcN.arg_names.map
            (fun names => names.set (funcN.arity + backfill) (some none)))
          variadic_source := ctxN.source_at (ctxN.i + 1 - 2) })
    -- a pending argument
    ∨ (backfill2 = backfill + 1 ∧ is_solid = false
      ∧ funcN.traits.has AST_FUNC_FOREIGN = false
      ∧ ∃ ctxA ctxB,
        parse_func_default_arg_value_if_applicable ext ctxA funcN capacity backfill
          = .ok (ctxB, func2))
    -- a solid argument
    ∨ (backfill2 = 0 ∧ is_solid = true
      ∧ ∃ ctxA ctxB funcD tt type ctxC ctxD ctxE funcE,
        parse_func_default_arg_value_if_applicable ext ctxA funcN capacity backfill
          = .ok (ctxB, funcD)
        ∧ (tt = AST_FUNC_ARG_TYPE_TRAIT_POD ∨ tt = TRAIT_NONE)
        ∧ (∃ i, ext.parse_type ctxC = .ok (type, i))
        ∧ parse_func_default_arg_value_if_applicable ext ctxD
            { funcD with
              arg_type_traits := (funcD.arg_type_traits.set (funcD.arity + backfill) (some tt))
              arg_types := (funcD.arg_types.set (funcD.arity + backfill) (some type)) }
            capacity backfill = .ok (ctxE, funcE)
        ∧ func2 = { parse_func_backfill_arguments funcE backfill with
            arity := (parse_func_backfill_arguments funcE backfill).arity + 1 }) := by
  unfold parse_func_argument_after_name at h
  split at h
  · -- named ellipsis
    rename_i hE
    split at h
    · cases h
    · rename_i hforeign
      split at h
      · cases h
      · rename_i hb
        simp only [Except.ok.injEq, Prod.mk.injEq] at h
        obtain ⟨_, h2, h3, h4⟩ := h
        have hb0 : backfill = 0 := by simpa using hb
        exact Or.inl ⟨hb0, by omega, h4.symm, by simpa using hforeign, by simpa using hE,
          h2.symm⟩
  · cases hA : parse_ignore_newlines ctxN "Expected type" with
    | error e => rw [hA] at h; cases h
    | ok ctxA =>
      rw [hA] at h
      simp only at h
      cases hD : parse_func_default_arg_value_if_applicable ext ctxA funcN capacity
          backfill with
      | error e => rw [hD] at h; cases h
      | ok r =>
        obtain ⟨ctxB, funcD⟩ := r
        rw [hD] at h
        simp only at h
        cases hB : parse_ignore_newlines ctxB "Expected type" with
        | error e => rw [hB] at h; cases h
        | ok ctxB2 =>
          rw [hB] at h
          simp only at h
          have hDtraits : funcD.traits = funcN.traits := by
            rcases (parse_func_default_arg_value_frame _ _ _ _ _ _ _ hD).1 with hd | ⟨_, e, hd⟩
            · rw [hd]
            · rw [hd]
          split at h
          · -- pending
            rename_i hpend
            split at h
            · cases h
            · simp only [Except.ok.injEq, Prod.mk.injEq] at h
              obtain ⟨_, h2, h3, h4⟩ := h
              subst h2
              refine Or.inr (Or.inl ⟨h3.symm, h4.symm, ?_, ctxA, ctxB, hD⟩)
              rw [← hDtraits]
              simp only [Bool.and_eq_true, Bool.not_eq_true', beq_iff_eq] at hpend
              exact hpend.1
          · -- solid
            split at h
            · obtain ⟨h1, h2, ctxC, type, ctxD, ctxE, funcE, hT, hD2, hf⟩ :=
                parse_func_argument_type_ok _ _ _ _ _ _ _ _ _ h
              exact Or.inr (Or.inr ⟨h1, h2, ctxA, ctxB, funcD,
                AST_FUNC_ARG_TYPE_TRAIT_POD, type, ctxC, ctxD, ctxE, funcE, hD,
                Or.inl rfl, hT, hD2, hf⟩)
            · obtain ⟨h1, h2, ctxC, type, ctxD, ctxE, funcE, hT, hD2, hf⟩ :=
                parse_func_argument_type_ok _ _ _ _ _ _ _ _ _ h
              exact Or.inr (Or.inr ⟨h1, h2, ctxA, ctxB, funcD,
                TRAIT_NONE, type, ctxC, ctxD, ctxE, funcE, hD,
                Or.inr rfl, hT, hD2, hf⟩)

/-- The call of `parse_func_argument` on a lone ellipsis. -/
theorem parse_func_argument_of_ellipsis (ext : parse_externals_t) (ctx : parse_ctx_t)
    (func : ast_func_t) (capacity backfill : Nat)
    (h : (parse_func_argument_flow ctx).2.token_id (parse_func_argument_flow ctx).2.i
      = TOKEN_ELLIPSIS) :
    parse_func_argument ext ctx func capacity backfill
      = if backfill != 0 then .error "Expected type for previous arguments before ellipsis"
        else .ok ({ (parse_func_argument_flow ctx).2 with
                    i := (parse_func_argument_flow ctx).2.i + 1 },
                  { (parse_func_argument_start ctx func backfill).2 with
                    traits := (parse_func_argument_start ctx func backfill).2.traits
                      ||| AST_FUNC_VARARG }, backfill, false) := by
  have h2 : ((parse_func_argument_start ctx func backfill).1.token_id
      (parse_func_argument_start ctx func backfill).1.i == TOKEN_ELLIPSIS) = true := by
    simpa using h
  unfold parse_func_argument
  simp only [h2, if_true]
  rfl

/-- The call of `parse_func_argument` on anything but a lone ellipsis. -/
theorem parse_func_argument_of_not_ellipsis (ext : parse_externals_t) (ctx : parse_ctx_t)
    (func : ast_func_t) (capacity backfill : Nat)
    (h : (parse_func_argument_flow ctx).2.token_id (parse_func_argument_flow ctx).2.i
      ≠ TOKEN_ELLIPSIS) :
    parse_func_argument ext ctx func capacity backfill
      = match parse_func_argument_name (parse_func_argument_flow ctx).2
          (parse_func_argument_start ctx func backfill).2 capacity backfill with
        | .error e => .error e
        | .ok (ctx, func) => parse_func_argument_after_name ext ctx func capacity backfill := by
  have h2 : ((parse_func_argument_start ctx func backfill).1.token_id
      (parse_func_argument_start ctx func backfill).1.i == TOKEN_ELLIPSIS) = false := by
    simpa using h
  unfold parse_func_argument
  simp only [h2, Bool.false_eq_true, if_false]
  rfl

/-- The ways `parse_func_argument` succeeds: a lone ellipsis, or a name step
followed by a successful `parse_func_argument_after_name`. -/
theorem parse_func_argument_ok (ext : parse_externals_t) (ctx ctx2 : parse_ctx_t)
    (func func2 : ast_func_t) (capacity backfill backfill2 : Nat) (is_solid : Bool)
    (h : parse_func_argument ext ctx func capacity backfill
      = .ok (ctx2, func2, backfill2, is_solid)) :
    (backfill = 0 ∧ backfill2 = 0 ∧ is_solid = false
      ∧ (parse_func_argument_flow ctx).2.token_id (parse_func_argument_flow ctx).2.i
          = TOKEN_ELLIPSIS
      ∧ func2 = { (parse_func_argument_start ctx func backfill).2 with
          traits := (parse_func_argument_start ctx func backfill).2.traits ||| AST_FUNC_VARARG })
    ∨ (∃ ctxN funcN,
        parse_func_argument_name (parse_func_argument_flow ctx).2
          (parse_func_argument_start ctx func backfill).2 capacity backfill = .ok (ctxN, funcN)
        ∧ parse_func_argument_after_name ext ctxN funcN capacity backfill
          = .ok (ctx2, func2, backfill2, is_solid)) := by
  by_cases hE : (parse_func_argument_flow ctx).2.token_id (parse_func_argument_flow ctx).2.i
      = TOKEN_ELLIPSIS
  · rw [parse_func_argument_of_ellipsis ext ctx func capacity backfill hE] at h
    split at h
    · cases h
    · rename_i hb
      simp only [Except.ok.injEq, Prod.mk.injEq] at h
      obtain ⟨_, h2, h3, h4⟩ := h
      have hb0 : backfill = 0 := by simpa using hb
      exact Or.inl ⟨hb0, by omega, h4.symm, hE, h2.symm⟩
  · rw [parse_func_argument_of_not_ellipsis ext ctx func capacity backfill hE] at h
    cases hN : parse_func_argument_name (parse_func_argument_flow ctx).2
        (parse_func_argument_start ctx func backfill).2 capacity backfill with
    | error e => rw [hN] at h; cases h
    | ok r =>
      obtain ⟨ctxN, funcN⟩ := r
      rw [hN] at h
      exact Or.inr ⟨ctxN, funcN, rfl, h⟩

/-! ## Trait bits -/

theorem trait_has_or_self (t f : trait_t) (hf : f ≠ 0) : (t ||| f).has f = true := by
  have h : (t ||| f) &&& f = f := by
    apply Nat.eq_of_testBit_eq
    intro i
    simp only [Nat.testBit_and, Nat.testBit_or]
    cases t.testBit i <;> cases f.testBit i <;> rfl
  unfold trait_t.has
  rw [h]
  simpa using hf

theorem trait_has_foreign_or_vararg (t : trait_t) :
    (t ||| AST_FUNC_VARARG).has AST_FUNC_FOREIGN = t.has AST_FUNC_FOREIGN := by
  have h : (t ||| AST_FUNC_VARARG) &&& AST_FUNC_FOREIGN = t &&& AST_FUNC_FOREIGN := by
    apply Nat.eq_of_testBit_eq
    intro i
    simp only [Nat.testBit_and, Nat.testBit_or, AST_FUNC_VARARG, AST_FUNC_FOREIGN]
    cases i with
    | zero => simp
    | succ n =>
      have : Nat.testBit 1 (n + 1) = false := by simp [Nat.testBit_succ]
      simp [this]
  unfold trait_t.has
  rw [h]

theorem trait_has_foreign_or_variadic (t : trait_t) :
    (t ||| AST_FUNC_VARIADIC).has AST_FUNC_FOREIGN = t.has AST_FUNC_FOREIGN := by
  have h : (t ||| AST_FUNC_VARIADIC) &&& AST_FUNC_FOREIGN = t &&& AST_FUNC_FOREIGN := by
    apply Nat.eq_of_testBit_eq
    intro i
    simp only [Nat.testBit_and, Nat.testBit_or, AST_FUNC_VARIADIC, AST_FUNC_FOREIGN]
    cases i with
    | zero => simp
    | succ n =>
      have : Nat.testBit 1 (n + 1) = false := by simp [Nat.testBit_succ]
      simp [this]
  unfold trait_t.has
  rw [h]

/-! ## Ellipses -/

theorem skip_newlines_stay (ctx : parse_ctx_t) (n k : Nat)
    (h : ctx.token_id k ≠ TOKEN_NEWLINE) : skip_newlines ctx n k = k := by
  cases n with
  | zero => rfl
  | succ n => simp [skip_newlines, h]

theorem parse_ctx_token_id_of_getElem (ctx : parse_ctx_t) (k : Nat) (t : token_t)
    (h : ctx.tokens[k]? = some t) : ctx.token_id k = t.id := by
  unfold parse_ctx_t.token_id
  rw [h]

theorem parse_func_argument_start_fst (ctx : parse_ctx_t) (func : ast_func_t) (backfill : Nat) :
    (parse_func_argument_start ctx func backfill).1 = (parse_func_argument_flow ctx).2 := rfl

theorem parse_func_argument_flow_tokens (ctx : parse_ctx_t) :
    (parse_func_argument_flow ctx).2.tokens = ctx.tokens
    ∧ (parse_func_argument_flow ctx).2.sources = ctx.sources := by
  unfold parse_func_argument_flow
  split
  · exact ⟨rfl, rfl⟩
  · split
    · exact ⟨rfl, rfl⟩
    · split <;> exact ⟨rfl, rfl⟩

/-- In a foreign function, a word that the look-ahead takes for a name is
passed over by a successful name step. -/
theorem parse_func_argument_name_foreign (ctx ctx2 : parse_ctx_t) (func func2 : ast_func_t)
    (capacity backfill : Nat) (hf : func.traits.has AST_FUNC_FOREIGN = true)
    (hname : parse_func_argument_is_name ctx = true)
    (h : parse_func_argument_name ctx func capacity backfill = .ok (ctx2, func2)) :
    ctx2 = (parse_take_word ctx).2 ∧ func2.traits = func.traits := by
  unfold parse_func_argument_name at h
  simp only [hf, if_true, hname] at h
  split at h
  · cases h
  · simp only [Except.ok.injEq, Prod.mk.injEq] at h
    obtain ⟨h1, h2⟩ := h
    subst h1 h2
    exact ⟨rfl, rfl⟩

/-- In a foreign function an argument `name ...` is rejected, whatever the
pending count: the word is taken for a name (or found ambiguous), and the ellipsis
behind it is refused. -/
theorem parse_func_argument_named_ellipsis_foreign (ext : parse_externals_t)
    (ctx : parse_ctx_t) (func : ast_func_t) (capacity backfill : Nat)
    (hf : func.traits.has AST_FUNC_FOREIGN = true)
    (hW : (parse_func_argument_flow ctx).2.token_id (parse_func_argument_flow ctx).2.i
      = TOKEN_WORD)
    (hE : (parse_func_argument_flow ctx).2.token_id ((parse_func_argument_flow ctx).2.i + 1)
      = TOKEN_ELLIPSIS) :
    ∃ msg, parse_func_argument ext ctx func capacity backfill = .error msg := by
  have hne : (parse_func_argument_flow ctx).2.token_id (parse_func_argument_flow ctx).2.i
      ≠ TOKEN_ELLIPSIS := by
    rw [hW]; decide
  have hget : ∃ t, (parse_func_argument_flow ctx).2.tokens[(parse_func_argument_flow ctx).2.i]?
        = some t ∧ t.id = TOKEN_WORD := by
    unfold parse_ctx_t.token_id at hW
    split at hW
    · rename_i t ht
      exact ⟨t, ht, hW⟩
    · cases hW
  obtain ⟨t, ht, htid⟩ := hget
  have htake : parse_take_word (parse_func_argument_flow ctx).2
      = (some t.data, { (parse_func_argument_flow ctx).2 with
          i := (parse_func_argument_flow ctx).2.i + 1 }) := by
    unfold parse_take_word
    rw [ht]
    simp [htid]
  have hE2 : ({ (parse_func_argument_flow ctx).2 with
      i := (parse_func_argument_flow ctx).2.i + 1 } : parse_ctx_t).token_id
        ((parse_func_argument_flow ctx).2.i + 1) = TOKEN_ELLIPSIS := hE
  have hname : parse_func_argument_is_name (parse_func_argument_flow ctx).2 = true := by
    unfold parse_func_argument_is_name
    rw [hW]
    simp only [beq_self_eq_true, if_true]
    rw [skip_newlines_stay _ _ _ (by rw [hE]; decide), hE]
    decide
  have hf2 : (parse_func_argument_start ctx func backfill).2.traits.has AST_FUNC_FOREIGN
      = true := hf
  rw [parse_func_argument_of_not_ellipsis ext ctx func capacity backfill hne]
  cases hN : parse_func_argument_name (parse_func_argument_flow ctx).2
      (parse_func_argument_start ctx func backfill).2 capacity backfill with
  | error e => exact ⟨e, rfl⟩
  | ok r =>
    obtain ⟨ctxN, funcN⟩ := r
    obtain ⟨hc, hft⟩ := parse_func_argument_name_foreign _ _ _ _ _ _ hf2 hname hN
    rw [htake] at hc
    simp only at hc
    subst hc
    have hf3 : funcN.traits.has AST_FUNC_FOREIGN = true := by rw [hft]; exact hf2
    simp only
    unfold parse_func_argument_after_name
    simp only [hE2, beq_self_eq_true, if_true, hf3]
    exact ⟨_, rfl⟩

/-- C7. A bare `...` met with no argument pending sets `AST_FUNC_VARARG` and adds
no argument: the arity, the types, the names and the type traits are as before.
An ellipsis met while arguments are pending - bare, or behind a name - makes
`parse_func_argument` fail; the diagnostic of a function that is not foreign is
"Expected type for previous arguments before ellipsis". The context spoken of is
the one behind the optional flow keyword. -/
theorem parse_func_argument_ellipsis (ext : parse_externals_t) (ctx : parse_ctx_t)
    (func : ast_func_t) (capacity backfill : Nat) :
    ((parse_func_argument_flow ctx).2.token_id (parse_func_argument_flow ctx).2.i
        = TOKEN_ELLIPSIS →
      ∃ ctx2 func2, parse_func_argument ext ctx func capacity 0 = .ok (ctx2, func2, 0, false)
        ∧ func2.traits = func.traits ||| AST_FUNC_VARARG
        ∧ func2.traits.has AST_FUNC_VARARG = true
        ∧ func2.arity = func.arity ∧ func2.arg_types = func.arg_types
        ∧ func2.arg_names = func.arg_names ∧ func2.arg_type_traits = func.arg_type_traits)
    ∧ (backfill ≠ 0 →
        (parse_func_argument_flow ctx).2.token_id (parse_func_argument_flow ctx).2.i
          = TOKEN_ELLIPSIS →
        parse_func_argument ext ctx func capacity backfill
          = .error "Expected type for previous arguments before ellipsis")
    ∧ (backfill ≠ 0 →
        (parse_func_argument_flow ctx).2.token_id (parse_func_argument_flow ctx).2.i
          = TOKEN_WORD →
        (parse_func_argument_flow ctx).2.token_id ((parse_func_argument_flow ctx).2.i + 1)
          = TOKEN_ELLIPSIS →
        (∃ msg, parse_func_argument ext ctx func capacity backfill = .error msg)
        ∧ (func.traits.has AST_FUNC_FOREIGN = false →
            parse_func_argument ext ctx func capacity backfill
              = .error "Expected type for previous arguments before ellipsis")) := by
  refine ⟨?_, ?_, ?_⟩
  · intro hE
    refine ⟨{ (parse_func_argument_flow ctx).2 with
                i := (parse_func_argument_flow ctx).2.i + 1 },
      { (parse_func_argument_start ctx func 0).2 with
          traits := (parse_func_argument_start ctx func 0).2.traits ||| AST_FUNC_VARARG },
      ?_, rfl, trait_has_or_self _ _ (by decide : AST_FUNC_VARARG ≠ 0), rfl, rfl, rfl, rfl⟩
    rw [parse_func_argument_of_ellipsis ext ctx func capacity 0 hE]
    rfl
  · intro hb hE
    rw [parse_func_argument_of_ellipsis ext ctx func capacity backfill hE]
    simp [hb]
  · intro hb hW hE
    have hne : (parse_func_argument_flow ctx).2.token_id (parse_func_argument_flow ctx).2.i
        ≠ TOKEN_ELLIPSIS := by
      rw [hW]; decide
    -- the word is a token of the list
    have hget : ∃ t, (parse_func_argument_flow ctx).2.tokens[(parse_func_argument_flow ctx).2.i]?
          = some t ∧ t.id = TOKEN_WORD := by
      unfold parse_ctx_t.token_id at hW
      split at hW
      · rename_i t ht
        exact ⟨t, ht, hW⟩
      · cases hW
    obtain ⟨t, ht, htid⟩ := hget
    have htake : parse_take_word (parse_func_argument_flow ctx).2
        = (some t.data, { (parse_func_argument_flow ctx).2 with
            i := (parse_func_argument_flow ctx).2.i + 1 }) := by
      unfold parse_take_word
      rw [ht]
      simp [htid]
    have hE2 : ({ (parse_func_argument_flow ctx).2 with
        i := (parse_func_argument_flow ctx).2.i + 1 } : parse_ctx_t).token_id
          ((parse_func_argument_flow ctx).2.i + 1) = TOKEN_ELLIPSIS := hE
    by_cases hf : func.traits.has AST_FUNC_FOREIGN = true
    · -- foreign: the word is taken for a name, and the form is refused
      exact ⟨parse_func_argument_named_ellipsis_foreign ext ctx func capacity backfill hf hW hE,
        fun hnf => by rw [hf] at hnf; cases hnf⟩
    · simp only [Bool.not_eq_true] at hf
      have hf2 : (parse_func_argument_start ctx func backfill).2.traits.has AST_FUNC_FOREIGN
          = false := hf
      have hfinal : (match parse_func_argument_name (parse_func_argument_flow ctx).2
          (parse_func_argument_start ctx func backfill).2 capacity backfill with
        | .error e => (.error e : Except String (parse_ctx_t × ast_func_t × Nat × Bool))
        | .ok (ctx, func) => parse_func_argument_after_name ext ctx func capacity backfill)
          = .error "Expected type for previous arguments before ellipsis" := by
        unfold parse_func_argument_name
        simp only [hf2, Bool.false_eq_true, if_false, htake]
        unfold parse_func_argument_after_name
        simp only [hE2, beq_self_eq_true, if_true, hf2, Bool.false_eq_true, if_false]
        simp [hb]
      rw [parse_func_argument_of_not_ellipsis ext ctx func capacity backfill hne]
      exact ⟨⟨_, hfinal⟩, fun _ => hfinal⟩

/-- The witness of C7: in `(a, ...)` the ellipsis is met with one argument
pending, and both `parse_func_argument` at the ellipsis and `parse_func_arguments`
on the whole list fail with the diagnostic; in `(... ...)` the first ellipsis is
met with nothing pending and sets `AST_FUNC_VARARG`. -/
theorem parse_func_argument_ellipsis_witness :
    parse_func_argument parse_fragment { parse_ctx_of tokens_pending_ellipsis with i := 3 }
        func_example 4 1
      = .error "Expected type for previous arguments before ellipsis"
    ∧ parse_func_arguments parse_fragment 20 (parse_ctx_of tokens_pending_ellipsis)
        (ast_func_create_template "f" ⟨0, 0⟩ TRAIT_NONE)
      = .error "Expected type for previous arguments before ellipsis"
    ∧ ∃ ctx2 func2,
        parse_func_argument parse_fragment { parse_ctx_of tokens_vararg_twice with i := 1 }
          func_example 4 0 = .ok (ctx2, func2, 0, false)
        ∧ func2.traits.has AST_FUNC_VARARG = true ∧ func2.arity = 0 := by
  refine ⟨(parse_func_argument_ellipsis parse_fragment
      { parse_ctx_of tokens_pending_ellipsis with i := 3 } func_example 4 1).2.1
      (by decide) (by decide), by rfl, ?_⟩
  obtain ⟨ctx2, func2, h1, _, h3, h4, _⟩ :=
    (parse_func_argument_ellipsis parse_fragment
      { parse_ctx_of tokens_vararg_twice with i := 1 } func_example 4 0).1 (by decide)
  exact ⟨ctx2, func2, h1, h3, h4⟩

/-- C6. The native variadic form. In a function that is not foreign, with no
argument pending, an argument `name ...` sets `AST_FUNC_VARIADIC`, stores `name` in
`variadic_arg_name`, leaves `NULL` in the slot of the names array the name was read
into, and leaves the arity unchanged; in a foreign function the form is rejected,
whatever the pending count. The context spoken of is the one behind the optional
flow keyword. -/
theorem parse_func_argument_variadic (ext : parse_externals_t) (ctx : parse_ctx_t)
    (func : ast_func_t) (capacity : Nat) (name : String) :
    (parse_func_argument_flow ctx).2.tokens[(parse_func_argument_flow ctx).2.i]?
      = some ⟨TOKEN_WORD, name⟩ →
    (parse_func_argument_flow ctx).2.token_id ((parse_func_argument_flow ctx).2.i + 1)
      = TOKEN_ELLIPSIS →
    (∀ names, func.traits.has AST_FUNC_FOREIGN = false → func.arg_names = some names →
      func.arity < names.length →
      ∃ ctx2 func2, parse_func_argument ext ctx func capacity 0 = .ok (ctx2, func2, 0, false)
        ∧ ctx2.i = (parse_func_argument_flow ctx).2.i + 2
        ∧ func2.traits = func.traits ||| AST_FUNC_VARIADIC
        ∧ func2.traits.has AST_FUNC_VARIADIC = true
        ∧ func2.variadic_arg_name = some name
        ∧ func2.arg_names = some (names.set func.arity (some none))
        ∧ func2.arity = func.arity ∧ func2.arg_types = func.arg_types
        ∧ func2.arg_type_traits = func.arg_type_traits)
    ∧ (func.traits.has AST_FUNC_FOREIGN = true →
        ∀ backfill, ∃ msg, parse_func_argument ext ctx func capacity backfill = .error msg) := by
  intro hW hE
  have hWid : (parse_func_argument_flow ctx).2.token_id (parse_func_argument_flow ctx).2.i
      = TOKEN_WORD := parse_ctx_token_id_of_getElem _ _ _ hW
  have hne : (parse_func_argument_flow ctx).2.token_id (parse_func_argument_flow ctx).2.i
      ≠ TOKEN_ELLIPSIS := by
    rw [hWid]; decide
  have htake : parse_take_word (parse_func_argument_flow ctx).2
      = (some name, { (parse_func_argument_flow ctx).2 with
          i := (parse_func_argument_flow ctx).2.i + 1 }) := by
    unfold parse_take_word
    rw [hW]
    simp
  have hE2 : ({ (parse_func_argument_flow ctx).2 with
      i := (parse_func_argument_flow ctx).2.i + 1 } : parse_ctx_t).token_id
        ((parse_func_argument_flow ctx).2.i + 1) = TOKEN_ELLIPSIS := hE
  refine ⟨?_, ?_⟩
  · intro names hf hnames hlt
    have hf2 : (parse_func_argument_start ctx func 0).2.traits.has AST_FUNC_FOREIGN
        = false := hf
    rw [parse_func_argument_of_not_ellipsis ext ctx func capacity 0 hne]
    unfold parse_func_argument_name
    simp only [hf2, Bool.false_eq_true, if_false, htake]
    unfold parse_func_argument_after_name
    simp only [hE2, beq_self_eq_true, if_true, hf2, Bool.false_eq_true, if_false]
    have harity : (parse_func_argument_start ctx func 0).2.arity = func.arity := rfl
    have hnames2 : (parse_func_argument_start ctx func 0).2.arg_names = some names := hnames
    refine ⟨_, _, rfl, rfl, rfl, trait_has_or_self _ _ (by decide : AST_FUNC_VARIADIC ≠ 0),
      ?_, ?_, rfl, rfl, rfl⟩
    · simp only [hnames2, harity, Option.map_some', Option.getD_some, Nat.add_zero]
      unfold slot_ptr
      rw [List.getElem?_set_self hlt]
    · simp only [hnames2, harity, Option.map_some', Nat.add_zero, List.set_set]
  · intro hf backfill
    exact parse_func_argument_named_ellipsis_foreign ext ctx func capacity backfill hf hWid hE

/-- The witness of C6: `(items ...)`. At the argument, `parse_func_argument` stores
the name apart and counts no argument; `parse_func_arguments` on the whole list of
`func f(items ...) void` yields the variadic name `items`, arity 0 and the trait
`AST_FUNC_VARIADIC`; the same argument in a foreign function is rejected. -/
theorem parse_func_argument_variadic_witness :
    (∃ ctx2 func2,
        parse_func_argument parse_fragment { parse_ctx_of tokens_variadic with i := 1 }
          func_example 4 0 = .ok (ctx2, func2, 0, false)
        ∧ func2.traits.has AST_FUNC_VARIADIC = true
        ∧ func2.variadic_arg_name = some "items"
        ∧ func2.arg_names = some [some none, none, none, none]
        ∧ func2.arity = 0)
    ∧ (∃ ctx2 func2,
        parse_func_arguments parse_fragment 20 (parse_ctx_of tokens_variadic)
          (ast_func_create_template "f" ⟨0, 0⟩ TRAIT_NONE) = .ok (ctx2, func2)
        ∧ func2.traits.has AST_FUNC_VARIADIC = true
        ∧ func2.variadic_arg_name = some "items"
        ∧ func2.arity = 0)
    ∧ (∃ msg,
        parse_func_argument parse_fragment { parse_ctx_of tokens_variadic with i := 1 }
          func_example_foreign 4 0 = .error msg) := by
  refine ⟨?_, ⟨_, _, rfl, rfl, rfl, rfl⟩, ?_⟩
  · obtain ⟨ctx2, func2, h1, _, _, h4, h5, h6, h7, _⟩ :=
      (parse_func_argument_variadic parse_fragment { parse_ctx_of tokens_variadic with i := 1 }
        func_example 4 "items" rfl (by decide)).1 (List.replicate 4 none) (by decide) rfl
        (by decide)
    exact ⟨ctx2, func2, h1, h4, h5, h6, h7⟩
  · exact (parse_func_argument_variadic parse_fragment
      { parse_ctx_of tokens_variadic with i := 1 } func_example_foreign 4 "items" rfl
      (by decide)).2 (by decide) 0

/-! ## The claims about variable-arity markers that the code breaks -/

/-- C5, the code at the failing input `func f(... items ...) void`: whatever the
type and expression parsers, `parse_func_arguments` accepts the list and leaves
both `AST_FUNC_VARARG` and `AST_FUNC_VARIADIC` in the traits. -/
theorem parse_func_arguments_vararg_and_variadic (ext : parse_externals_t) :
    ∃ ctx2 func2,
      parse_func_arguments ext 20 (parse_ctx_of tokens_vararg_variadic)
        (ast_func_create_template "f" ⟨0, 0⟩ TRAIT_NONE) = .ok (ctx2, func2)
      ∧ func2.traits.has AST_FUNC_VARARG = true
      ∧ func2.traits.has AST_FUNC_VARIADIC = true
      ∧ func2.variadic_arg_name = some "items" ∧ func2.arity = 0 :=
  ⟨_, _, rfl, rfl, rfl, rfl, rfl⟩

/-- C4, the code at two failing inputs: `func f(... ...) void` is accepted with
two markers in the list, and `func f(... a int) void` is accepted with an argument
behind the marker, which is counted (arity 1) while `AST_FUNC_VARARG` is set. -/
theorem parse_func_arguments_marker_not_last (ext : parse_externals_t) :
    (∃ ctx2 func2,
      parse_func_arguments ext 20 (parse_ctx_of tokens_vararg_twice)
        (ast_func_create_template "f" ⟨0, 0⟩ TRAIT_NONE) = .ok (ctx2, func2)
      ∧ ctx2.i = 4 ∧ func2.traits.has AST_FUNC_VARARG = true ∧ func2.arity = 0)
    ∧ (∃ ctx2 func2,
      parse_func_arguments parse_fragment 20 (parse_ctx_of tokens_vararg_then_argument)
        (ast_func_create_template "f" ⟨0, 0⟩ TRAIT_NONE) = .ok (ctx2, func2)
      ∧ ctx2.i = 5 ∧ func2.traits.has AST_FUNC_VARARG = true ∧ func2.arity = 1
      ∧ slot_ptr (func2.arg_names.getD []) 0 = some "a") :=
  ⟨⟨_, _, rfl, rfl, rfl, rfl⟩, ⟨_, _, rfl, rfl, rfl, rfl, rfl⟩⟩

/-! ## Default backfill -/

/-- C1. Default backfill in `parse_func_backfill_arguments`, the pending arguments
being the slots `arity .. arity + backfill - 1` and the solid argument the slot
`arity + backfill`. When the solid argument has a default `d`: a pending argument
with no default of its own, and none between it and the solid argument, receives a
clone of `d`; a pending argument that has a default of its own, or has one to its
right among the pending arguments, keeps exactly what it had; the slots that are
not pending are untouched. When the solid argument has no default (no defaults
array, or `NULL` in its slot) the defaults are unchanged. -/
theorem parse_func_backfill_arguments_defaults (func : ast_func_t) (backfill : Nat) :
    (∀ (ds : List (Option (Option ast_expr_t))) (d : ast_expr_t),
      func.arg_defaults = some ds → slot_ptr ds (func.arity + backfill) = some d →
      ∃ ds2, (parse_func_backfill_arguments func backfill).arg_defaults = some ds2
        ∧ ds2.length = ds.length
        ∧ (∀ idx, func.arity ≤ idx → idx < func.arity + backfill → idx < ds.length →
            (∀ l, idx ≤ l → l < func.arity + backfill → slot_ptr ds l = none) →
            ds2[idx]? = some (some (some (ast_expr_clone d))))
        ∧ (∀ idx l, idx ≤ l → l < func.arity + backfill → slot_ptr ds l ≠ none →
            ds2[idx]? = ds[idx]?)
        ∧ (∀ idx, idx < func.arity ∨ func.arity + backfill ≤ idx → ds2[idx]? = ds[idx]?))
    ∧ (func.arg_defaults = none
        ∨ (∃ ds, func.arg_defaults = some ds ∧ slot_ptr ds (func.arity + backfill) = none) →
      (parse_func_backfill_arguments func backfill).arg_defaults = func.arg_defaults) := by
  refine ⟨?_, ?_⟩
  · intro ds d hds hd
    unfold parse_func_backfill_arguments
    simp only [hds, hd]
    obtain ⟨ds2, h2, hlen, hall⟩ := parse_func_backfill_loop_defaults (func.arity + backfill)
      (slot_val func.arg_type_traits (func.arity + backfill)) (some d) backfill 0 func true
      func.arity ds rfl hds
    refine ⟨ds2, h2, hlen, ?_, ?_, ?_⟩
    · intro idx h1 h3 h4 h5
      exact (hall idx).1 ⟨rfl, rfl, h1, h3, h4, h5⟩
    · intro idx l h1 h3 h4
      apply (hall idx).2
      rintro ⟨_, _, _, _, hinh⟩
      exact h4 (hinh l h1 h3)
    · intro idx h1
      apply (hall idx).2
      rintro ⟨_, _, _, _, _⟩
      omega
  · intro h
    unfold parse_func_backfill_arguments
    rcases h with h | ⟨ds, hds, hd⟩
    · simp only [h]
      exact parse_func_backfill_loop_defaults_none _ _ _ _ _ _ _ h
    · simp only [hds, hd]
      obtain ⟨ds2, h2, hlen, hall⟩ := parse_func_backfill_loop_defaults (func.arity + backfill)
        (slot_val func.arg_type_traits (func.arity + backfill)) none backfill 0 func true
        func.arity ds rfl hds
      rw [h2]
      congr 1
      apply List.ext_getElem?
      intro idx
      apply (hall idx).2
      rintro ⟨_, hmd, _⟩
      cases hmd

/-- The witness of C1. In the state of `func f(a, b, c int = 7)` before the
backfill, both pending arguments receive the default `7`; and, run on the whole
lists with the fragment parsers, `parse_func_arguments` yields the defaults
`7, 7, 7` for `(a, b, c int = 7)` and `9, 7, 7` for `(a = 9, b, c int = 7)`. -/
theorem parse_func_backfill_arguments_defaults_witness :
    (∃ ds2, (parse_func_backfill_arguments func_backfill_example 2).arg_defaults = some ds2
      ∧ ds2[0]? = some (some (some (.other TOKEN_GENERIC_INT "7" ⟨0, 8⟩)))
      ∧ ds2[1]? = some (some (some (.other TOKEN_GENERIC_INT "7" ⟨0, 8⟩))))
    ∧ (∃ ctx2 func2,
      parse_func_arguments parse_fragment 20 (parse_ctx_of tokens_backfill_7)
        (ast_func_create_template "f" ⟨0, 0⟩ TRAIT_NONE) = .ok (ctx2, func2)
      ∧ func2.arity = 3
      ∧ func2.arg_defaults = some
          [some (some (.other TOKEN_GENERIC_INT "7" ⟨0, 8⟩)),
           some (some (.other TOKEN_GENERIC_INT "7" ⟨0, 8⟩)),
           some (some (.other TOKEN_GENERIC_INT "7" ⟨0, 8⟩)), none])
    ∧ (∃ ctx2 func2,
      parse_func_arguments parse_fragment 20 (parse_ctx_of tokens_backfill_9_7)
        (ast_func_create_template "f" ⟨0, 0⟩ TRAIT_NONE) = .ok (ctx2, func2)
      ∧ func2.arity = 3
      ∧ func2.arg_defaults = some
          [some (some (.other TOKEN_GENERIC_INT "9" ⟨0, 3⟩)),
           some (some (.other TOKEN_GENERIC_INT "7" ⟨0, 10⟩)),
           some (some (.other TOKEN_GENERIC_INT "7" ⟨0, 10⟩)), none]) := by
  refine ⟨?_, ⟨_, _, rfl, rfl, rfl⟩, ⟨_, _, rfl, rfl, rfl⟩⟩
  obtain ⟨ds2, h1, _, h3, _, _⟩ :=
    (parse_func_backfill_arguments_defaults func_backfill_example 2).1 _
      (.other TOKEN_GENERIC_INT "7" ⟨0, 8⟩) rfl rfl
  refine ⟨ds2, h1, h3 0 (by decide) (by decide) (by decide) ?_,
    h3 1 (by decide) (by decide) (by decide) ?_⟩
  · intro l _ hl
    have : l = 0 ∨ l = 1 := by
      have : l < 2 := hl
      omega
    rcases this with h | h <;> subst h <;> rfl
  · intro l hl1 hl
    have : l = 1 := by
      have h1 : 1 ≤ l := hl1
      have h2 : l < 2 := hl
      omega
    subst this
    rfl

/-! ## Slots -/

theorem slot_val_set_self {α : Type} (array : List (Option α)) (i : Nat) (v : Option α)
    (h : i < array.length) : slot_val (array.set i v) i = v := by
  unfold slot_val
  rw [List.getElem?_set_self h]

theorem slot_val_set_ne {α : Type} (array : List (Option α)) (i j : Nat) (v : Option α)
    (h : i ≠ j) : slot_val (array.set i v) j = slot_val array j := by
  unfold slot_val
  rw [List.getElem?_set_ne h]

theorem slot_val_of_length_le {α : Type} (array : List (Option α)) (j : Nat)
    (h : array.length ≤ j) : slot_val array j = none := by
  unfold slot_val
  rw [List.getElem?_eq_none h]

theorem slot_val_replicate {α : Type} (n j : Nat) :
    slot_val (List.replicate n (none : Option α)) j = none := by
  unfold slot_val
  by_cases h : j < n
  · rw [List.getElem?_eq_getElem (by simpa using h)]
    simp
  · rw [List.getElem?_eq_none (by simpa using h)]

theorem slot_val_eq_of_getElem? {α : Type} (array : List (Option α)) (j : Nat) (v : Option α)
    (h : array[j]? = some v) : slot_val array j = v := by
  unfold slot_val
  rw [h]

theorem getElem?_of_slot_val {α : Type} (array : List (Option α)) (j : Nat)
    (h : j < array.length) : array[j]? = some (slot_val array j) := by
  unfold slot_val
  rw [List.getElem?_eq_getElem h]

theorem slot_ptr_eq_join {α : Type} (array : List (Option (Option α))) (j : Nat) :
    slot_ptr array j = (slot_val array j).join := by
  unfold slot_ptr slot_val
  cases h : array[j]? with
  | none => rfl
  | some v =>
    cases v with
    | none => rfl
    | some p => rfl

theorem grow_length {α : Type} (memory : List (Option α)) (old_length new_length : Nat) :
    (grow memory old_length new_length).length = new_length := by
  simp [grow]

theorem slot_val_grow {α : Type} (memory : List (Option α)) (old_length new_length j : Nat) :
    slot_val (grow memory old_length new_length) j
      = if j < old_length ∧ j < new_length then slot_val memory j else none := by
  by_cases hj : j < new_length
  · have : (grow memory old_length new_length)[j]?
        = some (if j < old_length then slot_val memory j else none) := by
      unfold grow
      rw [List.getElem?_map, List.getElem?_range hj]
      rfl
    rw [slot_val_eq_of_getElem? _ _ _ this]
    by_cases ho : j < old_length
    · simp [ho, hj]
    · simp [ho]
  · rw [slot_val_of_length_le _ _ (by rw [grow_length]; omega)]
    simp [hj]

theorem slots_filled_weaken {α : Type} (array : List (Option α)) (capacity lo hi lo2 hi2 : Nat)
    (h : slots_filled array capacity lo hi) (hlo : lo2 ≤ lo) (hhi : hi ≤ hi2) :
    slots_filled array capacity lo2 hi2 :=
  ⟨h.1, fun j hj => h.2.1 j (by omega), fun j hj => h.2.2 j (by omega)⟩

theorem slots_filled_set {α : Type} (array : List (Option α)) (capacity lo hi idx : Nat)
    (v : Option α) (h : slots_filled array capacity lo hi) (hidx : idx < capacity)
    (hlo : idx ≤ lo) (hv : v.isSome = true) :
    slots_filled (array.set idx v) capacity (max lo (idx + 1)) (max hi (idx + 1)) := by
  obtain ⟨hlen, hl, hh⟩ := h
  refine ⟨by rw [List.length_set]; exact hlen, ?_, ?_⟩
  · intro j hj
    by_cases hji : idx = j
    · subst hji
      rw [slot_val_set_self _ _ _ (by omega)]
      exact hv
    · rw [slot_val_set_ne _ _ _ _ hji]
      exact hl j (by omega)
  · intro j hj
    rw [slot_val_set_ne _ _ _ _ (by omega)]
    exact hh j (by omega)

theorem slots_filled_grow {α : Type} (array : List (Option α)) (capacity lo hi old new : Nat)
    (h : slots_filled array capacity lo hi) (hlo : lo ≤ old) (hnew : lo ≤ new) :
    slots_filled (grow array old new) new lo hi := by
  obtain ⟨_, hl, hh⟩ := h
  refine ⟨grow_length _ _ _, ?_, ?_⟩
  · intro j hj
    rw [slot_val_grow, if_pos ⟨by omega, by omega⟩]
    exact hl j hj
  · intro j hj
    rw [slot_val_grow]
    split
    · exact hh j hj
    · rfl

theorem slots_filled_replicate {α : Type} (n hi : Nat) :
    slots_filled (List.replicate n (none : Option α)) n 0 hi :=
  ⟨by simp, fun j hj => by omega, fun j _ => slot_val_replicate n j⟩

theorem slots_named_set_name {α : Type} (array : List (Option (Option α)))
    (capacity lo idx : Nat) (p : α) (h : slots_named array capacity lo lo)
    (hidx : idx < capacity) (hlo : idx = lo) :
    slots_named (array.set idx (some (some p))) capacity (lo + 1) (lo + 1) := by
  obtain ⟨hlen, hl, hh⟩ := h
  subst hlo
  refine ⟨by rw [List.length_set]; exact hlen, ?_, ?_⟩
  · intro j hj
    by_cases hji : idx = j
    · subst hji
      rw [slot_ptr_eq_join, slot_val_set_self _ _ _ (by omega)]
      rfl
    · rw [slot_ptr_set_ne _ _ _ _ hji]
      exact hl j (by omega)
  · intro j hj
    rw [slot_ptr_set_ne _ _ _ _ (by omega)]
    exact hh j (by omega)

theorem slots_named_set_null {α : Type} (array : List (Option (Option α)))
    (capacity idx : Nat) (h : slots_named array capacity (idx + 1) (idx + 1))
    (hidx : idx < capacity) :
    slots_named (array.set idx (some none)) capacity idx idx := by
  obtain ⟨hlen, hl, hh⟩ := h
  refine ⟨by rw [List.length_set]; exact hlen, ?_, ?_⟩
  · intro j hj
    rw [slot_ptr_set_ne _ _ _ _ (by omega)]
    exact hl j (by omega)
  · intro j hj
    by_cases hji : idx = j
    · subst hji
      rw [slot_ptr_eq_join, slot_val_set_self _ _ _ (by omega)]
      rfl
    · rw [slot_ptr_set_ne _ _ _ _ hji]
      exact hh j (by omega)

theorem slots_named_grow {α : Type} (array : List (Option (Option α)))
    (capacity lo hi old new : Nat)
    (h : slots_named array capacity lo hi) (hlo : lo ≤ old) (hnew : lo ≤ new) :
    slots_named (grow array old new) new lo hi := by
  obtain ⟨_, hl, hh⟩ := h
  refine ⟨grow_length _ _ _, ?_, ?_⟩
  · intro j hj
    rw [slot_ptr_eq_join, slot_val_grow, if_pos ⟨by omega, by omega⟩, ← slot_ptr_eq_join]
    exact hl j hj
  · intro j hj
    rw [slot_ptr_eq_join, slot_val_grow]
    split
    · rw [← slot_ptr_eq_join]; exact hh j hj
    · rfl

/-! ## `parse_func_grow_arguments` keeps the shape -/

theorem parse_func_grow_arguments_frame (func : ast_func_t) (backfill capacity : Nat) :
    (parse_func_grow_arguments func backfill capacity).1.arity = func.arity
    ∧ (parse_func_grow_arguments func backfill capacity).1.traits = func.traits
    ∧ (parse_func_grow_arguments func backfill capacity).1.variadic_arg_name
        = func.variadic_arg_name := by
  unfold parse_func_grow_arguments
  split
  · exact ⟨rfl, rfl, rfl⟩
  · split <;> exact ⟨rfl, rfl, rfl⟩

/-- After `parse_func_grow_arguments` the arrays have the shape they had, and room
for one more slot. -/
theorem parse_func_grow_arguments_inv (func : ast_func_t) (backfill capacity : Nat)
    (h : parse_func_arguments_inv func capacity backfill) :
    parse_func_arguments_inv (parse_func_grow_arguments func backfill capacity).1
      (parse_func_grow_arguments func backfill capacity).2 backfill
    ∧ func.arity + backfill < (parse_func_grow_arguments func backfill capacity).2 := by
  obtain ⟨hb, ht, htt, hs, hf, hdef, hn, hd⟩ := h
  unfold parse_func_grow_arguments
  by_cases hc : capacity = 0
  · subst hc
    have ha : func.arity = 0 := by omega
    have hk : backfill = 0 := by omega
    simp only [beq_self_eq_true, if_true]
    refine ⟨⟨?_, ?_, ?_, ?_, ?_, ?_, ?_, fun h4 => by cases h4⟩, ?_⟩
    · show func.arity + backfill ≤ 4
      omega
    · show slots_filled (List.replicate 4 none) 4 func.arity func.arity
      rw [ha]; exact slots_filled_replicate 4 0
    · show slots_filled (List.replicate 4 none) 4 func.arity func.arity
      rw [ha]; exact slots_filled_replicate 4 0
    · show slots_filled (List.replicate 4 none) 4 (func.arity + backfill)
        (func.arity + backfill + 1)
      rw [ha, hk]; exact slots_filled_replicate 4 _
    · show slots_filled (List.replicate 4 none) 4 (func.arity + backfill)
        (func.arity + backfill + 1)
      rw [ha, hk]; exact slots_filled_replicate 4 _
    · intro ds hds
      have hds2 : func.arg_defaults = some ds := hds
      rw [hd rfl] at hds2
      cases hds2
    · intro hfor
      have hfor2 : func.traits.has AST_FUNC_FOREIGN = false := hfor
      show slots_named ((if func.traits.has AST_FUNC_FOREIGN = true then none
          else some (List.replicate 4 none)).getD []) 4 (func.arity + backfill)
          (func.arity + backfill)
      rw [hfor2]
      refine ⟨by simp, fun j hj => by omega, fun j _ => ?_⟩
      simp only [Bool.false_eq_true, if_false, Option.getD_some]
      rw [slot_ptr_eq_join, slot_val_replicate]
      rfl
    · show func.arity + backfill < 4
      omega
  · have hc2 : (capacity == 0) = false := by simpa using hc
    simp only [hc2, Bool.false_eq_true, if_false]
    by_cases hfull : func.arity + backfill = capacity
    · have hfull2 : (func.arity + backfill != capacity) = false := by simpa using hfull
      simp only [hfull2, Bool.false_eq_true, if_false]
      refine ⟨⟨?_, ?_, ?_, ?_, ?_, ?_, ?_, fun h4 => by omega⟩, ?_⟩
      · show func.arity + backfill ≤ capacity * 2
        omega
      · show slots_filled (grow func.arg_types func.arity (capacity * 2)) (capacity * 2)
          func.arity func.arity
        exact slots_filled_grow _ _ _ _ _ _ ht (le_refl _) (by omega)
      · show slots_filled (grow func.arg_type_traits (func.arity + backfill) (capacity * 2))
          (capacity * 2) func.arity func.arity
        exact slots_filled_grow _ _ _ _ _ _ htt (by omega) (by omega)
      · show slots_filled (grow func.arg_sources (func.arity + backfill) (capacity * 2))
          (capacity * 2) (func.arity + backfill) (func.arity + backfill + 1)
        exact slots_filled_grow _ _ _ _ _ _ hs (le_refl _) (by omega)
      · show slots_filled (grow func.arg_flows (func.arity + backfill) (capacity * 2))
          (capacity * 2) (func.arity + backfill) (func.arity + backfill + 1)
        exact slots_filled_grow _ _ _ _ _ _ hf (le_refl _) (by omega)
      · intro ds hds
        have hds2 : func.arg_defaults.map
            (fun d => grow d (func.arity + backfill) (capacity * 2)) = some ds := hds
        show slots_filled ds (capacity * 2) (func.arity + backfill) (func.arity + backfill + 1)
        cases hdef0 : func.arg_defaults with
        | none => rw [hdef0] at hds2; cases hds2
        | some ds0 =>
          rw [hdef0] at hds2
          simp only [Option.map_some', Option.some.injEq] at hds2
          subst hds2
          exact slots_filled_grow _ _ _ _ _ _ (hdef ds0 hdef0) (le_refl _) (by omega)
      · intro hfor
        have hfor2 : func.traits.has AST_FUNC_FOREIGN = false := hfor
        have hnamed := hn hfor2
        show slots_named
          ((if (!func.traits.has AST_FUNC_FOREIGN || func.arg_names.isSome) = true then
            some (grow (func.arg_names.getD []) (func.arity + backfill) (capacity * 2))
          else func.arg_names).getD []) (capacity * 2) (func.arity + backfill)
          (func.arity + backfill)
        rw [hfor2]
        simp only [Bool.not_false, Bool.true_or, if_true, Option.getD_some]
        exact slots_named_grow _ _ _ _ _ _ hnamed (le_refl _) (by omega)
      · show func.arity + backfill < capacity * 2
        omega
    · have hfull2 : (func.arity + backfill != capacity) = true := by simpa using hfull
      simp only [hfull2, if_true]
      exact ⟨⟨hb, ht, htt, hs, hf, hdef, hn, fun h4 => absurd h4 hc⟩, by omega⟩

/-! ## `parse_func_argument` keeps the shape -/

theorem option_map_set_getD {α : Type} (o : Option (List α)) (i : Nat) (v : α) :
    (o.map (fun l => l.set i v)).getD [] = (o.getD []).set i v := by
  cases o <;> rfl

/-- The shape after the start of `parse_func_argument`. -/
theorem parse_func_argument_start_mid (ctx : parse_ctx_t) (func : ast_func_t)
    (capacity backfill : Nat) (h : parse_func_arguments_inv func capacity backfill)
    (hlt : func.arity + backfill < capacity) :
    parse_func_argument_mid (parse_func_argument_start ctx func backfill).2 capacity backfill
      (func.arity + backfill) func.arity := by
  obtain ⟨_, ht, htt, hs, hf, hdef, hn, _⟩ := h
  have hmax : max (func.arity + backfill) (func.arity + backfill + 1)
      = func.arity + backfill + 1 := by omega
  have hmax2 : max (func.arity + backfill + 1) (func.arity + backfill + 1)
      = func.arity + backfill + 1 := by omega
  refine ⟨hlt, ht, htt, ?_, ?_, ?_, ?_⟩
  · show slots_filled (func.arg_sources.set (func.arity + backfill) _) capacity
      (func.arity + backfill + 1) (func.arity + backfill + 1)
    have := slots_filled_set _ _ _ _ (func.arity + backfill)
      (some ((parse_func_argument_flow ctx).2.source_at (parse_func_argument_flow ctx).2.i))
      hs hlt (le_refl _) rfl
    rw [hmax, hmax2] at this
    exact this
  · show slots_filled (func.arg_flows.set (func.arity + backfill) _) capacity
      (func.arity + backfill + 1) (func.arity + backfill + 1)
    have := slots_filled_set _ _ _ _ (func.arity + backfill)
      (some (parse_func_argument_flow ctx).1) hf hlt (le_refl _) rfl
    rw [hmax, hmax2] at this
    exact this
  · intro ds hds
    have hds2 : func.arg_defaults.map (fun d => d.set (func.arity + backfill) (some none))
        = some ds := hds
    show slots_filled ds capacity (func.arity + backfill + 1) (func.arity + backfill + 1)
    cases hd0 : func.arg_defaults with
    | none => rw [hd0] at hds2; cases hds2
    | some ds0 =>
      rw [hd0] at hds2
      simp only [Option.map_some', Option.some.injEq] at hds2
      subst hds2
      have := slots_filled_set _ _ _ _ (func.arity + backfill) (some none)
        (hdef ds0 hd0) hlt (le_refl _) rfl
      rw [hmax, hmax2] at this
      exact this
  · intro hfor
    exact hn hfor

/-- The shape after a successful name step. -/
theorem parse_func_argument_name_mid (ctx ctx2 : parse_ctx_t) (func func2 : ast_func_t)
    (capacity backfill typed : Nat)
    (hmid : parse_func_argument_mid func capacity backfill (func.arity + backfill) typed)
    (h : parse_func_argument_name ctx func capacity backfill = .ok (ctx2, func2)) :
    parse_func_argument_mid func2 capacity backfill (func.arity + backfill + 1) typed
    ∧ func2.arity = func.arity ∧ func2.traits = func.traits
    ∧ func2.arg_types = func.arg_types ∧ func2.arg_type_traits = func.arg_type_traits
    ∧ func2.variadic_arg_name = func.variadic_arg_name := by
  obtain ⟨hb, ht, htt, hs, hf, hdef, hn⟩ := hmid
  obtain ⟨_, _, ⟨names, hnames⟩, hnf⟩ := parse_func_argument_name_frame _ _ _ _ _ _ h
  by_cases hfor : func.traits.has AST_FUNC_FOREIGN = false
  · obtain ⟨name, _, _, hfunc2⟩ := hnf hfor
    subst hfunc2
    refine ⟨⟨hb, ht, htt, hs, hf, hdef, ?_⟩, rfl, rfl, rfl, rfl, rfl⟩
    intro _
    have hnamed := hn hfor
    show slots_named ((func.arg_names.map
        (fun names => names.set (func.arity + backfill) (some (some name)))).getD [])
      capacity (func.arity + backfill + 1) (func.arity + backfill + 1)
    rw [option_map_set_getD]
    exact slots_named_set_name _ _ _ _ _ hnamed hb rfl
  · subst hnames
    refine ⟨⟨hb, ht, htt, hs, hf, hdef, ?_⟩, rfl, rfl, rfl, rfl, rfl⟩
    intro hfor2
    exact absurd hfor2 hfor

/-- The shape after a successful default-value step. -/
theorem parse_func_default_arg_value_mid (ext : parse_externals_t) (ctx ctx2 : parse_ctx_t)
    (func func2 : ast_func_t) (capacity backfill named typed : Nat)
    (hmid : parse_func_argument_mid func capacity backfill named typed)
    (h : parse_func_default_arg_value_if_applicable ext ctx func capacity backfill
      = .ok (ctx2, func2)) :
    parse_func_argument_mid func2 capacity backfill named typed
    ∧ func2.arity = func.arity ∧ func2.traits = func.traits
    ∧ func2.arg_types = func.arg_types ∧ func2.arg_type_traits = func.arg_type_traits
    ∧ func2.arg_names = func.arg_names
    ∧ func2.variadic_arg_name = func.variadic_arg_name := by
  obtain ⟨hb, ht, htt, hs, hf, hdef, hn⟩ := hmid
  rcases (parse_func_default_arg_value_frame _ _ _ _ _ _ _ h).1 with h2 | ⟨_, e, h2⟩
  · subst h2
    exact ⟨⟨hb, ht, htt, hs, hf, hdef, hn⟩, rfl, rfl, rfl, rfl, rfl, rfl⟩
  · subst h2
    refine ⟨⟨hb, ht, htt, hs, hf, ?_, hn⟩, rfl, rfl, rfl, rfl, rfl, rfl⟩
    intro ds hds
    have hds2 : some ((match func.arg_defaults with
        | some d => d
        | none => (List.range capacity).map
            (fun k => if k < func.arity + backfill then some none else none)).set
          (func.arity + backfill) (some (some e))) = some ds := hds
    show slots_filled ds capacity (func.arity + backfill + 1) (func.arity + backfill + 1)
    simp only [Option.some.injEq] at hds2
    subst hds2
    have hmax2 : max (func.arity + backfill + 1) (func.arity + backfill + 1)
        = func.arity + backfill + 1 := by omega
    cases hd0 : func.arg_defaults with
    | some ds0 =>
      simp only
      have := slots_filled_set _ _ _ _ (func.arity + backfill) (some (some e))
        (hdef ds0 hd0) hb (by omega) rfl
      rw [hmax2] at this
      exact this
    | none =>
      simp only
      have hfresh : slots_filled ((List.range capacity).map
          (fun k => if k < func.arity + backfill then some (none : Option ast_expr_t) else none))
          capacity (func.arity + backfill) (func.arity + backfill + 1) := by
        refine ⟨by simp, ?_, ?_⟩
        · intro j hj
          have : ((List.range capacity).map
              (fun k => if k < func.arity + backfill then some (none : Option ast_expr_t)
                else none))[j]? = some (some none) := by
            rw [List.getElem?_map, List.getElem?_range (by omega)]
            simp [hj]
          rw [slot_val_eq_of_getElem? _ _ _ this]
          rfl
        · intro j hj
          by_cases hjc : j < capacity
          · have : ((List.range capacity).map
                (fun k => if k < func.arity + backfill then some (none : Option ast_expr_t)
                  else none))[j]? = some none := by
              rw [List.getElem?_map, List.getElem?_range hjc]
              have : ¬ j < func.arity + backfill := by omega
              simp [this]
            exact slot_val_eq_of_getElem? _ _ _ this
          · exact slot_val_of_length_le _ _ (by simp; omega)
      have := slots_filled_set _ _ _ _ (func.arity + backfill) (some (some e))
        hfresh hb (le_refl _) rfl
      have hmax : max (func.arity + backfill) (func.arity + backfill + 1)
          = func.arity + backfill + 1 := by omega
      rw [hmax, hmax2] at this
      exact this

theorem parse_func_backfill_loop_lengths (m : Nat) (tt : Option trait_t)
    (md : Option ast_expr_t) :
    ∀ (k i : Nat) (func : ast_func_t) (bdv : Bool),
      (parse_func_backfill_loop m tt md i k func bdv).arg_types.length = func.arg_types.length
      ∧ (parse_func_backfill_loop m tt md i k func bdv).arg_type_traits.length
          = func.arg_type_traits.length
  | 0, _, _, _ => by rw [parse_func_backfill_loop]; exact ⟨rfl, rfl⟩
  | k + 1, i, func, bdv => by
      rw [parse_func_backfill_loop]
      obtain ⟨h1, h2⟩ := parse_func_backfill_loop_lengths m tt md k (i + 1)
        (parse_func_backfill_step m tt md i (k + 1) func bdv).1
        (parse_func_backfill_step m tt md i (k + 1) func bdv).2
      obtain ⟨_, _, _, _, _, _, _, g8, g9⟩ :=
        parse_func_backfill_step_frame m tt md i (k + 1) func bdv
      rw [h1, h2, g8, g9, List.length_set, List.length_set]
      exact ⟨rfl, rfl⟩

/-- The shape after a lone ellipsis. -/
theorem parse_func_argument_inv_vararg (func : ast_func_t) (capacity : Nat)
    (hmid : parse_func_argument_mid func capacity 0 func.arity func.arity) :
    parse_func_arguments_inv { func with traits := func.traits ||| AST_FUNC_VARARG }
      capacity 0 := by
  obtain ⟨hb, ht, htt, hs, hf, hdef, hn⟩ := hmid
  refine ⟨?_, ht, htt, ?_, ?_, ?_, ?_, ?_⟩
  · show func.arity + 0 ≤ capacity
    omega
  · exact slots_filled_weaken _ _ _ _ _ _ hs (by show func.arity + 0 ≤ _; omega) (le_refl _)
  · exact slots_filled_weaken _ _ _ _ _ _ hf (by show func.arity + 0 ≤ _; omega) (le_refl _)
  · intro ds hds
    exact slots_filled_weaken _ _ _ _ _ _ (hdef ds hds) (by show func.arity + 0 ≤ _; omega)
      (le_refl _)
  · intro hfor
    have hfor2 : (func.traits ||| AST_FUNC_VARARG).has AST_FUNC_FOREIGN = false := hfor
    rw [trait_has_foreign_or_vararg] at hfor2
    exact hn hfor2
  · intro hc
    omega

/-- The shape after a named ellipsis. -/
theorem parse_func_argument_inv_variadic (func : ast_func_t) (capacity : Nat)
    (vname : Option String) (vsource : source_t)
    (hmid : parse_func_argument_mid func capacity 0 (func.arity + 0 + 1) func.arity) :
    parse_func_arguments_inv
      { func with
        traits := func.traits ||| AST_FUNC_VARIADIC
        variadic_arg_name := vname
        arg_names := (func.arg_names.map (fun names => names.set (func.arity + 0) (some none)))
        variadic_source := vsource }
      capacity 0 := by
  obtain ⟨hb, ht, htt, hs, hf, hdef, hn⟩ := hmid
  refine ⟨?_, ht, htt, ?_, ?_, ?_, ?_, ?_⟩
  · show func.arity + 0 ≤ capacity
    omega
  · exact slots_filled_weaken _ _ _ _ _ _ hs (by show func.arity + 0 ≤ _; omega) (le_refl _)
  · exact slots_filled_weaken _ _ _ _ _ _ hf (by show func.arity + 0 ≤ _; omega) (le_refl _)
  · intro ds hds
    exact slots_filled_weaken _ _ _ _ _ _ (hdef ds hds) (by show func.arity + 0 ≤ _; omega)
      (le_refl _)
  · intro hfor
    have hfor2 : (func.traits ||| AST_FUNC_VARIADIC).has AST_FUNC_FOREIGN = false := hfor
    rw [trait_has_foreign_or_variadic] at hfor2
    have hnamed := hn hfor2
    show slots_named ((func.arg_names.map
        (fun names => names.set (func.arity + 0) (some none))).getD []) capacity
      (func.arity + 0) (func.arity + 0)
    rw [option_map_set_getD]
    exact slots_named_set_null _ _ _ hnamed (by omega)
  · intro hc
    omega

/-- The shape after a pending argument. -/
theorem parse_func_argument_inv_pending (func : ast_func_t) (capacity backfill : Nat)
    (hmid : parse_func_argument_mid func capacity backfill (func.arity + backfill + 1)
      func.arity) :
    parse_func_arguments_inv func capacity (backfill + 1) := by
  obtain ⟨hb, ht, htt, hs, hf, hdef, hn⟩ := hmid
  refine ⟨by omega, ht, htt, ?_, ?_, ?_, ?_, ?_⟩
  · exact slots_filled_weaken _ _ _ _ _ _ hs (by omega) (by omega)
  · exact slots_filled_weaken _ _ _ _ _ _ hf (by omega) (by omega)
  · intro ds hds
    exact slots_filled_weaken _ _ _ _ _ _ (hdef ds hds) (by omega) (by omega)
  · intro hfor
    exact hn hfor
  · intro hc
    omega

/-- The shape after a solid argument: the backfill fills the pending slots of the
types and the type traits, and the argument is counted. -/
theorem parse_func_argument_inv_solid (func : ast_func_t) (capacity backfill : Nat)
    (type : ast_type_t) (tt : trait_t)
    (hmid : parse_func_argument_mid func capacity backfill (func.arity + backfill + 1)
      (func.arity + backfill + 1))
    (htype : slot_val func.arg_types (func.arity + backfill) = some type)
    (htt : slot_val func.arg_type_traits (func.arity + backfill) = some tt) :
    parse_func_arguments_inv
      { parse_func_backfill_arguments func backfill with
        arity := (parse_func_backfill_arguments func backfill).arity + 1 }
      capacity 0 := by
  obtain ⟨hb, ht, htt2, hs, hf, hdef, hn⟩ := hmid
  unfold parse_func_backfill_arguments
  simp only [htt]
  generalize hmd : (match func.arg_defaults with
    | none => none
    | some d => slot_ptr d (func.arity + backfill)) = md
  obtain ⟨f1, f2, f3, f4, f5, _, _⟩ := parse_func_backfill_loop_frame (func.arity + backfill)
    (some tt) md backfill 0 func true
  obtain ⟨l1, l2⟩ := parse_func_backfill_loop_lengths (func.arity + backfill)
    (some tt) md backfill 0 func true
  have htypes := parse_func_backfill_loop_types (func.arity + backfill) (some tt) md backfill 0
    func true func.arity rfl (le_refl _)
  have htraits := parse_func_backfill_loop_type_traits (func.arity + backfill) (some tt) md
    backfill 0 func true func.arity rfl
  refine ⟨?_, ?_, ?_, ?_, ?_, ?_, ?_, ?_⟩
  · show (parse_func_backfill_loop (func.arity + backfill) (some tt) md 0 backfill func
      true).arity + 1 + 0 ≤ capacity
    rw [f1]; omega
  · show slots_filled (parse_func_backfill_loop (func.arity + backfill) (some tt) md 0 backfill
      func true).arg_types capacity
      ((parse_func_backfill_loop (func.arity + backfill) (some tt) md 0 backfill func
        true).arity + 1)
      ((parse_func_backfill_loop (func.arity + backfill) (some tt) md 0 backfill func
        true).arity + 1)
    rw [f1]
    refine ⟨by rw [l1]; exact ht.1, ?_, ?_⟩
    · intro j hj
      unfold slot_val
      rw [htypes j]
      by_cases hin : func.arity ≤ j ∧ j < func.arity + backfill ∧ j < func.arg_types.length
      · rw [if_pos hin, htype]; rfl
      · rw [if_neg hin]
        by_cases hj2 : j < func.arity
        · exact ht.2.1 j hj2
        · have hje : j = func.arity + backfill := by
            have := ht.1
            omega
          subst hje
          have := htype
          unfold slot_val at this
          rw [this]; rfl
    · intro j hj
      unfold slot_val
      rw [htypes j, if_neg (by omega)]
      exact ht.2.2 j (by omega)
  · show slots_filled (parse_func_backfill_loop (func.arity + backfill) (some tt) md 0 backfill
      func true).arg_type_traits capacity
      ((parse_func_backfill_loop (func.arity + backfill) (some tt) md 0 backfill func
        true).arity + 1)
      ((parse_func_backfill_loop (func.arity + backfill) (some tt) md 0 backfill func
        true).arity + 1)
    rw [f1]
    refine ⟨by rw [l2]; exact htt2.1, ?_, ?_⟩
    · intro j hj
      unfold slot_val
      rw [htraits j]
      by_cases hin : func.arity ≤ j ∧ j < func.arity + backfill
          ∧ j < func.arg_type_traits.length
      · rw [if_pos hin]; rfl
      · rw [if_neg hin]
        by_cases hj2 : j < func.arity
        · exact htt2.2.1 j hj2
        · have hje : j = func.arity + backfill := by
            have := htt2.1
            omega
          subst hje
          have := htt
          unfold slot_val at this
          rw [this]; rfl
    · intro j hj
      unfold slot_val
      rw [htraits j, if_neg (by omega)]
      exact htt2.2.2 j (by omega)
  · show slots_filled (parse_func_backfill_loop (func.arity + backfill) (some tt) md 0 backfill
      func true).arg_sources capacity
      ((parse_func_backfill_loop (func.arity + backfill) (some tt) md 0 backfill func
        true).arity + 1 + 0)
      ((parse_func_backfill_loop (func.arity + backfill) (some tt) md 0 backfill func
        true).arity + 1 + 0 + 1)
    rw [f1, f4]
    exact slots_filled_weaken _ _ _ _ _ _ hs (by omega) (by omega)
  · show slots_filled (parse_func_backfill_loop (func.arity + backfill) (some tt) md 0 backfill
      func true).arg_flows capacity
      ((parse_func_backfill_loop (func.arity + backfill) (some tt) md 0 backfill func
        true).arity + 1 + 0)
      ((parse_func_backfill_loop (func.arity + backfill) (some tt) md 0 backfill func
        true).arity + 1 + 0 + 1)
    rw [f1, f5]
    exact slots_filled_weaken _ _ _ _ _ _ hf (by omega) (by omega)
  · intro ds2 hds2
    have hds3 : (parse_func_backfill_loop (func.arity + backfill) (some tt) md 0 backfill func
      true).arg_defaults = some ds2 := hds2
    show slots_filled ds2 capacity
      ((parse_func_backfill_loop (func.arity + backfill) (some tt) md 0 backfill func
        true).arity + 1 + 0)
      ((parse_func_backfill_loop (func.arity + backfill) (some tt) md 0 backfill func
        true).arity + 1 + 0 + 1)
    rw [f1]
    cases hd0 : func.arg_defaults with
    | none =>
      rw [parse_func_backfill_loop_defaults_none _ _ _ _ _ _ _ hd0] at hds3
      cases hds3
    | some ds =>
      obtain ⟨ds3, h3, hlen, hall⟩ := parse_func_backfill_loop_defaults (func.arity + backfill)
        (some tt) md backfill 0 func true func.arity ds rfl hd0
      rw [h3] at hds3
      simp only [Option.some.injEq] at hds3
      subst hds3
      obtain ⟨dlen, dlo, dhi⟩ := hdef ds hd0
      refine ⟨by rw [hlen]; exact dlen, ?_, ?_⟩
      · intro j hj
        by_cases hP : (true = true ∧ md.isSome = true ∧ func.arity ≤ j
            ∧ j < func.arity + backfill
            ∧ (∀ l, j ≤ l → l < func.arity + backfill → slot_ptr ds l = none))
        · have := (hall j).1 ⟨hP.1, hP.2.1, hP.2.2.1, hP.2.2.2.1, by omega, hP.2.2.2.2⟩
          rw [slot_val_eq_of_getElem? _ _ _ this]
          rfl
        · have := (hall j).2 hP
          unfold slot_val
          rw [this]
          exact dlo j (by omega)
      · intro j hj
        have := (hall j).2 (by rintro ⟨_, _, _, h4, _⟩; omega)
        unfold slot_val
        rw [this]
        exact dhi j (by omega)
  · intro hfor
    have hfor2 : (parse_func_backfill_loop (func.arity + backfill) (some tt) md 0 backfill func
      true).traits.has AST_FUNC_FOREIGN = false := hfor
    rw [f2] at hfor2
    have hnamed := hn hfor2
    show slots_named ((parse_func_backfill_loop (func.arity + backfill) (some tt) md 0 backfill
        func true).arg_names.getD []) capacity
        ((parse_func_backfill_loop (func.arity + backfill) (some tt) md 0 backfill func
          true).arity + 1 + 0)
        ((parse_func_backfill_loop (func.arity + backfill) (some tt) md 0 backfill func
          true).arity + 1 + 0)
    rw [f1, f3]
    exact hnamed
  · intro hc
    omega

theorem slots_filled_set_hi {α : Type} (array : List (Option α)) (capacity lo hi idx : Nat)
    (v : Option α) (h : slots_filled array capacity lo hi) (hlo : lo ≤ idx) :
    slots_filled (array.set idx v) capacity lo (max hi (idx + 1)) := by
  obtain ⟨hlen, hl, hh⟩ := h
  refine ⟨by rw [List.length_set]; exact hlen, ?_, ?_⟩
  · intro j hj
    rw [slot_val_set_ne _ _ _ _ (by omega)]
    exact hl j hj
  · intro j hj
    rw [slot_val_set_ne _ _ _ _ (by omega)]
    exact hh j (by omega)

/-- The types after `parse_func_backfill_arguments`: each pending slot holds a
clone of the type of the solid argument, every other slot is as before. -/
theorem parse_func_backfill_arguments_types (func : ast_func_t) (backfill : Nat)
    (type : ast_type_t) (htype : slot_val func.arg_types (func.arity + backfill) = some type)
    (hlen : func.arity + backfill < func.arg_types.length) (j : Nat) :
    slot_val (parse_func_backfill_arguments func backfill).arg_types j
      = if func.arity ≤ j ∧ j < func.arity + backfill then some (ast_type_clone type)
        else slot_val func.arg_types j := by
  unfold parse_func_backfill_arguments
  simp only
  unfold slot_val
  rw [parse_func_backfill_loop_types _ _ _ backfill 0 func true func.arity rfl (le_refl _) j]
  by_cases hin : func.arity ≤ j ∧ j < func.arity + backfill
  · rw [if_pos ⟨hin.1, hin.2, by omega⟩, if_pos hin, htype]
    rfl
  · rw [if_neg (by tauto), if_neg hin]

/-- The type traits after `parse_func_backfill_arguments`: each pending slot holds
the type trait of the solid argument, every other slot is as before. -/
theorem parse_func_backfill_arguments_type_traits (func : ast_func_t) (backfill : Nat)
    (hlen : func.arity + backfill < func.arg_type_traits.length) (j : Nat) :
    slot_val (parse_func_backfill_arguments func backfill).arg_type_traits j
      = if func.arity ≤ j ∧ j < func.arity + backfill
        then slot_val func.arg_type_traits (func.arity + backfill)
        else slot_val func.arg_type_traits j := by
  unfold parse_func_backfill_arguments
  simp only
  rw [slot_val.eq_def (parse_func_backfill_loop _ _ _ _ _ _ _).arg_type_traits j]
  rw [parse_func_backfill_loop_type_traits _ _ _ backfill 0 func true func.arity rfl j]
  by_cases hin : func.arity ≤ j ∧ j < func.arity + backfill
  · rw [if_pos ⟨hin.1, hin.2, by omega⟩, if_pos hin]
  · rw [if_neg (by tauto), if_neg hin]
    rfl

/-- What the other fields are after `parse_func_backfill_arguments`. -/
theorem parse_func_backfill_arguments_frame (func : ast_func_t) (backfill : Nat) :
    (parse_func_backfill_arguments func backfill).arity = func.arity + backfill
    ∧ (parse_func_backfill_arguments func backfill).traits = func.traits
    ∧ (parse_func_backfill_arguments func backfill).arg_names = func.arg_names
    ∧ (parse_func_backfill_arguments func backfill).arg_sources = func.arg_sources
    ∧ (parse_func_backfill_arguments func backfill).arg_flows = func.arg_flows
    ∧ (parse_func_backfill_arguments func backfill).return_type = func.return_type
    ∧ (parse_func_backfill_arguments func backfill).variadic_arg_name
        = func.variadic_arg_name := by
  unfold parse_func_backfill_arguments
  exact parse_func_backfill_loop_frame _ _ _ _ _ _ _

/-- The effect of a successful `parse_func_argument` on arrays of the shape of the
loop invariant, with room for the current slot. The shape is kept. A step that is
not solid counts no argument and writes no type and no type trait. A solid step
with `backfill` arguments pending leaves nothing pending and counts
`backfill + 1` arguments; the type it parsed is in the slot of the solid argument,
a clone of it in each pending slot, and the type trait read (POD or none) in all
of them; the types and type traits of the arguments counted before are
untouched. -/
theorem parse_func_argument_effect (ext : parse_externals_t) (ctx ctx2 : parse_ctx_t)
    (func func2 : ast_func_t) (capacity backfill backfill2 : Nat) (is_solid : Bool)
    (hinv : parse_func_arguments_inv func capacity backfill)
    (hlt : func.arity + backfill < capacity)
    (h : parse_func_argument ext ctx func capacity backfill
      = .ok (ctx2, func2, backfill2, is_solid)) :
    parse_func_arguments_inv func2 capacity backfill2
    ∧ func2.traits.has AST_FUNC_FOREIGN = func.traits.has AST_FUNC_FOREIGN
    ∧ (is_solid = false →
        func2.arity = func.arity ∧ func2.arg_types = func.arg_types
        ∧ func2.arg_type_traits = func.arg_type_traits
        ∧ (backfill2 = backfill + 1 ∨ (backfill = 0 ∧ backfill2 = 0)))
    ∧ (is_solid = true →
        backfill2 = 0 ∧ func2.arity = func.arity + backfill + 1
        ∧ ∃ type tt, (∃ ctxC i, ext.parse_type ctxC = .ok (type, i))
          ∧ (tt = AST_FUNC_ARG_TYPE_TRAIT_POD ∨ tt = TRAIT_NONE)
          ∧ (∀ j, slot_val func2.arg_types j
              = if func.arity ≤ j ∧ j < func.arity + backfill then some (ast_type_clone type)
                else if j = func.arity + backfill then some type
                else slot_val func.arg_types j)
          ∧ (∀ j, slot_val func2.arg_type_traits j
              = if func.arity ≤ j ∧ j ≤ func.arity + backfill then some tt
                else slot_val func.arg_type_traits j)) := by
  have hmidS := parse_func_argument_start_mid ctx func capacity backfill hinv hlt
  rcases parse_func_argument_ok _ _ _ _ _ _ _ _ _ h with
    ⟨hk, hk2, hs, _, hf2⟩ | ⟨ctxN, funcN, hN, hA⟩
  · -- a lone ellipsis
    subst hk hk2 hs hf2
    refine ⟨parse_func_argument_inv_vararg _ _ hmidS, ?_, fun _ => ⟨rfl, rfl, rfl, Or.inr ⟨rfl, rfl⟩⟩,
      fun hc => by cases hc⟩
    exact trait_has_foreign_or_vararg _
  · obtain ⟨hmidN, hNar, hNtr, hNty, hNtt, _⟩ :=
      parse_func_argument_name_mid _ _ _ _ _ _ _ hmidS hN
    have hSar : (parse_func_argument_start ctx func backfill).2.arity = func.arity := rfl
    have hStr : (parse_func_argument_start ctx func backfill).2.traits = func.traits := rfl
    have hSty : (parse_func_argument_start ctx func backfill).2.arg_types = func.arg_types := rfl
    have hStt : (parse_func_argument_start ctx func backfill).2.arg_type_traits
        = func.arg_type_traits := rfl
    rw [hSar] at hNar hmidN
    rw [hStr] at hNtr
    rw [hSty] at hNty
    rw [hStt] at hNtt
    rcases parse_func_argument_after_name_ok _ _ _ _ _ _ _ _ _ hA with
      ⟨hk, hk2, hs, _, _, hf2⟩ | ⟨hk2, hs, _, ctxA, ctxB, hD⟩
        | ⟨hk2, hs, ctxA, ctxB, funcD, tt, type, ctxC, ctxD, ctxE, funcE, hD, htt, hT, hD2, hf2⟩
    · -- a named ellipsis
      subst hk hk2 hs hf2
      refine ⟨parse_func_argument_inv_variadic funcN capacity _ _ (by rw [hNar]; exact hmidN), ?_,
        fun _ => ⟨hNar, hNty, hNtt, Or.inr ⟨rfl, rfl⟩⟩, fun hc => by cases hc⟩
      show (funcN.traits ||| AST_FUNC_VARIADIC).has AST_FUNC_FOREIGN = _
      rw [trait_has_foreign_or_variadic, hNtr]
    · -- a pending argument
      subst hk2 hs
      obtain ⟨hmidD, hDar, hDtr, hDty, hDtt, _, _⟩ :=
        parse_func_default_arg_value_mid _ _ _ _ _ _ _ _ _ hmidN hD
      refine ⟨parse_func_argument_inv_pending func2 capacity backfill
          (by rw [hDar, hNar]; exact hmidD), by rw [hDtr, hNtr],
        fun _ => ⟨by rw [hDar, hNar], by rw [hDty, hNty], by rw [hDtt, hNtt], Or.inl rfl⟩,
        fun hc => by cases hc⟩
    · -- a solid argument
      subst hk2 hs
      obtain ⟨hmidD, hDar, hDtr, hDty, hDtt, _, _⟩ :=
        parse_func_default_arg_value_mid _ _ _ _ _ _ _ _ _ hmidN hD
      obtain ⟨hb, ht, htt2, hss, hff, hdef, hn⟩ := hmidD
      have hidx : funcD.arity + backfill = func.arity + backfill := by rw [hDar, hNar]
      have hmax : max func.arity (func.arity + backfill + 1) = func.arity + backfill + 1 := by
        omega
      -- the function with the type trait and the type stored
      have hmidP : parse_func_argument_mid
          { funcD with
            arg_type_traits := (funcD.arg_type_traits.set (funcD.arity + backfill) (some tt))
            arg_types := (funcD.arg_types.set (funcD.arity + backfill) (some type)) }
          capacity backfill (func.arity + backfill + 1) (func.arity + backfill + 1) := by
        refine ⟨hb, ?_, ?_, hss, hff, hdef, hn⟩
        · show slots_filled (funcD.arg_types.set (funcD.arity + backfill) (some type)) capacity
            funcD.arity (func.arity + backfill + 1)
          have := slots_filled_set_hi _ _ _ _ (funcD.arity + backfill) (some type) ht (by omega)
          rw [hidx, hDar, hNar, hmax] at this
          rw [hidx, hDar, hNar]
          exact this
        · show slots_filled (funcD.arg_type_traits.set (funcD.arity + backfill) (some tt))
            capacity funcD.arity (func.arity + backfill + 1)
          have := slots_filled_set_hi _ _ _ _ (funcD.arity + backfill) (some tt) htt2 (by omega)
          rw [hidx, hDar, hNar, hmax] at this
          rw [hidx, hDar, hNar]
          exact this
      obtain ⟨hmidE, hEar, hEtr, hEty, hEtt, _, _⟩ :=
        parse_func_default_arg_value_mid _ _ _ _ _ _ _ _ _ hmidP hD2
      have hEar2 : funcE.arity = func.arity := by rw [hEar]; show funcD.arity = _; rw [hDar, hNar]
      have hEty2 : funcE.arg_types = func.arg_types.set (func.arity + backfill) (some type) := by
        rw [hEty]
        show funcD.arg_types.set (funcD.arity + backfill) (some type) = _
        rw [hidx, hDty, hNty]
      have hEtt2 : funcE.arg_type_traits
          = func.arg_type_traits.set (func.arity + backfill) (some tt) := by
        rw [hEtt]
        show funcD.arg_type_traits.set (funcD.arity + backfill) (some tt) = _
        rw [hidx, hDtt, hNtt]
      have hlenT : func.arity + backfill < func.arg_types.length := by
        rw [hinv.types.1]; exact hlt
      have hlenTT : func.arity + backfill < func.arg_type_traits.length := by
        rw [hinv.type_traits.1]; exact hlt
      have hslotT : slot_val funcE.arg_types (funcE.arity + backfill) = some type := by
        rw [hEty2, hEar2, slot_val_set_self _ _ _ hlenT]
      have hslotTT : slot_val funcE.arg_type_traits (funcE.arity + backfill) = some tt := by
        rw [hEtt2, hEar2, slot_val_set_self _ _ _ hlenTT]
      subst hf2
      obtain ⟨b1, b2, _⟩ := parse_func_backfill_arguments_frame funcE backfill
      refine ⟨parse_func_argument_inv_solid funcE capacity backfill type tt
          (by rw [hEar2]; exact hmidE) hslotT hslotTT, ?_, fun hc => (by cases hc),
        fun _ => ⟨rfl, ?_, type, tt, ?_, htt, ?_, ?_⟩⟩
      · show (parse_func_backfill_arguments funcE backfill).traits.has AST_FUNC_FOREIGN = _
        rw [b2, hEtr]
        show funcD.traits.has AST_FUNC_FOREIGN = _
        rw [hDtr, hNtr]
      · show (parse_func_backfill_arguments funcE backfill).arity + 1 = _
        rw [b1, hEar2]
      · obtain ⟨i, hT⟩ := hT
        exact ⟨ctxC, i, hT⟩
      · intro j
        show slot_val (parse_func_backfill_arguments funcE backfill).arg_types j = _
        rw [parse_func_backfill_arguments_types funcE backfill type hslotT
          (by rw [hEty2, hEar2, List.length_set]; exact hlenT) j, hEar2, hEty2]
        by_cases hin : func.arity ≤ j ∧ j < func.arity + backfill
        · rw [if_pos hin, if_pos hin]
        · rw [if_neg hin, if_neg hin]
          by_cases hj : j = func.arity + backfill
          · rw [if_pos hj, hj, slot_val_set_self _ _ _ hlenT]
          · rw [if_neg hj, slot_val_set_ne _ _ _ _ (Ne.symm hj)]
      · intro j
        show slot_val (parse_func_backfill_arguments funcE backfill).arg_type_traits j = _
        rw [parse_func_backfill_arguments_type_traits funcE backfill
          (by rw [hEtt2, hEar2, List.length_set]; exact hlenTT) j, hslotTT, hEar2, hEtt2]
        by_cases hin : func.arity ≤ j ∧ j < func.arity + backfill
        · rw [if_pos hin, if_pos ⟨hin.1, by omega⟩]
        · rw [if_neg hin]
          by_cases hj : j = func.arity + backfill
          · rw [if_pos ⟨by omega, by omega⟩, hj, slot_val_set_self _ _ _ hlenTT]
          · rw [if_neg (by omega), slot_val_set_ne _ _ _ _ (Ne.symm hj)]

/-! ## The loop of `parse_func_arguments` -/

/-- The two ways a run of the loop with fuel left succeeds: it stands on `)`, or
it parses one argument and the rest of the run succeeds from there. -/
theorem parse_func_arguments_loop_ok (ext : parse_externals_t) (fuel : Nat)
    (ctx ctxF : parse_ctx_t) (func funcF : ast_func_t) (capacity backfill backfillF : Nat)
    (h : parse_func_arguments_loop ext (fuel + 1) ctx func capacity backfill
      = .ok (ctxF, funcF, backfillF)) :
    (ctx.token_id ctx.i = TOKEN_CLOSE ∧ ctxF = ctx ∧ funcF = func ∧ backfillF = backfill)
    ∨ (ctx.token_id ctx.i ≠ TOKEN_CLOSE
      ∧ ∃ ctxA ctxB ctxC func2 backfill2 is_solid,
        parse_func_argument ext ctxA (parse_func_grow_arguments func backfill capacity).1
          (parse_func_grow_arguments func backfill capacity).2 backfill
          = .ok (ctxB, func2, backfill2, is_solid)
        ∧ parse_func_arguments_loop ext fuel ctxC func2
          (parse_func_grow_arguments func backfill capacity).2 backfill2
          = .ok (ctxF, funcF, backfillF)) := by
  rw [parse_func_arguments_loop] at h
  split at h
  · rename_i hclose
    simp only [Except.ok.injEq, Prod.mk.injEq] at h
    exact Or.inl ⟨by simpa using hclose, h.1.symm, h.2.1.symm, h.2.2.symm⟩
  · rename_i hclose
    refine Or.inr ⟨by simpa using hclose, ?_⟩
    cases hA : parse_ignore_newlines ctx "Expected function argument" with
    | error e => rw [hA] at h; cases h
    | ok ctxA =>
      rw [hA] at h
      simp only at h
      cases hP : parse_func_argument ext ctxA (parse_func_grow_arguments func backfill capacity).1
          (parse_func_grow_arguments func backfill capacity).2 backfill with
      | error e => rw [hP] at h; cases h
      | ok r =>
        obtain ⟨ctxB, func2, backfill2, is_solid⟩ := r
        rw [hP] at h
        simp only at h
        split at h
        · exact ⟨ctxA, ctxB, _, func2, backfill2, is_solid, hP, h⟩
        · cases hB : parse_ignore_newlines ctxB "Expected type after ',' in argument list" with
          | error e => rw [hB] at h; cases h
          | ok ctxB2 =>
            rw [hB] at h
            simp only at h
            split at h
            · split at h
              · cases h
              · exact ⟨ctxA, ctxB, _, func2, backfill2, is_solid, hP, h⟩
            · split at h
              · cases h
              · exact ⟨ctxA, ctxB, _, func2, backfill2, is_solid, hP, h⟩

/-- `parse_func_grow_arguments` keeps the types and type traits of the arguments
counted. -/
theorem parse_func_grow_arguments_types (func : ast_func_t) (backfill capacity : Nat)
    (h : func.arity + backfill ≤ capacity) (j : Nat) (hj : j < func.arity) :
    slot_val (parse_func_grow_arguments func backfill capacity).1.arg_types j
      = slot_val func.arg_types j
    ∧ slot_val (parse_func_grow_arguments func backfill capacity).1.arg_type_traits j
      = slot_val func.arg_type_traits j := by
  unfold parse_func_grow_arguments
  split
  · rename_i hc
    have : capacity = 0 := by simpa using hc
    omega
  · split
    · exact ⟨rfl, rfl⟩
    · rename_i hfull
      have hfull2 : func.arity + backfill = capacity := by simpa using hfull
      refine ⟨?_, ?_⟩
      · show slot_val (grow func.arg_types func.arity (capacity * 2)) j = _
        rw [slot_val_grow, if_pos ⟨hj, by omega⟩]
      · show slot_val (grow func.arg_type_traits (func.arity + backfill) (capacity * 2)) j = _
        rw [slot_val_grow, if_pos ⟨by omega, by omega⟩]

/-- The loop of `parse_func_arguments` keeps the shape of the arrays, counts
arguments without ever uncounting one, and leaves the types and type traits of
the arguments already counted as they are. -/
theorem parse_func_arguments_loop_inv (ext : parse_externals_t) :
    ∀ (fuel : Nat) (ctx ctxF : parse_ctx_t) (func funcF : ast_func_t)
      (capacity backfill backfillF : Nat),
      parse_func_arguments_inv func capacity backfill →
      parse_func_arguments_loop ext fuel ctx func capacity backfill
        = .ok (ctxF, funcF, backfillF) →
      (∃ capacityF, parse_func_arguments_inv funcF capacityF backfillF)
      ∧ funcF.traits.has AST_FUNC_FOREIGN = func.traits.has AST_FUNC_FOREIGN
      ∧ func.arity ≤ funcF.arity
      ∧ ∀ j, j < func.arity →
          slot_val funcF.arg_types j = slot_val func.arg_types j
          ∧ slot_val funcF.arg_type_traits j = slot_val func.arg_type_traits j
  | 0, _, _, _, _, _, _, _, _, h => by
      rw [parse_func_arguments_loop] at h
      cases h
  | fuel + 1, ctx, ctxF, func, funcF, capacity, backfill, backfillF, hinv, h => by
      rcases parse_func_arguments_loop_ok _ _ _ _ _ _ _ _ _ h with
        ⟨_, _, hf, hk⟩ | ⟨_, ctxA, ctxB, ctxC, func2, backfill2, is_solid, hP, hL⟩
      · subst hf hk
        exact ⟨⟨capacity, hinv⟩, rfl, le_refl _, fun j _ => ⟨rfl, rfl⟩⟩
      · obtain ⟨hinvG, hroom⟩ := parse_func_grow_arguments_inv func backfill capacity hinv
        obtain ⟨g1, g2, _⟩ := parse_func_grow_arguments_frame func backfill capacity
        rw [← g1] at hroom
        obtain ⟨hinv2, hfor2, hns, hs⟩ := parse_func_argument_effect _ _ _ _ _ _ _ _ _
          hinvG hroom hP
        obtain ⟨hex, hforF, harF, hframe⟩ := parse_func_arguments_loop_inv ext fuel ctxC ctxF
          func2 funcF _ backfill2 backfillF hinv2 hL
        have har2 : func.arity ≤ func2.arity := by
          cases is_solid with
          | false => rw [(hns rfl).1, g1]
          | true => rw [(hs rfl).2.1, g1]; omega
        refine ⟨hex, by rw [hforF, hfor2, g2], le_trans har2 harF, ?_⟩
        intro j hj
        obtain ⟨hF1, hF2⟩ := hframe j (by omega)
        obtain ⟨hG1, hG2⟩ := parse_func_grow_arguments_types func backfill capacity hinv.bound
          j hj
        rw [hF1, hF2, ← hG1, ← hG2]
        cases is_solid with
        | false =>
          obtain ⟨_, ht, htt, _⟩ := hns rfl
          rw [ht, htt]
          exact ⟨rfl, rfl⟩
        | true =>
          obtain ⟨_, _, type, tt, _, _, ht, htt⟩ := hs rfl
          rw [ht j, htt j, g1, if_neg (by omega), if_neg (by omega), if_neg (by omega)]
          exact ⟨rfl, rfl⟩

/-! ## `parse_func_arguments` -/

theorem slot_val_collapse (types : List (Option ast_type_t)) (n j : Nat) :
    slot_val (parse_collapse_polycount_var_fixed_arrays types n) j
      = if j < n then (slot_val types j).map parse_collapse_polycount_type
        else slot_val types j := by
  unfold parse_collapse_polycount_var_fixed_arrays slot_val
  by_cases hj : j < n
  · rw [if_pos hj]
    by_cases hl : j < types.length
    · rw [List.getElem?_append_left (by simp; omega), List.getElem?_map, List.getElem?_take_of_lt hj,
        List.getElem?_eq_getElem hl]
      rfl
    · rw [List.getElem?_eq_none (by simp; omega), List.getElem?_eq_none (by omega)]
      rfl
  · rw [if_neg hj]
    by_cases hl : j < types.length
    · rw [List.getElem?_append_right (by simp; omega), List.getElem?_drop]
      have : n + (j - (List.map (Option.map parse_collapse_polycount_type)
          (List.take n types)).length) = j := by
        simp
        omega
      rw [this]
    · rw [List.getElem?_eq_none (by simp; omega), List.getElem?_eq_none (by omega)]

/-- The template of a function has the shape of the loop invariant, with no
capacity. -/
theorem parse_func_arguments_inv_template (name : String) (source : source_t) (traits : trait_t)
    (vname : Option String) :
    parse_func_arguments_inv
      { ast_func_create_template name source traits with variadic_arg_name := vname } 0 0 := by
  have hf : ∀ {α : Type} (lo hi : Nat), lo = 0 → slots_filled ([] : List (Option α)) 0 lo hi := by
    intro α lo hi hlo
    subst hlo
    exact ⟨rfl, fun j hj => by omega, fun j _ => rfl⟩
  refine ⟨le_refl _, hf _ _ rfl, hf _ _ rfl, hf _ _ rfl, hf _ _ rfl, ?_, ?_, fun _ => rfl⟩
  · intro ds hds
    cases hds
  · intro _
    exact ⟨rfl, fun j hj => absurd (show j < 0 from hj) (Nat.not_lt_zero j), fun j _ => rfl⟩

/-- The shape of the arrays when `parse_func_arguments` has inserted `this`. -/
theorem parse_func_arguments_inv_this (func : ast_func_t) (type : ast_type_t)
    (source : source_t) (h : parse_func_arguments_inv func 0 0) :
    parse_func_arguments_inv
      { (parse_func_grow_arguments func 0 0).1 with
        arg_types := ((parse_func_grow_arguments func 0 0).1.arg_types.set 0 (some type))
        arg_names := ((parse_func_grow_arguments func 0 0).1.arg_names.map
          (fun names => names.set 0 (some (some "this"))))
        arg_sources := ((parse_func_grow_arguments func 0 0).1.arg_sources.set 0 (some source))
        arg_flows := ((parse_func_grow_arguments func 0 0).1.arg_flows.set 0 (some FLOW_IN))
        arg_type_traits := ((parse_func_grow_arguments func 0 0).1.arg_type_traits.set 0
          (some TRAIT_NONE))
        arity := (parse_func_grow_arguments func 0 0).1.arity + 1 }
      (parse_func_grow_arguments func 0 0).2 0 := by
  obtain ⟨⟨_, ht, htt, hs, hf, hdef, hn, _⟩, hroom⟩ := parse_func_grow_arguments_inv func 0 0 h
  obtain ⟨g1, g2, _⟩ := parse_func_grow_arguments_frame func 0 0
  have ha : func.arity = 0 := by have := h.bound; omega
  have hG : (parse_func_grow_arguments func 0 0).1.arity = 0 := by rw [g1, ha]
  rw [ha] at hroom
  rw [hG] at ht htt hs hf hn
  have hdefG : ∀ ds, (parse_func_grow_arguments func 0 0).1.arg_defaults = some ds → False := by
    intro ds hds
    have : (parse_func_grow_arguments func 0 0).1.arg_defaults = func.arg_defaults := rfl
    rw [this, h.fresh rfl] at hds
    cases hds
  refine ⟨?_, ?_, ?_, ?_, ?_, ?_, ?_, ?_⟩
  · show (parse_func_grow_arguments func 0 0).1.arity + 1 + 0 ≤ _
    rw [hG]; omega
  · show slots_filled (List.set _ 0 (some type)) _
      ((parse_func_grow_arguments func 0 0).1.arity + 1)
      ((parse_func_grow_arguments func 0 0).1.arity + 1)
    rw [hG]
    exact slots_filled_set _ _ _ _ 0 (some type) ht hroom (le_refl _) rfl
  · show slots_filled (List.set _ 0 (some TRAIT_NONE)) _
      ((parse_func_grow_arguments func 0 0).1.arity + 1)
      ((parse_func_grow_arguments func 0 0).1.arity + 1)
    rw [hG]
    exact slots_filled_set _ _ _ _ 0 (some TRAIT_NONE) htt hroom (le_refl _) rfl
  · show slots_filled (List.set _ 0 (some source)) _
      ((parse_func_grow_arguments func 0 0).1.arity + 1 + 0)
      ((parse_func_grow_arguments func 0 0).1.arity + 1 + 0 + 1)
    rw [hG]
    exact slots_filled_weaken _ _ _ _ _ _
      (slots_filled_set _ _ _ _ 0 (some source) hs hroom (le_refl _) rfl) (by omega) (by omega)
  · show slots_filled (List.set _ 0 (some FLOW_IN)) _
      ((parse_func_grow_arguments func 0 0).1.arity + 1 + 0)
      ((parse_func_grow_arguments func 0 0).1.arity + 1 + 0 + 1)
    rw [hG]
    exact slots_filled_weaken _ _ _ _ _ _
      (slots_filled_set _ _ _ _ 0 (some FLOW_IN) hf hroom (le_refl _) rfl) (by omega) (by omega)
  · intro ds hds
    exact absurd (hdefG ds hds) id
  · intro hfor
    have hfor2 : (parse_func_grow_arguments func 0 0).1.traits.has AST_FUNC_FOREIGN = false :=
      hfor
    show slots_named (((parse_func_grow_arguments func 0 0).1.arg_names.map
        (fun names => names.set 0 (some (some "this")))).getD []) _
      ((parse_func_grow_arguments func 0 0).1.arity + 1 + 0)
      ((parse_func_grow_arguments func 0 0).1.arity + 1 + 0)
    rw [hG, option_map_set_getD]
    exact slots_named_set_name _ _ _ _ _ (hn hfor2) hroom rfl
  · intro hc
    omega

/-- The shape of the arrays that `parse_func_arguments` returns, before the
polycount collapse of the types. -/
theorem parse_func_arguments_inv_result (ext : parse_externals_t) (fuel : Nat)
    (ctx ctx2 : parse_ctx_t) (name : String) (source : source_t) (traits : trait_t)
    (func2 : ast_func_t)
    (h : parse_func_arguments ext fuel ctx (ast_func_create_template name source traits)
      = .ok (ctx2, func2)) :
    ∃ funcF capacity, parse_func_arguments_inv funcF capacity 0
      ∧ func2.arity = funcF.arity ∧ func2.traits = funcF.traits
      ∧ func2.arg_names = funcF.arg_names ∧ func2.arg_sources = funcF.arg_sources
      ∧ func2.arg_flows = funcF.arg_flows ∧ func2.arg_type_traits = funcF.arg_type_traits
      ∧ func2.arg_defaults = funcF.arg_defaults
      ∧ (func2.arg_types = funcF.arg_types
        ∨ func2.arg_types
          = parse_collapse_polycount_var_fixed_arrays funcF.arg_types funcF.arity) := by
  unfold parse_func_arguments at h
  simp only at h
  cases hA : parse_ignore_newlines ctx "Expected '(' after function name" with
  | error e => rw [hA] at h; cases h
  | ok ctxA =>
    rw [hA] at h
    simp only at h
    have hinv0 := parse_func_arguments_inv_template name source traits none
    -- the function and the capacity when the list starts
    have hstart : ∀ (r : Except String (ast_func_t × Nat)) (func1 : ast_func_t) (capacity1 : Nat),
        r = (match ctxA.composite_association with
          | none => .ok ({ ast_func_create_template name source traits with
              variadic_arg_name := none }, 0)
          | some composite =>
            if ({ ast_func_create_template name source traits with
                variadic_arg_name := none } : ast_func_t).traits.has AST_FUNC_FOREIGN then
              .error "Cannot declare foreign function inside of struct domain"
            else
              .ok ({ (parse_func_grow_arguments { ast_func_create_template name source traits with
                        variadic_arg_name := none } 0 0).1 with
                     arg_types := ((parse_func_grow_arguments
                       { ast_func_create_template name source traits with
                         variadic_arg_name := none } 0 0).1.arg_types.set 0
                       (some (parse_func_this_type composite)))
                     arg_names := ((parse_func_grow_arguments
                       { ast_func_create_template name source traits with
                         variadic_arg_name := none } 0 0).1.arg_names.map
                       (fun names => names.set 0 (some (some "this"))))
                     arg_sources := ((parse_func_grow_arguments
                       { ast_func_create_template name source traits with
                         variadic_arg_name := none } 0 0).1.arg_sources.set 0
                       (some composite.source))
                     arg_flows := ((parse_func_grow_arguments
                       { ast_func_create_template name source traits with
                         variadic_arg_name := none } 0 0).1.arg_flows.set 0 (some FLOW_IN))
                     arg_type_traits := ((parse_func_grow_arguments
                       { ast_func_create_template name source traits with
                         variadic_arg_name := none } 0 0).1.arg_type_traits.set 0
                       (some TRAIT_NONE))
                     arity := (parse_func_grow_arguments
                       { ast_func_create_template name source traits with
                         variadic_arg_name := none } 0 0).1.arity + 1 },
                   (parse_func_grow_arguments { ast_func_create_template name source traits with
                        variadic_arg_name := none } 0 0).2)) →
        r = .ok (func1, capacity1) → parse_func_arguments_inv func1 capacity1 0 := by
      intro r func1 capacity1 hr hok
      rw [hr] at hok
      split at hok
      · simp only [Except.ok.injEq, Prod.mk.injEq] at hok
        obtain ⟨h1, h2⟩ := hok
        subst h1 h2
        exact hinv0
      · rename_i composite _
        split at hok
        · cases hok
        · simp only [Except.ok.injEq, Prod.mk.injEq] at hok
          obtain ⟨h1, h2⟩ := hok
          subst h1 h2
          exact parse_func_arguments_inv_this _ _ _ hinv0
    split at h
    · cases h
    · rename_i func1 capacity1 heq
      have hinv1 := hstart _ func1 capacity1 rfl heq
      split at h
      · simp only [Except.ok.injEq, Prod.mk.injEq] at h
        obtain ⟨_, h2⟩ := h
        subst h2
        exact ⟨func1, capacity1, hinv1, rfl, rfl, rfl, rfl, rfl, rfl, rfl, Or.inl rfl⟩
      · cases hL : parse_func_arguments_loop ext fuel
            { ctxA with i := ctxA.i + 1, allow_polymorphic_prereqs := true } func1 capacity1 0 with
        | error e => rw [hL] at h; cases h
        | ok r =>
          obtain ⟨ctxF, funcF, backfillF⟩ := r
          rw [hL] at h
          simp only at h
          split at h
          · cases h
          · rename_i hk
            have hk0 : backfillF = 0 := by simpa using hk
            subst hk0
            simp only [Except.ok.injEq, Prod.mk.injEq] at h
            obtain ⟨_, h2⟩ := h
            subst h2
            obtain ⟨⟨capacityF, hinvF⟩, _⟩ := parse_func_arguments_loop_inv ext fuel _ _ _ _ _ _ _
              hinv1 hL
            exact ⟨funcF, capacityF, hinvF, rfl, rfl, rfl, rfl, rfl, rfl, rfl, Or.inr rfl⟩

/-- The arrays that `parse_func_arguments` returns for a function handed over as
a template. -/
theorem parse_func_arguments_arrays_of_inv (func : ast_func_t) (capacity : Nat)
    (h : parse_func_arguments_inv func capacity 0) :
    (∀ j, (slot_val func.arg_types j).isSome = true ↔ j < func.arity)
    ∧ (∀ j, (slot_val func.arg_type_traits j).isSome = true ↔ j < func.arity)
    ∧ (func.traits.has AST_FUNC_FOREIGN = false →
        ∀ j, (slot_ptr (func.arg_names.getD []) j).isSome = true ↔ j < func.arity)
    ∧ (∀ j, (j < func.arity → (slot_val func.arg_sources j).isSome = true)
        ∧ ((slot_val func.arg_sources j).isSome = true → j ≤ func.arity))
    ∧ (∀ j, (j < func.arity → (slot_val func.arg_flows j).isSome = true)
        ∧ ((slot_val func.arg_flows j).isSome = true → j ≤ func.arity))
    ∧ (∀ ds, func.arg_defaults = some ds →
        ∀ j, (j < func.arity → (slot_val ds j).isSome = true)
          ∧ ((slot_val ds j).isSome = true → j ≤ func.arity)) := by
  obtain ⟨_, ht, htt, hs, hf, hdef, hn, _⟩ := h
  have hiff : ∀ {α : Type} (array : List (Option α)),
      slots_filled array capacity func.arity func.arity →
      ∀ j, (slot_val array j).isSome = true ↔ j < func.arity := by
    intro α array hfill j
    constructor
    · intro hsome
      by_contra hnot
      rw [hfill.2.2 j (by omega)] at hsome
      cases hsome
    · exact hfill.2.1 j
  have hle : ∀ {α : Type} (array : List (Option α)),
      slots_filled array capacity (func.arity + 0) (func.arity + 0 + 1) →
      ∀ j, (j < func.arity → (slot_val array j).isSome = true)
        ∧ ((slot_val array j).isSome = true → j ≤ func.arity) := by
    intro α array hfill j
    refine ⟨fun hj => hfill.2.1 j hj, fun hsome => ?_⟩
    by_contra hnot
    rw [hfill.2.2 j (by omega)] at hsome
    cases hsome
  refine ⟨hiff _ ht, hiff _ htt, ?_, hle _ hs, hle _ hf, fun ds hds => hle _ (hdef ds hds)⟩
  intro hfor j
  obtain ⟨_, hlo, hhi⟩ := hn hfor
  constructor
  · intro hsome
    by_contra hnot
    rw [hhi j (by omega)] at hsome
    cases hsome
  · intro hj
    exact hlo j hj

/-- C3, as amended. For every function that `parse_func_arguments` accepts, handed
over as a template: the types and the type traits are written exactly in the slots
`0 .. arity - 1`, and in a function that is not foreign a name is stored exactly
in those slots (the inserted `this` included); the sources, the flows and, when
the array exists, the defaults are written in every slot `0 .. arity - 1` and in
no slot beyond slot `arity` (the slot a marker may have written). -/
theorem parse_func_arguments_arrays (ext : parse_externals_t) (fuel : Nat)
    (ctx ctx2 : parse_ctx_t) (name : String) (source : source_t) (traits : trait_t)
    (func2 : ast_func_t)
    (h : parse_func_arguments ext fuel ctx (ast_func_create_template name source traits)
      = .ok (ctx2, func2)) :
    (∀ j, (slot_val func2.arg_types j).isSome = true ↔ j < func2.arity)
    ∧ (∀ j, (slot_val func2.arg_type_traits j).isSome = true ↔ j < func2.arity)
    ∧ (func2.traits.has AST_FUNC_FOREIGN = false →
        ∀ j, (slot_ptr (func2.arg_names.getD []) j).isSome = true ↔ j < func2.arity)
    ∧ (∀ j, (j < func2.arity → (slot_val func2.arg_sources j).isSome = true)
        ∧ ((slot_val func2.arg_sources j).isSome = true → j ≤ func2.arity))
    ∧ (∀ j, (j < func2.arity → (slot_val func2.arg_flows j).isSome = true)
        ∧ ((slot_val func2.arg_flows j).isSome = true → j ≤ func2.arity))
    ∧ (∀ ds, func2.arg_defaults = some ds →
        ∀ j, (j < func2.arity → (slot_val ds j).isSome = true)
          ∧ ((slot_val ds j).isSome = true → j ≤ func2.arity)) := by
  obtain ⟨funcF, capacity, hinv, h1, h2, h3, h4, h5, h6, h7, h8⟩ :=
    parse_func_arguments_inv_result ext fuel ctx ctx2 name source traits func2 h
  obtain ⟨r1, r2, r3, r4, r5, r6⟩ := parse_func_arguments_arrays_of_inv funcF capacity hinv
  rw [h1, h2, h3, h4, h5, h6, h7]
  refine ⟨?_, r2, r3, r4, r5, r6⟩
  rcases h8 with h8 | h8
  · rw [h8]; exact r1
  · intro j
    rw [h8, slot_val_collapse]
    have hr := r1 j
    by_cases hj : j < funcF.arity
    · rw [if_pos hj]
      have hsome := hr.2 hj
      constructor
      · intro _; exact hj
      · intro _
        cases hv : slot_val funcF.arg_types j with
        | none => rw [hv] at hsome; cases hsome
        | some v => rfl
    · rw [if_neg hj]
      exact hr

/-- The witness of C3 as amended: `(a, b, c int = 7)` is accepted with arity 3 and
its arrays are written as said. -/
theorem parse_func_arguments_arrays_witness :
    ∃ ctx2 func2,
      parse_func_arguments parse_fragment 20 (parse_ctx_of tokens_backfill_7)
        (ast_func_create_template "f" ⟨0, 0⟩ TRAIT_NONE) = .ok (ctx2, func2)
      ∧ func2.arity = 3
      ∧ (∀ j, (slot_val func2.arg_types j).isSome = true ↔ j < 3)
      ∧ (∀ j, (slot_ptr (func2.arg_names.getD []) j).isSome = true ↔ j < 3) := by
  refine ⟨_, _, rfl, rfl, ?_, ?_⟩
  · exact (parse_func_arguments_arrays parse_fragment 20 (parse_ctx_of tokens_backfill_7) _
      "f" ⟨0, 0⟩ TRAIT_NONE _ rfl).1
  · exact (parse_func_arguments_arrays parse_fragment 20 (parse_ctx_of tokens_backfill_7) _
      "f" ⟨0, 0⟩ TRAIT_NONE _ rfl).2.2.1 rfl

/-- C3, the claim as stated fails: `func f(...) void` is accepted with arity 0,
and the flow and the source stored for the marker sit in slot 0 of their arrays,
so these two arrays do not hold exactly `arity` written slots. -/
theorem parse_func_arguments_marker_slot :
    ∃ ctx2 func2,
      parse_func_arguments parse_fragment 20 (parse_ctx_of tokens_vararg)
        (ast_func_create_template "f" ⟨0, 0⟩ TRAIT_NONE) = .ok (ctx2, func2)
      ∧ func2.arity = 0
      ∧ slot_val func2.arg_flows 0 = some FLOW_IN
      ∧ slot_val func2.arg_sources 0 = some ⟨0, 1⟩
      ∧ ¬ (∀ j, (slot_val func2.arg_flows j).isSome = true ↔ j < func2.arity) := by
  refine ⟨_, _, rfl, rfl, rfl, rfl, ?_⟩
  intro hall
  have := (hall 0).1 rfl
  exact absurd this (by decide)

/-! ## Type backfill -/

/-- C2. Type backfill, on arrays of the shape of the loop invariant with room for
the current slot. A successful step of `parse_func_argument` that is not solid
counts no argument and writes no type: it is a marker, or it adds one to the
pending count. A solid step met with `backfill` arguments pending has parsed a
type `T`, leaves nothing pending and raises the arity by exactly `backfill + 1`;
the slot of the solid argument holds `T`, and each of the pending slots a clone of
`T`, structurally identical to it; and whatever the loop of `parse_func_arguments`
parses afterwards, the types that `parse_func_arguments` delivers for the
arguments of the group, the polycount collapse done, are all structurally
identical to the collapsed `T`. -/
theorem parse_func_argument_backfill_types (ext : parse_externals_t) (ctx ctx2 : parse_ctx_t)
    (func func2 : ast_func_t) (capacity backfill backfill2 : Nat) (is_solid : Bool)
    (hinv : parse_func_arguments_inv func capacity backfill)
    (hroom : func.arity + backfill < capacity)
    (h : parse_func_argument ext ctx func capacity backfill
      = .ok (ctx2, func2, backfill2, is_solid)) :
    (is_solid = false →
      func2.arity = func.arity ∧ func2.arg_types = func.arg_types
      ∧ (backfill2 = backfill + 1 ∨ (backfill = 0 ∧ backfill2 = 0)))
    ∧ (is_solid = true →
      backfill2 = 0 ∧ func2.arity = func.arity + backfill + 1
      ∧ ∃ T, (∃ ctxC i, ext.parse_type ctxC = .ok (T, i))
        ∧ slot_val func2.arg_types (func.arity + backfill) = some T
        ∧ (∀ j, func.arity ≤ j → j < func.arity + backfill →
            slot_val func2.arg_types j = some (ast_type_clone T)
            ∧ ast_types_identical (ast_type_clone T) T = true)
        ∧ (∀ (fuel : Nat) (ctx3 ctxF : parse_ctx_t) (funcF : ast_func_t) (backfillF : Nat),
            parse_func_arguments_loop ext fuel ctx3 func2 capacity backfill2
              = .ok (ctxF, funcF, backfillF) →
            ∀ j, func.arity ≤ j → j ≤ func.arity + backfill →
              ∃ Tj, slot_val
                  (parse_collapse_polycount_var_fixed_arrays funcF.arg_types funcF.arity) j
                  = some Tj
                ∧ ast_types_identical Tj (parse_collapse_polycount_type T) = true)) := by
  obtain ⟨hinv2, _, hns, hs⟩ := parse_func_argument_effect _ _ _ _ _ _ _ _ _ hinv hroom h
  refine ⟨fun hf => ⟨(hns hf).1, (hns hf).2.1, (hns hf).2.2.2⟩, fun ht => ?_⟩
  obtain ⟨hk, har, T, tt, hT, _, htypes, _⟩ := hs ht
  have hsolid : slot_val func2.arg_types (func.arity + backfill) = some T := by
    rw [htypes, if_neg (by omega), if_pos rfl]
  have hpending : ∀ j, func.arity ≤ j → j < func.arity + backfill →
      slot_val func2.arg_types j = some (ast_type_clone T) := by
    intro j h1 h2
    rw [htypes, if_pos ⟨h1, h2⟩]
  refine ⟨hk, har, T, hT, hsolid, fun j h1 h2 => ⟨hpending j h1 h2, ?_⟩, ?_⟩
  · exact ast_types_identical_symm _ _ (ast_types_identical_clone T)
  · intro fuel ctx3 ctxF funcF backfillF hL j h1 h2
    obtain ⟨_, _, harF, hframe⟩ := parse_func_arguments_loop_inv ext fuel ctx3 ctxF func2 funcF
      capacity backfill2 backfillF hinv2 hL
    have hj2 : j < func2.arity := by omega
    rw [slot_val_collapse, if_pos (by omega), (hframe j hj2).1]
    by_cases hj : j = func.arity + backfill
    · rw [hj, hsolid]
      exact ⟨_, rfl, ast_types_identical_refl _⟩
    · rw [hpending j h1 (by omega)]
      exact ⟨_, rfl, ast_types_identical_refl _⟩

/-- A finite check of `slots_filled`. -/
theorem slots_filled_of_check {α : Type} (array : List (Option α)) (capacity lo hi : Nat)
    (hlen : array.length = capacity)
    (h : ∀ j, j < array.length →
      (j < lo → (slot_val array j).isSome = true) ∧ (hi ≤ j → (slot_val array j).isNone = true))
    (hlo : lo ≤ array.length) :
    slots_filled array capacity lo hi := by
  refine ⟨hlen, fun j hj => (h j (by omega)).1 hj, fun j hj => ?_⟩
  by_cases hjl : j < array.length
  · have := (h j hjl).2 hj
    simpa using this
  · exact slot_val_of_length_le _ _ (by omega)

/-- A finite check of `slots_named`. -/
theorem slots_named_of_check {α : Type} (array : List (Option (Option α)))
    (capacity lo hi : Nat) (hlen : array.length = capacity)
    (h : ∀ j, j < array.length →
      (j < lo → (slot_ptr array j).isSome = true) ∧ (hi ≤ j → (slot_ptr array j).isNone = true))
    (hlo : lo ≤ array.length) :
    slots_named array capacity lo hi := by
  refine ⟨hlen, fun j hj => (h j (by omega)).1 hj, fun j hj => ?_⟩
  by_cases hjl : j < array.length
  · have := (h j hjl).2 hj
    simpa using this
  · rw [slot_ptr_eq_join, slot_val_of_length_le _ _ (by omega)]
    rfl

/-- The example with two arguments pending has the shape of the loop invariant. -/
theorem func_pending_example_inv : parse_func_arguments_inv func_pending_example 4 2 := by
  refine ⟨by decide, ?_, ?_, ?_, ?_, ?_, ?_, fun hc => by cases hc⟩
  · exact slots_filled_of_check _ _ _ _ rfl (by decide) (by decide)
  · exact slots_filled_of_check _ _ _ _ rfl (by decide) (by decide)
  · exact slots_filled_of_check _ _ _ _ rfl (by decide) (by decide)
  · exact slots_filled_of_check _ _ _ _ rfl (by decide) (by decide)
  · intro ds hds
    cases hds
  · intro _
    exact slots_named_of_check _ _ _ _ rfl (by decide) (by decide)

/-- The witness of C2: in `(a, b, c int)`, at `c int` with `a` and `b` pending,
the solid step leaves nothing pending and counts three arguments, all of type
`int`; and `parse_func_arguments` on the whole list yields arity 3 and three
types `int`. -/
theorem parse_func_argument_backfill_types_witness :
    (∃ ctx2 func2,
      parse_func_argument parse_fragment { parse_ctx_of tokens_backfill with i := 5 }
        func_pending_example 4 2 = .ok (ctx2, func2, 0, true)
      ∧ func2.arity = 3
      ∧ ∃ T, slot_val func2.arg_types 2 = some T
        ∧ (∀ j, 0 ≤ j → j < 2 →
            slot_val func2.arg_types j = some (ast_type_clone T)
            ∧ ast_types_identical (ast_type_clone T) T = true))
    ∧ (∃ ctx2 func2,
      parse_func_arguments parse_fragment 20 (parse_ctx_of tokens_backfill)
        (ast_func_create_template "f" ⟨0, 0⟩ TRAIT_NONE) = .ok (ctx2, func2)
      ∧ func2.arity = 3
      ∧ func2.arg_types = [some ⟨[.base "int" ⟨0, 6⟩], ⟨0, 6⟩⟩,
          some ⟨[.base "int" ⟨0, 6⟩], ⟨0, 6⟩⟩, some ⟨[.base "int" ⟨0, 6⟩], ⟨0, 6⟩⟩, none]) := by
  refine ⟨?_, ⟨_, _, rfl, rfl, rfl⟩⟩
  have h := (parse_func_argument_backfill_types parse_fragment
    { parse_ctx_of tokens_backfill with i := 5 } _ func_pending_example _ 4 2 0 true
    func_pending_example_inv (by decide) rfl).2 rfl
  obtain ⟨_, har, T, _, hT, hpending, _⟩ := h
  exact ⟨_, _, rfl, har, T, hT, hpending⟩

/-! ## What the argument parser leaves alone in the context -/

theorem parse_ignore_newlines_frame (ctx ctx2 : parse_ctx_t) (msg : String)
    (h : parse_ignore_newlines ctx msg = .ok ctx2) : ctx2.frame = ctx.frame := by
  unfold parse_ignore_newlines at h
  simp only at h
  split at h
  · cases h
  · cases h; rfl

theorem parse_eat_frame (ctx ctx2 : parse_ctx_t) (id : tokenid_t) (msg : String)
    (h : parse_eat ctx id msg = .ok ctx2) : ctx2.frame = ctx.frame := by
  rw [parse_eat_ok _ _ _ _ h]; rfl

theorem parse_take_word_frame (ctx : parse_ctx_t) :
    (parse_take_word ctx).2.frame = ctx.frame := by
  unfold parse_take_word
  split
  · split <;> rfl
  · rfl

theorem parse_func_default_arg_value_ctx (ext : parse_externals_t) (ctx ctx2 : parse_ctx_t)
    (func func2 : ast_func_t) (capacity backfill : Nat)
    (h : parse_func_default_arg_value_if_applicable ext ctx func capacity backfill
      = .ok (ctx2, func2)) : ctx2.frame = ctx.frame := by
  unfold parse_func_default_arg_value_if_applicable at h
  split at h
  · cases h; rfl
  · split at h
    · cases h
    · cases hE : parse_eat ctx TOKEN_ASSIGN
          "INTERNAL ERROR: parse_func_default_arg_value() expected '=' token" with
      | error e => rw [hE] at h; cases h
      | ok ctx1 =>
        rw [hE] at h
        have hctx := parse_eat_frame _ _ _ _ hE
        simp only at h
        cases hP : ext.parse_expr ctx1 with
        | error e => rw [hP] at h; cases h
        | ok r =>
          obtain ⟨e, i⟩ := r
          rw [hP] at h
          simp only [Except.ok.injEq, Prod.mk.injEq] at h
          obtain ⟨h1, h2⟩ := h
          subst h1
          exact hctx

theorem parse_func_argument_flow_frame (ctx : parse_ctx_t) :
    (parse_func_argument_flow ctx).2.frame = ctx.frame := by
  unfold parse_func_argument_flow
  split
  · rfl
  · split
    · rfl
    · split <;> rfl

theorem parse_func_argument_name_ctx (ctx ctx2 : parse_ctx_t) (func func2 : ast_func_t)
    (capacity backfill : Nat)
    (h : parse_func_argument_name ctx func capacity backfill = .ok (ctx2, func2)) :
    ctx2.frame = ctx.frame := by
  unfold parse_func_argument_name at h
  split at h
  · split at h
    · split at h
      · cases h
      · simp only [Except.ok.injEq, Prod.mk.injEq] at h
        obtain ⟨h1, h2⟩ := h
        subst h1
        exact parse_take_word_frame ctx
    · cases h; rfl
  · split at h
    · cases h
    · rename_i name ctx1 hword
      simp only [Except.ok.injEq, Prod.mk.injEq] at h
      obtain ⟨h1, h2⟩ := h
      subst h1
      have := parse_take_word_frame ctx
      rw [hword] at this
      exact this

theorem parse_func_argument_type_ctx (ext : parse_externals_t) (ctx ctx2 : parse_ctx_t)
    (func func2 : ast_func_t) (capacity backfill backfill2 : Nat) (is_solid : Bool)
    (h : parse_func_argument_type ext ctx func capacity backfill
      = .ok (ctx2, func2, backfill2, is_solid)) : ctx2.frame = ctx.frame := by
  unfold parse_func_argument_type at h
  cases hA : parse_ignore_newlines ctx "Expected type" with
  | error e => rw [hA] at h; cases h
  | ok ctxA =>
    rw [hA] at h
    simp only at h
    cases hT : ext.parse_type ctxA with
    | error e => rw [hT] at h; cases h
    | ok r =>
      obtain ⟨type, i⟩ := r
      rw [hT] at h
      simp only at h
      cases hB : parse_ignore_newlines { ctxA with i := i } "Expected type" with
      | error e => rw [hB] at h; cases h
      | ok ctxB =>
        rw [hB] at h
        simp only at h
        split at h
        · cases h
        · rename_i ctxD funcD hD
          simp only [Except.ok.injEq, Prod.mk.injEq] at h
          obtain ⟨h1, -⟩ := h
          subst h1
          rw [parse_func_default_arg_value_ctx _ _ _ _ _ _ _ hD,
            parse_ignore_newlines_frame _ _ _ hB, ← parse_ignore_newlines_frame _ _ _ hA]
          rfl

theorem parse_func_argument_after_name_ctx (ext : parse_externals_t) (ctx ctx2 : parse_ctx_t)
    (func func2 : ast_func_t) (capacity backfill backfill2 : Nat) (is_solid : Bool)
    (h : parse_func_argument_after_name ext ctx func capacity backfill
      = .ok (ctx2, func2, backfill2, is_solid)) : ctx2.frame = ctx.frame := by
  unfold parse_func_argument_after_name at h
  split at h
  · split at h
    · cases h
    · split at h
      · cases h
      · cases h; rfl
  · cases hA : parse_ignore_newlines ctx "Expected type" with
    | error e => rw [hA] at h; cases h
    | ok ctxA =>
      rw [hA] at h
      simp only at h
      split at h
      · cases h
      · rename_i ctxD funcD hD
        try simp only at h
        cases hB : parse_ignore_newlines ctxD "Expected type" with
        | error e => rw [hB] at h; cases h
        | ok ctxB =>
          rw [hB] at h
          simp only at h
          have hf : ctxB.frame = ctx.frame := by
            rw [parse_ignore_newlines_frame _ _ _ hB,
              parse_func_default_arg_value_ctx _ _ _ _ _ _ _ hD,
              parse_ignore_newlines_frame _ _ _ hA]
          split at h
          · split at h
            · cases h
            · cases h; exact hf
          · split at h
            · rw [parse_func_argument_type_ctx _ _ _ _ _ _ _ _ _ h, ← hf]; rfl
            · rw [parse_func_argument_type_ctx _ _ _ _ _ _ _ _ _ h, ← hf]

theorem parse_func_argument_ctx (ext : parse_externals_t) (ctx ctx2 : parse_ctx_t)
    (func func2 : ast_func_t) (capacity backfill backfill2 : Nat) (is_solid : Bool)
    (h : parse_func_argument ext ctx func capacity backfill
      = .ok (ctx2, func2, backfill2, is_solid)) : ctx2.frame = ctx.frame := by
  have hS : (parse_func_argument_start ctx func backfill).1.frame = ctx.frame := by
    rw [parse_func_argument_start_fst]; exact parse_func_argument_flow_frame ctx
  unfold parse_func_argument at h
  simp only at h
  split at h
  · split at h
    · cases h
    · cases h; rw [← hS]; rfl
  · split at h
    · cases h
    · rename_i ctxN funcN hN
      rw [parse_func_argument_after_name_ctx _ _ _ _ _ _ _ _ _ h,
        parse_func_argument_name_ctx _ _ _ _ _ _ hN, hS]

theorem parse_func_arguments_loop_ctx (ext : parse_externals_t) :
    ∀ (fuel : Nat) (ctx ctxF : parse_ctx_t) (func funcF : ast_func_t)
      (capacity backfill backfillF : Nat),
      parse_func_arguments_loop ext fuel ctx func capacity backfill
        = .ok (ctxF, funcF, backfillF) → ctxF.frame = ctx.frame
  | 0, _, _, _, _, _, _, _, h => by
      rw [parse_func_arguments_loop] at h
      cases h
  | fuel + 1, ctx, ctxF, func, funcF, capacity, backfill, backfillF, h => by
      rw [parse_func_arguments_loop] at h
      split at h
      · cases h; rfl
      · cases hA : parse_ignore_newlines ctx "Expected function argument" with
        | error e => rw [hA] at h; cases h
        | ok ctxA =>
          rw [hA] at h
          simp only at h
          have hfA := parse_ignore_newlines_frame _ _ _ hA
          split at h
          · cases h
          · rename_i ctxB func2 backfill2 is_solid hP
            have hfB := parse_func_argument_ctx _ _ _ _ _ _ _ _ _ hP
            try simp only at h
            split at h
            · rw [parse_func_arguments_loop_ctx ext fuel _ _ _ _ _ _ _ h, hfB, hfA]
            · cases hC : parse_ignore_newlines ctxB
                  "Expected type after ',' in argument list" with
              | error e => rw [hC] at h; cases h
              | ok ctxC =>
                rw [hC] at h
                simp only at h
                have hfC := parse_ignore_newlines_frame _ _ _ hC
                split at h
                · split at h
                  · cases h
                  · rw [parse_func_arguments_loop_ctx ext fuel _ _ _ _ _ _ _ h, ← hfA, ← hfB,
                      ← hfC]
                    rfl
                · split at h
                  · cases h
                  · rw [parse_func_arguments_loop_ctx ext fuel _ _ _ _ _ _ _ h, hfC, hfB, hfA]

/-- `parse_func_arguments` moves the cursor and leaves the polymorphic-prerequisite
flag cleared or as it was; the rest of the context, the AST with it, is as
before. -/
theorem parse_func_arguments_ctx (ext : parse_externals_t) (fuel : Nat)
    (ctx ctx2 : parse_ctx_t) (func func2 : ast_func_t)
    (h : parse_func_arguments ext fuel ctx func = .ok (ctx2, func2)) :
    ctx2.frame = ctx.frame := by
  unfold parse_func_arguments at h
  simp only at h
  cases hA : parse_ignore_newlines ctx "Expected '(' after function name" with
  | error e => rw [hA] at h; cases h
  | ok ctxA =>
    rw [hA] at h
    simp only at h
    have hfA := parse_ignore_newlines_frame _ _ _ hA
    split at h
    · cases h
    · rename_i func1 capacity hR
      split at h
      · cases h; exact hfA
      · split at h
        · cases h
        · rename_i ctxF funcF backfillF hL
          have hfL := parse_func_arguments_loop_ctx ext fuel _ _ _ _ _ _ _ hL
          try simp only at h
          split at h
          · cases h
          · cases h
            exact Eq.trans (show _ = ctxA.frame from hfL) hfA

/-! ## What `parse_func` has done when the return type is parsed -/

theorem parse_func_prefixes_loop_ctx :
    ∀ (n : Nat) (ctx : parse_ctx_t) (p : ast_func_prefixes_t),
      (parse_func_prefixes_loop n ctx p).1
        = { ctx with i := (parse_func_prefixes_loop n ctx p).1.i }
  | 0, _, _ => rfl
  | n + 1, ctx, p => by
      rw [parse_func_prefixes_loop]
      split
      · rw [parse_func_prefixes_loop_ctx n]
      · split
        · rw [parse_func_prefixes_loop_ctx n]
        · split
          · rw [parse_func_prefixes_loop_ctx n]
          · split
            · rw [parse_func_prefixes_loop_ctx n]
            · rfl

theorem parse_eat_string_ctx (ctx : parse_ctx_t) :
    (parse_eat_string ctx).2 = { ctx with i := (parse_eat_string ctx).2.i } := by
  unfold parse_eat_string
  split
  · split <;> rfl
  · rfl

theorem parse_func_take_name_ctx (ctx : parse_ctx_t) :
    (parse_func_take_name ctx).2
      = { ctx with i := (parse_func_take_name ctx).2.i
                   prename := (parse_func_take_name ctx).2.prename } := by
  unfold parse_func_take_name
  split
  · rfl
  · unfold parse_take_word
    split
    · split <;> rfl
    · rfl

/-- `parse_func_head` moves the cursor and may consume the pre-name; the rest of
the context is as before. -/
theorem parse_func_head_ctx (ext : parse_externals_t) (ctx ctx2 : parse_ctx_t)
    (func_head : ast_func_head_t) (h : parse_func_head ext ctx = .ok (ctx2, func_head)) :
    ctx2 = { ctx with i := ctx2.i, prename := ctx2.prename } := by
  unfold parse_func_head at h
  simp only at h
  split at h
  · cases h
  · split at h
    · cases h
    · simp only [Except.ok.injEq, Prod.mk.injEq] at h
      obtain ⟨h1, -⟩ := h
      rw [← h1, parse_func_take_name_ctx, parse_eat_string_ctx]
      simp only
      unfold parse_func_prefixes
      rw [parse_func_prefixes_loop_ctx]

theorem list_set_append_last {α : Type} (l : List α) (a b : α) :
    (l ++ [a]).set l.length b = l ++ [b] := by
  induction l with
  | nil => rfl
  | cons x xs ih => simp [List.set, ih]

/-- What a parsed signature leaves: the limit was not reached, the function is
the new last element of `funcs`, at the index `ast_func_id`, and nothing else of
the AST has changed. -/
theorem parse_func_signature_ok (ext : parse_externals_t) (fuel MAX_FUNCID : Nat)
    (ctx : parse_ctx_t) (s : parse_func_signature_t)
    (h : parse_func_signature ext fuel MAX_FUNCID ctx = .ok s) :
    ctx.ast.funcs.length < MAX_FUNCID
    ∧ s.ast_func_id = ctx.ast.funcs.length
    ∧ s.ctx.ast = { ctx.ast with funcs := ctx.ast.funcs ++ [s.func] } := by
  unfold parse_func_signature at h
  split at h
  · cases h
  · rename_i hmax
    split at h
    · cases h
    · rename_i ctxH func_head hH
      have hctxH := parse_func_head_ctx _ _ _ _ hH
      have hast : ctxH.ast = ctx.ast := by rw [hctxH]
      split at h
      · cases h
      · simp only at h
        split at h
        · cases h
        · rename_i ctxA funcA hA
          have hfA := parse_func_arguments_ctx _ _ _ _ _ _ hA
          have hastA : ctxA.ast = { ctx.ast with funcs := ctx.ast.funcs ++
              [if ctxH.next_builtin_traits != TRAIT_NONE then
                { func_head.create_template with
                  traits := func_head.create_template.traits ||| ctxH.next_builtin_traits }
               else func_head.create_template] } := by
            have := congrArg parse_ctx_t.ast hfA
            simp only [parse_ctx_t.frame] at this
            rw [this, hast]
          try simp only at h
          split at h
          · cases h
          · rename_i ctxB hB
            have hfB := parse_ignore_newlines_frame _ _ _ hB
            have hastB : ctxB.ast = ctxA.ast := by
              have := congrArg parse_ctx_t.ast hfB
              simpa only [parse_ctx_t.frame] using this
            try simp only at h
            split at h
            · cases h
              refine ⟨by omega, by rw [hast], ?_⟩
              simp only [parse_ctx_t.store_func, hastB, hastA, hast, list_set_append_last]
            · split at h
              · cases h
              · cases h
                refine ⟨by omega, by rw [hast], ?_⟩
                simp only [parse_ctx_t.store_func, hastB, hastA, hast, list_set_append_last]

/-- A declaration that is no alias and whose signature is parsed: `parse_func`
goes on with the prototype checks. -/
theorem parse_func_of_signature (ext : parse_externals_t) (fuel MAX_FUNCID : Nat)
    (ctx : parse_ctx_t) (s : parse_func_signature_t)
    (halias : (ctx.token_id (ctx.i + 1) == TOKEN_ALIAS && ctx.token_id ctx.i == TOKEN_FUNC)
      = false)
    (h : parse_func_signature ext fuel MAX_FUNCID ctx = .ok s) :
    parse_func ext fuel MAX_FUNCID ctx = parse_func_finish ext s := by
  unfold parse_func
  rw [halias, h]
  rfl

/-! ## The prototype checks -/

/-- A check that reported: `parse_func` fails with a diagnostic, and leaves the
AST as the signature left it. -/
theorem parse_func_finish_methods_error (ext : parse_externals_t) (s : parse_func_signature_t)
    (e : String) (h : parse_func_check_methods s.func = .error e) :
    parse_func_finish ext s = .error (e, s.ctx) := by
  unfold parse_func_finish parse_func_checks
  rw [h]

theorem parse_func_check_assign_error (func : ast_func_t) (hname : func.name = "__assign__")
    (hnot : ¬ (func.traits = TRAIT_NONE
      ∧ ast_type_is_void func.return_type = true
      ∧ func.arity = 2
      ∧ func.arg_name_is 0 "this" = true
      ∧ (ast_type_is_base_ptr (func.arg_type 0) = true
        ∨ ast_type_is_polymorph_ptr (func.arg_type 0) = true
        ∨ ast_type_is_generic_base_ptr (func.arg_type 0) = true)
      ∧ func.arg_type_trait_differs 0 TRAIT_NONE = false
      ∧ ast_type_is_pointer_to (func.arg_type 0) (func.arg_type 1) = true)) :
    parse_func_check_assign func = .error ("Management method __assign__ must be declared like "
      ++ "'func __assign__(this *T, other T) void'") := by
  unfold parse_func_check_assign
  rw [if_pos]
  rw [hname]
  by_contra hc
  apply hnot
  simp [ast_type_is_management_ptr] at hc
  obtain ⟨⟨⟨⟨⟨⟨h1, h2⟩, h3⟩, h4⟩, h5⟩, h6⟩, h7⟩ := hc
  refine ⟨h1, h2, h3, h4, ?_, h7, h6⟩
  rcases Bool.eq_false_or_eq_true (ast_type_is_base_ptr (func.arg_type 0)) with hb | hb
  · exact Or.inl hb
  · rcases Bool.eq_false_or_eq_true (ast_type_is_polymorph_ptr (func.arg_type 0)) with hp | hp
    · exact Or.inr (Or.inl hp)
    · exact Or.inr (Or.inr (h5 hb hp))

theorem parse_func_check_assign_ok (func : ast_func_t)
    (h : func.traits = TRAIT_NONE
      ∧ ast_type_is_void func.return_type = true
      ∧ func.arity = 2
      ∧ func.arg_name_is 0 "this" = true
      ∧ (ast_type_is_base_ptr (func.arg_type 0) = true
        ∨ ast_type_is_polymorph_ptr (func.arg_type 0) = true
        ∨ ast_type_is_generic_base_ptr (func.arg_type 0) = true)
      ∧ func.arg_type_trait_differs 0 TRAIT_NONE = false
      ∧ ast_type_is_pointer_to (func.arg_type 0) (func.arg_type 1) = true) :
    parse_func_check_assign func = .ok () := by
  obtain ⟨h1, h2, h3, h4, h5, h6, h7⟩ := h
  unfold parse_func_check_assign
  rw [if_neg]
  simp [ast_type_is_management_ptr, h1, h2, h3, h4, h6, h7]
  intro _ hb hp
  rcases h5 with h | h | h
  · rw [hb] at h; cases h
  · rw [hp] at h; cases h
  · exact h

/-- C13. For every declaration of a function named `__assign__` whose signature
is parsed: unless the function has no traits, returns `void`, has arity 2, a
first argument named `this` whose type is a base-pointer, a polymorph-pointer or
a generic-base-pointer and which has no POD trait, and the type of the first
argument is a pointer to the type of the second, `parse_func` returns `FAILURE`,
and the diagnostic is the `__assign__` prototype reminder unless the trait set
had already made the `__defer__` or the `__pass__` check report; when all of it
holds, the `__assign__` check passes. -/
theorem parse_func_assign_prototype (ext : parse_externals_t) (fuel MAX_FUNCID : Nat)
    (ctx : parse_ctx_t) (s : parse_func_signature_t)
    (halias : (ctx.token_id (ctx.i + 1) == TOKEN_ALIAS && ctx.token_id ctx.i == TOKEN_FUNC)
      = false)
    (hsig : parse_func_signature ext fuel MAX_FUNCID ctx = .ok s)
    (hname : s.func.name = "__assign__") :
    (¬ (s.func.traits = TRAIT_NONE
        ∧ ast_type_is_void s.func.return_type = true
        ∧ s.func.arity = 2
        ∧ s.func.arg_name_is 0 "this" = true
        ∧ (ast_type_is_base_ptr (s.func.arg_type 0) = true
          ∨ ast_type_is_polymorph_ptr (s.func.arg_type 0) = true
          ∨ ast_type_is_generic_base_ptr (s.func.arg_type 0) = true)
        ∧ s.func.arg_type_trait_differs 0 TRAIT_NONE = false
        ∧ ast_type_is_pointer_to (s.func.arg_type 0) (s.func.arg_type 1) = true) →
      ∃ e, parse_func ext fuel MAX_FUNCID ctx = .error (e, s.ctx)
        ∧ (parse_func_check_defer s.func = .ok () → parse_func_check_pass s.func = .ok () →
            e = "Management method __assign__ must be declared like "
              ++ "'func __assign__(this *T, other T) void'"))
    ∧ ((s.func.traits = TRAIT_NONE
        ∧ ast_type_is_void s.func.return_type = true
        ∧ s.func.arity = 2
        ∧ s.func.arg_name_is 0 "this" = true
        ∧ (ast_type_is_base_ptr (s.func.arg_type 0) = true
          ∨ ast_type_is_polymorph_ptr (s.func.arg_type 0) = true
          ∨ ast_type_is_generic_base_ptr (s.func.arg_type 0) = true)
        ∧ s.func.arg_type_trait_differs 0 TRAIT_NONE = false
        ∧ ast_type_is_pointer_to (s.func.arg_type 0) (s.func.arg_type 1) = true) →
      parse_func_check_assign s.func = .ok ()) := by
  refine ⟨fun hnot => ?_, parse_func_check_assign_ok s.func⟩
  rw [parse_func_of_signature ext fuel MAX_FUNCID ctx s halias hsig]
  have hA := parse_func_check_assign_error s.func hname hnot
  cases hD : parse_func_check_defer s.func with
  | error e =>
    refine ⟨e, parse_func_finish_methods_error ext s e ?_, fun hc => by cases hc⟩
    unfold parse_func_check_methods
    rw [hD]
  | ok u =>
    cases hP : parse_func_check_pass s.func with
    | error e =>
      refine ⟨e, parse_func_finish_methods_error ext s e ?_, fun _ hc => by cases hc⟩
      unfold parse_func_check_methods
      rw [hD, hP]
    | ok v =>
      refine ⟨_, parse_func_finish_methods_error ext s _ ?_, fun _ _ => rfl⟩
      unfold parse_func_check_methods
      rw [hD, hP, hA]

/-! ## Reading a concrete run -/

theorem except_ok_of_isSome {ε α : Type} (r : Except ε α) (h : r.toOption.isSome = true) :
    ∃ a, r = .ok a := by
  cases r with
  | error e => cases h
  | ok a => exact ⟨a, rfl⟩

theorem except_ok_fact {ε α β : Type} (r : Except ε α) (a : α) (f : α → β) (b : β)
    (hr : r = .ok a) (h : r.toOption.map f = some b) : f a = b := by
  subst hr
  simpa [Except.toOption] using h

theorem except_unit_ok (r : Except String Unit) (h : r.toOption.isSome = true) : r = .ok () := by
  cases r with
  | error e => cases h
  | ok a => rfl

/-- The witness of C13: `func __assign__(this *Foo, other Bar) void` is refused
with the `__assign__` prototype reminder, the first argument being no pointer to
the type of the second. -/
theorem parse_func_assign_prototype_witness :
    parse_func_diagnostic (parse_func parse_fragment 20 0xFFFFFFFF
      (parse_ctx_of (tokens_binary "__assign__" true "Bar" "void")))
      = some ("Management method __assign__ must be declared like "
          ++ "'func __assign__(this *T, other T) void'") := by
  obtain ⟨s, hs⟩ := except_ok_of_isSome (parse_func_signature parse_fragment 20 0xFFFFFFFF
    (parse_ctx_of (tokens_binary "__assign__" true "Bar" "void"))) (by decide!)
  have hname : s.func.name = "__assign__" :=
    except_ok_fact _ s (fun s => s.func.name) _ hs (by decide!)
  have hto : ast_type_is_pointer_to (s.func.arg_type 0) (s.func.arg_type 1) = false :=
    except_ok_fact _ s (fun s => ast_type_is_pointer_to (s.func.arg_type 0) (s.func.arg_type 1))
      _ hs (by decide!)
  have hdefer : parse_func_check_defer s.func = .ok () :=
    except_unit_ok _ (except_ok_fact _ s
      (fun s => (parse_func_check_defer s.func).toOption.isSome) _ hs (by decide!))
  have hpass : parse_func_check_pass s.func = .ok () :=
    except_unit_ok _ (except_ok_fact _ s
      (fun s => (parse_func_check_pass s.func).toOption.isSome) _ hs (by decide!))
  obtain ⟨e, he, hmsg⟩ := (parse_func_assign_prototype parse_fragment 20 0xFFFFFFFF
    (parse_ctx_of (tokens_binary "__assign__" true "Bar" "void")) s (by decide!) hs hname).1
    (fun hc => by rw [hc.2.2.2.2.2.2] at hto; cases hto)
  rw [he, hmsg hdefer hpass]
  rfl

/-! ## The stages of `parse_func` behind the signature -/

/-- The prototype checks write to `ast.common` only. -/
theorem parse_func_check_variadic_array_ok (ast ast2 : ast_t) (func : ast_func_t)
    (h : parse_func_check_variadic_array ast func = .ok ast2) :
    ast2 = { ast with common := ast2.common }
    ∧ ast2.common.ast_initializer_list = ast.common.ast_initializer_list
    ∧ ast2.common.ast_initializer_list_source = ast.common.ast_initializer_list_source
    ∧ (func.name ≠ "__variadic_array__" → ast2 = ast)
    ∧ (func.name = "__variadic_array__" →
        ast.common.ast_variadic_array = none
        ∧ ast_type_is_void func.return_type = false
        ∧ ast2.common.ast_variadic_array = some (ast_type_clone func.return_type)
        ∧ ast2.common.ast_variadic_source = func.source) := by
  unfold parse_func_check_variadic_array at h
  split at h
  · rename_i hname
    have hname2 : func.name = "__variadic_array__" := by simpa using hname
    split at h
    · cases h
    · rename_i hset
      split at h
      · cases h
      · rename_i hvoid
        split at h
        · cases h
        · split at h
          · cases h
            refine ⟨rfl, rfl, rfl, fun hc => absurd hname2 hc, fun _ => ⟨?_, ?_, rfl, rfl⟩⟩
            · simpa using hset
            · simpa using hvoid
          · rename_i hnone
            simp only [Bool.not_eq_true, Option.not_isSome, Option.isNone_iff_eq_none] at hset
            rw [hset] at hnone
            exact absurd rfl hnone
  · rename_i hname
    cases h
    refine ⟨rfl, rfl, rfl, fun _ => rfl, fun hc => ?_⟩
    rw [hc] at hname
    simp at hname

theorem parse_func_check_initializer_list_ok (ast ast2 : ast_t) (func : ast_func_t)
    (h : parse_func_check_initializer_list ast func = .ok ast2) :
    ast2 = { ast with common := ast2.common }
    ∧ ast2.common.ast_variadic_array = ast.common.ast_variadic_array
    ∧ ast2.common.ast_variadic_source = ast.common.ast_variadic_source
    ∧ (func.name ≠ "__initializer_list__" → ast2 = ast) := by
  unfold parse_func_check_initializer_list at h
  split at h
  · rename_i hname
    have hname2 : func.name = "__initializer_list__" := by simpa using hname
    split at h
    · cases h
    · split at h
      · cases h
      · split at h
        · cases h
          exact ⟨rfl, rfl, rfl, fun hc => absurd hname2 hc⟩
        · cases h
          exact ⟨rfl, rfl, rfl, fun _ => rfl⟩
  · cases h
    exact ⟨rfl, rfl, rfl, fun _ => rfl⟩

/-- The checks that passed, one by one. -/
theorem parse_func_checks_ok (ast ast3 : ast_t) (func : ast_func_t)
    (h : parse_func_checks ast func = .ok ast3) :
    parse_func_check_methods func = .ok ()
    ∧ parse_func_check_math func = .ok ()
    ∧ ∃ ast2, parse_func_check_variadic_array ast func = .ok ast2
      ∧ parse_func_check_initializer_list ast2 func = .ok ast3 := by
  unfold parse_func_checks at h
  split at h
  · cases h
  · rename_i hM
    split at h
    · cases h
    · rename_i ast2 hV
      try simp only at h
      split at h
      · cases h
      · rename_i ast3b hI
        try simp only at h
        split at h
        · cases h
        · rename_i hMath
          cases h
          exact ⟨hM, hMath, ast2, hV, hI⟩

/-- A successful body leaves the AST alone and sets the statements of the
function. -/
theorem parse_func_body_ok (ext : parse_externals_t) (ctx ctx2 : parse_ctx_t)
    (func func2 : ast_func_t) (h : parse_func_body ext ctx func = .ok (ctx2, func2)) :
    ctx2.ast = ctx.ast ∧ func2 = { func with statements := func2.statements } := by
  unfold parse_func_body at h
  split at h
  · cases h; exact ⟨rfl, rfl⟩
  · cases hA : parse_ignore_newlines ctx "Expected function body" with
    | error e => rw [hA] at h; cases h
    | ok ctxA =>
      rw [hA] at h
      try simp only at h
      have hastA : ctxA.ast = ctx.ast := by
        have := congrArg parse_ctx_t.ast (parse_ignore_newlines_frame _ _ _ hA)
        simpa only [parse_ctx_t.frame] using this
      split at h
      · split at h
        · cases h
        · try simp only at h
          split at h
          · cases h
          · rename_i ctxB hB
            have hastB : ctxB.ast = ctx.ast := by
              have := congrArg parse_ctx_t.ast (parse_ignore_newlines_frame _ _ _ hB)
              simp only [parse_ctx_t.frame] at this
              rw [this, hastA]
            try simp only at h
            split at h
            · cases h
            · cases h
              exact ⟨hastB, rfl⟩
      · split at h
        · cases h
        · rename_i ctxE hE
          have hastE : ctxE.ast = ctx.ast := by
            rw [parse_eat_ok _ _ _ _ hE]; exact hastA
          try simp only at h
          split at h
          · cases h
          · cases h
            exact ⟨hastE, rfl⟩

/-- What the polymorphic stage does when it does not fail. -/
theorem parse_func_polymorphic_ok (ctx ctx2 : parse_ctx_t) (func_head : ast_func_head_t)
    (ast_func_id : Nat) (func func2 : ast_func_t)
    (h : parse_func_polymorphic ctx func_head ast_func_id func = .ok (ctx2, func2)) :
    (ast_func_is_polymorphic func = false ∧ ctx2 = ctx ∧ func2 = func)
    ∨ (ast_func_is_polymorphic func = true ∧ func_head.is_foreign = false
      ∧ func2 = { func with traits := func.traits ||| AST_FUNC_POLYMORPHIC }
      ∧ ctx2 = { ctx with ast := { ctx.ast with
          polymorphic_funcs := ctx.ast.polymorphic_funcs ++
            [{ name := func.name, ast_func_id := ast_func_id, is_beginning_of_group := -1 }]
          polymorphic_methods :=
            if func.arity ≠ 0 ∧ func.arg_name_is 0 "this" = true then
              ctx.ast.polymorphic_methods ++
                [{ name := func.name, ast_func_id := ast_func_id, is_beginning_of_group := -1 }]
            else ctx.ast.polymorphic_methods } }) := by
  unfold parse_func_polymorphic at h
  split at h
  · rename_i hpoly
    split at h
    · cases h
    · rename_i hforeign
      simp only [Except.ok.injEq, Prod.mk.injEq] at h
      obtain ⟨h1, h2⟩ := h
      subst h1 h2
      refine Or.inr ⟨hpoly, by simpa using hforeign, rfl, ?_⟩
      by_cases hm : func.arity ≠ 0 ∧ func.arg_name_is 0 "this" = true
      · rw [if_pos hm, if_pos (by simpa using hm)]
      · rw [if_neg hm, if_neg (by simpa using hm)]
  · rename_i hpoly
    cases h
    exact Or.inl ⟨by simpa using hpoly, rfl, rfl⟩

/-- The stages behind the signature when `parse_func` succeeds. -/
theorem parse_func_finish_ok (ext : parse_externals_t) (s : parse_func_signature_t)
    (ctx2 : parse_ctx_t) (h : parse_func_finish ext s = .ok ctx2) :
    ∃ ast1 ctxP funcP ctxB funcB,
      parse_func_checks s.ctx.ast s.func = .ok ast1
      ∧ parse_func_polymorphic { s.ctx with ast := ast1 } s.func_head s.ast_func_id s.func
          = .ok (ctxP, funcP)
      ∧ parse_func_body ext (ctxP.store_func s.ast_func_id funcP) funcP = .ok (ctxB, funcB)
      ∧ ctx2 = ctxB.store_func s.ast_func_id funcB := by
  unfold parse_func_finish at h
  split at h
  · cases h
  · rename_i ast1 hC
    try simp only at h
    split at h
    · cases h
    · rename_i ctxP funcP hP
      try simp only at h
      split at h
      · cases h
      · rename_i ctxB funcB hB
        cases h
        exact ⟨ast1, ctxP, funcP, ctxB, funcB, hC, hP, hB, rfl⟩

/-! ## `__variadic_array__` -/

theorem parse_func_finish_variadic_array_error (ext : parse_externals_t)
    (s : parse_func_signature_t) (e : String)
    (h : parse_func_check_variadic_array s.ctx.ast s.func = .error e) :
    ∃ e2, parse_func_finish ext s = .error (e2, s.ctx)
      ∧ (parse_func_check_methods s.func = .ok () → e2 = e) := by
  cases hM : parse_func_check_methods s.func with
  | error e2 => exact ⟨e2, parse_func_finish_methods_error ext s e2 hM, fun hc => by cases hc⟩
  | ok u =>
    refine ⟨e, ?_, fun _ => rfl⟩
    unfold parse_func_finish parse_func_checks
    rw [hM]
    simp only
    rw [h]

/-- A declaration of `__variadic_array__` met when the AST root already has the
return type of one is refused. -/
theorem parse_func_variadic_array_once (ext : parse_externals_t) (fuel MAX_FUNCID : Nat)
    (ctx : parse_ctx_t) (s : parse_func_signature_t)
    (halias : (ctx.token_id (ctx.i + 1) == TOKEN_ALIAS && ctx.token_id ctx.i == TOKEN_FUNC)
      = false)
    (hsig : parse_func_signature ext fuel MAX_FUNCID ctx = .ok s)
    (hname : s.func.name = "__variadic_array__")
    (hset : ctx.ast.common.ast_variadic_array.isSome = true) :
    ∃ e, parse_func ext fuel MAX_FUNCID ctx = .error (e, s.ctx)
      ∧ (parse_func_check_methods s.func = .ok () →
          e = "The function __variadic_array__ can only be defined once") := by
  rw [parse_func_of_signature ext fuel MAX_FUNCID ctx s halias hsig]
  apply parse_func_finish_variadic_array_error
  have hcommon : s.ctx.ast.common = ctx.ast.common := by
    rw [(parse_func_signature_ok ext fuel MAX_FUNCID ctx s hsig).2.2]
  unfold parse_func_check_variadic_array
  rw [if_pos (by rw [hname]; rfl), if_pos (by rw [hcommon]; exact hset)]

/-- C14. For every declaration of a function named `__variadic_array__` whose
signature is parsed: `parse_func` returns `FAILURE` when the AST root already
holds the return type of a `__variadic_array__` (with the diagnostic "can only be
defined once" once the checks of the management methods are passed), when the
function returns `void`, and when it is not a trait-free function of four
arguments of the types `ptr`, `usize`, `usize`, `ptr`, none of them POD; and when
`parse_func` returns `SUCCESS`, the root held none before, it now holds a clone of
the return type of the function and the source of the function, and every later
declaration of a `__variadic_array__` into an AST with this root is refused. -/
theorem parse_func_variadic_array (ext : parse_externals_t) (fuel MAX_FUNCID : Nat)
    (ctx : parse_ctx_t) (s : parse_func_signature_t)
    (halias : (ctx.token_id (ctx.i + 1) == TOKEN_ALIAS && ctx.token_id ctx.i == TOKEN_FUNC)
      = false)
    (hsig : parse_func_signature ext fuel MAX_FUNCID ctx = .ok s)
    (hname : s.func.name = "__variadic_array__") :
    (ctx.ast.common.ast_variadic_array.isSome = true →
      ∃ e, parse_func ext fuel MAX_FUNCID ctx = .error (e, s.ctx)
        ∧ (parse_func_check_methods s.func = .ok () →
            e = "The function __variadic_array__ can only be defined once"))
    ∧ (ast_type_is_void s.func.return_type = true →
      ∃ e, parse_func ext fuel MAX_FUNCID ctx = .error (e, s.ctx))
    ∧ (¬ (s.func.traits = TRAIT_NONE ∧ s.func.arity = 4
          ∧ ast_type_is_base_of (s.func.arg_type 0) "ptr" = true
          ∧ ast_type_is_base_of (s.func.arg_type 1) "usize" = true
          ∧ ast_type_is_base_of (s.func.arg_type 2) "usize" = true
          ∧ ast_type_is_base_of (s.func.arg_type 3) "ptr" = true
          ∧ (∀ k, k < 4 → s.func.arg_type_trait_differs k TRAIT_NONE = false)) →
      ∃ e, parse_func ext fuel MAX_FUNCID ctx = .error (e, s.ctx))
    ∧ (∀ ctx2, parse_func ext fuel MAX_FUNCID ctx = .ok ctx2 →
      ctx.ast.common.ast_variadic_array = none
      ∧ ctx2.ast.common.ast_variadic_array = some (ast_type_clone s.func.return_type)
      ∧ ctx2.ast.common.ast_variadic_source = s.func.source
      ∧ ∀ (ext3 : parse_externals_t) (fuel3 MAX_FUNCID3 : Nat) (ctx3 : parse_ctx_t)
          (s3 : parse_func_signature_t),
          ctx3.ast.common = ctx2.ast.common →
          (ctx3.token_id (ctx3.i + 1) == TOKEN_ALIAS && ctx3.token_id ctx3.i == TOKEN_FUNC)
            = false →
          parse_func_signature ext3 fuel3 MAX_FUNCID3 ctx3 = .ok s3 →
          s3.func.name = "__variadic_array__" →
          ∃ e, parse_func ext3 fuel3 MAX_FUNCID3 ctx3 = .error (e, s3.ctx)) := by
  have hcommon : s.ctx.ast.common = ctx.ast.common := by
    rw [(parse_func_signature_ok ext fuel MAX_FUNCID ctx s hsig).2.2]
  have hfin := parse_func_of_signature ext fuel MAX_FUNCID ctx s halias hsig
  refine ⟨parse_func_variadic_array_once ext fuel MAX_FUNCID ctx s halias hsig hname, ?_, ?_, ?_⟩
  · intro hvoid
    rw [hfin]
    by_cases hset : s.ctx.ast.common.ast_variadic_array.isSome = true
    · obtain ⟨e, he, -⟩ := parse_func_finish_variadic_array_error ext s
        "The function __variadic_array__ can only be defined once" (by
          unfold parse_func_check_variadic_array
          rw [if_pos (by rw [hname]; rfl), if_pos hset])
      exact ⟨e, he⟩
    · obtain ⟨e, he, -⟩ := parse_func_finish_variadic_array_error ext s
        "The function __variadic_array__ must return a value" (by
          unfold parse_func_check_variadic_array
          rw [if_pos (by rw [hname]; rfl), if_neg hset, if_pos hvoid])
      exact ⟨e, he⟩
  · intro hnot
    rw [hfin]
    cases hV : parse_func_check_variadic_array s.ctx.ast s.func with
    | error e =>
      obtain ⟨e2, he, -⟩ := parse_func_finish_variadic_array_error ext s e hV
      exact ⟨e2, he⟩
    | ok ast2 =>
      exfalso
      apply hnot
      unfold parse_func_check_variadic_array at hV
      rw [if_pos (by rw [hname]; rfl)] at hV
      split at hV
      · cases hV
      · split at hV
        · cases hV
        · split at hV
          · cases hV
          · rename_i hproto
            simp at hproto
            obtain ⟨⟨⟨⟨⟨⟨⟨⟨⟨h1, h2⟩, h3⟩, h4⟩, h5⟩, h6⟩, h7⟩, h8⟩, h9⟩, h10⟩ := hproto
            refine ⟨h1, h2, h3, h4, h5, h6, fun k hk => ?_⟩
            have : k = 0 ∨ k = 1 ∨ k = 2 ∨ k = 3 := by omega
            rcases this with hk | hk | hk | hk <;> subst hk <;> assumption
  · intro ctx2 hok
    rw [hfin] at hok
    obtain ⟨ast1, ctxP, funcP, ctxB, funcB, hC, hP, hB, h2⟩ := parse_func_finish_ok ext s ctx2 hok
    obtain ⟨-, -, astV, hV, hI⟩ := parse_func_checks_ok _ _ _ hC
    obtain ⟨-, -, -, -, hrec⟩ := parse_func_check_variadic_array_ok _ _ _ hV
    obtain ⟨hnone, -, hty, hsrc⟩ := hrec hname
    obtain ⟨-, -, -, hIeq⟩ := parse_func_check_initializer_list_ok _ _ _ hI
    have hast1 : ast1 = astV := hIeq (by rw [hname]; decide)
    have hPc : ctxP.ast.common = ast1.common := by
      rcases parse_func_polymorphic_ok _ _ _ _ _ _ hP with ⟨-, h, -⟩ | ⟨-, -, -, h⟩ <;> rw [h]
    have hBc : ctxB.ast = (ctxP.store_func s.ast_func_id funcP).ast :=
      (parse_func_body_ok _ _ _ _ _ hB).1
    have h2c : ctx2.ast.common = astV.common := by
      rw [h2]
      show ctxB.ast.common = _
      rw [hBc]
      show ctxP.ast.common = _
      rw [hPc, hast1]
    refine ⟨by rw [← hcommon]; exact hnone, by rw [h2c]; exact hty, by rw [h2c]; exact hsrc, ?_⟩
    intro ext3 fuel3 MAX_FUNCID3 ctx3 s3 hc3 halias3 hsig3 hname3
    obtain ⟨e, he, -⟩ := parse_func_variadic_array_once ext3 fuel3 MAX_FUNCID3 ctx3 s3 halias3
      hsig3 hname3 (by rw [hc3, h2c, hty]; rfl)
    exact ⟨e, he⟩

/-- The witness of C14: of two declarations
`func __variadic_array__(pointer ptr, bytes usize, length usize, maybe_types ptr)`,
the first returning `int` and the second `long`, the first is accepted and its
return type and source are recorded on the root, and the second is refused. -/
theorem parse_func_variadic_array_witness :
    ∃ s ctx2 e ctx3,
      parse_func_signature parse_fragment 20 0xFFFFFFFF
        (parse_ctx_of (tokens_variadic_array "int" ++ tokens_variadic_array "long")) = .ok s
      ∧ parse_func parse_fragment 20 0xFFFFFFFF
        (parse_ctx_of (tokens_variadic_array "int" ++ tokens_variadic_array "long")) = .ok ctx2
      ∧ ctx2.ast.common.ast_variadic_array = some (ast_type_clone s.func.return_type)
      ∧ ast_type_is_base_of s.func.return_type "int" = true
      ∧ ctx2.ast.common.ast_variadic_source = ⟨0, 0⟩
      ∧ parse_func parse_fragment 20 0xFFFFFFFF ctx2 = .error (e, ctx3) := by
  obtain ⟨s, hs⟩ := except_ok_of_isSome (parse_func_signature parse_fragment 20 0xFFFFFFFF
    (parse_ctx_of (tokens_variadic_array "int" ++ tokens_variadic_array "long"))) (by decide!)
  obtain ⟨ctx2, h2⟩ := except_ok_of_isSome (parse_func parse_fragment 20 0xFFFFFFFF
    (parse_ctx_of (tokens_variadic_array "int" ++ tokens_variadic_array "long"))) (by decide!)
  have hname : s.func.name = "__variadic_array__" :=
    except_ok_fact _ s (fun s => s.func.name) _ hs (by decide!)
  have hint : ast_type_is_base_of s.func.return_type "int" = true :=
    except_ok_fact _ s (fun s => ast_type_is_base_of s.func.return_type "int") _ hs (by decide!)
  have hsrc : s.func.source = ⟨0, 0⟩ :=
    except_ok_fact _ s (fun s => s.func.source) _ hs (by decide!)
  have halias3 : (ctx2.token_id (ctx2.i + 1) == TOKEN_ALIAS && ctx2.token_id ctx2.i == TOKEN_FUNC)
      = false :=
    except_ok_fact _ ctx2 (fun c => c.token_id (c.i + 1) == TOKEN_ALIAS
      && c.token_id c.i == TOKEN_FUNC) _ h2 (by decide!)
  obtain ⟨s3, hs3⟩ := except_ok_of_isSome (parse_func_signature parse_fragment 20 0xFFFFFFFF ctx2)
    (except_ok_fact _ ctx2 (fun c => (parse_func_signature parse_fragment 20 0xFFFFFFFF
      c).toOption.isSome) _ h2 (by decide!))
  have hname3 : s3.func.name = "__variadic_array__" :=
    except_ok_fact _ s3 (fun s => s.func.name) _ hs3
      (except_ok_fact _ ctx2 (fun c => (parse_func_signature parse_fragment 20 0xFFFFFFFF
        c).toOption.map (fun s => s.func.name)) _ h2 (by decide!))
  obtain ⟨-, hty, hsource, hlater⟩ :=
    (parse_func_variadic_array parse_fragment 20 0xFFFFFFFF
      (parse_ctx_of (tokens_variadic_array "int" ++ tokens_variadic_array "long")) s
      (by decide!) hs hname).2.2.2 ctx2 h2
  obtain ⟨e, he⟩ := hlater parse_fragment 20 0xFFFFFFFF ctx2 s3 rfl halias3 hs3 hname3
  exact ⟨s, ctx2, e, s3.ctx, hs, h2, hty, hint, by rw [hsource, hsrc], he⟩

/-! ## The claims about `parse_func` that the code breaks -/

/-- What the check of `__defer__` does enforce: a function whose trait set is
exactly the defer trait is refused unless it has the prototype. -/
theorem parse_func_check_defer_error (func : ast_func_t) (htraits : func.traits = AST_FUNC_DEFER)
    (hnot : ¬ (ast_type_is_void func.return_type = true
      ∧ func.arity = 1
      ∧ func.arg_name_is 0 "this" = true
      ∧ ast_type_is_management_ptr (func.arg_type 0) = true
      ∧ func.arg_type_trait_differs 0 TRAIT_NONE = false)) :
    parse_func_check_defer func
      = .error "Management method __defer__ must be declared as 'func __defer__(this *T) void'" := by
  unfold parse_func_check_defer
  rw [if_pos]
  rw [htraits]
  by_contra hc
  apply hnot
  simp at hc
  obtain ⟨⟨⟨⟨h1, h2⟩, h3⟩, h4⟩, h5⟩ := hc
  exact ⟨h1, h2, h3, h4, h5⟩

/-- What the check of `__pass__` does enforce: a function whose trait set is
exactly the pass trait is refused unless it has the prototype. -/
theorem parse_func_check_pass_error (func : ast_func_t) (htraits : func.traits = AST_FUNC_PASS)
    (hnot : ¬ ((ast_type_is_base func.return_type = true
        ∨ ast_type_is_polymorph func.return_type = true
        ∨ ast_type_is_generic_base func.return_type = true
        ∨ ast_type_is_fixed_array func.return_type = true)
      ∧ func.arity = 1
      ∧ ast_types_identical func.return_type (func.arg_type 0) = true
      ∧ func.arg_type_trait_differs 0 AST_FUNC_ARG_TYPE_TRAIT_POD = false)) :
    parse_func_check_pass func
      = .error "Management function __pass__ must be declared as 'func __pass__(value POD T) T'" := by
  unfold parse_func_check_pass
  rw [if_pos]
  rw [htraits]
  by_contra hc
  apply hnot
  simp at hc
  obtain ⟨⟨⟨h1, h2⟩, h3⟩, h4⟩ := hc
  refine ⟨?_, h2, h3, h4⟩
  rcases Bool.eq_false_or_eq_true (ast_type_is_base func.return_type) with hb | hb
  · exact Or.inl hb
  · rcases Bool.eq_false_or_eq_true (ast_type_is_polymorph func.return_type) with hp | hp
    · exact Or.inr (Or.inl hp)
    · rcases Bool.eq_false_or_eq_true (ast_type_is_generic_base func.return_type) with hg | hg
      · exact Or.inr (Or.inr (Or.inl hg))
      · exact Or.inr (Or.inr (Or.inr (h1 hb hp hg)))

/-- Any further trait switches both checks off. -/
theorem parse_func_check_defer_pass_skipped (func : ast_func_t)
    (hdefer : func.traits ≠ AST_FUNC_DEFER) (hpass : func.traits ≠ AST_FUNC_PASS) :
    parse_func_check_defer func = .ok () ∧ parse_func_check_pass func = .ok () := by
  unfold parse_func_check_defer parse_func_check_pass
  rw [if_neg (by simp [hdefer]), if_neg (by simp [hpass])]
  exact ⟨rfl, rfl⟩

/-- C11, the code at the failing input `func __defer__(this *Foo, ...) int` with an
empty body: `parse_func` accepts the declaration. The function is named
`__defer__` and carries the defer trait, yet it returns `int`: the vararg trait
beside the defer trait makes `func->traits == AST_FUNC_DEFER` false, so the
prototype check is skipped. Without the `...` the same declaration is refused with
the `__defer__` prototype reminder, and `func __defer__(this *Foo) void` is
accepted, as the claim says. -/
theorem parse_func_defer_vararg :
    (parse_func parse_fragment 20 0xFFFFFFFF (parse_ctx_of tokens_defer_vararg)).toOption.map
        (fun ctx2 => ctx2.ast.funcs.map (fun func2 =>
          (func2.name, func2.traits, func2.arity, ast_type_is_void func2.return_type,
            ast_type_is_base_of func2.return_type "int")))
      = some [("__defer__", AST_FUNC_DEFER ||| AST_FUNC_VARARG, 1, false, true)]
    ∧ (AST_FUNC_DEFER ||| AST_FUNC_VARARG).has AST_FUNC_DEFER = true
    ∧ parse_func_diagnostic (parse_func parse_fragment 20 0xFFFFFFFF
        (parse_ctx_of (tokens_method "__defer__" "int")))
      = some "Management method __defer__ must be declared as 'func __defer__(this *T) void'"
    ∧ parse_func_diagnostic (parse_func parse_fragment 20 0xFFFFFFFF
        (parse_ctx_of (tokens_method "__defer__" "void"))) = none := by
  decide!

/-- C12, the code at the failing input `func __pass__(value POD Foo, ...) int` with
an empty body: `parse_func` accepts the declaration. The function is named
`__pass__` and carries the pass trait, yet its return type `int` is not the type
`Foo` of its argument: the vararg trait beside the pass trait makes
`func->traits == AST_FUNC_PASS` false, so the prototype check is skipped. Without
the `...` the same declaration is refused with the `__pass__` prototype reminder,
and `func __pass__(value POD Foo) Foo` is accepted. -/
theorem parse_func_pass_vararg :
    (parse_func parse_fragment 20 0xFFFFFFFF (parse_ctx_of tokens_pass_vararg)).toOption.map
        (fun ctx2 => ctx2.ast.funcs.map (fun func2 =>
          (func2.name, func2.traits, func2.arity,
            ast_types_identical func2.return_type (func2.arg_type 0),
            ast_type_is_base_of func2.return_type "int")))
      = some [("__pass__", AST_FUNC_PASS ||| AST_FUNC_VARARG, 1, false, true)]
    ∧ (AST_FUNC_PASS ||| AST_FUNC_VARARG).has AST_FUNC_PASS = true
    ∧ parse_func_diagnostic (parse_func parse_fragment 20 0xFFFFFFFF
        (parse_ctx_of (tokens_pass "int")))
      = some "Management function __pass__ must be declared as 'func __pass__(value POD T) T'"
    ∧ parse_func_diagnostic (parse_func parse_fragment 20 0xFFFFFFFF
        (parse_ctx_of (tokens_pass "Foo"))) = none := by
  decide!

/-- C15, the code at the failing input: the declarations
`func __initializer_list__(array ptr, length usize) int` and
`func __initializer_list__(array ptr, length usize) long`, each with an empty
body, parsed one after the other into the same AST. `parse_func` accepts both:
the AST holds two functions of that name, and the return type recorded on the
root is still that of the first. The same two declarations of
`__variadic_array__` are not both accepted: the second is refused as a second
definition. -/
theorem parse_func_initializer_list_twice :
    ((parse_func parse_fragment 20 0xFFFFFFFF
        (parse_ctx_of (tokens_initializer_list "int" ++ tokens_initializer_list "long"))).toOption.bind
      (fun ctx1 => (parse_func parse_fragment 20 0xFFFFFFFF ctx1).toOption.map
        (fun ctx2 =>
          (ctx1.ast.common.ast_initializer_list.map (fun t => ast_type_is_base_of t "int"),
           ctx2.ast.funcs.map (fun func2 =>
             (func2.name, ast_type_is_base_of func2.return_type "int",
               ast_type_is_base_of func2.return_type "long")),
           ctx2.ast.common.ast_initializer_list.map (fun t => ast_type_is_base_of t "int")))))
      = some (some true,
          [("__initializer_list__", true, false), ("__initializer_list__", false, true)],
          some true)
    ∧ ((parse_func parse_fragment 20 0xFFFFFFFF
        (parse_ctx_of (tokens_variadic_array "int" ++ tokens_variadic_array "long"))).toOption.map
      (fun ctx1 => parse_func_diagnostic (parse_func parse_fragment 20 0xFFFFFFFF ctx1)))
      = some (some "The function __variadic_array__ can only be defined once") := by
  decide!

/-! ## The math-management functions -/

theorem strcmp_chars_eq : ∀ (a b : List Char), strcmp_chars a b = .eq → a = b
  | [], [], _ => rfl
  | [], _ :: _, h => by simp [strcmp_chars] at h
  | _ :: _, [], h => by simp [strcmp_chars] at h
  | a :: as, b :: bs, h => by
      rw [strcmp_chars] at h
      split at h
      · rename_i hab
        rw [hab, strcmp_chars_eq as bs h]
      · split at h <;> cases h

theorem strcmp_eq (a b : String) (h : strcmp a b = .eq) : a = b :=
  String.ext (strcmp_chars_eq a.data b.data h)

/-- The binary search returns an index of the range it is given, and the entry at
that index is the target. -/
theorem binary_string_search_loop_some (strings : List String) (target : String) :
    ∀ (fuel first last m : Nat),
      binary_string_search_loop strings target fuel first last = some m →
      first ≤ m ∧ m < last ∧ strings.getD m "" = target
  | 0, _, _, _, h => by simp [binary_string_search_loop] at h
  | fuel + 1, first, last, m, h => by
      rw [binary_string_search_loop] at h
      split at h
      · rename_i hlt
        simp only at h
        split at h
        · rename_i heq
          cases h
          exact ⟨by omega, by omega, strcmp_eq _ _ heq⟩
        · obtain ⟨h1, h2, h3⟩ := binary_string_search_loop_some strings target fuel _ _ _ h
          exact ⟨h1, by omega, h3⟩
        · obtain ⟨h1, h2, h3⟩ := binary_string_search_loop_some strings target fuel _ _ _ h
          exact ⟨by omega, h2, h3⟩
      · cases h

/-- The search of `math_management_funcs` finds the eleven names and no other
text. -/
theorem binary_string_search_math (name : String) :
    (binary_string_search math_management_funcs math_management_funcs.length name).isSome = true
    ↔ name ∈ ["__add__", "__subtract__", "__multiply__", "__divide__", "__modulus__",
        "__equals__", "__not_equals__", "__less_than__", "__greater_than__",
        "__less_than_or_equal__", "__greater_than_or_equal__"] := by
  constructor
  · intro h
    obtain ⟨m, hm⟩ := Option.isSome_iff_exists.mp h
    obtain ⟨-, h2, h3⟩ := binary_string_search_loop_some _ _ _ _ _ _ hm
    have h2 : m < 11 := h2
    rw [← h3]
    have : m = 0 ∨ m = 1 ∨ m = 2 ∨ m = 3 ∨ m = 4 ∨ m = 5 ∨ m = 6 ∨ m = 7 ∨ m = 8 ∨ m = 9
        ∨ m = 10 := by omega
    rcases this with h | h | h | h | h | h | h | h | h | h | h <;> subst h <;> decide
  · intro h
    simp only [List.mem_cons, List.mem_singleton, List.not_mem_nil, or_false] at h
    rcases h with h | h | h | h | h | h | h | h | h | h | h <;> subst h <;> decide!

theorem parse_func_finish_checks_error (ext : parse_externals_t) (s : parse_func_signature_t)
    (e : String) (h : parse_func_checks s.ctx.ast s.func = .error e) :
    parse_func_finish ext s = .error (e, s.ctx) := by
  unfold parse_func_finish
  rw [h]

theorem parse_func_checks_math_error (ast : ast_t) (func : ast_func_t) (e : String)
    (h : parse_func_check_math func = .error e) :
    ∃ e2, parse_func_checks ast func = .error e2 := by
  unfold parse_func_checks
  split
  · exact ⟨_, rfl⟩
  · split
    · exact ⟨_, rfl⟩
    · split
      · exact ⟨_, rfl⟩
      · try simp only
        rw [h]
        exact ⟨_, rfl⟩

/-- C16. For every declaration of a function whose name is one of the eleven
math-management names and whose signature is parsed: `parse_func` returns
`FAILURE` when the arity is not 2 or the type of the first argument is a pointer;
the check does not depend on the return type, and passes whenever the arity is 2
and the first argument is no pointer. The binary search of `math_management_funcs`
finds these eleven names and no other text, and the table is strictly ascending
in byte order. -/
theorem parse_func_math_management (ext : parse_externals_t) (fuel MAX_FUNCID : Nat)
    (ctx : parse_ctx_t) (s : parse_func_signature_t)
    (halias : (ctx.token_id (ctx.i + 1) == TOKEN_ALIAS && ctx.token_id ctx.i == TOKEN_FUNC)
      = false)
    (hsig : parse_func_signature ext fuel MAX_FUNCID ctx = .ok s)
    (hname : s.func.name ∈ ["__add__", "__subtract__", "__multiply__", "__divide__",
        "__modulus__", "__equals__", "__not_equals__", "__less_than__", "__greater_than__",
        "__less_than_or_equal__", "__greater_than_or_equal__"]) :
    ((s.func.arity ≠ 2 ∨ ast_type_is_pointer (s.func.arg_type 0) = true) →
      ∃ e, parse_func ext fuel MAX_FUNCID ctx = .error (e, s.ctx))
    ∧ (∀ return_type : ast_type_t,
        parse_func_check_math { s.func with return_type := return_type }
          = parse_func_check_math s.func)
    ∧ (s.func.arity = 2 → ast_type_is_pointer (s.func.arg_type 0) = false →
        parse_func_check_math s.func = .ok ())
    ∧ (∀ name : String,
        (binary_string_search math_management_funcs math_management_funcs.length name).isSome
          = true
        ↔ name ∈ ["__add__", "__subtract__", "__multiply__", "__divide__", "__modulus__",
            "__equals__", "__not_equals__", "__less_than__", "__greater_than__",
            "__less_than_or_equal__", "__greater_than_or_equal__"])
    ∧ List.Pairwise (fun a b => strcmp a b = .lt) math_management_funcs := by
  have hfound := (binary_string_search_math s.func.name).2 hname
  refine ⟨fun hbad => ?_, fun _ => rfl, fun h2 hp => ?_, binary_string_search_math, by decide!⟩
  · rw [parse_func_of_signature ext fuel MAX_FUNCID ctx s halias hsig]
    have hmath : ∃ e, parse_func_check_math s.func = .error e := by
      unfold parse_func_check_math
      simp only
      rw [if_pos hfound]
      by_cases h2 : s.func.arity = 2
      · rcases hbad with hbad | hbad
        · exact absurd h2 hbad
        · rw [if_neg (by simp [h2]), if_pos hbad]
          exact ⟨_, rfl⟩
      · rw [if_pos (by simp [h2])]
        exact ⟨_, rfl⟩
    obtain ⟨e, he⟩ := hmath
    obtain ⟨e2, he2⟩ := parse_func_checks_math_error s.ctx.ast s.func e he
    exact ⟨e2, parse_func_finish_checks_error ext s e2 he2⟩
  · unfold parse_func_check_math
    simp only
    rw [if_pos hfound, if_neg (by simp [h2]), if_neg (by simp [hp])]

/-- The witness of C16: `func __add__(this *Foo, other Foo) int` is refused, its
first argument being a pointer. -/
theorem parse_func_math_management_witness :
    ∃ e ctx2, parse_func parse_fragment 20 0xFFFFFFFF
      (parse_ctx_of (tokens_binary "__add__" true "Foo" "int")) = .error (e, ctx2) := by
  obtain ⟨s, hs⟩ := except_ok_of_isSome (parse_func_signature parse_fragment 20 0xFFFFFFFF
    (parse_ctx_of (tokens_binary "__add__" true "Foo" "int"))) (by decide!)
  have hname : s.func.name = "__add__" :=
    except_ok_fact _ s (fun s => s.func.name) _ hs (by decide!)
  have hptr : ast_type_is_pointer (s.func.arg_type 0) = true :=
    except_ok_fact _ s (fun s => ast_type_is_pointer (s.func.arg_type 0)) _ hs (by decide!)
  obtain ⟨e, he⟩ := (parse_func_math_management parse_fragment 20 0xFFFFFFFF
    (parse_ctx_of (tokens_binary "__add__" true "Foo" "int")) s (by decide!) hs
    (by rw [hname]; decide)).1 (Or.inr hptr)
  exact ⟨e, s.ctx, he⟩

/-! ## Polymorphic functions -/

/-- The prototype checks leave everything of the AST root but `common` as it
was. -/
theorem parse_func_checks_frame (ast ast3 : ast_t) (func : ast_func_t)
    (h : parse_func_checks ast func = .ok ast3) : ast3 = { ast with common := ast3.common } := by
  obtain ⟨-, -, ast2, hV, hI⟩ := parse_func_checks_ok _ _ _ h
  have h2 := (parse_func_check_variadic_array_ok _ _ _ hV).1
  have h3 := (parse_func_check_initializer_list_ok _ _ _ hI).1
  rw [h3, h2]

/-- The AST that `parse_func` leaves once the checks and the polymorphic stage
are passed, whether the body is accepted or not: the AST of the polymorphic stage,
with the function, under its name, at its index of `funcs`. -/
theorem parse_func_finish_left (ext : parse_externals_t) (s : parse_func_signature_t)
    (ast1 : ast_t) (ctxP : parse_ctx_t) (funcP : ast_func_t)
    (hC : parse_func_checks s.ctx.ast s.func = .ok ast1)
    (hP : parse_func_polymorphic { s.ctx with ast := ast1 } s.func_head s.ast_func_id s.func
      = .ok (ctxP, funcP)) :
    ∃ f, f = { funcP with statements := f.statements }
      ∧ (parse_func_left (parse_func_finish ext s)).ast
        = { ctxP.ast with funcs := ctxP.ast.funcs.set s.ast_func_id f } := by
  unfold parse_func_finish
  rw [hC]
  simp only
  rw [hP]
  simp only
  cases hB : parse_func_body ext (ctxP.store_func s.ast_func_id funcP) funcP with
  | error e => exact ⟨funcP, rfl, rfl⟩
  | ok r =>
    obtain ⟨ctxB, funcB⟩ := r
    obtain ⟨hast, hfunc⟩ := parse_func_body_ok _ _ _ _ _ hB
    refine ⟨funcB, hfunc, ?_⟩
    show (ctxB.store_func s.ast_func_id funcB).ast = _
    simp only [parse_ctx_t.store_func, hast, List.set_set]

/-- C17. For every foreign declaration whose signature is parsed and which
`ast_func_is_polymorphic` reports polymorphic: `parse_func` returns `FAILURE`,
`polymorphic_funcs` and `polymorphic_methods` are as they were before the call,
and the diagnostic is "Cannot declare polymorphic foreign functions" whenever the
prototype checks, which come first, are passed. -/
theorem parse_func_polymorphic_foreign (ext : parse_externals_t) (fuel MAX_FUNCID : Nat)
    (ctx : parse_ctx_t) (s : parse_func_signature_t)
    (halias : (ctx.token_id (ctx.i + 1) == TOKEN_ALIAS && ctx.token_id ctx.i == TOKEN_FUNC)
      = false)
    (hsig : parse_func_signature ext fuel MAX_FUNCID ctx = .ok s)
    (hforeign : s.func_head.is_foreign = true)
    (hpoly : ast_func_is_polymorphic s.func = true) :
    ∃ e ctx2, parse_func ext fuel MAX_FUNCID ctx = .error (e, ctx2)
      ∧ ctx2.ast.polymorphic_funcs = ctx.ast.polymorphic_funcs
      ∧ ctx2.ast.polymorphic_methods = ctx.ast.polymorphic_methods
      ∧ (∀ ast1, parse_func_checks s.ctx.ast s.func = .ok ast1 →
          e = "Cannot declare polymorphic foreign functions") := by
  rw [parse_func_of_signature ext fuel MAX_FUNCID ctx s halias hsig]
  have hast := (parse_func_signature_ok ext fuel MAX_FUNCID ctx s hsig).2.2
  cases hC : parse_func_checks s.ctx.ast s.func with
  | error e =>
    refine ⟨e, s.ctx, parse_func_finish_checks_error ext s e hC, by rw [hast], by rw [hast], ?_⟩
    intro ast1 hc
    cases hc
  | ok ast1 =>
    have hframe := parse_func_checks_frame _ _ _ hC
    refine ⟨"Cannot declare polymorphic foreign functions", { s.ctx with ast := ast1 }, ?_,
      by show ast1.polymorphic_funcs = _; rw [hframe, hast],
      by show ast1.polymorphic_methods = _; rw [hframe, hast], fun _ _ => rfl⟩
    unfold parse_func_finish
    rw [hC]
    simp only
    unfold parse_func_polymorphic
    rw [if_pos hpoly, if_pos hforeign]

/-- The witness of C17: `foreign bar($T) void` is refused with "Cannot declare
polymorphic foreign functions", and nothing is appended to the two lists. -/
theorem parse_func_polymorphic_foreign_witness :
    ∃ ctx2, parse_func parse_fragment 20 0xFFFFFFFF (parse_ctx_of tokens_foreign_polymorphic)
        = .error ("Cannot declare polymorphic foreign functions", ctx2)
      ∧ ctx2.ast.polymorphic_funcs = [] ∧ ctx2.ast.polymorphic_methods = [] := by
  obtain ⟨s, hs⟩ := except_ok_of_isSome (parse_func_signature parse_fragment 20 0xFFFFFFFF
    (parse_ctx_of tokens_foreign_polymorphic)) (by decide!)
  have hforeign : s.func_head.is_foreign = true :=
    except_ok_fact _ s (fun s => s.func_head.is_foreign) _ hs (by decide!)
  have hpoly : ast_func_is_polymorphic s.func = true :=
    except_ok_fact _ s (fun s => ast_func_is_polymorphic s.func) _ hs (by decide!)
  obtain ⟨ast1, hC⟩ := except_ok_of_isSome (parse_func_checks s.ctx.ast s.func)
    (except_ok_fact _ s (fun s => (parse_func_checks s.ctx.ast s.func).toOption.isSome) _ hs
      (by decide!))
  obtain ⟨e, ctx2, he, h1, h2, hmsg⟩ := parse_func_polymorphic_foreign parse_fragment 20
    0xFFFFFFFF (parse_ctx_of tokens_foreign_polymorphic) s (by decide!) hs hforeign hpoly
  rw [hmsg ast1 hC] at he
  exact ⟨ctx2, he, h1, h2⟩

/-- C18. For every declaration that is not foreign, whose signature is parsed and
which passes the prototype checks, whatever becomes of its body: the function is
the element of `funcs` at the index `funcs` had as length before the call; when it
is polymorphic, exactly one entry is appended to `polymorphic_funcs`, with the
name of the function, that index as `ast_func_id` and `-1` as
`is_beginning_of_group`, and the same entry is appended to `polymorphic_methods`
if and only if the arity is not 0 and the first argument is named `this`; when it
is not polymorphic, both lists are as they were. -/
theorem parse_func_polymorphic_index (ext : parse_externals_t) (fuel MAX_FUNCID : Nat)
    (ctx : parse_ctx_t) (s : parse_func_signature_t) (ast1 : ast_t)
    (halias : (ctx.token_id (ctx.i + 1) == TOKEN_ALIAS && ctx.token_id ctx.i == TOKEN_FUNC)
      = false)
    (hsig : parse_func_signature ext fuel MAX_FUNCID ctx = .ok s)
    (hforeign : s.func_head.is_foreign = false)
    (hchecks : parse_func_checks s.ctx.ast s.func = .ok ast1) :
    (∃ f, f.name = s.func.name
      ∧ (parse_func_left (parse_func ext fuel MAX_FUNCID ctx)).ast.funcs = ctx.ast.funcs ++ [f])
    ∧ (ast_func_is_polymorphic s.func = true →
        (parse_func_left (parse_func ext fuel MAX_FUNCID ctx)).ast.polymorphic_funcs
          = ctx.ast.polymorphic_funcs ++
            [{ name := s.func.name, ast_func_id := ctx.ast.funcs.length,
               is_beginning_of_group := -1 }]
        ∧ (parse_func_left (parse_func ext fuel MAX_FUNCID ctx)).ast.polymorphic_methods
          = if s.func.arity ≠ 0 ∧ s.func.arg_name_is 0 "this" = true then
              ctx.ast.polymorphic_methods ++
                [{ name := s.func.name, ast_func_id := ctx.ast.funcs.length,
                   is_beginning_of_group := -1 }]
            else ctx.ast.polymorphic_methods)
    ∧ (ast_func_is_polymorphic s.func = false →
        (parse_func_left (parse_func ext fuel MAX_FUNCID ctx)).ast.polymorphic_funcs
          = ctx.ast.polymorphic_funcs
        ∧ (parse_func_left (parse_func ext fuel MAX_FUNCID ctx)).ast.polymorphic_methods
          = ctx.ast.polymorphic_methods) := by
  rw [parse_func_of_signature ext fuel MAX_FUNCID ctx s halias hsig]
  obtain ⟨-, hid, hast⟩ := parse_func_signature_ok ext fuel MAX_FUNCID ctx s hsig
  have hframe := parse_func_checks_frame _ _ _ hchecks
  have h1funcs : ast1.funcs = ctx.ast.funcs ++ [s.func] := by rw [hframe, hast]
  have h1pf : ast1.polymorphic_funcs = ctx.ast.polymorphic_funcs := by rw [hframe, hast]
  have h1pm : ast1.polymorphic_methods = ctx.ast.polymorphic_methods := by rw [hframe, hast]
  cases hP : parse_func_polymorphic { s.ctx with ast := ast1 } s.func_head s.ast_func_id s.func with
  | error e =>
    exfalso
    unfold parse_func_polymorphic at hP
    split at hP
    · rw [if_neg (by simp [hforeign])] at hP
      cases hP
    · cases hP
  | ok r =>
    obtain ⟨ctxP, funcP⟩ := r
    obtain ⟨f, hf, hleft⟩ := parse_func_finish_left ext s ast1 ctxP funcP hchecks hP
    have hfname : f.name = funcP.name := by rw [hf]
    rw [hleft]
    rcases parse_func_polymorphic_ok _ _ _ _ _ _ hP with ⟨hnp, hc, hf⟩ | ⟨hp, -, hf, hc⟩
    · subst hc hf
      refine ⟨⟨f, hfname, ?_⟩, fun hc => ?_, fun _ => ⟨h1pf, h1pm⟩⟩
      · show ast1.funcs.set s.ast_func_id f = _
        rw [h1funcs, hid, list_set_append_last]
      · rw [hnp] at hc
        cases hc
    · subst hc hf
      refine ⟨⟨f, hfname, ?_⟩, fun _ => ⟨?_, ?_⟩, fun hc => ?_⟩
      · show ast1.funcs.set s.ast_func_id f = _
        rw [h1funcs, hid, list_set_append_last]
      · show ast1.polymorphic_funcs ++ _ = _
        rw [h1pf, hid]
      · show (if s.func.arity ≠ 0 ∧ s.func.arg_name_is 0 "this" = true then
            ast1.polymorphic_methods ++ _ else ast1.polymorphic_methods) = _
        rw [h1pm, hid]
      · rw [hp] at hc
        cases hc

/-- The witness of C18: `func get(this *$T) $T` with an empty body is accepted, and
is entered in both lists under the id 0. -/
theorem parse_func_polymorphic_index_witness :
    (parse_func_left (parse_func parse_fragment 20 0xFFFFFFFF
        (parse_ctx_of (tokens_polymorphic "this")))).ast.polymorphic_funcs
      = [{ name := "get", ast_func_id := 0, is_beginning_of_group := -1 }]
    ∧ (parse_func_left (parse_func parse_fragment 20 0xFFFFFFFF
        (parse_ctx_of (tokens_polymorphic "this")))).ast.polymorphic_methods
      = [{ name := "get", ast_func_id := 0, is_beginning_of_group := -1 }] := by
  obtain ⟨s, hs⟩ := except_ok_of_isSome (parse_func_signature parse_fragment 20 0xFFFFFFFF
    (parse_ctx_of (tokens_polymorphic "this"))) (by decide!)
  have hforeign : s.func_head.is_foreign = false :=
    except_ok_fact _ s (fun s => s.func_head.is_foreign) _ hs (by decide!)
  have hpoly : ast_func_is_polymorphic s.func = true :=
    except_ok_fact _ s (fun s => ast_func_is_polymorphic s.func) _ hs (by decide!)
  have hname : s.func.name = "get" :=
    except_ok_fact _ s (fun s => s.func.name) _ hs (by decide!)
  have hthis : (s.func.arity ≠ 0 ∧ s.func.arg_name_is 0 "this" = true) := by
    have := except_ok_fact _ s (fun s => (s.func.arity, s.func.arg_name_is 0 "this")) _ hs
      (by decide! : _ = some (1, true))
    simp only [Prod.mk.injEq] at this
    exact ⟨by omega, this.2⟩
  obtain ⟨ast1, hC⟩ := except_ok_of_isSome (parse_func_checks s.ctx.ast s.func)
    (except_ok_fact _ s (fun s => (parse_func_checks s.ctx.ast s.func).toOption.isSome) _ hs
      (by decide!))
  obtain ⟨h1, h2⟩ := (parse_func_polymorphic_index parse_fragment 20 0xFFFFFFFF
    (parse_ctx_of (tokens_polymorphic "this")) s ast1 (by decide!) hs hforeign hC).2.1 hpoly
  rw [h1, h2, if_pos hthis, hname]
  exact ⟨rfl, rfl⟩

/-! ## The arguments already read are left alone -/

theorem slot_ptr_grow {α : Type} (memory : List (Option (Option α)))
    (old_length new_length j : Nat) :
    slot_ptr (grow memory old_length new_length) j
      = if j < old_length ∧ j < new_length then slot_ptr memory j else none := by
  rw [slot_ptr_eq_join, slot_val_grow, slot_ptr_eq_join]
  split <;> rfl

/-- Growing the arrays keeps the name, the flow and the source of every argument
read so far. -/
theorem parse_func_grow_arguments_below (func : ast_func_t) (backfill capacity : Nat)
    (hbound : func.arity + backfill ≤ capacity)
    (hnf : func.traits.has AST_FUNC_FOREIGN = false) (j : Nat) (hj : j < func.arity + backfill) :
    slot_ptr ((parse_func_grow_arguments func backfill capacity).1.arg_names.getD []) j
      = slot_ptr (func.arg_names.getD []) j
    ∧ slot_val (parse_func_grow_arguments func backfill capacity).1.arg_flows j
      = slot_val func.arg_flows j
    ∧ slot_val (parse_func_grow_arguments func backfill capacity).1.arg_sources j
      = slot_val func.arg_sources j := by
  unfold parse_func_grow_arguments
  split
  · rename_i hc
    have : capacity = 0 := by simpa using hc
    omega
  · split
    · exact ⟨rfl, rfl, rfl⟩
    · rename_i hne
      have hcap : func.arity + backfill = capacity := by simpa using hne
      simp only [hnf, Bool.not_false, Bool.true_or, if_true, Option.getD_some]
      rw [slot_ptr_grow, slot_val_grow, slot_val_grow, if_pos ⟨hj, by omega⟩,
        if_pos ⟨hj, by omega⟩, if_pos ⟨hj, by omega⟩]
      exact ⟨rfl, rfl, rfl⟩

/-- One argument of a function that is not foreign: the names, the flows and the
sources of the arguments read before it are left alone. -/
theorem parse_func_argument_below (ext : parse_externals_t) (ctx ctx2 : parse_ctx_t)
    (func func2 : ast_func_t) (capacity backfill backfill2 : Nat) (is_solid : Bool)
    (hnf : func.traits.has AST_FUNC_FOREIGN = false)
    (h : parse_func_argument ext ctx func capacity backfill
      = .ok (ctx2, func2, backfill2, is_solid))
    (j : Nat) (hj : j < func.arity + backfill) :
    slot_ptr (func2.arg_names.getD []) j = slot_ptr (func.arg_names.getD []) j
    ∧ slot_val func2.arg_flows j = slot_val func.arg_flows j
    ∧ slot_val func2.arg_sources j = slot_val func.arg_sources j := by
  have hS : slot_ptr ((parse_func_argument_start ctx func backfill).2.arg_names.getD []) j
        = slot_ptr (func.arg_names.getD []) j
      ∧ slot_val (parse_func_argument_start ctx func backfill).2.arg_flows j
        = slot_val func.arg_flows j
      ∧ slot_val (parse_func_argument_start ctx func backfill).2.arg_sources j
        = slot_val func.arg_sources j := by
    refine ⟨rfl, ?_, ?_⟩
    · show slot_val (func.arg_flows.set (func.arity + backfill) _) j = _
      rw [slot_val_set_ne _ _ _ _ (by omega)]
    · show slot_val (func.arg_sources.set (func.arity + backfill) _) j = _
      rw [slot_val_set_ne _ _ _ _ (by omega)]
  have hSa : (parse_func_argument_start ctx func backfill).2.arity = func.arity := rfl
  have hSt : (parse_func_argument_start ctx func backfill).2.traits = func.traits := rfl
  rcases parse_func_argument_ok _ _ _ _ _ _ _ _ _ h with
    ⟨_, _, _, _, hf2⟩ | ⟨ctxN, funcN, hN, hA⟩
  · subst hf2
    exact hS
  · obtain ⟨_, _, _, hnames⟩ := parse_func_argument_name_frame _ _ _ _ _ _ hN
    obtain ⟨name, _, _, hfN⟩ := hnames (by rw [hSt]; exact hnf)
    have hNb : slot_ptr (funcN.arg_names.getD []) j = slot_ptr (func.arg_names.getD []) j
        ∧ slot_val funcN.arg_flows j = slot_val func.arg_flows j
        ∧ slot_val funcN.arg_sources j = slot_val func.arg_sources j := by
      rw [hfN]
      simp only
      rw [option_map_set_getD, slot_ptr_set_ne _ _ _ _ (by rw [hSa]; omega)]
      exact hS
    have hNa : funcN.arity = func.arity := by rw [hfN]; rfl
    have hdef : ∀ (ctxA ctxB : parse_ctx_t) (f g : ast_func_t),
        parse_func_default_arg_value_if_applicable ext ctxA f capacity backfill = .ok (ctxB, g) →
        g.arg_names = f.arg_names ∧ g.arg_flows = f.arg_flows ∧ g.arg_sources = f.arg_sources
          ∧ g.arity = f.arity := by
      intro ctxA ctxB f g hd
      rcases (parse_func_default_arg_value_frame _ _ _ _ _ _ _ hd).1 with hg | ⟨_, e, hg⟩
      · rw [hg]; exact ⟨rfl, rfl, rfl, rfl⟩
      · rw [hg]; exact ⟨rfl, rfl, rfl, rfl⟩
    rcases parse_func_argument_after_name_ok _ _ _ _ _ _ _ _ _ hA with
      ⟨_, _, _, _, _, hf2⟩ | ⟨_, _, _, ctxA, ctxB, hD⟩
        | ⟨_, _, ctxA, ctxB, funcD, tt, type, ctxC, ctxD, ctxE, funcE, hD, _, _, hE, hf2⟩
    · rw [hf2]
      simp only
      rw [option_map_set_getD, slot_ptr_set_ne _ _ _ _ (by rw [hNa]; omega)]
      exact hNb
    · obtain ⟨h1, h2, h3, _⟩ := hdef _ _ _ _ hD
      rw [h1, h2, h3]
      exact hNb
    · obtain ⟨h1, h2, h3, _⟩ := hdef _ _ _ _ hD
      obtain ⟨k1, k2, k3, _⟩ := hdef _ _ _ _ hE
      obtain ⟨_, _, b3, b4, b5, _, _⟩ := parse_func_backfill_arguments_frame funcE backfill
      rw [hf2]
      simp only
      rw [b3, b4, b5, k1, k2, k3]
      simp only
      rw [h1, h2, h3]
      exact hNb

/-- The loop of `parse_func_arguments`, for a function that is not foreign: the
names, the flows and the sources of the arguments read before are left alone. -/
theorem parse_func_arguments_loop_below (ext : parse_externals_t) :
    ∀ (fuel : Nat) (ctx ctxF : parse_ctx_t) (func funcF : ast_func_t)
      (capacity backfill backfillF : Nat),
      parse_func_arguments_inv func capacity backfill →
      func.traits.has AST_FUNC_FOREIGN = false →
      parse_func_arguments_loop ext fuel ctx func capacity backfill
        = .ok (ctxF, funcF, backfillF) →
      ∀ j, j < func.arity + backfill →
        slot_ptr (funcF.arg_names.getD []) j = slot_ptr (func.arg_names.getD []) j
        ∧ slot_val funcF.arg_flows j = slot_val func.arg_flows j
        ∧ slot_val funcF.arg_sources j = slot_val func.arg_sources j
  | 0, _, _, _, _, _, _, _, _, _, h => by
      rw [parse_func_arguments_loop] at h
      cases h
  | fuel + 1, ctx, ctxF, func, funcF, capacity, backfill, backfillF, hinv, hnf, h => by
      rcases parse_func_arguments_loop_ok _ _ _ _ _ _ _ _ _ h with
        ⟨_, _, hf, hk⟩ | ⟨_, ctxA, ctxB, ctxC, func2, backfill2, is_solid, hP, hL⟩
      · subst hf hk
        exact fun j _ => ⟨rfl, rfl, rfl⟩
      · obtain ⟨hinvG, hroom⟩ := parse_func_grow_arguments_inv func backfill capacity hinv
        obtain ⟨g1, g2, _⟩ := parse_func_grow_arguments_frame func backfill capacity
        rw [← g1] at hroom
        obtain ⟨hinv2, hfor2, hns, hs⟩ := parse_func_argument_effect _ _ _ _ _ _ _ _ _
          hinvG hroom hP
        have hnfG : (parse_func_grow_arguments func backfill capacity).1.traits.has
            AST_FUNC_FOREIGN = false := by rw [g2]; exact hnf
        have hle : func.arity + backfill ≤ func2.arity + backfill2 := by
          cases is_solid with
          | false =>
            obtain ⟨ha, _, _, hb⟩ := hns rfl
            rw [ha, g1]
            omega
          | true =>
            obtain ⟨hb, ha, _⟩ := hs rfl
            rw [ha, g1]
            omega
        intro j hj
        obtain ⟨f1, f2, f3⟩ := parse_func_arguments_loop_below ext fuel ctxC ctxF func2 funcF _
          backfill2 backfillF hinv2 (by rw [hfor2]; exact hnfG) hL j (by omega)
        obtain ⟨a1, a2, a3⟩ := parse_func_argument_below _ _ _ _ _ _ _ _ _ hnfG hP j
          (by rw [g1]; exact hj)
        obtain ⟨b1, b2, b3⟩ := parse_func_grow_arguments_below func backfill capacity hinv.bound
          hnf j hj
        rw [f1, f2, f3, a1, a2, a3, b1, b2, b3]
        exact ⟨rfl, rfl, rfl⟩

/-! ## The implicit `this` -/

theorem parse_collapse_polycount_this (composite : ast_composite_t) :
    parse_collapse_polycount_type (parse_func_this_type composite)
      = parse_func_this_type composite := by
  unfold parse_func_this_type
  split <;> rfl

theorem parse_func_this_type_eq (composite : ast_composite_t) :
    parse_func_this_type composite
      = if composite.is_polymorphic = true then
          ⟨[.pointer NULL_SOURCE,
            .generic_base composite.name
              (composite.generics.map (fun g => [.polymorph g false NULL_SOURCE]))
              false NULL_SOURCE], NULL_SOURCE⟩
        else ⟨[.pointer NULL_SOURCE, .base composite.name NULL_SOURCE], NULL_SOURCE⟩ := by
  unfold parse_func_this_type
  split <;> rfl

/-- The function that `parse_func_arguments` has made of a template when the
argument list starts, in the domain of a composite. -/
theorem parse_func_arguments_with_this (ext : parse_externals_t) (fuel : Nat)
    (ctx ctx2 : parse_ctx_t) (composite : ast_composite_t) (func func2 : ast_func_t)
    (hc : ctx.composite_association = some composite)
    (h : parse_func_arguments ext fuel ctx func = .ok (ctx2, func2)) :
    func.traits.has AST_FUNC_FOREIGN = false
    ∧ ∃ func1 : ast_func_t,
        func1 = { (parse_func_grow_arguments { func with variadic_arg_name := none } 0 0).1 with
          arg_types := ((parse_func_grow_arguments { func with variadic_arg_name := none }
            0 0).1.arg_types.set 0 (some (parse_func_this_type composite)))
          arg_names := ((parse_func_grow_arguments { func with variadic_arg_name := none }
            0 0).1.arg_names.map (fun names => names.set 0 (some (some "this"))))
          arg_sources := ((parse_func_grow_arguments { func with variadic_arg_name := none }
            0 0).1.arg_sources.set 0 (some composite.source))
          arg_flows := ((parse_func_grow_arguments { func with variadic_arg_name := none }
            0 0).1.arg_flows.set 0 (some FLOW_IN))
          arg_type_traits := ((parse_func_grow_arguments { func with variadic_arg_name := none }
            0 0).1.arg_type_traits.set 0 (some TRAIT_NONE))
          arity := func.arity + 1 }
        ∧ (func2 = func1
          ∨ ∃ ctxL ctxF funcF,
              parse_func_arguments_loop ext fuel ctxL func1 4 0 = .ok (ctxF, funcF, 0)
              ∧ func2 = { funcF with
                  arg_types := parse_collapse_polycount_var_fixed_arrays funcF.arg_types
                    funcF.arity
                  return_type := parse_collapse_polycount_type funcF.return_type }) := by
  unfold parse_func_arguments at h
  try simp only at h
  cases hA : parse_ignore_newlines ctx "Expected '(' after function name" with
  | error e => rw [hA] at h; cases h
  | ok ctxA =>
    rw [hA] at h
    try simp only at h
    have hcA : ctxA.composite_association = some composite := by
      rw [(parse_ignore_newlines_ok _ _ _ hA).2.2, hc]
    rw [hcA] at h
    try simp only at h
    by_cases hf : func.traits.has AST_FUNC_FOREIGN = true
    · rw [if_pos hf] at h
      cases h
    · rw [if_neg hf] at h
      try simp only at h
      refine ⟨by simpa using hf, _, rfl, ?_⟩
      split at h
      · cases h
        exact Or.inl rfl
      · split at h
        · cases h
        · rename_i ctxF funcF backfillF hL
          try simp only at h
          split at h
          · cases h
          · rename_i hb
            have hb0 : backfillF = 0 := by simpa using hb
            subst hb0
            cases h
            exact Or.inr ⟨_, ctxF, funcF, hL, rfl⟩

/-- C20. When `parse_func_arguments` accepts the argument list of a template in
the domain of a composite: the function is not foreign; when the argument list
starts the arity is 1, and so it stays if no written argument follows; argument 0
is named `this`, has the flow `in`, no type trait, the source of the composite,
and the type `*CompositeName`, or `*<$A, $B, ...> CompositeName` for a polymorphic
composite, the generics being its formal parameters in order, as polymorphs
without auto-conversion; and all this is still so when the list is parsed. -/
theorem parse_func_arguments_this (ext : parse_externals_t) (fuel : Nat)
    (ctx ctx2 : parse_ctx_t) (composite : ast_composite_t) (name : String) (source : source_t)
    (traits : trait_t) (func2 : ast_func_t)
    (hc : ctx.composite_association = some composite)
    (h : parse_func_arguments ext fuel ctx (ast_func_create_template name source traits)
      = .ok (ctx2, func2)) :
    traits.has AST_FUNC_FOREIGN = false
    ∧ (∃ func1 : ast_func_t,
        func1.arity = 1
        ∧ slot_ptr (func1.arg_names.getD []) 0 = some "this"
        ∧ slot_val func1.arg_flows 0 = some FLOW_IN
        ∧ slot_val func1.arg_type_traits 0 = some TRAIT_NONE
        ∧ slot_val func1.arg_sources 0 = some composite.source
        ∧ (func2 = func1
          ∨ ∃ ctxL ctxF funcF,
              parse_func_arguments_loop ext fuel ctxL func1 4 0 = .ok (ctxF, funcF, 0)
              ∧ func2.arity = funcF.arity))
    ∧ 1 ≤ func2.arity
    ∧ slot_ptr (func2.arg_names.getD []) 0 = some "this"
    ∧ slot_val func2.arg_flows 0 = some FLOW_IN
    ∧ slot_val func2.arg_type_traits 0 = some TRAIT_NONE
    ∧ slot_val func2.arg_sources 0 = some composite.source
    ∧ slot_val func2.arg_types 0
      = some (if composite.is_polymorphic = true then
          ⟨[.pointer NULL_SOURCE,
            .generic_base composite.name
              (composite.generics.map (fun g => [.polymorph g false NULL_SOURCE]))
              false NULL_SOURCE], NULL_SOURCE⟩
        else ⟨[.pointer NULL_SOURCE, .base composite.name NULL_SOURCE], NULL_SOURCE⟩) := by
  obtain ⟨hnf, func1, hf1, hrest⟩ := parse_func_arguments_with_this ext fuel ctx ctx2 composite
    _ func2 hc h
  have hnf2 : traits.has AST_FUNC_FOREIGN = false := hnf
  have hgrow : (parse_func_grow_arguments
      { ast_func_create_template name source traits with variadic_arg_name := none } 0 0).1
      = { ast_func_create_template name source traits with
          variadic_arg_name := none
          arg_names := some (List.replicate 4 none)
          arg_types := List.replicate 4 none
          arg_sources := List.replicate 4 none
          arg_flows := List.replicate 4 none
          arg_type_traits := List.replicate 4 none } := by
    have e1 : (parse_func_grow_arguments
        { ast_func_create_template name source traits with variadic_arg_name := none } 0 0).1
        = { ast_func_create_template name source traits with
            variadic_arg_name := none
            arg_names := if traits.has AST_FUNC_FOREIGN = true then none
              else some (List.replicate 4 none)
            arg_types := List.replicate 4 none
            arg_sources := List.replicate 4 none
            arg_flows := List.replicate 4 none
            arg_type_traits := List.replicate 4 none } := rfl
    rw [e1, hnf2]
    rfl
  have hinv1 : parse_func_arguments_inv func1 4 0 := by
    rw [hf1]
    exact parse_func_arguments_inv_this _ (parse_func_this_type composite) composite.source
      (parse_func_arguments_inv_template name source traits none)
  rw [hgrow] at hf1
  have h1names : slot_ptr (func1.arg_names.getD []) 0 = some "this" := by rw [hf1]; rfl
  have h1flows : slot_val func1.arg_flows 0 = some FLOW_IN := by rw [hf1]; rfl
  have h1tt : slot_val func1.arg_type_traits 0 = some TRAIT_NONE := by rw [hf1]; rfl
  have h1src : slot_val func1.arg_sources 0 = some composite.source := by rw [hf1]; rfl
  have h1ty : slot_val func1.arg_types 0 = some (parse_func_this_type composite) := by
    rw [hf1]; rfl
  have h1ar : func1.arity = 1 := by rw [hf1]; rfl
  have h1nf : func1.traits.has AST_FUNC_FOREIGN = false := by rw [hf1]; exact hnf2
  rw [← parse_func_this_type_eq]
  rcases hrest with h2 | ⟨ctxL, ctxF, funcF, hL, h2⟩
  · subst h2
    exact ⟨hnf2, ⟨func2, h1ar, h1names, h1flows, h1tt, h1src, Or.inl rfl⟩, by omega, h1names,
      h1flows, h1tt, h1src, h1ty⟩
  · obtain ⟨-, -, hle, htypes⟩ := parse_func_arguments_loop_inv ext fuel ctxL ctxF func1 funcF
      4 0 0 hinv1 hL
    obtain ⟨b1, b2, b3⟩ := parse_func_arguments_loop_below ext fuel ctxL ctxF func1 funcF 4 0 0
      hinv1 h1nf hL 0 (by omega)
    obtain ⟨t1, t2⟩ := htypes 0 (by omega)
    have h2ar : func2.arity = funcF.arity := by rw [h2]
    refine ⟨hnf2, ⟨func1, h1ar, h1names, h1flows, h1tt, h1src, Or.inr ⟨ctxL, ctxF, funcF, hL, h2ar⟩⟩,
      by omega, ?_, ?_, ?_, ?_, ?_⟩
    · rw [h2]; exact b1.trans h1names
    · rw [h2]; exact b2.trans h1flows
    · rw [h2]; exact t2.trans h1tt
    · rw [h2]; exact b3.trans h1src
    · rw [h2]
      show slot_val (parse_collapse_polycount_var_fixed_arrays funcF.arg_types funcF.arity) 0 = _
      rw [slot_val_collapse, if_pos (by omega), t1, h1ty]
      show some (parse_collapse_polycount_type (parse_func_this_type composite)) = _
      rw [parse_collapse_polycount_this]

/-- The witness of C20: `(a int) void` in the domain of the polymorphic composite
`<$A, $B> Pair` is accepted with arity 2, and argument 0 is the `this` of type
`*<$A, $B> Pair`. -/
theorem parse_func_arguments_this_witness :
    ∃ ctx2 func2,
      parse_func_arguments parse_fragment 20
        (parse_ctx_in composite_example_polymorphic tokens_one_argument)
        (ast_func_create_template "f" ⟨0, 0⟩ TRAIT_NONE) = .ok (ctx2, func2)
      ∧ func2.arity = 2
      ∧ slot_ptr (func2.arg_names.getD []) 0 = some "this"
      ∧ slot_val func2.arg_flows 0 = some FLOW_IN
      ∧ slot_val func2.arg_type_traits 0 = some TRAIT_NONE
      ∧ slot_val func2.arg_sources 0 = some ⟨0, 200⟩
      ∧ slot_val func2.arg_types 0
        = some ⟨[.pointer NULL_SOURCE,
            .generic_base "Pair" [[.polymorph "A" false NULL_SOURCE],
              [.polymorph "B" false NULL_SOURCE]] false NULL_SOURCE], NULL_SOURCE⟩ := by
  obtain ⟨r, hr⟩ := except_ok_of_isSome (parse_func_arguments parse_fragment 20
    (parse_ctx_in composite_example_polymorphic tokens_one_argument)
    (ast_func_create_template "f" ⟨0, 0⟩ TRAIT_NONE)) (by decide!)
  obtain ⟨ctx2, func2⟩ := r
  have har : func2.arity = 2 :=
    except_ok_fact _ (ctx2, func2) (fun r => r.2.arity) _ hr (by decide!)
  obtain ⟨-, -, -, h1, h2, h3, h4, h5⟩ := parse_func_arguments_this parse_fragment 20
    (parse_ctx_in composite_example_polymorphic tokens_one_argument) ctx2
    composite_example_polymorphic "f" ⟨0, 0⟩ TRAIT_NONE func2 rfl hr
  exact ⟨ctx2, func2, hr, har, h1, h2, h3, h4, h5⟩

/-! ## The collapse of the argument types -/

/-- The function that `parse_func_arguments` has made of the one it was given
when the argument list starts, outside the domain of a composite. -/
theorem parse_func_arguments_without_this (ext : parse_externals_t) (fuel : Nat)
    (ctx ctx2 : parse_ctx_t) (func func2 : ast_func_t)
    (hc : ctx.composite_association = none)
    (h : parse_func_arguments ext fuel ctx func = .ok (ctx2, func2)) :
    func2 = { func with variadic_arg_name := none }
    ∨ ∃ ctxL ctxF funcF,
        parse_func_arguments_loop ext fuel ctxL { func with variadic_arg_name := none } 0 0
          = .ok (ctxF, funcF, 0)
        ∧ func2 = { funcF with
            arg_types := parse_collapse_polycount_var_fixed_arrays funcF.arg_types funcF.arity
            return_type := parse_collapse_polycount_type funcF.return_type } := by
  unfold parse_func_arguments at h
  simp only at h
  cases hA : parse_ignore_newlines ctx "Expected '(' after function name" with
  | error e => rw [hA] at h; cases h
  | ok ctxA =>
    rw [hA] at h
    simp only at h
    have hcA : ctxA.composite_association = none := by
      rw [(parse_ignore_newlines_ok _ _ _ hA).2.2, hc]
    rw [hcA] at h
    simp only at h
    split at h
    · cases h
      exact Or.inl rfl
    · split at h
      · cases h
      · rename_i ctxF funcF backfillF hL
        try simp only at h
        split at h
        · cases h
        · rename_i hb
          have hb0 : backfillF = 0 := by simpa using hb
          subst hb0
          cases h
          exact Or.inr ⟨_, ctxF, funcF, hL, rfl⟩

theorem parse_collapse_polycount_elem_ne (x : ast_elem_t) (name : String)
    (source source2 : source_t) :
    parse_collapse_polycount_elem x ≠ .var_fixed_array (.polycount name source) source2 := by
  cases x with
  | var_fixed_array length s =>
    cases length with
    | polycount n s1 => simp [parse_collapse_polycount_elem]
    | other i t s1 => simp [parse_collapse_polycount_elem]
  | _ => simp [parse_collapse_polycount_elem]

/-- What the collapse makes of an element. -/
theorem parse_collapse_polycount_elem_eq (x : ast_elem_t) :
    parse_collapse_polycount_elem x
      = match x with
        | .var_fixed_array (.polycount name source) _ => .polycount name source
        | e => e := by
  cases x with
  | var_fixed_array length s =>
    cases length with
    | polycount n s1 => rfl
    | other i t s1 => rfl
  | _ => rfl

/-- The argument types that the loop of `parse_func_arguments` leaves are
collapsed at the end of `parse_func_arguments`. -/
theorem parse_func_arguments_collapsed (ext : parse_externals_t) (fuel : Nat)
    (ctx ctx2 : parse_ctx_t) (name : String) (source : source_t) (traits : trait_t)
    (func2 : ast_func_t)
    (h : parse_func_arguments ext fuel ctx (ast_func_create_template name source traits)
      = .ok (ctx2, func2)) :
    (∀ j, j < func2.arity →
      ∃ parsed, slot_val func2.arg_types j = some (parse_collapse_polycount_type parsed))
    ∧ (func2.arity ≤ 1
      ∨ ∃ ctxL func1 capacity ctxF funcF,
          parse_func_arguments_loop ext fuel ctxL func1 capacity 0 = .ok (ctxF, funcF, 0)
          ∧ func2.arity = funcF.arity
          ∧ ∀ j, j < func2.arity →
              slot_val func2.arg_types j
                = (slot_val funcF.arg_types j).map parse_collapse_polycount_type) := by
  have hloop : ∀ (ctxL ctxF : parse_ctx_t) (func1 funcF : ast_func_t) (capacity : Nat),
      parse_func_arguments_inv func1 capacity 0 →
      parse_func_arguments_loop ext fuel ctxL func1 capacity 0 = .ok (ctxF, funcF, 0) →
      func2 = { funcF with
        arg_types := parse_collapse_polycount_var_fixed_arrays funcF.arg_types funcF.arity
        return_type := parse_collapse_polycount_type funcF.return_type } →
      (∀ j, j < func2.arity →
        ∃ parsed, slot_val func2.arg_types j = some (parse_collapse_polycount_type parsed))
      ∧ (func2.arity ≤ 1
        ∨ ∃ ctxL func1 capacity ctxF funcF,
            parse_func_arguments_loop ext fuel ctxL func1 capacity 0 = .ok (ctxF, funcF, 0)
            ∧ func2.arity = funcF.arity
            ∧ ∀ j, j < func2.arity →
                slot_val func2.arg_types j
                  = (slot_val funcF.arg_types j).map parse_collapse_polycount_type) := by
    intro ctxL ctxF func1 funcF capacity hinv1 hL h2
    obtain ⟨⟨capacityF, hinvF⟩, -, -, -⟩ := parse_func_arguments_loop_inv ext fuel ctxL ctxF
      func1 funcF capacity 0 0 hinv1 hL
    have har : func2.arity = funcF.arity := by rw [h2]
    have hty : ∀ j, j < func2.arity →
        slot_val func2.arg_types j
          = (slot_val funcF.arg_types j).map parse_collapse_polycount_type := by
      intro j hj
      rw [h2]
      show slot_val (parse_collapse_polycount_var_fixed_arrays funcF.arg_types funcF.arity) j = _
      rw [slot_val_collapse, if_pos (by omega)]
    refine ⟨fun j hj => ?_, Or.inr ⟨ctxL, func1, capacity, ctxF, funcF, hL, har, hty⟩⟩
    have hsome := hinvF.types.2.1 j (by omega)
    obtain ⟨parsed, hp⟩ := Option.isSome_iff_exists.mp hsome
    exact ⟨parsed, by rw [hty j hj, hp]; rfl⟩
  cases hc : ctx.composite_association with
  | none =>
    rcases parse_func_arguments_without_this ext fuel ctx ctx2 _ func2 hc h with
      h2 | ⟨ctxL, ctxF, funcF, hL, h2⟩
    · have har : func2.arity = 0 := by rw [h2]; rfl
      exact ⟨fun j hj => by omega, Or.inl (by omega)⟩
    · exact hloop ctxL ctxF _ funcF 0 (parse_func_arguments_inv_template name source traits none)
        hL h2
  | some composite =>
    obtain ⟨hnf, func1, hf1, hrest⟩ := parse_func_arguments_with_this ext fuel ctx ctx2
      composite _ func2 hc h
    have hinv1 : parse_func_arguments_inv func1 4 0 := by
      rw [hf1]
      exact parse_func_arguments_inv_this _ (parse_func_this_type composite) composite.source
        (parse_func_arguments_inv_template name source traits none)
    rcases hrest with h2 | ⟨ctxL, ctxF, funcF, hL, h2⟩
    · subst h2
      have har : func2.arity = 1 := by rw [hf1]; rfl
      refine ⟨fun j hj => ⟨parse_func_this_type composite, ?_⟩, Or.inl (by omega)⟩
      have hj0 : j = 0 := by omega
      subst hj0
      rw [parse_collapse_polycount_this, hf1]
      rfl
    · exact hloop ctxL ctxF func1 funcF 4 hinv1 hL h2

/-- A parsed signature: the argument list of a template was accepted, and the
function is the one `parse_func_arguments` left, with the return type. -/
theorem parse_func_signature_arguments (ext : parse_externals_t) (fuel MAX_FUNCID : Nat)
    (ctx : parse_ctx_t) (s : parse_func_signature_t)
    (h : parse_func_signature ext fuel MAX_FUNCID ctx = .ok s) :
    ∃ ctxT ctxA funcA traits,
      parse_func_arguments ext fuel ctxT
        (ast_func_create_template s.func_head.name s.func_head.source traits) = .ok (ctxA, funcA)
      ∧ s.func = { funcA with return_type := s.func.return_type } := by
  unfold parse_func_signature at h
  split at h
  · cases h
  · split at h
    · cases h
    · rename_i ctxH func_head hH
      split at h
      · cases h
      · simp only at h
        split at h
        · cases h
        · rename_i ctxA funcA hA
          have hA2 : ∃ ctxT traits, parse_func_arguments ext fuel ctxT
              (ast_func_create_template func_head.name func_head.source traits)
                = .ok (ctxA, funcA) := by
            by_cases hb : (ctxH.next_builtin_traits != TRAIT_NONE) = true
            · rw [if_pos hb] at hA
              exact ⟨_, func_head.traits ||| ctxH.next_builtin_traits, hA⟩
            · rw [if_neg hb] at hA
              exact ⟨_, func_head.traits, hA⟩
          obtain ⟨ctxT, traits, hA3⟩ := hA2
          try simp only at h
          split at h
          · cases h
          · try simp only at h
            split at h
            · cases h
              exact ⟨ctxT, ctxA, funcA, traits, hA3, rfl⟩
            · split at h
              · cases h
              · cases h
                exact ⟨ctxT, ctxA, funcA, traits, hA3, rfl⟩

/-- C19, the claim as stated fails: `func f(a [$#N] int, b <[$#N] int> Box) [$#N] int`
with an empty body is accepted; the var-fixed-array of the first argument type is
collapsed, but the type of the second argument still holds, in the type nested in
its generic base, a var-fixed-array whose length is the polycount expression, and
so does the return type, as its first element. -/
theorem parse_func_collapse_not_deep :
    (parse_func parse_fragment 20 0xFFFFFFFF
        (parse_ctx_of tokens_polycount_nested)).toOption.map
      (fun ctx2 => ctx2.ast.funcs.map (fun f =>
        (f.arity, ast_elems_has_polycount_length (f.arg_type 0).elements,
          ast_elems_has_polycount_length (f.arg_type 1).elements,
          ast_elems_has_polycount_length f.return_type.elements)))
      = some [(2, false, true, true)] := by
  decide!

/-! ## The order of the keyword tokens -/

/-- C29: the keyword token ids are the 68 consecutive integers from
`BEGINNING_OF_KEYWORD_TOKENS` (`0x4B`, `TOKEN_POD`) to `MAX_LEX_TOKEN` (`0x8E`,
`TOKEN_WHILE`), each defined once and in ascending order; the spellings they name
are strictly ascending in byte order, so that the binary search finds each
spelling at the index of its id; every id from `0x00` to `0x8E` is assigned, the
only id assigned twice being `0x21` of `TOKEN_ADDRESS` and `TOKEN_BIT_AND`; the
`TOKEN_PKG_*` ids lie above `MAX_LEX_TOKEN`; and the token ids that the embedding
of the parser uses are those of the header. -/
theorem token_keyword_order :
    token_keyword_ids.map Prod.snd = List.range' BEGINNING_OF_KEYWORD_TOKENS 68
    ∧ BEGINNING_OF_KEYWORD_TOKENS + 67 = MAX_LEX_TOKEN
    ∧ token_keyword_ids.head? = some ("TOKEN_POD", 0x4B)
    ∧ token_keyword_ids.getLast? = some ("TOKEN_WHILE", 0x8E)
    ∧ token_keyword_ids.map Prod.fst = global_token_keywords_list.map token_name_of_keyword
    ∧ (List.range 67).all (fun k => strcmp (global_token_keywords_list.getD k "")
        (global_token_keywords_list.getD (k + 1) "") == .lt) = true
    ∧ (List.range 68).all (fun k => binary_string_search global_token_keywords_list 68
        (global_token_keywords_list.getD k "") == some k) = true
    ∧ (List.range (MAX_LEX_TOKEN + 1)).all (fun id => token_ids.any (fun e => e.2 == id)) = true
    ∧ token_ids.all (fun e => decide (e.2 ≤ MAX_LEX_TOKEN)) = true
    ∧ token_ids_shared = [("TOKEN_ADDRESS", 0x21), ("TOKEN_BIT_AND", 0x21)]
    ∧ token_pkg_ids.all (fun e => decide (MAX_LEX_TOKEN < e.2)) = true
    ∧ ([TOKEN_NONE, TOKEN_WORD, TOKEN_STRING, TOKEN_MULTIPLY, TOKEN_ASSIGN, TOKEN_LESSTHAN,
       TOKEN_GREATERTHAN, TOKEN_OPEN, TOKEN_CLOSE, TOKEN_BEGIN, TOKEN_END, TOKEN_NEWLINE,
       TOKEN_NEXT, TOKEN_BRACKET_OPEN, TOKEN_BRACKET_CLOSE, TOKEN_GENERIC_INT, TOKEN_ELLIPSIS,
       TOKEN_POLYMORPH, TOKEN_STRONG_ARROW, TOKEN_RANGE, TOKEN_POLYCOUNT, TOKEN_POD,
       TOKEN_ALIAS, TOKEN_EXTERNAL, TOKEN_FOREIGN, TOKEN_FUNC, TOKEN_IMPLICIT, TOKEN_IN,
       TOKEN_INOUT, TOKEN_OUT, TOKEN_STDCALL, TOKEN_VERBATIM] : List Nat)
        = (["TOKEN_NONE", "TOKEN_WORD", "TOKEN_STRING", "TOKEN_MULTIPLY", "TOKEN_ASSIGN",
           "TOKEN_LESSTHAN", "TOKEN_GREATERTHAN", "TOKEN_OPEN", "TOKEN_CLOSE", "TOKEN_BEGIN",
           "TOKEN_END", "TOKEN_NEWLINE", "TOKEN_NEXT", "TOKEN_BRACKET_OPEN",
           "TOKEN_BRACKET_CLOSE", "TOKEN_GENERIC_INT", "TOKEN_ELLIPSIS", "TOKEN_POLYMORPH",
           "TOKEN_STRONG_ARROW", "TOKEN_RANGE", "TOKEN_POLYCOUNT", "TOKEN_POD", "TOKEN_ALIAS",
           "TOKEN_EXTERNAL", "TOKEN_FOREIGN", "TOKEN_FUNC", "TOKEN_IMPLICIT", "TOKEN_IN",
           "TOKEN_INOUT", "TOKEN_OUT", "TOKEN_STDCALL", "TOKEN_VERBATIM"].map
            (fun n => ((token_ids.find? (fun e => e.1 == n)).map Prod.snd).getD 0)) := by
  decide!

/-! ## The prefixes of a declaration -/

theorem list_range_any_succ (n : Nat) (p : Nat → Bool) :
    (List.range (n + 1)).any p = (p 0 || (List.range n).any (fun k => p (k + 1))) := by
  rw [List.range_succ_eq_map]
  simp [List.any_map, Function.comp_def]

theorem parse_func_prefixes_loop_run :
    ∀ (n fuel : Nat) (ctx : parse_ctx_t) (p : ast_func_prefixes_t), n ≤ fuel →
      (∀ k, k < n → func_prefix_keyword (ctx.token_id (ctx.i + k)) = true) →
      func_prefix_keyword (ctx.token_id (ctx.i + n)) = false →
      parse_func_prefixes_loop fuel ctx p
        = ({ ctx with i := ctx.i + n },
           { is_stdcall := p.is_stdcall || (func_prefixes_among ctx n).is_stdcall
             is_verbatim := p.is_verbatim || (func_prefixes_among ctx n).is_verbatim
             is_implicit := p.is_implicit || (func_prefixes_among ctx n).is_implicit
             is_external := p.is_external || (func_prefixes_among ctx n).is_external }) := by
  intro n
  induction n with
  | zero =>
    intro fuel ctx p _ _ hend
    have hend2 : func_prefix_keyword (parse_ctx_peek ctx) = false := by
      simpa [parse_ctx_peek] using hend
    simp only [func_prefix_keyword, Bool.or_eq_false_iff] at hend2
    obtain ⟨⟨⟨h1, h2⟩, h3⟩, h4⟩ := hend2
    cases fuel with
    | zero => simp [parse_func_prefixes_loop, func_prefixes_among]
    | succ f => simp [parse_func_prefixes_loop, func_prefixes_among, h1, h2, h3, h4]
  | succ n ih =>
    intro fuel ctx p hle hrun hend
    obtain ⟨f, rfl⟩ : ∃ f, fuel = f + 1 := ⟨fuel - 1, by omega⟩
    have h0 : func_prefix_keyword (parse_ctx_peek ctx) = true := by
      simpa [parse_ctx_peek] using hrun 0 (by omega)
    have hrun2 : ∀ k, k < n →
        func_prefix_keyword (({ ctx with i := ctx.i + 1 } : parse_ctx_t).token_id
          (({ ctx with i := ctx.i + 1 } : parse_ctx_t).i + k)) = true := by
      intro k hk
      have := hrun (k + 1) (by omega)
      simpa [parse_ctx_t.token_id, Nat.add_assoc, Nat.add_comm 1 k] using this
    have hend2 : func_prefix_keyword (({ ctx with i := ctx.i + 1 } : parse_ctx_t).token_id
          (({ ctx with i := ctx.i + 1 } : parse_ctx_t).i + n)) = false := by
      simpa [parse_ctx_t.token_id, Nat.add_assoc, Nat.add_comm 1 n] using hend
    have hamong : ∀ id : tokenid_t,
        (List.range (n + 1)).any (fun k => ctx.token_id (ctx.i + k) == id)
          = (parse_ctx_peek ctx == id
            || (List.range n).any (fun k =>
                ({ ctx with i := ctx.i + 1 } : parse_ctx_t).token_id (ctx.i + 1 + k) == id)) := by
      intro id
      rw [list_range_any_succ]
      simp [parse_ctx_peek, parse_ctx_t.token_id, Nat.add_assoc, Nat.add_comm 1]
    have hi : ({ ({ ctx with i := ctx.i + 1 } : parse_ctx_t) with i := ctx.i + 1 + n }
        : parse_ctx_t) = { ctx with i := ctx.i + (n + 1) } := by
      simp [Nat.add_assoc, Nat.add_comm 1 n]
    unfold parse_func_prefixes_loop
    by_cases c1 : parse_ctx_peek ctx = TOKEN_STDCALL
    · rw [if_pos (by simpa using c1)]
      rw [ih f _ _ (by omega) hrun2 hend2, hi]
      simp only [func_prefixes_among, hamong, c1]
      simp [Bool.or_assoc, TOKEN_STDCALL, TOKEN_VERBATIM, TOKEN_IMPLICIT, TOKEN_EXTERNAL]
    · rw [if_neg (by simpa using c1)]
      by_cases c2 : parse_ctx_peek ctx = TOKEN_VERBATIM
      · rw [if_pos (by simpa using c2)]
        rw [ih f _ _ (by omega) hrun2 hend2, hi]
        simp only [func_prefixes_among, hamong, c2]
        simp [Bool.or_assoc, TOKEN_STDCALL, TOKEN_VERBATIM, TOKEN_IMPLICIT, TOKEN_EXTERNAL]
      · rw [if_neg (by simpa using c2)]
        by_cases c3 : parse_ctx_peek ctx = TOKEN_IMPLICIT
        · rw [if_pos (by simpa using c3)]
          rw [ih f _ _ (by omega) hrun2 hend2, hi]
          simp only [func_prefixes_among, hamong, c3]
          simp [Bool.or_assoc, TOKEN_STDCALL, TOKEN_VERBATIM, TOKEN_IMPLICIT, TOKEN_EXTERNAL]
        · rw [if_neg (by simpa using c3)]
          by_cases c4 : parse_ctx_peek ctx = TOKEN_EXTERNAL
          · rw [if_pos (by simpa using c4)]
            rw [ih f _ _ (by omega) hrun2 hend2, hi]
            simp only [func_prefixes_among, hamong, c4]
            simp [Bool.or_assoc, TOKEN_STDCALL, TOKEN_VERBATIM, TOKEN_IMPLICIT, TOKEN_EXTERNAL]
          · exfalso
            simp [func_prefix_keyword, c1, c2, c3, c4] at h0

theorem parse_ctx_token_id_lt (ctx : parse_ctx_t) (k : Nat) (h : ctx.token_id k ≠ TOKEN_NONE) :
    k < ctx.tokens.length := by
  by_contra hk
  apply h
  have : ctx.tokens[k]? = none := List.getElem?_eq_none (by omega)
  simp [parse_ctx_t.token_id, this]

/-- C26 (amended): the prefixes `stdcall`, `verbatim`, `implicit` and `external`
are accepted in any order and any number of times. When the `n` tokens at the
cursor are prefix keywords and the next one is not, `parse_func_prefixes` stops
behind the `n` keywords and sets exactly the flags of the keywords that occur
among them, so that the flags depend neither on the order of the keywords nor on
how often each is written; `parse_func_head` then goes on with the token behind
the run, whatever the run repeats. -/
theorem parse_func_prefixes_any_order (ext : parse_externals_t) (ctx : parse_ctx_t) (n : Nat)
    (hrun : ∀ k, k < n → func_prefix_keyword (ctx.token_id (ctx.i + k)) = true)
    (hend : func_prefix_keyword (ctx.token_id (ctx.i + n)) = false) :
    parse_func_prefixes ctx = ({ ctx with i := ctx.i + n }, func_prefixes_among ctx n)
    ∧ (∀ (ctx2 : parse_ctx_t) (m : Nat),
        (∀ k, k < m → func_prefix_keyword (ctx2.token_id (ctx2.i + k)) = true) →
        func_prefix_keyword (ctx2.token_id (ctx2.i + m)) = false →
        (∀ id, func_prefix_keyword id = true →
          ((∃ k, k < n ∧ ctx.token_id (ctx.i + k) = id)
            ↔ (∃ k, k < m ∧ ctx2.token_id (ctx2.i + k) = id))) →
        (parse_func_prefixes ctx2).2 = (parse_func_prefixes ctx).2)
    ∧ (∀ ctx2 func_head, parse_func_head ext ctx = .ok (ctx2, func_head) →
        func_head.prefixes = func_prefixes_among ctx n
        ∧ (ctx.token_id (ctx.i + n) = TOKEN_FUNC ∨ ctx.token_id (ctx.i + n) = TOKEN_FOREIGN))
    ∧ ((ctx.token_id (ctx.i + n) = TOKEN_FUNC ∨ ctx.token_id (ctx.i + n) = TOKEN_FOREIGN) →
        parse_func_head ext ctx
          = Except.map (fun r => (r.1, { r.2 with
                source := ctx.source_at ctx.i
                prefixes := func_prefixes_among ctx n
                export_name := match r.2.export_name with
                  | some e => some e
                  | none => if (func_prefixes_among ctx n).is_external then some r.2.name
                            else none }))
              (parse_func_head ext { ctx with i := ctx.i + n })) := by
  have key : ∀ (c : parse_ctx_t) (m : Nat),
      (∀ k, k < m → func_prefix_keyword (c.token_id (c.i + k)) = true) →
      func_prefix_keyword (c.token_id (c.i + m)) = false →
      parse_func_prefixes c = ({ c with i := c.i + m }, func_prefixes_among c m) := by
    intro c m hr he
    have hle : m ≤ c.tokens.length - c.i := by
      cases m with
      | zero => omega
      | succ m =>
        have hlast := hr m (by omega)
        have : c.i + m < c.tokens.length := by
          apply parse_ctx_token_id_lt
          intro h0
          rw [h0] at hlast
          simp [func_prefix_keyword, TOKEN_NONE, TOKEN_STDCALL, TOKEN_VERBATIM, TOKEN_IMPLICIT,
            TOKEN_EXTERNAL] at hlast
        omega
    unfold parse_func_prefixes
    rw [parse_func_prefixes_loop_run m _ c {} hle hr he]
    simp
  have hflag : ∀ (c : parse_ctx_t) (m : Nat) (id : tokenid_t),
      (List.range m).any (fun k => c.token_id (c.i + k) == id) = true
        ↔ ∃ k, k < m ∧ c.token_id (c.i + k) = id := by
    intro c m id
    simp [List.any_eq_true]
  refine ⟨key ctx n hrun hend, ?_, ?_, ?_⟩
  · intro ctx2 m hr2 he2 hsame
    rw [key ctx n hrun hend, key ctx2 m hr2 he2]
    have hb : ∀ id, func_prefix_keyword id = true →
        (List.range m).any (fun k => ctx2.token_id (ctx2.i + k) == id)
          = (List.range n).any (fun k => ctx.token_id (ctx.i + k) == id) := by
      intro id hid
      rw [Bool.eq_iff_iff, hflag, hflag]
      exact (hsame id hid).symm
    simp only [func_prefixes_among]
    rw [hb TOKEN_STDCALL (by decide), hb TOKEN_VERBATIM (by decide),
      hb TOKEN_IMPLICIT (by decide), hb TOKEN_EXTERNAL (by decide)]
  · intro ctx2 func_head h
    unfold parse_func_head at h
    rw [key ctx n hrun hend] at h
    simp only [parse_ctx_peek] at h
    split at h
    · exact absurd h (by simp)
    · rename_i hid
      split at h
      · exact absurd h (by simp)
      · simp only [Except.ok.injEq, Prod.mk.injEq] at h
        obtain ⟨_, rfl⟩ := h
        refine ⟨rfl, ?_⟩
        simp only [Bool.and_eq_true, bne_iff_ne, ne_eq, Bool.not_eq_true', beq_eq_false_iff_ne,
          not_and, Decidable.not_not] at hid
        by_cases hF : ctx.token_id (ctx.i + n) = TOKEN_FUNC
        · exact Or.inl hF
        · exact Or.inr (by simpa using hid hF)
  · intro hid
    have k0 : parse_func_prefixes { ctx with i := ctx.i + n }
        = ({ ctx with i := ctx.i + n }, func_prefixes_among { ctx with i := ctx.i + n } 0) := by
      apply key _ 0
      · intro k hk; omega
      · simpa [parse_ctx_t.token_id] using hend
    unfold parse_func_head
    rw [key ctx n hrun hend, k0]
    simp only [parse_ctx_peek, parse_ctx_t.token_id, parse_ctx_t.source_at]
    split
    · rfl
    · split
      · rfl
      · simp only [Except.map, func_prefixes_among, List.range_zero, List.any_nil]
        cases hs : (parse_eat_string { ctx with i := ctx.i + n + 1 }).1 <;> simp

theorem parse_func_prefixes_any_order_witness :
    (∀ k, k < 5 → func_prefix_keyword ((parse_ctx_of tokens_prefixes_mixed).token_id
        ((parse_ctx_of tokens_prefixes_mixed).i + k)) = true)
    ∧ func_prefix_keyword ((parse_ctx_of tokens_prefixes_mixed).token_id
        ((parse_ctx_of tokens_prefixes_mixed).i + 5)) = false
    ∧ (parse_func_prefixes (parse_ctx_of tokens_prefixes_mixed)).2
        = { is_stdcall := true, is_verbatim := true, is_implicit := true, is_external := true }
    ∧ (parse_func_prefixes (parse_ctx_of tokens_prefixes_mixed)).1.i = 5 :=
  ⟨by decide, by decide,
   (congrArg Prod.snd (parse_func_prefixes_any_order parse_fragment
      (parse_ctx_of tokens_prefixes_mixed) 5 (by decide) (by decide)).1).trans (by decide),
   congrArg (fun r => r.1.i) (parse_func_prefixes_any_order parse_fragment
      (parse_ctx_of tokens_prefixes_mixed) 5 (by decide) (by decide)).1⟩

/-- C26, the counterexample: in `stdcall stdcall func f() void` the prefix run
repeats `stdcall`, and `parse_func_head` accepts the declaration: it yields the
head of `f` with the `stdcall` flag, the cursor behind the name; `parse_func`
accepts the whole declaration and stores `f` with the `stdcall` trait. -/
theorem parse_func_head_stdcall_twice :
    (parse_func_head parse_fragment (parse_ctx_of tokens_stdcall_twice)).toOption.map
        (fun r => (r.1.i, r.2.name, r.2.is_foreign, r.2.prefixes))
      = some (4, "f", false, { is_stdcall := true })
    ∧ (parse_func parse_fragment 10 100 (parse_ctx_of tokens_stdcall_twice)).toOption.map
        (fun c => (c.i, c.ast.funcs.map (fun f => (f.name, f.traits))))
      = some (9, [("f", AST_FUNC_STDCALL)]) := by
  decide!

/-! ## The names of the arguments of a foreign function -/

theorem parse_ignore_newlines_stay (ctx : parse_ctx_t) (msg : String)
    (h : ctx.token_id ctx.i ≠ TOKEN_NEWLINE) (hlt : ctx.i < ctx.tokens.length) :
    parse_ignore_newlines ctx msg = .ok ctx := by
  unfold parse_ignore_newlines
  simp only [skip_newlines_stay ctx _ ctx.i h]
  rw [if_neg (by omega)]

theorem parse_func_default_arg_value_skip (ext : parse_externals_t) (ctx : parse_ctx_t)
    (func : ast_func_t) (capacity backfill : Nat) (h : ctx.token_id ctx.i ≠ TOKEN_ASSIGN) :
    parse_func_default_arg_value_if_applicable ext ctx func capacity backfill
      = .ok (ctx, func) := by
  unfold parse_func_default_arg_value_if_applicable
  rw [if_pos (by simpa [parse_ctx_peek] using h)]

theorem parse_func_default_arg_value_fields (ext : parse_externals_t) (ctx ctx2 : parse_ctx_t)
    (func func2 : ast_func_t) (capacity backfill : Nat)
    (h : parse_func_default_arg_value_if_applicable ext ctx func capacity backfill
      = .ok (ctx2, func2)) :
    func2.arity = func.arity ∧ func2.traits = func.traits ∧ func2.arg_names = func.arg_names
    ∧ func2.arg_types = func.arg_types ∧ func2.arg_type_traits = func.arg_type_traits := by
  obtain ⟨hd, -, -⟩ := parse_func_default_arg_value_frame ext ctx ctx2 func func2 capacity
    backfill h
  rcases hd with rfl | ⟨-, e, rfl⟩
  · exact ⟨rfl, rfl, rfl, rfl, rfl⟩
  · exact ⟨rfl, rfl, rfl, rfl, rfl⟩

theorem slot_ptr_set_self {α : Type} (array : List (Option (Option α))) (j : Nat)
    (v : Option α) (h : j < array.length) : slot_ptr (array.set j (some v)) j = v := by
  unfold slot_ptr
  rw [List.getElem?_set_self h]

theorem parse_func_argument_type_solid (ext : parse_externals_t) (ctx ctx2 : parse_ctx_t)
    (func func2 : ast_func_t) (capacity backfill backfill2 : Nat) (is_solid : Bool)
    (hlen : func.arity + backfill < func.arg_types.length)
    (h : parse_func_argument_type ext ctx func capacity backfill
      = .ok (ctx2, func2, backfill2, is_solid)) :
    backfill2 = 0 ∧ is_solid = true ∧ func2.arity = func.arity + backfill + 1
    ∧ func2.arg_names = func.arg_names ∧ func2.traits = func.traits
    ∧ ∃ ctxC type i, ext.parse_type ctxC = .ok (type, i)
      ∧ parse_ignore_newlines ctx "Expected type" = .ok ctxC
      ∧ slot_val func2.arg_types (func.arity + backfill) = some type := by
  unfold parse_func_argument_type at h
  split at h
  · cases h
  · rename_i ctxC hC
    split at h
    · cases h
    · rename_i type i hT
      simp only at h
      split at h
      · cases h
      · rename_i ctxD hD
        split at h
        · cases h
        · rename_i ctxE funcE hE
          simp only [Except.ok.injEq, Prod.mk.injEq] at h
          obtain ⟨-, rfl, rfl, rfl⟩ := h
          obtain ⟨e1, e2, e3, e4, -⟩ := parse_func_default_arg_value_fields ext _ _ _ _ _ _ hE
          obtain ⟨b1, b2, b3, -⟩ := parse_func_backfill_arguments_frame funcE backfill
          have e1' : funcE.arity = func.arity := e1
          have e4' : funcE.arg_types = func.arg_types.set (func.arity + backfill) (some type) :=
            e4
          have hslot : slot_val funcE.arg_types (funcE.arity + backfill) = some type := by
            rw [e4', e1']
            exact slot_val_set_self _ _ _ hlen
          have hlenE : funcE.arity + backfill < funcE.arg_types.length := by
            rw [e4', e1', List.length_set]
            exact hlen
          refine ⟨rfl, rfl, ?_, ?_, ?_, ctxC, type, i, hT, hC, ?_⟩
          · show (parse_func_backfill_arguments funcE backfill).arity + 1 = _
            rw [b1, e1']
          · show (parse_func_backfill_arguments funcE backfill).arg_names = _
            rw [b3]
            exact e3
          · show (parse_func_backfill_arguments funcE backfill).traits = _
            rw [b2]
            exact e2
          · show slot_val (parse_func_backfill_arguments funcE backfill).arg_types _ = _
            rw [parse_func_backfill_arguments_types funcE backfill type hslot hlenE, ← e1']
            rw [if_neg (by omega)]
            exact hslot

theorem parse_func_argument_after_name_foreign (ext : parse_externals_t)
    (ctxN ctx2 : parse_ctx_t) (funcN func2 : ast_func_t) (capacity backfill backfill2 : Nat)
    (is_solid : Bool) (hf : funcN.traits.has AST_FUNC_FOREIGN = true)
    (hlen : funcN.arity + backfill < funcN.arg_types.length)
    (h : parse_func_argument_after_name ext ctxN funcN capacity backfill
      = .ok (ctx2, func2, backfill2, is_solid)) :
    backfill2 = 0 ∧ is_solid = true ∧ func2.arity = funcN.arity + backfill + 1
    ∧ func2.arg_names = funcN.arg_names ∧ func2.traits = funcN.traits
    ∧ ∃ ctxC type i, ext.parse_type ctxC = .ok (type, i)
      ∧ slot_val func2.arg_types (funcN.arity + backfill) = some type := by
  unfold parse_func_argument_after_name at h
  split at h
  · simp [hf] at h
  · split at h
    · cases h
    · rename_i ctxA hA
      split at h
      · cases h
      · rename_i ctxB funcD hD
        obtain ⟨e1, e2, e3, e4, -⟩ := parse_func_default_arg_value_fields ext _ _ _ _ _ _ hD
        split at h
        · cases h
        · rename_i ctxE hE
          have hfD : funcD.traits.has AST_FUNC_FOREIGN = true := by rw [e2]; exact hf
          rw [if_neg (by simp [hfD])] at h
          have hlenD : funcD.arity + backfill < funcD.arg_types.length := by
            rw [e1, e4]
            exact hlen
          split at h
          · obtain ⟨r1, r2, r3, r4, r5, ctxC, type, i, hT, -, hS⟩ :=
              parse_func_argument_type_solid ext _ _ _ _ _ _ _ _ (by exact hlenD) h
            refine ⟨r1, r2, ?_, ?_, ?_, ctxC, type, i, hT, ?_⟩
            · rw [r3]; show funcD.arity + backfill + 1 = _; rw [e1]
            · rw [r4]; exact e3
            · rw [r5]; exact e2
            · rw [← e1]; exact hS
          · obtain ⟨r1, r2, r3, r4, r5, ctxC, type, i, hT, -, hS⟩ :=
              parse_func_argument_type_solid ext _ _ _ _ _ _ _ _ (by exact hlenD) h
            refine ⟨r1, r2, ?_, ?_, ?_, ctxC, type, i, hT, ?_⟩
            · rw [r3]; show funcD.arity + backfill + 1 = _; rw [e1]
            · rw [r4]; exact e3
            · rw [r5]; exact e2
            · rw [← e1]; exact hS

theorem parse_func_argument_after_name_word (ext : parse_externals_t)
    (ctxN : parse_ctx_t) (funcN : ast_func_t) (capacity backfill : Nat)
    (hf : funcN.traits.has AST_FUNC_FOREIGN = true)
    (hword : ctxN.token_id ctxN.i = TOKEN_WORD) :
    parse_func_argument_after_name ext ctxN funcN capacity backfill
      = parse_func_argument_type ext ctxN
          { funcN with arg_type_traits :=
              (funcN.arg_type_traits.set (funcN.arity + backfill) (some TRAIT_NONE)) }
          capacity backfill
    ∧ parse_ignore_newlines ctxN "Expected type" = .ok ctxN := by
  have hlt : ctxN.i < ctxN.tokens.length :=
    parse_ctx_token_id_lt ctxN ctxN.i (by rw [hword]; decide)
  have hnl : parse_ignore_newlines ctxN "Expected type" = .ok ctxN :=
    parse_ignore_newlines_stay ctxN _ (by rw [hword]; decide) hlt
  refine ⟨?_, hnl⟩
  unfold parse_func_argument_after_name
  rw [if_neg (by rw [hword]; decide)]
  simp only [hnl]
  rw [parse_func_default_arg_value_skip ext ctxN funcN capacity backfill
    (by rw [hword]; decide)]
  simp only [hnl, hf, hword]
  rw [if_neg (by decide), if_neg (by decide)]

theorem parse_ctx_tokens_of_token_id (ctx : parse_ctx_t) (k : Nat) (id : tokenid_t)
    (h : ctx.token_id k = id) (hid : id ≠ TOKEN_NONE) :
    ∃ data, ctx.tokens[k]? = some ⟨id, data⟩ := by
  unfold parse_ctx_t.token_id at h
  split at h
  · rename_i t ht
    refine ⟨t.data, ?_⟩
    rw [ht, ← h]
  · exact absurd h.symm hid

theorem parse_func_argument_flow_word (ctx : parse_ctx_t)
    (hword : ctx.token_id ctx.i = TOKEN_WORD) : parse_func_argument_flow ctx = (FLOW_IN, ctx) := by
  unfold parse_func_argument_flow
  rw [hword]
  rfl

/-- C21: in the argument list of a foreign function, a word at the start of an
argument is taken as the name of the argument exactly when the token behind it,
newlines skipped, is neither `,` nor `)`: then the word is stored as the name of
the argument and a type is parsed behind it; otherwise the names are left as they
were and the type parser is run on the word itself, whose result is the type of
the argument. In both cases the argument is solid and is counted. So `(cstring)`
yields one argument of type `cstring` and no names array, and `(msg cstring)` one
argument of type `cstring` named `msg`. -/
theorem parse_func_argument_foreign_name (ext : parse_externals_t) (ctx ctx2 : parse_ctx_t)
    (func func2 : ast_func_t) (capacity backfill backfill2 : Nat) (is_solid : Bool)
    (hf : func.traits.has AST_FUNC_FOREIGN = true)
    (hword : ctx.token_id ctx.i = TOKEN_WORD)
    (hcap : func.arity + backfill < capacity)
    (htypes : func.arg_types.length = capacity)
    (hnames : ∀ names, func.arg_names = some names → names.length = capacity)
    (h : parse_func_argument ext ctx func capacity backfill
      = .ok (ctx2, func2, backfill2, is_solid)) :
    (parse_func_argument_is_name ctx = true
      ↔ ctx.token_id (skip_newlines ctx (ctx.tokens.length - (ctx.i + 1)) (ctx.i + 1)) ≠ TOKEN_NEXT
        ∧ ctx.token_id (skip_newlines ctx (ctx.tokens.length - (ctx.i + 1)) (ctx.i + 1))
          ≠ TOKEN_CLOSE)
    ∧ (parse_func_argument_is_name ctx = true →
        ∃ word, ctx.tokens[ctx.i]? = some ⟨TOKEN_WORD, word⟩
          ∧ slot_ptr (func2.arg_names.getD []) (func.arity + backfill) = some word
          ∧ ∃ ctxC type i, ext.parse_type ctxC = .ok (type, i)
            ∧ slot_val func2.arg_types (func.arity + backfill) = some type)
    ∧ (parse_func_argument_is_name ctx = false →
        func2.arg_names = func.arg_names
        ∧ ∃ type i, ext.parse_type ctx = .ok (type, i)
          ∧ slot_val func2.arg_types (func.arity + backfill) = some type)
    ∧ is_solid = true ∧ backfill2 = 0 ∧ func2.arity = func.arity + backfill + 1
    ∧ parse_func_arguments_summary "cstring"
        (parse_func_arguments parse_fragment 10 (parse_ctx_of tokens_foreign_lone) func_puts)
      = some (3, 1, false, none, true)
    ∧ parse_func_arguments_summary "cstring"
        (parse_func_arguments parse_fragment 10 (parse_ctx_of tokens_foreign_named) func_puts)
      = some (4, 1, true, some "msg", true) := by
  have hflow := parse_func_argument_flow_word ctx hword
  have hstart : parse_func_argument_start ctx func backfill
      = (ctx, { func with
          arg_flows := (func.arg_flows.set (func.arity + backfill) (some FLOW_IN))
          arg_sources := (func.arg_sources.set (func.arity + backfill)
            (some (ctx.source_at ctx.i)))
          arg_defaults := (func.arg_defaults.map
            (fun d => d.set (func.arity + backfill) (some none))) }) := by
    unfold parse_func_argument_start
    rw [hflow]
  have hiff : parse_func_argument_is_name ctx = true
      ↔ ctx.token_id (skip_newlines ctx (ctx.tokens.length - (ctx.i + 1)) (ctx.i + 1))
          ≠ TOKEN_NEXT
        ∧ ctx.token_id (skip_newlines ctx (ctx.tokens.length - (ctx.i + 1)) (ctx.i + 1))
          ≠ TOKEN_CLOSE := by
    unfold parse_func_argument_is_name
    rw [if_pos (by rw [hword]; rfl)]
    simp
  rcases parse_func_argument_ok ext ctx ctx2 func func2 capacity backfill backfill2 is_solid h
    with ⟨-, -, -, he, -⟩ | ⟨ctxN, funcN, hN, hA⟩
  · rw [hflow] at he
    rw [hword] at he
    exact absurd he (by decide)
  rw [hflow, hstart] at hN
  simp only at hN
  have hA2 : ∀ (f : ast_func_t) (c : parse_ctx_t),
      parse_func_argument_after_name ext c f capacity backfill
        = .ok (ctx2, func2, backfill2, is_solid) →
      f.traits = func.traits → f.arity = func.arity → f.arg_types = func.arg_types →
      backfill2 = 0 ∧ is_solid = true ∧ func2.arity = func.arity + backfill + 1
      ∧ func2.arg_names = f.arg_names
      ∧ ∃ ctxC type i, ext.parse_type ctxC = .ok (type, i)
        ∧ slot_val func2.arg_types (func.arity + backfill) = some type := by
    intro f c hc ft fa fty
    obtain ⟨r1, r2, r3, r4, -, r6⟩ := parse_func_argument_after_name_foreign ext c ctx2 f func2
      capacity backfill backfill2 is_solid (by rw [ft]; exact hf)
      (by rw [fa, fty, htypes]; exact hcap) hc
    rw [fa] at r3 r6
    exact ⟨r1, r2, r3, r4, r6⟩
  by_cases hname : parse_func_argument_is_name ctx = true
  · -- the word is the name of the argument
    obtain ⟨data, hdata⟩ := parse_ctx_tokens_of_token_id ctx ctx.i TOKEN_WORD hword (by decide)
    have htake : parse_take_word ctx = (some data, { ctx with i := ctx.i + 1 }) := by
      unfold parse_take_word
      rw [hdata]
      simp
    unfold parse_func_argument_name at hN
    simp only [hf, if_true, hname, htake] at hN
    split at hN
    · cases hN
    · simp only [Except.ok.injEq, Prod.mk.injEq] at hN
      obtain ⟨rfl, rfl⟩ := hN
      obtain ⟨r1, r2, r3, r4, r6⟩ := hA2 _ _ hA rfl rfl rfl
      refine ⟨hiff, ?_, ?_, r2, r1, r3, by decide!, by decide!⟩
      · intro _
        refine ⟨data, hdata, ?_, r6⟩
        rw [r4]
        simp only [Option.getD_some]
        apply slot_ptr_set_self
        cases hn : func.arg_names with
        | none => simpa using hcap
        | some names => simpa [hnames names hn] using hcap
      · intro hno
        rw [hname] at hno
        cases hno
  · -- the word is the type of the argument
    have hname2 : parse_func_argument_is_name ctx = false := by simpa using hname
    unfold parse_func_argument_name at hN
    simp only [hf, if_true, hname2, Bool.false_eq_true, if_false, Except.ok.injEq,
      Prod.mk.injEq] at hN
    obtain ⟨rfl, rfl⟩ := hN
    obtain ⟨r1, r2, r3, r4, -⟩ := hA2 _ _ hA rfl rfl rfl
    refine ⟨hiff, ?_, ?_, r2, r1, r3, by decide!, by decide!⟩
    · intro hyes
      exact absurd hyes hname
    · intro _
      refine ⟨r4, ?_⟩
      obtain ⟨hw1, hw2⟩ := parse_func_argument_after_name_word ext ctx
        { func with
          arg_flows := (func.arg_flows.set (func.arity + backfill) (some FLOW_IN))
          arg_sources := (func.arg_sources.set (func.arity + backfill)
            (some (ctx.source_at ctx.i)))
          arg_defaults := (func.arg_defaults.map
            (fun d => d.set (func.arity + backfill) (some none))) }
        capacity backfill hf hword
      rw [hw1] at hA
      obtain ⟨-, -, -, -, -, ctxC, type, i, hT, hC, hS⟩ :=
        parse_func_argument_type_solid ext _ _ _ _ _ _ _ _
          (by show func.arity + backfill < func.arg_types.length; rw [htypes]; exact hcap) hA
      rw [hw2] at hC
      cases hC
      exact ⟨type, i, hT, hS⟩

/-- The witness of C21: the argument `msg cstring` of a foreign function, read
from the word `msg` on. -/
theorem parse_func_argument_foreign_name_witness :
    ∃ ctx2 func2,
      parse_func_argument parse_fragment { parse_ctx_of tokens_foreign_named with i := 1 }
        func_example_foreign 4 0 = .ok (ctx2, func2, 0, true)
      ∧ func2.arity = 1
      ∧ slot_ptr (func2.arg_names.getD []) 0 = some "msg"
      ∧ ∃ type, slot_val func2.arg_types 0 = some type := by
  obtain ⟨⟨ctx2, func2, b2, solid⟩, h⟩ := except_ok_of_isSome
    (parse_func_argument parse_fragment { parse_ctx_of tokens_foreign_named with i := 1 }
      func_example_foreign 4 0) (by decide!)
  obtain ⟨-, hn, -, hs, hb, ha, -, -⟩ := parse_func_argument_foreign_name parse_fragment
    { parse_ctx_of tokens_foreign_named with i := 1 } ctx2 func_example_foreign func2 4 0 b2
    solid (by decide) (by decide) (by decide) (by decide)
    (fun names hn => by
      have h0 : func_example_foreign.arg_names = none := by decide
      rw [h0] at hn
      cases hn) h
  obtain ⟨word, hw, hslot, -, type, -, -, hty⟩ := hn (by decide)
  have h1 : ({ parse_ctx_of tokens_foreign_named with i := 1 } : parse_ctx_t).tokens[1]?
      = some ⟨TOKEN_WORD, "msg"⟩ := by decide
  have hword : word = "msg" := by
    have h2 := hw.symm.trans h1
    simp only [Option.some.injEq, token_t.mk.injEq, true_and] at h2
    exact h2
  subst hs hb hword
  exact ⟨ctx2, func2, h, ha, hslot, type, hty⟩

/-! ## The ambiguity of a foreign argument list -/

theorem parse_func_ambiguous_message_base (X : String) (s src : source_t) :
    parse_func_ambiguous_message (some ⟨[.base X s], src⟩)
      = "'" ++ X ++ "' is ambiguous, did you mean '" ++ X
        ++ " Type' (as a parameter name) or '_ " ++ X ++ "' (as a type name)?" := rfl

theorem parse_func_argument_is_name_word (ctx : parse_ctx_t)
    (h : parse_func_argument_is_name ctx = true) : ctx.token_id ctx.i = TOKEN_WORD := by
  unfold parse_func_argument_is_name at h
  split at h
  · rename_i hw
    simpa using hw
  · cases h

/-- C22: in a foreign function, `parse_func_argument` fails with the diagnostic
`'X' is ambiguous, ...` when the argument is recognised as having a name, there is
no names array yet, the arity is not 0 and the type of the argument before is the
bare base type `X`. This is the only failure of the step that reads the name: in
every other case that step succeeds and the argument is parsed on behind it. When
the argument is recognised as having a name, there is no names array yet and the
arity is 0 or the type of the argument before is no bare base type, the step
creates the names array, of `capacity` slots that all hold `NULL`, and stores the
name in the slot of the argument. -/
theorem parse_func_argument_foreign_ambiguous (ext : parse_externals_t) (ctx : parse_ctx_t)
    (func : ast_func_t) (capacity backfill : Nat)
    (hf : func.traits.has AST_FUNC_FOREIGN = true) :
    (∀ X s src,
        parse_func_argument_is_name (parse_func_argument_flow ctx).2 = true →
        func.arg_names = none → func.arity ≠ 0 →
        slot_val func.arg_types (func.arity - 1) = some ⟨[.base X s], src⟩ →
        parse_func_argument ext ctx func capacity backfill
          = .error ("'" ++ X ++ "' is ambiguous, did you mean '" ++ X
              ++ " Type' (as a parameter name) or '_ " ++ X ++ "' (as a type name)?"))
    ∧ (¬ (parse_func_argument_is_name (parse_func_argument_flow ctx).2 = true
          ∧ func.arg_names = none ∧ func.arity ≠ 0
          ∧ ∃ X s src, slot_val func.arg_types (func.arity - 1) = some ⟨[.base X s], src⟩) →
        (parse_func_argument_flow ctx).2.token_id (parse_func_argument_flow ctx).2.i
          ≠ TOKEN_ELLIPSIS →
        ∃ ctxN funcN,
          parse_func_argument_name (parse_func_argument_flow ctx).2
            (parse_func_argument_start ctx func backfill).2 capacity backfill
            = .ok (ctxN, funcN)
          ∧ parse_func_argument ext ctx func capacity backfill
            = parse_func_argument_after_name ext ctxN funcN capacity backfill)
    ∧ (parse_func_argument_is_name (parse_func_argument_flow ctx).2 = true →
        func.arg_names = none →
        ¬ (func.arity ≠ 0
          ∧ ∃ X s src, slot_val func.arg_types (func.arity - 1) = some ⟨[.base X s], src⟩) →
        ∃ word, (parse_func_argument_flow ctx).2.tokens[(parse_func_argument_flow ctx).2.i]?
            = some ⟨TOKEN_WORD, word⟩
          ∧ parse_func_argument_name (parse_func_argument_flow ctx).2
              (parse_func_argument_start ctx func backfill).2 capacity backfill
            = .ok ({ (parse_func_argument_flow ctx).2 with
                      i := (parse_func_argument_flow ctx).2.i + 1 },
                   { (parse_func_argument_start ctx func backfill).2 with
                      arg_names := some ((List.replicate capacity (some none)).set
                        (func.arity + backfill) (some (some word))) })) := by
  have hf0 : (parse_func_argument_start ctx func backfill).2.traits.has AST_FUNC_FOREIGN
      = true := hf
  have hbase : ∀ t : Option ast_type_t,
      ((t.map ast_type_is_base).getD false = true) ↔ ∃ X s src, t = some ⟨[.base X s], src⟩ := by
    intro t
    cases t with
    | none => simp
    | some t =>
      obtain ⟨elements, src⟩ := t
      rcases elements with _ | ⟨e, _ | ⟨e2, rest⟩⟩
      · simp [ast_type_is_base]
      · cases e <;> simp [ast_type_is_base]
      · cases e <;> simp [ast_type_is_base]
  refine ⟨?_, ?_, ?_⟩
  · intro X s src hname hnone har hslot
    have hne : (parse_func_argument_flow ctx).2.token_id (parse_func_argument_flow ctx).2.i
        ≠ TOKEN_ELLIPSIS := by
      rw [parse_func_argument_is_name_word _ hname]
      decide
    rw [parse_func_argument_of_not_ellipsis ext ctx func capacity backfill hne]
    have hstep : parse_func_argument_name (parse_func_argument_flow ctx).2
        (parse_func_argument_start ctx func backfill).2 capacity backfill
        = .error (parse_func_ambiguous_message (some ⟨[.base X s], src⟩)) := by
      unfold parse_func_argument_name
      rw [if_pos hf0, if_pos hname]
      have h1 : (parse_func_argument_start ctx func backfill).2.arg_names = none := hnone
      have h2 : (parse_func_argument_start ctx func backfill).2.arity = func.arity := rfl
      have h3 : (parse_func_argument_start ctx func backfill).2.arg_types = func.arg_types :=
        rfl
      rw [h1, h2, h3, hslot]
      rw [if_pos (by simp [ast_type_is_base, har])]
    rw [hstep, parse_func_ambiguous_message_base]
  · intro hnot hne
    rw [parse_func_argument_of_not_ellipsis ext ctx func capacity backfill hne]
    have hstep : ∃ ctxN funcN, parse_func_argument_name (parse_func_argument_flow ctx).2
        (parse_func_argument_start ctx func backfill).2 capacity backfill
        = .ok (ctxN, funcN) := by
      unfold parse_func_argument_name
      rw [if_pos hf0]
      split
      · rename_i hname
        split
        · rename_i hamb
          exfalso
          apply hnot
          simp only [Bool.and_eq_true, Option.isNone_iff_eq_none, bne_iff_ne, ne_eq] at hamb
          obtain ⟨⟨h1, h2⟩, h3⟩ := hamb
          exact ⟨hname, h1, h2, (hbase _).1 h3⟩
        · exact ⟨_, _, rfl⟩
      · exact ⟨_, _, rfl⟩
    obtain ⟨ctxN, funcN, hN⟩ := hstep
    refine ⟨ctxN, funcN, hN, ?_⟩
    rw [hN]
  · intro hname hnone hnot
    obtain ⟨data, hdata⟩ := parse_ctx_tokens_of_token_id _ _ TOKEN_WORD
      (parse_func_argument_is_name_word _ hname) (by decide)
    refine ⟨data, hdata, ?_⟩
    have htake : parse_take_word (parse_func_argument_flow ctx).2
        = (some data, { (parse_func_argument_flow ctx).2 with
            i := (parse_func_argument_flow ctx).2.i + 1 }) := by
      unfold parse_take_word
      rw [hdata]
      simp
    have h1 : (parse_func_argument_start ctx func backfill).2.arg_names = none := hnone
    unfold parse_func_argument_name
    rw [if_pos hf0, if_pos hname, if_neg, htake, h1]
    · rfl
    · intro hamb
      apply hnot
      simp only [Bool.and_eq_true, Option.isNone_iff_eq_none, bne_iff_ne, ne_eq] at hamb
      obtain ⟨⟨-, h2⟩, h3⟩ := hamb
      exact ⟨h2, (hbase _).1 h3⟩

/-- The witness of C22: in `(cstring, n int)` the argument `n int` is named, no
argument before it was, and the argument before it has the bare base type
`cstring`: the list is refused as ambiguous. In `(*cstring, n int)` the type of
the argument before is a pointer: the names array is created, the first name
being `NULL`. -/
theorem parse_func_argument_foreign_ambiguous_witness :
    parse_func_argument parse_fragment { parse_ctx_of tokens_foreign_ambiguous with i := 3 }
        func_foreign_one 4 0
      = .error ("'" ++ "cstring" ++ "' is ambiguous, did you mean '" ++ "cstring"
          ++ " Type' (as a parameter name) or '_ " ++ "cstring" ++ "' (as a type name)?")
    ∧ (match parse_func_arguments parse_fragment 10 (parse_ctx_of tokens_foreign_ambiguous)
          func_puts with
        | .error e => some e
        | .ok _ => none)
      = some ("'cstring' is ambiguous, did you mean 'cstring Type' (as a parameter name) "
          ++ "or '_ cstring' (as a type name)?")
    ∧ (parse_func_arguments parse_fragment 10 (parse_ctx_of tokens_foreign_pointer_then_named)
          func_puts).toOption.map (fun r => (r.2.arity, r.2.arg_names.isSome,
            slot_ptr (r.2.arg_names.getD []) 0, slot_ptr (r.2.arg_names.getD []) 1))
      = some (2, true, none, some "n") :=
  ⟨(parse_func_argument_foreign_ambiguous parse_fragment
      { parse_ctx_of tokens_foreign_ambiguous with i := 3 } func_foreign_one 4 0 (by decide)).1
      "cstring" ⟨0, 1⟩ ⟨0, 1⟩ (by decide) (by decide) (by decide) rfl,
   by decide!, by decide!⟩

/-! ## The return type -/

theorem parse_func_signature_of_before (ext : parse_externals_t) (fuel MAX_FUNCID : Nat)
    (ctx ctxN : parse_ctx_t) (func_head : ast_func_head_t) (funcA : ast_func_t)
    (hlim : ctx.ast.funcs.length < MAX_FUNCID)
    (h : parse_func_before_return_type ext fuel ctx = some (func_head, ctxN, funcA)) :
    parse_func_signature ext fuel MAX_FUNCID ctx
      = if !func_head.is_foreign
          && (ctxN.token_id ctxN.i == TOKEN_BEGIN || ctxN.token_id ctxN.i == TOKEN_ASSIGN) then
          .ok ⟨ctxN.store_func ctx.ast.funcs.length
                { funcA with return_type := ast_type_make_base "void" },
              func_head, ctx.ast.funcs.length,
              { funcA with return_type := ast_type_make_base "void" }⟩
        else
          match ext.parse_type ctxN with
          | .error e =>
            .error (e, ctxN.store_func ctx.ast.funcs.length
              { funcA with return_type := ⟨[], NULL_SOURCE⟩ })
          | .ok (type, i) =>
            .ok ⟨{ ctxN with i := i }.store_func ctx.ast.funcs.length
                  { funcA with return_type := type },
                func_head, ctx.ast.funcs.length, { funcA with return_type := type }⟩ := by
  unfold parse_func_before_return_type at h
  unfold parse_func_signature
  rw [if_neg (by omega)]
  split at h
  · cases h
  · rename_i ctxH head hH
    have hast : ctxH.ast = ctx.ast := by
      rw [parse_func_head_ctx ext ctx ctxH head hH]
    simp only [hH]
    split at h
    · cases h
    · rename_i hdom
      rw [if_neg hdom]
      split at h
      · cases h
      · rename_i ctxA funcA2 hA
        split at h
        · cases h
        · rename_i ctxN2 hN
          simp only [Option.some.injEq, Prod.mk.injEq] at h
          obtain ⟨rfl, rfl, rfl⟩ := h
          unfold parse_func_begin parse_func_template at hA
          simp only [ast_func_head_t.create_template, hast] at hA ⊢
          by_cases hb : (ctxH.next_builtin_traits != TRAIT_NONE) = true
          · rw [if_pos hb] at hA
            simp only [if_pos hb] at hA ⊢
            rw [hA]
            simp only [hN]
            try rfl
          · rw [if_neg hb] at hA
            simp only [if_neg hb] at hA ⊢
            rw [hA]
            simp only [hN]
            try rfl

/-! ## A lone word in a foreign argument list -/

theorem parse_func_head_is_foreign (ext : parse_externals_t) (ctx ctxH : parse_ctx_t)
    (func_head : ast_func_head_t) (h : parse_func_head ext ctx = .ok (ctxH, func_head)) :
    func_head.is_foreign = (parse_ctx_peek (parse_func_prefixes ctx).1 == TOKEN_FOREIGN) := by
  unfold parse_func_head at h
  simp only at h
  split at h
  · cases h
  · split at h
    · cases h
    · simp only [Except.ok.injEq, Prod.mk.injEq] at h
      obtain ⟨-, rfl⟩ := h
      rfl

theorem parse_func_before_return_type_head (ext : parse_externals_t) (fuel : Nat)
    (ctx ctxN : parse_ctx_t) (func_head : ast_func_head_t) (funcA : ast_func_t)
    (h : parse_func_before_return_type ext fuel ctx = some (func_head, ctxN, funcA)) :
    ∃ ctxH, parse_func_head ext ctx = .ok (ctxH, func_head) := by
  unfold parse_func_before_return_type at h
  split at h
  · cases h
  · rename_i ctxH head hH
    split at h
    · cases h
    · split at h
      · cases h
      · split at h
        · cases h
        · simp only [Option.some.injEq, Prod.mk.injEq] at h
          obtain ⟨rfl, -, -⟩ := h
          exact ⟨ctxH, hH⟩

/-- C23 (amended): in `foreign puts(msg) => something` the word `msg` is followed
by `)`, so it is not taken as a name: whatever the type parser is,
`parse_func_argument` hands the word to it as the type of the argument and the
ambiguity check is not reached. With the type parser of the examples the argument
list is accepted with one argument of type `msg` and no names array, the cursor
stopping at `=>`; `parse_func` then has `=>` parsed as the return type, and fails
with the diagnostic of the type parser, leaving in `ast.funcs` the function with
its one argument and the empty return type. Whatever the external parsers are,
once the head and the argument list are accepted, a diagnostic of the type parser
for what follows the list is the diagnostic of `parse_func`. -/
theorem parse_func_foreign_lone_word (ext : parse_externals_t) (ctx : parse_ctx_t)
    (func : ast_func_t) (capacity backfill : Nat)
    (hf : func.traits.has AST_FUNC_FOREIGN = true)
    (htokens : ctx.tokens = tokens_foreign_puts_arrow) (hi : ctx.i = 3) :
    parse_func_argument_is_name ctx = false
    ∧ parse_func_argument ext ctx func capacity backfill
      = parse_func_argument_type ext ctx
          { (parse_func_argument_start ctx func backfill).2 with
            arg_type_traits := ((parse_func_argument_start ctx func backfill).2.arg_type_traits.set
              (func.arity + backfill) (some TRAIT_NONE)) }
          capacity backfill
    ∧ parse_func_arguments_summary "msg"
        (parse_func_arguments parse_fragment 10
          { parse_ctx_of tokens_foreign_puts_arrow with i := 2 } func_puts)
      = some (5, 1, false, none, true)
    ∧ parse_func_diagnostic
        (parse_func parse_fragment 10 100 (parse_ctx_of tokens_foreign_puts_arrow))
      = some "Expected type"
    ∧ (parse_func_left
        (parse_func parse_fragment 10 100 (parse_ctx_of tokens_foreign_puts_arrow))).ast.funcs.map
          (fun f => (f.name, f.arity, f.arg_names.isSome,
            ast_type_is_base_of (f.arg_type 0) "msg", f.return_type.elements.length))
      = [("puts", 1, false, true, 0)]
    ∧ (∀ (fuel MAX_FUNCID : Nat) (func_head : ast_func_head_t) (ctxN : parse_ctx_t)
        (funcA : ast_func_t) (e : String),
        0 < MAX_FUNCID →
        parse_func_before_return_type ext fuel (parse_ctx_of tokens_foreign_puts_arrow)
          = some (func_head, ctxN, funcA) →
        ext.parse_type ctxN = .error e →
        ∃ c, parse_func ext fuel MAX_FUNCID (parse_ctx_of tokens_foreign_puts_arrow)
          = .error (e, c)) := by
  have hword : ctx.token_id ctx.i = TOKEN_WORD := by
    simp [parse_ctx_t.token_id, htokens, hi, tokens_foreign_puts_arrow]
  have hnext : ctx.token_id (ctx.i + 1) = TOKEN_CLOSE := by
    simp [parse_ctx_t.token_id, htokens, hi, tokens_foreign_puts_arrow]
  have hname : parse_func_argument_is_name ctx = false := by
    unfold parse_func_argument_is_name
    rw [if_pos (by rw [hword]; rfl)]
    rw [skip_newlines_stay ctx _ _ (by rw [hnext]; decide)]
    simp only [hnext]
    decide
  have hflow := parse_func_argument_flow_word ctx hword
  have hf0 : (parse_func_argument_start ctx func backfill).2.traits.has AST_FUNC_FOREIGN
      = true := hf
  refine ⟨hname, ?_, by decide!, by decide!, by decide!, ?_⟩
  pick_goal 2
  · intro fuel MAX_FUNCID func_head ctxN funcA e hM hbefore hT
    obtain ⟨ctxH, hH⟩ := parse_func_before_return_type_head ext fuel _ ctxN func_head funcA
      hbefore
    have hforeign : func_head.is_foreign = true := by
      rw [parse_func_head_is_foreign ext _ ctxH func_head hH]
      decide
    have hsig := parse_func_signature_of_before ext fuel MAX_FUNCID
      (parse_ctx_of tokens_foreign_puts_arrow) ctxN func_head funcA hM hbefore
    rw [if_neg (by simp [hforeign]), hT] at hsig
    simp only at hsig
    unfold parse_func
    rw [if_neg (by decide)]
    simp only [hsig]
    exact ⟨_, rfl⟩
  rw [parse_func_argument_of_not_ellipsis ext ctx func capacity backfill
    (by rw [hflow, hword]; decide)]
  rw [hflow]
  have hstep : parse_func_argument_name ctx (parse_func_argument_start ctx func backfill).2
      capacity backfill = .ok (ctx, (parse_func_argument_start ctx func backfill).2) := by
    unfold parse_func_argument_name
    rw [if_pos hf0, if_neg (by rw [hname]; decide)]
  rw [hstep]
  exact (parse_func_argument_after_name_word ext ctx _ capacity backfill hf0 hword).1

theorem parse_func_foreign_lone_word_witness :
    (parse_func_argument parse_fragment { parse_ctx_of tokens_foreign_puts_arrow with i := 3 }
        func_example_foreign 4 0).toOption.map
        (fun r => (r.1.i, r.2.1.arity, r.2.1.arg_names.isSome,
          ast_type_is_base_of (r.2.1.arg_type 0) "msg"))
      = some (4, 1, false, true) := by
  rw [(parse_func_foreign_lone_word parse_fragment
    { parse_ctx_of tokens_foreign_puts_arrow with i := 3 } func_example_foreign 4 0
    (by decide) rfl rfl).2.1]
  decide!

/-- C23, the counterexample: `parse_func` on `foreign puts(msg) => something`
does fail, but the diagnostic is not the one of the ambiguity: it is the one the
type parser gives for `=>`. -/
theorem parse_func_foreign_lone_word_not_ambiguous :
    parse_func_diagnostic
        (parse_func parse_fragment 10 100 (parse_ctx_of tokens_foreign_puts_arrow))
      ≠ some ("'msg' is ambiguous, did you mean 'msg Type' (as a parameter name) "
          ++ "or '_ msg' (as a type name)?")
    ∧ (parse_func_arguments parse_fragment 10
        { parse_ctx_of tokens_foreign_puts_arrow with i := 2 } func_puts).toOption.isSome
      = true := by
  decide!

/-! ## What `parse_func` leaves in the AST -/

theorem list_set_of_getElem? {α : Type} (l : List α) (i : Nat) (x : α)
    (h : l[i]? = some x) : l.set i x = l := by
  obtain ⟨hlt, hx⟩ := List.getElem?_eq_some_iff.1 h
  rw [← hx]
  exact list_set_getElem_same l i hlt

/-- The function list that the checks, the polymorphic stage and the body leave,
on `SUCCESS` and on `FAILURE`: the list the signature left, with the function at
its index, its traits and its statements being the only fields that may differ;
the aliases are as they were. -/
theorem parse_func_finish_left_funcs (ext : parse_externals_t) (s : parse_func_signature_t)
    (hs : s.ctx.ast.funcs[s.ast_func_id]? = some s.func) :
    ∃ f, f = { s.func with traits := f.traits, statements := f.statements }
      ∧ (parse_func_left (parse_func_finish ext s)).ast.funcs
        = s.ctx.ast.funcs.set s.ast_func_id f
      ∧ (parse_func_left (parse_func_finish ext s)).ast.func_aliases
        = s.ctx.ast.func_aliases := by
  cases hC : parse_func_checks s.ctx.ast s.func with
  | error e =>
    rw [parse_func_finish_checks_error ext s e hC]
    exact ⟨s.func, rfl, (list_set_of_getElem? _ _ _ hs).symm, rfl⟩
  | ok ast1 =>
    have hframe := parse_func_checks_frame _ _ _ hC
    have hfuncs : ast1.funcs = s.ctx.ast.funcs := by rw [hframe]
    have haliases : ast1.func_aliases = s.ctx.ast.func_aliases := by rw [hframe]
    cases hP : parse_func_polymorphic { s.ctx with ast := ast1 } s.func_head s.ast_func_id
        s.func with
    | error e =>
      have hfin : parse_func_finish ext s = .error (e, { s.ctx with ast := ast1 }) := by
        unfold parse_func_finish
        rw [hC]
        simp only
        rw [hP]
      rw [hfin]
      refine ⟨s.func, rfl, ?_, haliases⟩
      show ast1.funcs = _
      rw [hfuncs]
      exact (list_set_of_getElem? _ _ _ hs).symm
    | ok r =>
      obtain ⟨ctxP, funcP⟩ := r
      obtain ⟨f, hf, hleft⟩ := parse_func_finish_left ext s ast1 ctxP funcP hC hP
      rw [hleft]
      rcases parse_func_polymorphic_ok _ _ _ _ _ _ hP with ⟨-, rfl, rfl⟩ | ⟨-, -, rfl, rfl⟩
      · refine ⟨f, ?_, ?_, haliases⟩
        · rw [hf]
        · show ast1.funcs.set _ _ = _
          rw [hfuncs]
      · refine ⟨f, ?_, ?_, haliases⟩
        · rw [hf]
        · show ast1.funcs.set _ _ = _
          rw [hfuncs]

/-- The context that a `FAILURE` of lines 37-75 of `parse_func` leaves: the one
given when the limit is reached or the head is refused; the one behind the head
when a foreign function is declared in the domain of a composite; in every other
case a context whose function list is the one given and one function more, the
aliases being as they were. -/
theorem parse_func_signature_error (ext : parse_externals_t) (fuel MAX_FUNCID : Nat)
    (ctx c : parse_ctx_t) (e : String)
    (h : parse_func_signature ext fuel MAX_FUNCID ctx = .error (e, c)) :
    (MAX_FUNCID ≤ ctx.ast.funcs.length ∧ e = "Maximum number of AST functions reached\n"
      ∧ c = ctx)
    ∨ (ctx.ast.funcs.length < MAX_FUNCID ∧ parse_func_head ext ctx = .error e ∧ c = ctx)
    ∨ (ctx.ast.funcs.length < MAX_FUNCID
      ∧ ∃ func_head, parse_func_head ext ctx = .ok (c, func_head)
        ∧ (func_head.is_foreign && c.composite_association.isSome) = true
        ∧ e = "Cannot declare foreign function within struct domain" ∧ c.ast = ctx.ast)
    ∨ (ctx.ast.funcs.length < MAX_FUNCID
      ∧ ∃ ctxH func_head g, parse_func_head ext ctx = .ok (ctxH, func_head)
        ∧ (func_head.is_foreign && ctxH.composite_association.isSome) = false
        ∧ c.ast = { ctx.ast with funcs := ctx.ast.funcs ++ [g] }) := by
  unfold parse_func_signature at h
  split at h
  · rename_i hmax
    simp only [Except.error.injEq, Prod.mk.injEq] at h
    exact Or.inl ⟨hmax, h.1.symm, h.2.symm⟩
  · rename_i hmax
    have hlim : ctx.ast.funcs.length < MAX_FUNCID := by omega
    split at h
    · rename_i e2 hH
      simp only [Except.error.injEq, Prod.mk.injEq] at h
      obtain ⟨rfl, rfl⟩ := h
      exact Or.inr (Or.inl ⟨hlim, hH, rfl⟩)
    · rename_i ctxH func_head hH
      have hctxH := parse_func_head_ctx _ _ _ _ hH
      have hast : ctxH.ast = ctx.ast := by rw [hctxH]
      split at h
      · rename_i hdom
        simp only [Except.error.injEq, Prod.mk.injEq] at h
        obtain ⟨rfl, rfl⟩ := h
        exact Or.inr (Or.inr (Or.inl ⟨hlim, func_head, hH, hdom, rfl, hast⟩))
      · rename_i hdom
        have hdom2 : (func_head.is_foreign && ctxH.composite_association.isSome) = false := by
          simpa using hdom
        refine Or.inr (Or.inr (Or.inr ⟨hlim, ctxH, func_head, ?_⟩))
        simp only at h
        split at h
        · simp only [Except.error.injEq, Prod.mk.injEq] at h
          obtain ⟨-, rfl⟩ := h
          refine ⟨parse_func_template ctxH func_head, hH, hdom2, ?_⟩
          show ({ ctxH.ast with
            funcs := ctxH.ast.funcs ++ [parse_func_template ctxH func_head] } : ast_t) = _
          rw [hast]
        · rename_i ctxA funcA hA
          have hfA := parse_func_arguments_ctx _ _ _ _ _ _ hA
          have hastA : ctxA.ast = { ctx.ast with funcs := ctx.ast.funcs ++
              [if ctxH.next_builtin_traits != TRAIT_NONE then
                { func_head.create_template with
                  traits := func_head.create_template.traits ||| ctxH.next_builtin_traits }
               else func_head.create_template] } := by
            have := congrArg parse_ctx_t.ast hfA
            simp only [parse_ctx_t.frame] at this
            rw [this, hast]
          try simp only at h
          split at h
          · simp only [Except.error.injEq, Prod.mk.injEq] at h
            obtain ⟨-, rfl⟩ := h
            refine ⟨funcA, hH, hdom2, ?_⟩
            simp only [parse_ctx_t.store_func, hastA, hast, list_set_append_last]
          · rename_i ctxB hB
            have hfB := parse_ignore_newlines_frame _ _ _ hB
            have hastB : ctxB.ast = ctxA.ast := by
              have := congrArg parse_ctx_t.ast hfB
              simpa only [parse_ctx_t.frame] using this
            try simp only at h
            split at h
            · cases h
            · split at h
              · simp only [Except.error.injEq, Prod.mk.injEq] at h
                obtain ⟨-, rfl⟩ := h
                refine ⟨{ funcA with return_type := ⟨[], NULL_SOURCE⟩ }, hH, hdom2, ?_⟩
                simp only [parse_ctx_t.store_func, hastB, hastA, hast, list_set_append_last]
              · cases h

theorem parse_func_before_return_type_ast (ext : parse_externals_t) (fuel : Nat)
    (ctx ctxN : parse_ctx_t) (func_head : ast_func_head_t) (funcA : ast_func_t)
    (h : parse_func_before_return_type ext fuel ctx = some (func_head, ctxN, funcA)) :
    ∃ g, ctxN.ast = { ctx.ast with funcs := ctx.ast.funcs ++ [g] } := by
  unfold parse_func_before_return_type at h
  split at h
  · cases h
  · rename_i ctxH head hH
    have hast : ctxH.ast = ctx.ast := by
      rw [parse_func_head_ctx ext ctx ctxH head hH]
    split at h
    · cases h
    · split at h
      · cases h
      · rename_i ctxA funcA2 hA
        split at h
        · cases h
        · rename_i ctxN2 hN
          simp only [Option.some.injEq, Prod.mk.injEq] at h
          obtain ⟨-, rfl, -⟩ := h
          have hfA := congrArg parse_ctx_t.ast (parse_func_arguments_ctx _ _ _ _ _ _ hA)
          have hfN := congrArg parse_ctx_t.ast (parse_ignore_newlines_frame _ _ _ hN)
          simp only [parse_ctx_t.frame] at hfA hfN
          refine ⟨parse_func_template ctxH head, ?_⟩
          rw [hfN, hfA]
          show ({ ctxH.ast with
            funcs := ctxH.ast.funcs ++ [parse_func_template ctxH head] } : ast_t) = _
          rw [hast]

theorem list_getElem?_append_last {α : Type} (l : List α) (a : α) :
    (l ++ [a])[l.length]? = some a := by
  simp

theorem parse_func_left_return_type (ext : parse_externals_t) (fuel MAX_FUNCID : Nat)
    (ctx : parse_ctx_t) (s : parse_func_signature_t)
    (halias : (ctx.token_id (ctx.i + 1) == TOKEN_ALIAS && ctx.token_id ctx.i == TOKEN_FUNC)
      = false)
    (hsig : parse_func_signature ext fuel MAX_FUNCID ctx = .ok s) :
    ((parse_func_left (parse_func ext fuel MAX_FUNCID ctx)).ast.funcs[ctx.ast.funcs.length]?).map
        (fun f => f.return_type) = some s.func.return_type := by
  obtain ⟨-, hid, hast⟩ := parse_func_signature_ok ext fuel MAX_FUNCID ctx s hsig
  have hs : s.ctx.ast.funcs[s.ast_func_id]? = some s.func := by
    rw [hast, hid]
    exact list_getElem?_append_last _ _
  obtain ⟨f, hf, hfuncs, -⟩ := parse_func_finish_left_funcs ext s hs
  rw [parse_func_of_signature ext fuel MAX_FUNCID ctx s halias hsig, hfuncs, hast, hid,
    list_set_append_last, list_getElem?_append_last]
  rw [hf]
  rfl

/-- C24: once the head and the argument list of a declaration are parsed and the
newlines behind them are skipped: when the function is not foreign and the token
at the cursor is `{` or `=`, the return type is set to the base type `void` and
the cursor stays on that token; otherwise, and always for a foreign function,
the type parser is run at the cursor: when it succeeds the return type is the
type it yields, the cursor moving behind it, and when it fails `parse_func`
returns `FAILURE` with its diagnostic and the return type of the function left in
`ast.funcs` is the empty sentinel. The return type set here is the one the
function has when `parse_func` is over. -/
theorem parse_func_return_type (ext : parse_externals_t) (fuel MAX_FUNCID : Nat)
    (ctx ctxN : parse_ctx_t) (func_head : ast_func_head_t) (funcA : ast_func_t)
    (halias : (ctx.token_id (ctx.i + 1) == TOKEN_ALIAS && ctx.token_id ctx.i == TOKEN_FUNC)
      = false)
    (hlim : ctx.ast.funcs.length < MAX_FUNCID)
    (h : parse_func_before_return_type ext fuel ctx = some (func_head, ctxN, funcA)) :
    ((func_head.is_foreign = false
        ∧ (ctxN.token_id ctxN.i = TOKEN_BEGIN ∨ ctxN.token_id ctxN.i = TOKEN_ASSIGN)) →
      ∃ s, parse_func_signature ext fuel MAX_FUNCID ctx = .ok s
        ∧ s.func = { funcA with return_type := ast_type_make_base "void" }
        ∧ s.ctx.i = ctxN.i ∧ s.ctx.tokens = ctxN.tokens
        ∧ ((parse_func_left (parse_func ext fuel MAX_FUNCID ctx)).ast.funcs[
              ctx.ast.funcs.length]?).map (fun f => f.return_type)
            = some ⟨[.base "void" NULL_SOURCE], NULL_SOURCE⟩)
    ∧ (¬ (func_head.is_foreign = false
        ∧ (ctxN.token_id ctxN.i = TOKEN_BEGIN ∨ ctxN.token_id ctxN.i = TOKEN_ASSIGN)) →
      (∀ type i, ext.parse_type ctxN = .ok (type, i) →
        ∃ s, parse_func_signature ext fuel MAX_FUNCID ctx = .ok s
          ∧ s.func = { funcA with return_type := type }
          ∧ s.ctx.i = i
          ∧ ((parse_func_left (parse_func ext fuel MAX_FUNCID ctx)).ast.funcs[
                ctx.ast.funcs.length]?).map (fun f => f.return_type) = some type)
      ∧ (∀ e, ext.parse_type ctxN = .error e →
        ∃ c, parse_func ext fuel MAX_FUNCID ctx = .error (e, c)
          ∧ (c.ast.funcs[ctx.ast.funcs.length]?).map (fun f => f.return_type)
              = some ⟨[], NULL_SOURCE⟩)) := by
  have hsig := parse_func_signature_of_before ext fuel MAX_FUNCID ctx ctxN func_head funcA hlim h
  refine ⟨?_, ?_⟩
  · rintro ⟨hnf, htok⟩
    have hcond : (!func_head.is_foreign
        && (ctxN.token_id ctxN.i == TOKEN_BEGIN || ctxN.token_id ctxN.i == TOKEN_ASSIGN))
        = true := by
      rcases htok with ht | ht <;> simp [hnf, ht]
    rw [if_pos hcond] at hsig
    refine ⟨_, hsig, rfl, rfl, rfl, ?_⟩
    exact parse_func_left_return_type ext fuel MAX_FUNCID ctx _ halias hsig
  · intro hnot
    have hcond : ¬ (!func_head.is_foreign
        && (ctxN.token_id ctxN.i == TOKEN_BEGIN || ctxN.token_id ctxN.i == TOKEN_ASSIGN))
        = true := by
      intro hc
      apply hnot
      simpa using hc
    rw [if_neg hcond] at hsig
    refine ⟨?_, ?_⟩
    · intro type i hT
      rw [hT] at hsig
      simp only at hsig
      refine ⟨_, hsig, rfl, rfl, ?_⟩
      exact parse_func_left_return_type ext fuel MAX_FUNCID ctx _ halias hsig
    · intro e hT
      rw [hT] at hsig
      simp only at hsig
      refine ⟨ctxN.store_func ctx.ast.funcs.length
        { funcA with return_type := ⟨[], NULL_SOURCE⟩ }, ?_, ?_⟩
      · unfold parse_func
        rw [halias]
        simp only [Bool.false_eq_true, if_false, hsig]
      · obtain ⟨g, hg⟩ := parse_func_before_return_type_ast ext fuel ctx ctxN func_head funcA h
        simp only [parse_ctx_t.store_func, hg, list_set_append_last, list_getElem?_append_last]
        rfl

theorem option_some_of_isSome {α : Type} (r : Option α) (h : r.isSome = true) :
    ∃ a, r = some a := by
  cases r with
  | none => cases h
  | some a => exact ⟨a, rfl⟩

theorem option_some_fact {α β : Type} (r : Option α) (a : α) (f : α → β) (b : β)
    (hr : r = some a) (h : r.map f = some b) : f a = b := by
  subst hr
  simpa using h

/-- The witness of C24: in `func f() {}` the token behind the argument list is
`{`, and the return type is `void`, the cursor staying on `{`; in `foreign f() {`
the type parser is run on `{`, and its failure is the one of `parse_func`, the
return type left being the empty sentinel. -/
theorem parse_func_return_type_witness :
    (∃ s, parse_func_signature parse_fragment 10 100 (parse_ctx_of tokens_no_return_type)
        = .ok s
      ∧ s.func.return_type = ast_type_make_base "void" ∧ s.ctx.i = 4)
    ∧ parse_func_diagnostic
        (parse_func parse_fragment 10 100 (parse_ctx_of tokens_foreign_no_return_type))
      = some "Expected type"
    ∧ (parse_func_left (parse_func parse_fragment 10 100
        (parse_ctx_of tokens_foreign_no_return_type))).ast.funcs.map
          (fun f => (f.name, f.return_type.elements.length, f.return_type.source))
      = [("f", 0, NULL_SOURCE)] := by
  obtain ⟨⟨head, ctxN, funcA⟩, h⟩ := option_some_of_isSome
    (parse_func_before_return_type parse_fragment 10 (parse_ctx_of tokens_no_return_type))
    (by decide!)
  have hnf : head.is_foreign = false :=
    option_some_fact _ _ (fun r => r.1.is_foreign) _ h (by decide!)
  have htok : ctxN.token_id ctxN.i = TOKEN_BEGIN :=
    option_some_fact _ _ (fun r => r.2.1.token_id r.2.1.i) _ h (by decide!)
  have hi : ctxN.i = 4 := option_some_fact _ _ (fun r => r.2.1.i) _ h (by decide!)
  obtain ⟨s, hs, hfunc, hsi, -, -⟩ := (parse_func_return_type parse_fragment 10 100
    (parse_ctx_of tokens_no_return_type) ctxN head funcA (by decide) (by decide) h).1
    ⟨hnf, Or.inl htok⟩
  refine ⟨⟨s, hs, by rw [hfunc], by rw [hsi, hi]⟩, by decide!, by decide!⟩

/-! ## Single-line bodies -/

theorem trait_has_foreign_or_polymorphic (t : trait_t) :
    (t ||| AST_FUNC_POLYMORPHIC).has AST_FUNC_FOREIGN = t.has AST_FUNC_FOREIGN := by
  have h : (t ||| AST_FUNC_POLYMORPHIC) &&& AST_FUNC_FOREIGN = t &&& AST_FUNC_FOREIGN := by
    apply Nat.eq_of_testBit_eq
    intro i
    simp only [Nat.testBit_and, Nat.testBit_or, AST_FUNC_POLYMORPHIC, AST_FUNC_FOREIGN]
    cases i with
    | zero => simp
    | succ n =>
      have : Nat.testBit 1 (n + 1) = false := by simp [Nat.testBit_succ]
      simp [this]
  unfold trait_t.has
  rw [h]

theorem parse_func_body_foreign (ext : parse_externals_t) (ctx : parse_ctx_t)
    (func : ast_func_t) (hf : func.traits.has AST_FUNC_FOREIGN = true) :
    parse_func_body ext ctx func = .ok (ctx, func) := by
  unfold parse_func_body
  rw [if_pos hf]

theorem parse_func_body_assign (ext : parse_externals_t) (ctx ctxN : parse_ctx_t)
    (func : ast_func_t) (hf : func.traits.has AST_FUNC_FOREIGN = false)
    (hN : parse_ignore_newlines ctx "Expected function body" = .ok ctxN)
    (hpeek : parse_ctx_peek ctxN = TOKEN_ASSIGN) :
    parse_func_body ext ctx func
      = if ast_type_is_void func.return_type then
          .error "Cannot return 'void' from single line function"
        else
          match parse_ignore_newlines { ctxN with i := ctxN.i + 1, func := some func }
              "Expected function body" with
          | .error e => .error e
          | .ok c =>
            match ext.parse_expr c with
            | .error e => .error e
            | .ok (return_expression, i) =>
              .ok ({ c with i := i },
                   { func with statements := [.ret return_expression.source return_expression] })
    := by
  unfold parse_func_body
  rw [if_neg (by rw [hf]; decide)]
  simp only [hN]
  rw [if_pos (by rw [hpeek]; rfl)]
  try rfl

theorem parse_func_body_assign_void (ext : parse_externals_t) (c : parse_ctx_t)
    (g : ast_func_t) (htok : c.token_id c.i = TOKEN_ASSIGN)
    (hf : g.traits.has AST_FUNC_FOREIGN = false)
    (hvoid : ast_type_is_void g.return_type = true) :
    parse_func_body ext c g = .error "Cannot return 'void' from single line function" := by
  have hlt : c.i < c.tokens.length := parse_ctx_token_id_lt c c.i (by rw [htok]; decide)
  have hN : parse_ignore_newlines c "Expected function body" = .ok c :=
    parse_ignore_newlines_stay c _ (by rw [htok]; decide) hlt
  rw [parse_func_body_assign ext c c g hf hN htok, if_pos hvoid]

theorem parse_func_finish_single_line_void (ext : parse_externals_t)
    (s : parse_func_signature_t) (hnf : s.func_head.is_foreign = false)
    (htok : s.ctx.token_id s.ctx.i = TOKEN_ASSIGN)
    (hfn : s.func.traits.has AST_FUNC_FOREIGN = false)
    (hvoid : ast_type_is_void s.func.return_type = true) :
    ∃ e c, parse_func_finish ext s = .error (e, c)
      ∧ (parse_func_checks s.ctx.ast s.func = .error e
        ∨ e = "Cannot return 'void' from single line function") := by
  cases hC : parse_func_checks s.ctx.ast s.func with
  | error e =>
    exact ⟨e, _, parse_func_finish_checks_error ext _ e hC, Or.inl rfl⟩
  | ok ast1 =>
    refine ⟨"Cannot return 'void' from single line function", ?_⟩
    cases hP : parse_func_polymorphic { s.ctx with ast := ast1 } s.func_head s.ast_func_id
        s.func with
    | error e2 =>
      exfalso
      unfold parse_func_polymorphic at hP
      split at hP
      · rw [if_neg (by rw [hnf]; decide)] at hP
        cases hP
      · cases hP
    | ok r =>
      obtain ⟨ctxP, funcP⟩ := r
      have hbody : parse_func_body ext (ctxP.store_func s.ast_func_id funcP) funcP
          = .error "Cannot return 'void' from single line function" := by
        rcases parse_func_polymorphic_ok _ _ _ _ _ _ hP with ⟨-, rfl, rfl⟩ | ⟨-, -, rfl, rfl⟩
        · exact parse_func_body_assign_void ext _ _ htok hfn hvoid
        · exact parse_func_body_assign_void ext _ _ htok
            (by
              show (s.func.traits ||| AST_FUNC_POLYMORPHIC).has AST_FUNC_FOREIGN = false
              rw [trait_has_foreign_or_polymorphic]
              exact hfn) hvoid
      refine ⟨ctxP.store_func s.ast_func_id funcP, ?_, Or.inr rfl⟩
      unfold parse_func_finish
      rw [hC]
      simp only
      rw [hP]
      simp only
      rw [hbody]

theorem parse_func_single_line_omitted (ext : parse_externals_t) (fuel MAX_FUNCID : Nat)
    (ctx ctxN : parse_ctx_t) (func_head : ast_func_head_t) (funcA : ast_func_t)
    (halias : (ctx.token_id (ctx.i + 1) == TOKEN_ALIAS && ctx.token_id ctx.i == TOKEN_FUNC)
      = false)
    (hlim : ctx.ast.funcs.length < MAX_FUNCID)
    (h : parse_func_before_return_type ext fuel ctx = some (func_head, ctxN, funcA))
    (hnf : func_head.is_foreign = false)
    (hfn : funcA.traits.has AST_FUNC_FOREIGN = false)
    (htok : ctxN.token_id ctxN.i = TOKEN_ASSIGN) :
    ∃ s e c, parse_func_signature ext fuel MAX_FUNCID ctx = .ok s
      ∧ s.func.return_type = ast_type_make_base "void"
      ∧ parse_func ext fuel MAX_FUNCID ctx = .error (e, c)
      ∧ (parse_func_checks s.ctx.ast s.func = .error e
        ∨ e = "Cannot return 'void' from single line function") := by
  have hsig := parse_func_signature_of_before ext fuel MAX_FUNCID ctx ctxN func_head funcA hlim h
  rw [if_pos (by simp [hnf, htok])] at hsig
  obtain ⟨e, c, hfin, hor⟩ := parse_func_finish_single_line_void ext
    ⟨ctxN.store_func ctx.ast.funcs.length
        { funcA with return_type := ast_type_make_base "void" },
      func_head, ctx.ast.funcs.length,
      { funcA with return_type := ast_type_make_base "void" }⟩ hnf htok hfn
    (by decide : ast_type_is_void (ast_type_make_base "void") = true)
  refine ⟨_, e, c, hsig, rfl, ?_, hor⟩
  rw [parse_func_of_signature ext fuel MAX_FUNCID ctx _ halias hsig]
  exact hfin

/-- C25: when `parse_func_body` finds `=`, newlines skipped, in a function that
is not foreign: it fails with "Cannot return 'void' from single line function"
when the return type is `void`; otherwise it goes on behind the `=`, skips the
newlines and runs the expression parser, and when that succeeds the statements of
the function are the single `return` statement of the expression parsed, at the
source of the expression. So `parse_func_body` succeeds on a `=` only if the
return type is not `void`, and a declaration that is not foreign and writes `=`
right behind the argument list, its return type being set to `void`, is refused
by `parse_func`. For a function that has the foreign trait `parse_func_body`
succeeds with the context and the function it was given. -/
theorem parse_func_body_single_line (ext : parse_externals_t) (ctx ctxN : parse_ctx_t)
    (func : ast_func_t)
    (hf : func.traits.has AST_FUNC_FOREIGN = false)
    (hN : parse_ignore_newlines ctx "Expected function body" = .ok ctxN)
    (hpeek : parse_ctx_peek ctxN = TOKEN_ASSIGN) :
    (ast_type_is_void func.return_type = true →
      parse_func_body ext ctx func = .error "Cannot return 'void' from single line function")
    ∧ (ast_type_is_void func.return_type = false →
      parse_func_body ext ctx func
        = match parse_ignore_newlines { ctxN with i := ctxN.i + 1, func := some func }
              "Expected function body" with
          | .error e => .error e
          | .ok c =>
            match ext.parse_expr c with
            | .error e => .error e
            | .ok (return_expression, i) =>
              .ok ({ c with i := i },
                   { func with
                      statements := [.ret return_expression.source return_expression] }))
    ∧ (∀ ctx2 func2, parse_func_body ext ctx func = .ok (ctx2, func2) →
        ast_type_is_void func.return_type = false
        ∧ ∃ return_expression c i, ext.parse_expr c = .ok (return_expression, i)
          ∧ ctx2.i = i
          ∧ func2 = { func with
              statements := [.ret return_expression.source return_expression] })
    ∧ (∀ (c : parse_ctx_t) (g : ast_func_t), g.traits.has AST_FUNC_FOREIGN = true →
        parse_func_body ext c g = .ok (c, g))
    ∧ (∀ (fuel MAX_FUNCID : Nat) (ctx0 ctxR : parse_ctx_t) (func_head : ast_func_head_t)
        (funcA : ast_func_t),
        (ctx0.token_id (ctx0.i + 1) == TOKEN_ALIAS && ctx0.token_id ctx0.i == TOKEN_FUNC)
          = false →
        ctx0.ast.funcs.length < MAX_FUNCID →
        parse_func_before_return_type ext fuel ctx0 = some (func_head, ctxR, funcA) →
        func_head.is_foreign = false →
        funcA.traits.has AST_FUNC_FOREIGN = false →
        ctxR.token_id ctxR.i = TOKEN_ASSIGN →
        ∃ s e c, parse_func_signature ext fuel MAX_FUNCID ctx0 = .ok s
          ∧ s.func.return_type = ast_type_make_base "void"
          ∧ parse_func ext fuel MAX_FUNCID ctx0 = .error (e, c)
          ∧ (parse_func_checks s.ctx.ast s.func = .error e
            ∨ e = "Cannot return 'void' from single line function")) := by
  have heq := parse_func_body_assign ext ctx ctxN func hf hN hpeek
  refine ⟨?_, ?_, ?_, ?_, ?_⟩
  · intro hvoid
    rw [heq, if_pos hvoid]
  · intro hvoid
    rw [heq, if_neg (by rw [hvoid]; decide)]
  · intro ctx2 func2 hok
    rw [heq] at hok
    split at hok
    · cases hok
    · rename_i hvoid
      refine ⟨by simpa using hvoid, ?_⟩
      split at hok
      · cases hok
      · rename_i c hc
        split at hok
        · cases hok
        · rename_i return_expression i hE
          simp only [Except.ok.injEq, Prod.mk.injEq] at hok
          obtain ⟨rfl, rfl⟩ := hok
          exact ⟨return_expression, c, i, hE, rfl, rfl⟩
  · intro c g hg
    exact parse_func_body_foreign ext c g hg
  · intro fuel MAX_FUNCID ctx0 ctxR func_head funcA halias hlim hbefore hnf hfn htok
    exact parse_func_single_line_omitted ext fuel MAX_FUNCID ctx0 ctxR func_head funcA halias
      hlim hbefore hnf hfn htok

/-- The witness of C25: the body `= 7` of `func f() int = 7` is the single
statement `return 7`; `func f() = 7` and `func f() void = 7` are refused. -/
theorem parse_func_body_single_line_witness :
    (∃ ctx2 func2,
      parse_func_body parse_fragment { parse_ctx_of tokens_single_line with i := 5 }
        func_single_line = .ok (ctx2, func2)
      ∧ ctx2.i = 7
      ∧ func2.statements = [.ret ⟨0, 6⟩ (.other TOKEN_GENERIC_INT "7" ⟨0, 6⟩)])
    ∧ parse_func_diagnostic
        (parse_func parse_fragment 10 100 (parse_ctx_of tokens_single_line_omitted))
      = some "Cannot return 'void' from single line function"
    ∧ parse_func_diagnostic
        (parse_func parse_fragment 10 100 (parse_ctx_of tokens_single_line_void))
      = some "Cannot return 'void' from single line function"
    ∧ (parse_func parse_fragment 10 100 (parse_ctx_of tokens_single_line)).toOption.map
        (fun c => (c.i, c.ast.funcs.map (fun f => (f.name, f.statements))))
      = some (7, [("f", [.ret ⟨0, 6⟩ (.other TOKEN_GENERIC_INT "7" ⟨0, 6⟩)])]) := by
  obtain ⟨⟨ctx2, func2⟩, hb⟩ := except_ok_of_isSome
    (parse_func_body parse_fragment { parse_ctx_of tokens_single_line with i := 5 }
      func_single_line) (by decide!)
  obtain ⟨-, return_expression, c, i, -, -, hfunc⟩ :=
    (parse_func_body_single_line parse_fragment { parse_ctx_of tokens_single_line with i := 5 }
      { parse_ctx_of tokens_single_line with i := 5 } func_single_line (by decide)
      (parse_ignore_newlines_stay _ _ (by decide) (by decide)) (by decide)).2.2.1 ctx2 func2 hb
  have hi : ctx2.i = 7 := except_ok_fact _ _ (fun r => r.1.i) _ hb (by decide!)
  have hst : func2.statements = [.ret ⟨0, 6⟩ (.other TOKEN_GENERIC_INT "7" ⟨0, 6⟩)] :=
    except_ok_fact _ _ (fun r => r.2.statements) _ hb (by decide!)
  exact ⟨⟨ctx2, func2, hb, hi, hst⟩, by decide!, by decide!, by decide!⟩

/-! ## Function aliases -/

theorem parse_ignore_newlines_eq (ctx ctx2 : parse_ctx_t) (msg : String)
    (h : parse_ignore_newlines ctx msg = .ok ctx2) : ctx2 = { ctx with i := ctx2.i } := by
  unfold parse_ignore_newlines at h
  simp only at h
  split at h
  · cases h
  · cases h
    rfl

theorem parse_func_alias_args_loop_close (ext : parse_externals_t) (fuel : Nat)
    (ctx ctx2 : parse_ctx_t) (types types2 : List ast_type_t) (arity arity2 : Nat)
    (traits traits2 : trait_t) (hclose : ctx.token_id ctx.i = TOKEN_CLOSE)
    (h : parse_func_alias_args_loop ext fuel ctx types arity traits
      = .ok (ctx2, types2, arity2, traits2)) :
    ctx2 = ctx ∧ types2 = types ∧ arity2 = arity ∧ traits2 = traits := by
  cases fuel with
  | zero =>
    unfold parse_func_alias_args_loop at h
    cases h
  | succ f =>
    unfold parse_func_alias_args_loop at h
    rw [if_pos (by rw [hclose]; rfl)] at h
    simp only [Except.ok.injEq, Prod.mk.injEq] at h
    obtain ⟨rfl, rfl, rfl, rfl⟩ := h
    exact ⟨rfl, rfl, rfl, rfl⟩

/-- What a successful run of the loop of `parse_func_alias_args` leaves: the
cursor is on a `)`; the types listed are put behind the ones there were, one for
each type parsed, and are counted; and the traits required are the ones there
were, or else one marker was read, which is the last token before the `)`,
newlines apart. -/
theorem parse_func_alias_args_loop_ok (ext : parse_externals_t) :
    ∀ (fuel : Nat) (ctx ctx2 : parse_ctx_t) (types types2 : List ast_type_t)
      (arity arity2 : Nat) (traits traits2 : trait_t),
      parse_func_alias_args_loop ext fuel ctx types arity traits
        = .ok (ctx2, types2, arity2, traits2) →
      ctx2.token_id ctx2.i = TOKEN_CLOSE
      ∧ ctx2 = { ctx with i := ctx2.i }
      ∧ (∃ new, types2 = types ++ new ∧ arity2 = arity + new.length
          ∧ ∀ t, t ∈ new → ∃ c i, ext.parse_type c = .ok (t, i)
            ∧ c.token_id c.i ≠ TOKEN_ELLIPSIS ∧ c.token_id c.i ≠ TOKEN_RANGE
            ∧ c.tokens = ctx.tokens)
      ∧ (traits2 = traits
        ∨ (traits2 = traits ||| AST_FUNC_VARARG
          ∧ ∃ m, ctx.token_id m = TOKEN_ELLIPSIS
            ∧ parse_ignore_newlines { ctx with i := m + 1 }
                "Expected argument type for function alias" = .ok ctx2)
        ∨ (traits2 = traits ||| AST_FUNC_VARIADIC
          ∧ ∃ m, ctx.token_id m = TOKEN_RANGE
            ∧ parse_ignore_newlines { ctx with i := m + 1 }
                "Expected argument type for function alias" = .ok ctx2)) := by
  intro fuel
  induction fuel with
  | zero =>
    intro ctx ctx2 types types2 arity arity2 traits traits2 h
    unfold parse_func_alias_args_loop at h
    cases h
  | succ f ih =>
    intro ctx ctx2 types types2 arity arity2 traits traits2 h
    by_cases hclose : ctx.token_id ctx.i = TOKEN_CLOSE
    · obtain ⟨rfl, rfl, rfl, rfl⟩ := parse_func_alias_args_loop_close ext _ _ _ _ _ _ _ _ _
        hclose h
      exact ⟨hclose, rfl, ⟨[], by simp, by simp, by simp⟩, Or.inl rfl⟩
    · unfold parse_func_alias_args_loop at h
      rw [if_neg (by simpa using hclose)] at h
      split at h
      · cases h
      · rename_i c hc
        have hceq := parse_ignore_newlines_eq _ _ _ hc
        have hctok : ∀ k, c.token_id k = ctx.token_id k := by
          intro k
          rw [hceq]
          rfl
        simp only at h
        by_cases hell : c.token_id c.i = TOKEN_ELLIPSIS
        · -- the marker `...`
          rw [if_pos (by rw [hell]; rfl)] at h
          simp only at h
          split at h
          · cases h
          · rename_i c2 hc2
            have hc2eq := parse_ignore_newlines_eq _ _ _ hc2
            have hv : (traits ||| AST_FUNC_VARARG).has AST_FUNC_VARARG = true :=
              trait_has_or_self _ _ (by decide)
            split at h
            · rw [if_pos (by simp [hv])] at h
              cases h
            · split at h
              · cases h
              · rename_i hnext hnc
                have hcl : c2.token_id c2.i = TOKEN_CLOSE := by simpa using hnc
                obtain ⟨rfl, rfl, rfl, rfl⟩ := parse_func_alias_args_loop_close ext _ _ _ _ _
                  _ _ _ _ hcl h
                refine ⟨hcl, ?_, ⟨[], by simp, by simp, by simp⟩, Or.inr (Or.inl ⟨rfl, c.i, ?_, ?_⟩)⟩
                · rw [hc2eq, hceq]
                · rw [← hctok]
                  exact hell
                · rw [← hc2]
                  congr 1
                  rw [hceq]
        · rw [if_neg (by simpa using hell)] at h
          by_cases hrange : c.token_id c.i = TOKEN_RANGE
          · -- the marker `..`
            rw [if_pos (by rw [hrange]; rfl)] at h
            simp only at h
            split at h
            · cases h
            · rename_i c2 hc2
              have hc2eq := parse_ignore_newlines_eq _ _ _ hc2
              have hv : (traits ||| AST_FUNC_VARIADIC).has AST_FUNC_VARIADIC = true :=
                trait_has_or_self _ _ (by decide)
              split at h
              · rw [if_pos (by simp [hv])] at h
                cases h
              · split at h
                · cases h
                · rename_i hnext hnc
                  have hcl : c2.token_id c2.i = TOKEN_CLOSE := by simpa using hnc
                  obtain ⟨rfl, rfl, rfl, rfl⟩ := parse_func_alias_args_loop_close ext _ _ _ _
                    _ _ _ _ _ hcl h
                  refine ⟨hcl, ?_, ⟨[], by simp, by simp, by simp⟩,
                    Or.inr (Or.inr ⟨rfl, c.i, ?_, ?_⟩)⟩
                  · rw [hc2eq, hceq]
                  · rw [← hctok]
                    exact hrange
                  · rw [← hc2]
                    congr 1
                    rw [hceq]
          · -- a type
            rw [if_neg (by simpa using hrange)] at h
            cases hT : ext.parse_type c with
            | error e =>
              rw [hT] at h
              cases h
            | ok p =>
              obtain ⟨type, i⟩ := p
              rw [hT] at h
              simp only at h
              split at h
              · cases h
              · rename_i c2 hc2
                have hc2eq := parse_ignore_newlines_eq _ _ _ hc2
                have hc2ctx : c2 = { ctx with i := c2.i } := by
                  rw [hc2eq, hceq]
                have hmem : ∃ c0 i0, ext.parse_type c0 = .ok (type, i0)
                    ∧ c0.token_id c0.i ≠ TOKEN_ELLIPSIS ∧ c0.token_id c0.i ≠ TOKEN_RANGE
                    ∧ c0.tokens = ctx.tokens :=
                  ⟨c, i, hT, hell, hrange, by rw [hceq]⟩
                have hstep : ∀ (c3 : parse_ctx_t), c3 = { ctx with i := c3.i } →
                    parse_func_alias_args_loop ext f c3 (types ++ [type]) (arity + 1) traits
                      = .ok (ctx2, types2, arity2, traits2) →
                    ctx2.token_id ctx2.i = TOKEN_CLOSE
                    ∧ ctx2 = { ctx with i := ctx2.i }
                    ∧ (∃ new, types2 = types ++ new ∧ arity2 = arity + new.length
                        ∧ ∀ t, t ∈ new → ∃ c i, ext.parse_type c = .ok (t, i)
                          ∧ c.token_id c.i ≠ TOKEN_ELLIPSIS ∧ c.token_id c.i ≠ TOKEN_RANGE
                          ∧ c.tokens = ctx.tokens)
                    ∧ (traits2 = traits
                      ∨ (traits2 = traits ||| AST_FUNC_VARARG
                        ∧ ∃ m, ctx.token_id m = TOKEN_ELLIPSIS
                          ∧ parse_ignore_newlines { ctx with i := m + 1 }
                              "Expected argument type for function alias" = .ok ctx2)
                      ∨ (traits2 = traits ||| AST_FUNC_VARIADIC
                        ∧ ∃ m, ctx.token_id m = TOKEN_RANGE
                          ∧ parse_ignore_newlines { ctx with i := m + 1 }
                              "Expected argument type for function alias" = .ok ctx2)) := by
                  intro c3 hc3 h3
                  obtain ⟨r1, r2, ⟨new, rn1, rn2, rn3⟩, r4⟩ := ih _ _ _ _ _ _ _ _ h3
                  have htok3 : ∀ k, c3.token_id k = ctx.token_id k := by
                    intro k
                    rw [hc3]
                    rfl
                  have hset3 : ∀ m, ({ c3 with i := m } : parse_ctx_t) = { ctx with i := m } := by
                    intro m
                    rw [hc3]
                  refine ⟨r1, ?_, ⟨type :: new, ?_, ?_, ?_⟩, ?_⟩
                  · rw [r2, hc3]
                  · rw [rn1]
                    simp
                  · rw [rn2]
                    simp
                    omega
                  · intro t ht
                    rcases List.mem_cons.1 ht with rfl | ht
                    · exact hmem
                    · obtain ⟨c0, i0, q1, q2, q3, q4⟩ := rn3 t ht
                      refine ⟨c0, i0, q1, q2, q3, ?_⟩
                      rw [q4, hc3]
                  · rcases r4 with r4 | ⟨r4, m, hm1, hm2⟩ | ⟨r4, m, hm1, hm2⟩
                    · exact Or.inl r4
                    · refine Or.inr (Or.inl ⟨r4, m, ?_, ?_⟩)
                      · rw [← htok3]; exact hm1
                      · rw [← hset3]; exact hm2
                    · refine Or.inr (Or.inr ⟨r4, m, ?_, ?_⟩)
                      · rw [← htok3]; exact hm1
                      · rw [← hset3]; exact hm2
                split at h
                · split at h
                  · cases h
                  · split at h
                    · cases h
                    · exact hstep _ (by rw [hc2ctx]) h
                · split at h
                  · cases h
                  · exact hstep _ hc2ctx h

/-- The loop of `parse_func_alias_args` puts the types behind the ones there
were in the order of the tokens: each one is parsed where the one before it and a
`,` ended. -/
theorem parse_func_alias_args_loop_order (ext : parse_externals_t) :
    ∀ (fuel : Nat) (ctx ctx2 : parse_ctx_t) (types types2 : List ast_type_t)
      (arity arity2 : Nat) (traits traits2 : trait_t),
      parse_func_alias_args_loop ext fuel ctx types arity traits
        = .ok (ctx2, types2, arity2, traits2) →
      ∃ new, types2 = types ++ new ∧ alias_types_in_order ext ctx new := by
  intro fuel
  induction fuel with
  | zero =>
    intro ctx ctx2 types types2 arity arity2 traits traits2 h
    unfold parse_func_alias_args_loop at h
    cases h
  | succ f ih =>
    intro ctx ctx2 types types2 arity arity2 traits traits2 h
    by_cases hclose : ctx.token_id ctx.i = TOKEN_CLOSE
    · obtain ⟨rfl, rfl, rfl, rfl⟩ := parse_func_alias_args_loop_close ext _ _ _ _ _ _ _ _ _
        hclose h
      exact ⟨[], by simp, trivial⟩
    · unfold parse_func_alias_args_loop at h
      rw [if_neg (by simpa using hclose)] at h
      split at h
      · cases h
      · rename_i c hc
        simp only at h
        by_cases hell : c.token_id c.i = TOKEN_ELLIPSIS
        · rw [if_pos (by rw [hell]; rfl)] at h
          simp only at h
          split at h
          · cases h
          · rename_i c2 hc2
            have hv : (traits ||| AST_FUNC_VARARG).has AST_FUNC_VARARG = true :=
              trait_has_or_self _ _ (by decide)
            split at h
            · rw [if_pos (by simp [hv])] at h
              cases h
            · split at h
              · cases h
              · rename_i hnext hnc
                have hcl : c2.token_id c2.i = TOKEN_CLOSE := by simpa using hnc
                obtain ⟨rfl, rfl, rfl, rfl⟩ := parse_func_alias_args_loop_close ext _ _ _ _ _
                  _ _ _ _ hcl h
                exact ⟨[], by simp, trivial⟩
        · rw [if_neg (by simpa using hell)] at h
          by_cases hrange : c.token_id c.i = TOKEN_RANGE
          · rw [if_pos (by rw [hrange]; rfl)] at h
            simp only at h
            split at h
            · cases h
            · rename_i c2 hc2
              have hv : (traits ||| AST_FUNC_VARIADIC).has AST_FUNC_VARIADIC = true :=
                trait_has_or_self _ _ (by decide)
              split at h
              · rw [if_pos (by simp [hv])] at h
                cases h
              · split at h
                · cases h
                · rename_i hnext hnc
                  have hcl : c2.token_id c2.i = TOKEN_CLOSE := by simpa using hnc
                  obtain ⟨rfl, rfl, rfl, rfl⟩ := parse_func_alias_args_loop_close ext _ _ _ _
                    _ _ _ _ _ hcl h
                  exact ⟨[], by simp, trivial⟩
          · rw [if_neg (by simpa using hrange)] at h
            cases hT : ext.parse_type c with
            | error e =>
              rw [hT] at h
              cases h
            | ok p =>
              obtain ⟨type, i⟩ := p
              rw [hT] at h
              simp only at h
              split at h
              · cases h
              · rename_i c2 hc2
                split at h
                · rename_i hnext
                  split at h
                  · cases h
                  · split at h
                    · cases h
                    · obtain ⟨new, e, hord⟩ := ih _ _ _ _ _ _ _ _ h
                      refine ⟨type :: new, by simp [e], c, i, hc, hT, Or.inr ⟨c2, hc2, ?_, hord⟩⟩
                      simpa using hnext
                · split at h
                  · cases h
                  · rename_i hnext hnc
                    have hcl : c2.token_id c2.i = TOKEN_CLOSE := by simpa using hnc
                    obtain ⟨rfl, rfl, rfl, rfl⟩ := parse_func_alias_args_loop_close ext _ _ _
                      _ _ _ _ _ _ hcl h
                    exact ⟨[type], rfl, c, i, hc, hT, Or.inl rfl⟩

theorem parse_func_alias_args_order (ext : parse_externals_t) (fuel : Nat)
    (ctx ctx2 : parse_ctx_t) (types : List ast_type_t) (arity : Nat) (traits : trait_t)
    (mfn : Bool)
    (h : parse_func_alias_args ext fuel ctx = .ok (ctx2, types, arity, traits, mfn)) :
    alias_types_in_order ext { ctx with i := ctx.i + 1 } types := by
  unfold parse_func_alias_args at h
  simp only at h
  split at h
  · simp only [Except.ok.injEq, Prod.mk.injEq] at h
    obtain ⟨-, rfl, -⟩ := h
    trivial
  · split at h
    · cases h
    · rename_i c1 hc1
      have hc1eq := parse_eat_ok _ _ _ _ hc1
      split at h
      · cases h
      · rename_i c3 types3 arity3 traits3 hloop
        split at h
        · cases h
        · simp only [Except.ok.injEq, Prod.mk.injEq] at h
          obtain ⟨-, rfl, -⟩ := h
          obtain ⟨new, e, hord⟩ := parse_func_alias_args_loop_order ext _ _ _ _ _ _ _ _ _ hloop
          rw [e, List.nil_append, ← hc1eq]
          exact hord

theorem parse_eat_word_some (ctx ctx2 : parse_ctx_t) (name : String)
    (h : parse_eat_word ctx = (some name, ctx2)) :
    ctx.tokens[ctx.i]? = some ⟨TOKEN_WORD, name⟩ ∧ ctx2 = { ctx with i := ctx.i + 1 } := by
  unfold parse_eat_word at h
  split at h
  · rename_i t ht
    split at h
    · rename_i hid
      simp only [Prod.mk.injEq, Option.some.injEq] at h
      obtain ⟨rfl, rfl⟩ := h
      refine ⟨?_, rfl⟩
      rw [ht]
      have : t.id = TOKEN_WORD := by simpa using hid
      rw [← this]
    · simp only [Prod.mk.injEq] at h
      cases h.1
  · simp only [Prod.mk.injEq] at h
    cases h.1

/-- What `parse_func_alias_args` yields on `SUCCESS`. -/
theorem parse_func_alias_args_ok (ext : parse_externals_t) (fuel : Nat)
    (ctx ctx2 : parse_ctx_t) (types : List ast_type_t) (arity : Nat) (traits : trait_t)
    (mfn : Bool)
    (h : parse_func_alias_args ext fuel ctx = .ok (ctx2, types, arity, traits, mfn)) :
    (mfn = true ↔ ctx.token_id ctx.i ≠ TOKEN_OPEN)
    ∧ arity = types.length
    ∧ ctx2 = { ctx with i := ctx2.i }
    ∧ (∀ t, t ∈ types → ∃ c i, ext.parse_type c = .ok (t, i)
        ∧ c.token_id c.i ≠ TOKEN_ELLIPSIS ∧ c.token_id c.i ≠ TOKEN_RANGE
        ∧ c.tokens = ctx.tokens)
    ∧ (mfn = true → ctx2 = ctx ∧ types = [] ∧ traits = TRAIT_NONE)
    ∧ (mfn = false →
        1 ≤ ctx2.i ∧ ctx.token_id (ctx2.i - 1) = TOKEN_CLOSE
        ∧ (traits = TRAIT_NONE
          ∨ (traits = AST_FUNC_VARARG
            ∧ ∃ m, ctx.token_id m = TOKEN_ELLIPSIS
              ∧ parse_ignore_newlines { ctx with i := m + 1 }
                  "Expected argument type for function alias"
                = .ok { ctx with i := ctx2.i - 1 })
          ∨ (traits = AST_FUNC_VARIADIC
            ∧ ∃ m, ctx.token_id m = TOKEN_RANGE
              ∧ parse_ignore_newlines { ctx with i := m + 1 }
                  "Expected argument type for function alias"
                = .ok { ctx with i := ctx2.i - 1 }))) := by
  unfold parse_func_alias_args at h
  simp only at h
  split at h
  · rename_i hno
    have hno2 : ctx.token_id ctx.i ≠ TOKEN_OPEN := by simpa using hno
    simp only [Except.ok.injEq, Prod.mk.injEq] at h
    obtain ⟨rfl, rfl, rfl, rfl, rfl⟩ := h
    refine ⟨by simp [hno2], rfl, rfl, by simp, fun _ => ⟨rfl, rfl, rfl⟩, fun hc => by cases hc⟩
  · rename_i hopen
    have hopen2 : ctx.token_id ctx.i = TOKEN_OPEN := by simpa using hopen
    split at h
    · cases h
    · rename_i c1 hc1
      have hc1eq := parse_eat_ok _ _ _ _ hc1
      split at h
      · cases h
      · rename_i c3 types3 arity3 traits3 hloop
        split at h
        · cases h
        · rename_i c4 hc4
          have hc4eq := parse_eat_ok _ _ _ _ hc4
          simp only [Except.ok.injEq, Prod.mk.injEq] at h
          obtain ⟨rfl, rfl, rfl, rfl, rfl⟩ := h
          obtain ⟨r1, r2, ⟨new, rn1, rn2, rn3⟩, r4⟩ := parse_func_alias_args_loop_ok ext _ _ _ _
            _ _ _ _ _ hloop
          have hc3 : c3 = { ctx with i := c3.i } := by
            rw [r2, hc1eq]
          have htok1 : ∀ k, c1.token_id k = ctx.token_id k := by
            intro k
            rw [hc1eq]
            rfl
          have hset1 : ∀ m, ({ c1 with i := m } : parse_ctx_t) = { ctx with i := m } := by
            intro m
            rw [hc1eq]
          have hi4 : c4.i = c3.i + 1 := by rw [hc4eq]
          have hc3' : ({ ctx with i := c4.i - 1 } : parse_ctx_t) = c3 := by
            rw [hi4, Nat.add_sub_cancel]
            exact hc3.symm
          refine ⟨?_, ?_, ?_, ?_, ?_, ?_⟩
          · simp [hopen2]
          pick_goal 4
          · intro hc
            cases hc
          pick_goal 4
          · intro _
            refine ⟨?_, ?_, ?_⟩
            · rw [hi4]
              omega
            · rw [hi4, Nat.add_sub_cancel]
              have : c3.token_id c3.i = ctx.token_id c3.i := by
                rw [hc3]
                rfl
              rw [← this]
              exact r1
            · rw [hc3']
              rcases r4 with r4 | ⟨r4, m, hm1, hm2⟩ | ⟨r4, m, hm1, hm2⟩
              · exact Or.inl r4
              · refine Or.inr (Or.inl ⟨?_, m, ?_, ?_⟩)
                · rw [r4]
                  simp [TRAIT_NONE]
                · rw [← htok1]; exact hm1
                · rw [← hset1]; exact hm2
              · refine Or.inr (Or.inr ⟨?_, m, ?_, ?_⟩)
                · rw [r4]
                  simp [TRAIT_NONE]
                · rw [← htok1]; exact hm1
                · rw [← hset1]; exact hm2
          · rw [rn1, rn2]
            simp
          · rw [hc4eq, hc3]
          · intro t ht
            rw [rn1] at ht
            simp only [List.nil_append] at ht
            obtain ⟨c0, i0, q1, q2, q3, q4⟩ := rn3 t ht
            refine ⟨c0, i0, q1, q2, q3, ?_⟩
            rw [q4, hc1eq]

/-- What `parse_func_alias` yields on `SUCCESS`: the alias of what
`parse_func_alias_args` yields is the new last element of `func_aliases`. -/
theorem parse_func_alias_ok (ext : parse_externals_t) (fuel MAX_FUNCID : Nat)
    (ctx c2 : parse_ctx_t) (h : parse_func_alias ext fuel MAX_FUNCID ctx = .ok c2) :
    ctx.ast.func_aliases.length < MAX_FUNCID
    ∧ ctx.token_id (ctx.i + 1) = TOKEN_ALIAS
    ∧ ∃ name ctxA ctxB to_name types arity traits mfn,
      parse_func_take_name { ctx with i := ctx.i + 1 + 1 } = (some name, ctxA)
      ∧ parse_func_alias_args ext fuel ctxA = .ok (ctxB, types, arity, traits, mfn)
      ∧ ctxB.token_id ctxB.i = TOKEN_STRONG_ARROW
      ∧ ctxB.tokens[ctxB.i + 1]? = some ⟨TOKEN_WORD, to_name⟩
      ∧ c2 = { ctxB with
          i := ctxB.i + 1 + 1
          ast := { ctx.ast with func_aliases := ctx.ast.func_aliases ++
            [{ from_name := ext.parse_prepend_namespace ctxA name
               to_name := to_name
               arg_types := types
               arity := arity
               required_traits := traits
               source := ctx.source_at ctx.i
               match_first_of_name := mfn }] } } := by
  unfold parse_func_alias at h
  simp only at h
  split at h
  · cases h
  · rename_i c1 hc1
    have hc1eq := parse_eat_ok _ _ _ _ hc1
    have halias : ctx.token_id (ctx.i + 1) = TOKEN_ALIAS := by
      unfold parse_eat at hc1
      split at hc1
      · cases hc1
      · rename_i hp
        simpa [parse_ctx_peek] using hp
    split at h
    · cases h
    · rename_i name hname
      have hctxA := parse_func_take_name_ctx c1
      split at h
      · cases h
      · rename_i ctxB types arity traits mfn hargs
        have hB := (parse_func_alias_args_ok ext fuel _ _ _ _ _ _ hargs).2.2.1
        split at h
        · cases h
        · rename_i c3 hc3
          have hc3eq := parse_eat_ok _ _ _ _ hc3
          have harrow : ctxB.token_id ctxB.i = TOKEN_STRONG_ARROW := by
            unfold parse_eat at hc3
            split at hc3
            · cases hc3
            · rename_i hp
              simpa [parse_ctx_peek] using hp
          split at h
          · cases h
          · rename_i to_name c4 hword
            obtain ⟨hw1, hw2⟩ := parse_eat_word_some _ _ _ hword
            split at h
            · cases h
            · rename_i hlen
              simp only [Except.ok.injEq] at h
              subst h
              have hastB : ctxB.ast = ctx.ast := by
                rw [hB, hctxA, hc1eq]
              have hast4 : c4.ast = ctx.ast := by
                rw [hw2, hc3eq]
                exact hastB
              refine ⟨by rw [hast4] at hlen; omega, halias, name, (parse_func_take_name c1).2, ctxB, to_name, types,
                arity, traits, mfn, ?_, hargs, harrow, ?_, ?_⟩
              · rw [← hc1eq]
                exact Prod.ext hname rfl
              · rw [hc3eq] at hw1
                exact hw1
              · rw [hast4, hw2, hc3eq]

/-- The AST is as it was when `parse_func_alias` returns `FAILURE`. -/
theorem parse_func_alias_error (ext : parse_externals_t) (fuel MAX_FUNCID : Nat)
    (ctx c2 : parse_ctx_t) (e : String)
    (h : parse_func_alias ext fuel MAX_FUNCID ctx = .error (e, c2)) : c2.ast = ctx.ast := by
  unfold parse_func_alias at h
  simp only at h
  split at h
  · cases h
    rfl
  · rename_i c1 hc1
    have hc1eq := parse_eat_ok _ _ _ _ hc1
    have h1 : c1.ast = ctx.ast := by rw [hc1eq]
    split at h
    · cases h
      exact h1
    · rename_i name hname
      have hctxA := parse_func_take_name_ctx c1
      have hA : (parse_func_take_name c1).2.ast = ctx.ast := by
        rw [hctxA]
        exact h1
      split at h
      · cases h
        exact hA
      · rename_i ctxB types arity traits mfn hargs
        have hB := (parse_func_alias_args_ok ext fuel _ _ _ _ _ _ hargs).2.2.1
        have hastB : ctxB.ast = ctx.ast := by
          rw [hB]
          exact hA
        split at h
        · cases h
          exact hastB
        · rename_i c3 hc3
          have hc3eq := parse_eat_ok _ _ _ _ hc3
          have h3 : c3.ast = ctx.ast := by
            rw [hc3eq]
            exact hastB
          split at h
          · cases h
            exact h3
          · rename_i to_name c4 hword
            obtain ⟨-, hw2⟩ := parse_eat_word_some _ _ _ hword
            split at h
            · cases h
              rw [hw2]
              exact h3
            · cases h

/-- C27: when `parse_func_alias_args` returns `SUCCESS`, `match_first_of_name` is
true exactly when the token at the cursor, the one behind the alias name, is not
`(`; then the context is the one given, no type is listed, the arity is 0 and no
trait is required. Otherwise the arity is the number of the types listed, each of
them a type that the type parser yielded at a token that is no marker, the types
are stored in the order of the tokens (the first one is parsed behind the `(`,
each other one where the one before it and a `,` ended), the cursor is behind a
`)`, and the traits required are none, or `AST_FUNC_VARARG` for a
marker `...`, or `AST_FUNC_VARIADIC` for a marker `..`, the marker being the last
token before the `)`, newlines apart. When `parse_func_alias` returns `SUCCESS`,
the new last element of `ast.func_aliases` holds the values that
`parse_func_alias_args` yielded behind the alias name, with the alias name, the
target name read behind `=>`, and the source of the declaration, and nothing else
of the AST has changed. -/
theorem parse_func_alias_args_stored (ext : parse_externals_t) (fuel : Nat)
    (ctx ctx2 : parse_ctx_t) (types : List ast_type_t) (arity : Nat) (traits : trait_t)
    (mfn : Bool)
    (h : parse_func_alias_args ext fuel ctx = .ok (ctx2, types, arity, traits, mfn)) :
    (mfn = true ↔ ctx.token_id ctx.i ≠ TOKEN_OPEN)
    ∧ arity = types.length
    ∧ ctx2 = { ctx with i := ctx2.i }
    ∧ (∀ t, t ∈ types → ∃ c i, ext.parse_type c = .ok (t, i)
        ∧ c.token_id c.i ≠ TOKEN_ELLIPSIS ∧ c.token_id c.i ≠ TOKEN_RANGE
        ∧ c.tokens = ctx.tokens)
    ∧ alias_types_in_order ext { ctx with i := ctx.i + 1 } types
    ∧ (mfn = true → ctx2 = ctx ∧ types = [] ∧ arity = 0 ∧ traits = TRAIT_NONE)
    ∧ (mfn = false →
        1 ≤ ctx2.i ∧ ctx.token_id (ctx2.i - 1) = TOKEN_CLOSE
        ∧ (traits = TRAIT_NONE
          ∨ (traits = AST_FUNC_VARARG
            ∧ ∃ m, ctx.token_id m = TOKEN_ELLIPSIS
              ∧ parse_ignore_newlines { ctx with i := m + 1 }
                  "Expected argument type for function alias"
                = .ok { ctx with i := ctx2.i - 1 })
          ∨ (traits = AST_FUNC_VARIADIC
            ∧ ∃ m, ctx.token_id m = TOKEN_RANGE
              ∧ parse_ignore_newlines { ctx with i := m + 1 }
                  "Expected argument type for function alias"
                = .ok { ctx with i := ctx2.i - 1 })))
    ∧ (∀ (MAX_FUNCID : Nat) (ctx0 c2 : parse_ctx_t),
        parse_func_alias ext fuel MAX_FUNCID ctx0 = .ok c2 →
        ∃ name ctxA ctxB to_name types0 arity0 traits0 mfn0,
          parse_func_take_name { ctx0 with i := ctx0.i + 1 + 1 } = (some name, ctxA)
          ∧ parse_func_alias_args ext fuel ctxA = .ok (ctxB, types0, arity0, traits0, mfn0)
          ∧ ctxB.token_id ctxB.i = TOKEN_STRONG_ARROW
          ∧ ctxB.tokens[ctxB.i + 1]? = some ⟨TOKEN_WORD, to_name⟩
          ∧ c2.ast = { ctx0.ast with func_aliases := ctx0.ast.func_aliases ++
              [{ from_name := ext.parse_prepend_namespace ctxA name
                 to_name := to_name
                 arg_types := types0
                 arity := arity0
                 required_traits := traits0
                 source := ctx0.source_at ctx0.i
                 match_first_of_name := mfn0 }] }) := by
  obtain ⟨r1, r2, r3, r4, r5, r6⟩ := parse_func_alias_args_ok ext fuel ctx ctx2 types arity
    traits mfn h
  refine ⟨r1, r2, r3, r4,
    parse_func_alias_args_order ext fuel ctx ctx2 types arity traits mfn h, ?_, r6, ?_⟩
  · intro hm
    obtain ⟨q1, q2, q3⟩ := r5 hm
    refine ⟨q1, q2, ?_, q3⟩
    rw [r2, q2]
    rfl
  · intro MAX_FUNCID ctx0 c2 h2
    obtain ⟨-, -, name, ctxA, ctxB, to_name, types0, arity0, traits0, mfn0, q1, q2, q3, q4, q5⟩ :=
      parse_func_alias_ok ext fuel MAX_FUNCID ctx0 c2 h2
    refine ⟨name, ctxA, ctxB, to_name, types0, arity0, traits0, mfn0, q1, q2, q3, q4, ?_⟩
    rw [q5]

/-- The witness of C27: the list `(int, long, ...)` yields the two types, the
arity 2 and `AST_FUNC_VARARG`, the cursor behind the `)`; the three declarations
`func alias f(int, long, ...) => g`, `func alias f => g` and
`func alias f(..) => g` store the aliases that they describe. -/
theorem parse_func_alias_args_stored_witness :
    (∃ ctx2 types,
      parse_func_alias_args parse_fragment 10 { parse_ctx_of tokens_alias_vararg with i := 3 }
        = .ok (ctx2, types, 2, AST_FUNC_VARARG, false)
      ∧ types.length = 2 ∧ ctx2.i = 10)
    ∧ (parse_func parse_fragment 10 100 (parse_ctx_of tokens_alias_vararg)).toOption.map
        (fun c => ast_func_aliases_summary c.ast)
      = some [("f", "g", 2, AST_FUNC_VARARG, false)]
    ∧ (parse_func parse_fragment 10 100 (parse_ctx_of tokens_alias_vararg)).toOption.map
        (fun c => (c.i, ast_func_aliases_types c.ast))
      = some (12, [[some "int", some "long"]])
    ∧ (parse_func parse_fragment 10 100 (parse_ctx_of tokens_alias_first)).toOption.map
        (fun c => ast_func_aliases_summary c.ast)
      = some [("f", "g", 0, TRAIT_NONE, true)]
    ∧ (parse_func parse_fragment 10 100 (parse_ctx_of tokens_alias_variadic)).toOption.map
        (fun c => ast_func_aliases_summary c.ast)
      = some [("f", "g", 0, AST_FUNC_VARIADIC, false)] := by
  obtain ⟨⟨ctx2, types, arity, traits, mfn⟩, h⟩ := except_ok_of_isSome
    (parse_func_alias_args parse_fragment 10 { parse_ctx_of tokens_alias_vararg with i := 3 })
    (by decide!)
  have ha : arity = 2 := except_ok_fact _ _ (fun r => r.2.2.1) _ h (by decide!)
  have ht : traits = AST_FUNC_VARARG := except_ok_fact _ _ (fun r => r.2.2.2.1) _ h (by decide!)
  have hm : mfn = false := except_ok_fact _ _ (fun r => r.2.2.2.2) _ h (by decide!)
  have hi : ctx2.i = 10 := except_ok_fact _ _ (fun r => r.1.i) _ h (by decide!)
  have hlen := (parse_func_alias_args_stored parse_fragment 10
    { parse_ctx_of tokens_alias_vararg with i := 3 } ctx2 types arity traits mfn h).2.1
  subst ha ht hm
  exact ⟨⟨ctx2, types, h, hlen.symm, hi⟩, by decide!, by decide!, by decide!, by decide!⟩

/-- The function list that `parse_func` leaves for a declaration that is no
alias, on `SUCCESS` and on `FAILURE`: the one given when the limit is reached, the
head is refused or a foreign function is declared in the domain of a composite;
in every other case the one given and one function more. The aliases are as they
were. -/
theorem parse_func_left_funcs (ext : parse_externals_t) (fuel MAX_FUNCID : Nat)
    (ctx : parse_ctx_t)
    (halias : (ctx.token_id (ctx.i + 1) == TOKEN_ALIAS && ctx.token_id ctx.i == TOKEN_FUNC)
      = false) :
    (parse_func_left (parse_func ext fuel MAX_FUNCID ctx)).ast.func_aliases
      = ctx.ast.func_aliases
    ∧ (((∃ ctxH func_head, parse_func_head ext ctx = .ok (ctxH, func_head)
          ∧ (func_head.is_foreign && ctxH.composite_association.isSome) = false)
        ∧ ctx.ast.funcs.length < MAX_FUNCID) →
      ∃ g, (parse_func_left (parse_func ext fuel MAX_FUNCID ctx)).ast.funcs
        = ctx.ast.funcs ++ [g])
    ∧ (¬ ((∃ ctxH func_head, parse_func_head ext ctx = .ok (ctxH, func_head)
          ∧ (func_head.is_foreign && ctxH.composite_association.isSome) = false)
        ∧ ctx.ast.funcs.length < MAX_FUNCID) →
      (parse_func_left (parse_func ext fuel MAX_FUNCID ctx)).ast.funcs = ctx.ast.funcs
      ∧ ∃ e c, parse_func ext fuel MAX_FUNCID ctx = .error (e, c)) := by
  have hpf : parse_func ext fuel MAX_FUNCID ctx
      = match parse_func_signature ext fuel MAX_FUNCID ctx with
        | .error e => .error e
        | .ok s => parse_func_finish ext s := by
    unfold parse_func
    rw [halias]
    rfl
  cases hsig : parse_func_signature ext fuel MAX_FUNCID ctx with
  | error p =>
    obtain ⟨e, c⟩ := p
    have hr : parse_func ext fuel MAX_FUNCID ctx = .error (e, c) := by
      rw [hpf, hsig]
    rw [hr]
    rcases parse_func_signature_error ext fuel MAX_FUNCID ctx c e hsig with
      ⟨hmax, -, rfl⟩ | ⟨-, hH, rfl⟩ | ⟨-, head, hH, hdom, -, hast⟩
      | ⟨hlim, ctxH, head, g, hH, hdom, hast⟩
    · refine ⟨rfl, ?_, fun _ => ⟨rfl, e, _, rfl⟩⟩
      rintro ⟨-, hlim⟩
      omega
    · refine ⟨rfl, ?_, fun _ => ⟨rfl, e, _, rfl⟩⟩
      rintro ⟨⟨ctxH, head, hH2, -⟩, -⟩
      rw [hH] at hH2
      cases hH2
    · refine ⟨by show c.ast.func_aliases = _; rw [hast], ?_,
        fun _ => ⟨by show c.ast.funcs = _; rw [hast], e, _, rfl⟩⟩
      rintro ⟨⟨ctxH, head2, hH2, hdom2⟩, -⟩
      rw [hH] at hH2
      simp only [Except.ok.injEq, Prod.mk.injEq] at hH2
      obtain ⟨rfl, rfl⟩ := hH2
      rw [hdom] at hdom2
      cases hdom2
    · refine ⟨by show c.ast.func_aliases = _; rw [hast],
        fun _ => ⟨g, by show c.ast.funcs = _; rw [hast]⟩, ?_⟩
      intro hnot
      exact absurd ⟨⟨ctxH, head, hH, hdom⟩, hlim⟩ hnot
  | ok s =>
    have hr : parse_func ext fuel MAX_FUNCID ctx = parse_func_finish ext s := by
      rw [hpf, hsig]
    rw [hr]
    obtain ⟨hlim, hid, hast⟩ := parse_func_signature_ok ext fuel MAX_FUNCID ctx s hsig
    have hs : s.ctx.ast.funcs[s.ast_func_id]? = some s.func := by
      rw [hast, hid]
      simp
    obtain ⟨f, -, hfuncs, haliases⟩ := parse_func_finish_left_funcs ext s hs
    refine ⟨by rw [haliases, hast], fun _ => ⟨f, ?_⟩, ?_⟩
    · rw [hfuncs, hast, hid, list_set_append_last]
    · intro hnot
      exfalso
      apply hnot
      refine ⟨?_, hlim⟩
      unfold parse_func_signature at hsig
      rw [if_neg (by omega)] at hsig
      split at hsig
      · cases hsig
      · rename_i ctxH head hH
        split at hsig
        · cases hsig
        · rename_i hdom
          exact ⟨ctxH, head, hH, by simpa using hdom⟩

/-- The alias list that `parse_func` leaves for an alias declaration: the one
given on `FAILURE`, the one given and one alias more on `SUCCESS`, which needs the
limit not to be reached. The functions are as they were. -/
theorem parse_func_left_aliases (ext : parse_externals_t) (fuel MAX_FUNCID : Nat)
    (ctx : parse_ctx_t)
    (halias : (ctx.token_id (ctx.i + 1) == TOKEN_ALIAS && ctx.token_id ctx.i == TOKEN_FUNC)
      = true) :
    (parse_func_left (parse_func ext fuel MAX_FUNCID ctx)).ast.funcs = ctx.ast.funcs
    ∧ ((∃ e c, parse_func ext fuel MAX_FUNCID ctx = .error (e, c) ∧ c.ast = ctx.ast)
      ∨ (ctx.ast.func_aliases.length < MAX_FUNCID
        ∧ ∃ c a, parse_func ext fuel MAX_FUNCID ctx = .ok c
          ∧ c.ast = { ctx.ast with func_aliases := ctx.ast.func_aliases ++ [a] })) := by
  have hpf : parse_func ext fuel MAX_FUNCID ctx = parse_func_alias ext fuel MAX_FUNCID ctx := by
    unfold parse_func
    rw [halias]
    rfl
  rw [hpf]
  cases h : parse_func_alias ext fuel MAX_FUNCID ctx with
  | error p =>
    obtain ⟨e, c⟩ := p
    have hast := parse_func_alias_error ext fuel MAX_FUNCID ctx c e h
    exact ⟨by show c.ast.funcs = _; rw [hast], Or.inl ⟨e, c, rfl, hast⟩⟩
  | ok c =>
    obtain ⟨hlim, -, name, ctxA, ctxB, to_name, types, arity, traits, mfn, -, -, -, -, hc⟩ :=
      parse_func_alias_ok ext fuel MAX_FUNCID ctx c h
    refine ⟨by show c.ast.funcs = _; rw [hc], Or.inr ⟨hlim, c,
      { from_name := ext.parse_prepend_namespace ctxA name
        to_name := to_name
        arg_types := types
        arity := arity
        required_traits := traits
        source := ctx.source_at ctx.i
        match_first_of_name := mfn }, rfl, ?_⟩⟩
    rw [hc]

/-! ## The limit on the number of functions -/

/-- C28: `parse_func` keeps the number of functions and the number of aliases
within `MAX_FUNCID`: when both are at most `MAX_FUNCID` before the call they are
so after it, on `SUCCESS` and on `FAILURE`. A function declaration met when the
number of functions has reached `MAX_FUNCID` fails with the context it was given,
no token being consumed and the AST being as it was; an alias declaration met
when the number of aliases has reached `MAX_FUNCID` fails, and the AST is as it
was. -/
theorem parse_func_max_funcid (ext : parse_externals_t) (fuel MAX_FUNCID : Nat)
    (ctx : parse_ctx_t) :
    (ctx.ast.funcs.length ≤ MAX_FUNCID → ctx.ast.func_aliases.length ≤ MAX_FUNCID →
      (parse_func_left (parse_func ext fuel MAX_FUNCID ctx)).ast.funcs.length ≤ MAX_FUNCID
      ∧ (parse_func_left (parse_func ext fuel MAX_FUNCID ctx)).ast.func_aliases.length
        ≤ MAX_FUNCID)
    ∧ ((ctx.token_id (ctx.i + 1) == TOKEN_ALIAS && ctx.token_id ctx.i == TOKEN_FUNC) = false →
      MAX_FUNCID ≤ ctx.ast.funcs.length →
      parse_func ext fuel MAX_FUNCID ctx
        = .error ("Maximum number of AST functions reached\n", ctx))
    ∧ ((ctx.token_id (ctx.i + 1) == TOKEN_ALIAS && ctx.token_id ctx.i == TOKEN_FUNC) = true →
      MAX_FUNCID ≤ ctx.ast.func_aliases.length →
      ∃ e c, parse_func ext fuel MAX_FUNCID ctx = .error (e, c) ∧ c.ast = ctx.ast) := by
  refine ⟨?_, ?_, ?_⟩
  · intro hfuncs haliases
    cases halias : (ctx.token_id (ctx.i + 1) == TOKEN_ALIAS && ctx.token_id ctx.i == TOKEN_FUNC)
    · obtain ⟨h1, h2, h3⟩ := parse_func_left_funcs ext fuel MAX_FUNCID ctx halias
      rw [h1]
      refine ⟨?_, haliases⟩
      by_cases hc : (∃ ctxH func_head, parse_func_head ext ctx = .ok (ctxH, func_head)
          ∧ (func_head.is_foreign && ctxH.composite_association.isSome) = false)
        ∧ ctx.ast.funcs.length < MAX_FUNCID
      · obtain ⟨g, hg⟩ := h2 hc
        rw [hg]
        simp only [List.length_append, List.length_singleton]
        omega
      · rw [(h3 hc).1]
        exact hfuncs
    · obtain ⟨h1, h2⟩ := parse_func_left_aliases ext fuel MAX_FUNCID ctx halias
      rw [h1]
      refine ⟨hfuncs, ?_⟩
      rcases h2 with ⟨e, c, hr, hast⟩ | ⟨hlim, c, a, hr, hast⟩
      · rw [hr]
        show c.ast.func_aliases.length ≤ _
        rw [hast]
        exact haliases
      · rw [hr]
        show c.ast.func_aliases.length ≤ _
        rw [hast]
        simp only [List.length_append, List.length_singleton]
        omega
  · intro halias hmax
    unfold parse_func
    rw [halias]
    simp only [Bool.false_eq_true, if_false]
    unfold parse_func_signature
    rw [if_pos hmax]
  · intro halias hmax
    obtain ⟨-, h2⟩ := parse_func_left_aliases ext fuel MAX_FUNCID ctx halias
    rcases h2 with ⟨e, c, hr, hast⟩ | ⟨hlim, -⟩
    · exact ⟨e, c, hr, hast⟩
    · omega

/-- The witness of C28, with the limit 1: `func f() void {}` is accepted into an
empty AST and leaves one function; met with one function in the AST it is refused
at once; `func alias f => g` met with one alias in the AST is parsed and then
refused, the alias list being as it was. -/
theorem parse_func_max_funcid_witness :
    (parse_func_left (parse_func parse_fragment 10 1
        (parse_ctx_with (tokens_method "f" "void") [] []))).ast.funcs.length ≤ 1
    ∧ (parse_func parse_fragment 10 1
        (parse_ctx_with (tokens_method "f" "void") [] [])).toOption.map
          (fun c => c.ast.funcs.length) = some 1
    ∧ parse_func parse_fragment 10 1
        (parse_ctx_with (tokens_method "f" "void") [func_single_line] [])
      = .error ("Maximum number of AST functions reached\n",
          parse_ctx_with (tokens_method "f" "void") [func_single_line] [])
    ∧ (∃ c, parse_func parse_fragment 10 1
          (parse_ctx_with tokens_alias_first [] [alias_example])
        = .error ("Maximum number of AST function aliases reached\n", c)
      ∧ c.ast.func_aliases.length = 1) := by
  have T1 := (parse_func_max_funcid parse_fragment 10 1
    (parse_ctx_with (tokens_method "f" "void") [] [])).1 (by decide) (by decide)
  have T2 := (parse_func_max_funcid parse_fragment 10 1
    (parse_ctx_with (tokens_method "f" "void") [func_single_line] [])).2.1 (by decide)
    (by decide)
  obtain ⟨e, c, hr, hast⟩ := (parse_func_max_funcid parse_fragment 10 1
    (parse_ctx_with tokens_alias_first [] [alias_example])).2.2 (by decide) (by decide)
  have he : e = "Maximum number of AST function aliases reached\n" := by
    have hd : parse_func_diagnostic (parse_func parse_fragment 10 1
        (parse_ctx_with tokens_alias_first [] [alias_example]))
        = some "Maximum number of AST function aliases reached\n" := by decide!
    rw [hr] at hd
    simpa [parse_func_diagnostic] using hd
  subst he
  exact ⟨T1.1, by decide!, T2, c, hr, by rw [hast]; rfl⟩

/-! ## What a failure leaves in the function list -/

theorem except_error_of_isNone {ε α : Type} (r : Except ε α) (h : r.toOption.isNone = true) :
    ∃ e, r = .error e := by
  cases r with
  | error e => exact ⟨e, rfl⟩
  | ok a => cases h

/-- C30 (amended): when `parse_func` returns `FAILURE` for a function
declaration, the function list is as it was before the call only when the
failure is one of the first three: the limit `MAX_FUNCID` is reached, the head is
refused, or a foreign function is declared in the domain of a composite. Once the
head is accepted, with the limit not reached and no foreign function in a
domain, every `FAILURE` (of the argument list, of the return type, of a prototype
check, of a polymorphic foreign function, of the body) leaves the function list
one longer than it was: the function under construction is its new last
element. The aliases are as they were. -/
theorem parse_func_failure_commit (ext : parse_externals_t) (fuel MAX_FUNCID : Nat)
    (ctx c : parse_ctx_t) (e : String)
    (halias : (ctx.token_id (ctx.i + 1) == TOKEN_ALIAS && ctx.token_id ctx.i == TOKEN_FUNC)
      = false)
    (h : parse_func ext fuel MAX_FUNCID ctx = .error (e, c)) :
    c.ast.func_aliases = ctx.ast.func_aliases
    ∧ (((∃ ctxH func_head, parse_func_head ext ctx = .ok (ctxH, func_head)
          ∧ (func_head.is_foreign && ctxH.composite_association.isSome) = false)
        ∧ ctx.ast.funcs.length < MAX_FUNCID) →
      (∃ g, c.ast.funcs = ctx.ast.funcs ++ [g])
      ∧ c.ast.funcs.length = ctx.ast.funcs.length + 1)
    ∧ (¬ ((∃ ctxH func_head, parse_func_head ext ctx = .ok (ctxH, func_head)
          ∧ (func_head.is_foreign && ctxH.composite_association.isSome) = false)
        ∧ ctx.ast.funcs.length < MAX_FUNCID) →
      c.ast.funcs = ctx.ast.funcs) := by
  obtain ⟨h1, h2, h3⟩ := parse_func_left_funcs ext fuel MAX_FUNCID ctx halias
  rw [h] at h1 h2 h3
  refine ⟨h1, ?_, fun hc => (h3 hc).1⟩
  intro hc
  obtain ⟨g, hg⟩ := h2 hc
  have hg2 : c.ast.funcs = ctx.ast.funcs ++ [g] := hg
  exact ⟨⟨g, hg2⟩, by rw [hg2]; simp⟩

/-- The witness of C30: `func f(a)` fails in its argument list, and `func 7` in
its head. -/
theorem parse_func_failure_commit_witness :
    (∃ e c, parse_func parse_fragment 10 100 (parse_ctx_of tokens_argument_without_type)
        = .error (e, c)
      ∧ c.ast.funcs.length = 1)
    ∧ (∃ e c, parse_func parse_fragment 10 100 (parse_ctx_of tokens_head_without_name)
        = .error (e, c)
      ∧ c.ast.funcs = []) := by
  obtain ⟨⟨e, c⟩, h⟩ := except_error_of_isNone
    (parse_func parse_fragment 10 100 (parse_ctx_of tokens_argument_without_type)) (by decide!)
  obtain ⟨⟨ctxH, head⟩, hH⟩ := except_ok_of_isSome
    (parse_func_head parse_fragment (parse_ctx_of tokens_argument_without_type)) (by decide!)
  have hdom : (head.is_foreign && ctxH.composite_association.isSome) = false :=
    except_ok_fact _ _ (fun r => r.2.is_foreign && r.1.composite_association.isSome) _ hH
      (by decide!)
  have T := ((parse_func_failure_commit parse_fragment 10 100
    (parse_ctx_of tokens_argument_without_type) c e (by decide) h).2.1
    ⟨⟨ctxH, head, hH, hdom⟩, by decide⟩).2
  obtain ⟨⟨e2, c2⟩, h2⟩ := except_error_of_isNone
    (parse_func parse_fragment 10 100 (parse_ctx_of tokens_head_without_name)) (by decide!)
  have T2 := (parse_func_failure_commit parse_fragment 10 100
    (parse_ctx_of tokens_head_without_name) c2 e2 (by decide) h2).2.2
    (by
      rintro ⟨⟨ctxH2, head2, hH2, -⟩, -⟩
      have hnone : (parse_func_head parse_fragment
          (parse_ctx_of tokens_head_without_name)).toOption.isNone = true := by decide!
      rw [hH2] at hnone
      cases hnone)
  exact ⟨⟨e, c, h, T⟩, e2, c2, h2, T2⟩

/-- C30, the counterexample: `func f(a)` is refused for its argument, which has
no type, and `func f() void { x` for its body, which is not closed; the function
list was empty before each call and holds the function `f` after it. -/
theorem parse_func_failure_leaves_function :
    (parse_ctx_of tokens_argument_without_type).ast.funcs.length = 0
    ∧ parse_func_diagnostic
        (parse_func parse_fragment 10 100 (parse_ctx_of tokens_argument_without_type))
      = some "Expected type"
    ∧ (parse_func_left (parse_func parse_fragment 10 100
        (parse_ctx_of tokens_argument_without_type))).ast.funcs.map (fun f => f.name) = ["f"]
    ∧ parse_func_diagnostic
        (parse_func parse_fragment 10 100 (parse_ctx_of tokens_body_not_closed))
      = some "Expected statement"
    ∧ (parse_func_left (parse_func parse_fragment 10 100
        (parse_ctx_of tokens_body_not_closed))).ast.funcs.map
          (fun f => (f.name, f.arity, ast_type_is_void f.return_type)) = [("f", 0, true)] := by
  decide!

/-! ## The arity markers of a function alias -/

theorem trait_or_none (t : trait_t) : TRAIT_NONE ||| t = t := by
  show (0 : Nat) ||| t = t
  exact Nat.zero_or t

/-- What a successful run of the loop of `parse_func_alias_args` has read, when
no marker had been read before: the types it adds, in order, and at most one
marker, the last item before the `)`. -/
theorem parse_func_alias_args_loop_listed (ext : parse_externals_t) :
    ∀ (fuel : Nat) (ctx ctx2 : parse_ctx_t) (types types2 : List ast_type_t)
      (arity arity2 : Nat) (traits traits2 : trait_t),
      traits.has AST_FUNC_VARARG = false → traits.has AST_FUNC_VARIADIC = false →
      parse_func_alias_args_loop ext fuel ctx types arity traits
        = .ok (ctx2, types2, arity2, traits2) →
      ∃ new marker, types2 = types ++ new ∧ arity2 = arity + new.length
        ∧ traits2 = traits ||| marker
        ∧ alias_args_listed ext ctx new marker ctx2 := by
  intro fuel
  induction fuel with
  | zero =>
    intro ctx ctx2 types types2 arity arity2 traits traits2 _ _ h
    unfold parse_func_alias_args_loop at h
    cases h
  | succ f ih =>
    intro ctx ctx2 types types2 arity arity2 traits traits2 hva hvd h
    have hzero : ∀ t : trait_t, t ||| TRAIT_NONE = t := fun t => Nat.or_zero t
    by_cases hclose : ctx.token_id ctx.i = TOKEN_CLOSE
    · obtain ⟨rfl, rfl, rfl, rfl⟩ := parse_func_alias_args_loop_close ext _ _ _ _ _ _ _ _ _
        hclose h
      exact ⟨[], TRAIT_NONE, by simp, by simp, (hzero _).symm, Or.inl ⟨hclose, rfl, rfl⟩⟩
    · unfold parse_func_alias_args_loop at h
      rw [if_neg (by simpa using hclose)] at h
      split at h
      · cases h
      · rename_i c hc
        simp only at h
        by_cases hell : c.token_id c.i = TOKEN_ELLIPSIS
        · rw [if_pos (by rw [hell]; rfl)] at h
          simp only at h
          split at h
          · cases h
          · rename_i c2 hc2
            have hv : (traits ||| AST_FUNC_VARARG).has AST_FUNC_VARARG = true :=
              trait_has_or_self _ _ (by decide)
            split at h
            · rw [if_pos (by simp [hv])] at h
              cases h
            · split at h
              · cases h
              · rename_i hnext hnc
                have hcl : c2.token_id c2.i = TOKEN_CLOSE := by simpa using hnc
                obtain ⟨rfl, rfl, rfl, rfl⟩ := parse_func_alias_args_loop_close ext _ _ _ _ _
                  _ _ _ _ hcl h
                exact ⟨[], AST_FUNC_VARARG, by simp, by simp, rfl,
                  Or.inr ⟨hclose, c, hc, Or.inl ⟨hell, rfl⟩, hc2, hcl⟩⟩
        · rw [if_neg (by simpa using hell)] at h
          by_cases hrange : c.token_id c.i = TOKEN_RANGE
          · rw [if_pos (by rw [hrange]; rfl)] at h
            simp only at h
            split at h
            · cases h
            · rename_i c2 hc2
              have hv : (traits ||| AST_FUNC_VARIADIC).has AST_FUNC_VARIADIC = true :=
                trait_has_or_self _ _ (by decide)
              split at h
              · rw [if_pos (by simp [hv])] at h
                cases h
              · split at h
                · cases h
                · rename_i hnext hnc
                  have hcl : c2.token_id c2.i = TOKEN_CLOSE := by simpa using hnc
                  obtain ⟨rfl, rfl, rfl, rfl⟩ := parse_func_alias_args_loop_close ext _ _ _ _
                    _ _ _ _ _ hcl h
                  exact ⟨[], AST_FUNC_VARIADIC, by simp, by simp, rfl,
                    Or.inr ⟨hclose, c, hc, Or.inr ⟨hrange, rfl⟩, hc2, hcl⟩⟩
          · rw [if_neg (by simpa using hrange)] at h
            cases hT : ext.parse_type c with
            | error e =>
              rw [hT] at h
              cases h
            | ok p =>
              obtain ⟨type, i⟩ := p
              rw [hT] at h
              simp only at h
              split at h
              · cases h
              · rename_i c2 hc2
                split at h
                · rename_i hnext
                  split at h
                  · cases h
                  · split at h
                    · cases h
                    · rename_i hnc
                      obtain ⟨new, marker, e1, e2, e3, hl⟩ := ih _ _ _ _ _ _ _ _ hva hvd h
                      refine ⟨type :: new, marker, by simp [e1], ?_, e3, hclose, c, i, c2, hc,
                        hell, hrange, hT, hc2, Or.inr ⟨by simpa using hnext, ?_, hl⟩⟩
                      · rw [e2]
                        simp
                        omega
                      · simpa using hnc
                · split at h
                  · cases h
                  · rename_i hnext hnc
                    have hcl : c2.token_id c2.i = TOKEN_CLOSE := by simpa using hnc
                    obtain ⟨rfl, rfl, rfl, rfl⟩ := parse_func_alias_args_loop_close ext _ _ _
                      _ _ _ _ _ _ hcl h
                    exact ⟨[type], TRAIT_NONE, rfl, rfl, (hzero _).symm, hclose, c, i, _, hc,
                      hell, hrange, hT, hc2, Or.inl ⟨hcl, rfl, rfl, rfl⟩⟩

/-- At any turn of the loop of `parse_func_alias_args`: when the item read is a
marker, whatever follows it, newlines skipped, must be the `)`. -/
theorem parse_func_alias_args_loop_after_marker (ext : parse_externals_t) (fuel : Nat)
    (ctx c : parse_ctx_t) (types : List ast_type_t) (arity : Nat) (traits : trait_t)
    (hclose : ctx.token_id ctx.i ≠ TOKEN_CLOSE)
    (hc : parse_ignore_newlines ctx "Expected argument type for function alias" = .ok c)
    (hm : c.token_id c.i = TOKEN_ELLIPSIS ∨ c.token_id c.i = TOKEN_RANGE) :
    (∀ e, parse_ignore_newlines { c with i := c.i + 1 }
          "Expected argument type for function alias" = .error e →
        parse_func_alias_args_loop ext (fuel + 1) ctx types arity traits = .error e)
    ∧ (∀ c2, parse_ignore_newlines { c with i := c.i + 1 }
          "Expected argument type for function alias" = .ok c2 →
        c2.token_id c2.i ≠ TOKEN_CLOSE →
        parse_func_alias_args_loop ext (fuel + 1) ctx types arity traits
          = .error "Expected ')' after variadic argument") := by
  have hva : ∀ t : trait_t, (t ||| AST_FUNC_VARARG).has AST_FUNC_VARARG = true :=
    fun t => trait_has_or_self _ _ (by decide)
  have hvd : ∀ t : trait_t, (t ||| AST_FUNC_VARIADIC).has AST_FUNC_VARIADIC = true :=
    fun t => trait_has_or_self _ _ (by decide)
  constructor
  · intro e he
    unfold parse_func_alias_args_loop
    rw [if_neg (by simpa using hclose), hc]
    simp only
    rcases hm with hm | hm
    · rw [if_pos (by rw [hm]; rfl)]
      simp only [he]
    · rw [if_neg (by rw [hm]; decide), if_pos (by rw [hm]; rfl)]
      simp only [he]
  · intro c2 hc2 hnot
    unfold parse_func_alias_args_loop
    rw [if_neg (by simpa using hclose), hc]
    simp only
    rcases hm with hm | hm
    · rw [if_pos (by rw [hm]; rfl)]
      simp only [hc2]
      by_cases hn : c2.token_id c2.i = TOKEN_NEXT
      · rw [if_pos (by rw [hn]; rfl), if_pos (by simp [hva])]
      · rw [if_neg (by simpa using hn), if_pos (by simpa using hnot)]
        simp [hva]
    · rw [if_neg (by rw [hm]; decide), if_pos (by rw [hm]; rfl)]
      simp only [hc2]
      by_cases hn : c2.token_id c2.i = TOKEN_NEXT
      · rw [if_pos (by rw [hn]; rfl), if_pos (by simp [hvd])]
      · rw [if_neg (by simpa using hn), if_pos (by simpa using hnot)]
        simp [hvd]

/-- At any turn of the loop of `parse_func_alias_args`: a `,` behind a type, with
the `)` directly behind it, is refused. -/
theorem parse_func_alias_args_loop_next_close (ext : parse_externals_t) (fuel : Nat)
    (ctx c c2 : parse_ctx_t) (t : ast_type_t) (i : Nat) (types : List ast_type_t) (arity : Nat)
    (traits : trait_t)
    (hclose : ctx.token_id ctx.i ≠ TOKEN_CLOSE)
    (hc : parse_ignore_newlines ctx "Expected argument type for function alias" = .ok c)
    (hell : c.token_id c.i ≠ TOKEN_ELLIPSIS) (hrange : c.token_id c.i ≠ TOKEN_RANGE)
    (hT : ext.parse_type c = .ok (t, i))
    (hc2 : parse_ignore_newlines { c with i := i }
      "Expected argument type for function alias" = .ok c2)
    (hnext : c2.token_id c2.i = TOKEN_NEXT)
    (hcl : c2.token_id (c2.i + 1) = TOKEN_CLOSE) :
    parse_func_alias_args_loop ext (fuel + 1) ctx types arity traits
      = .error (if traits.has AST_FUNC_VARARG || traits.has AST_FUNC_VARIADIC then
          "Expected ')' after variadic argument"
        else "Expected type after ',' in argument types") := by
  unfold parse_func_alias_args_loop
  rw [if_neg (by simpa using hclose), hc]
  simp only
  rw [if_neg (by simpa using hell), if_neg (by simpa using hrange), hT]
  simp only [hc2]
  rw [if_pos (by rw [hnext]; rfl)]
  by_cases hv : (traits.has AST_FUNC_VARARG || traits.has AST_FUNC_VARIADIC) = true
  · rw [if_pos hv, if_pos hv]
  · rw [if_neg hv, if_neg hv]
    rw [if_pos (by show (c2.token_id (c2.i + 1) == TOKEN_CLOSE) = true; rw [hcl]; rfl)]

/-- At any turn of the loop of `parse_func_alias_args`: behind a type and a `,`
that no `)` follows, the loop goes on with the type listed. -/
theorem parse_func_alias_args_loop_next (ext : parse_externals_t) (fuel : Nat)
    (ctx c c2 : parse_ctx_t) (t : ast_type_t) (i : Nat) (types : List ast_type_t) (arity : Nat)
    (traits : trait_t)
    (hclose : ctx.token_id ctx.i ≠ TOKEN_CLOSE)
    (hc : parse_ignore_newlines ctx "Expected argument type for function alias" = .ok c)
    (hell : c.token_id c.i ≠ TOKEN_ELLIPSIS) (hrange : c.token_id c.i ≠ TOKEN_RANGE)
    (hT : ext.parse_type c = .ok (t, i))
    (hc2 : parse_ignore_newlines { c with i := i }
      "Expected argument type for function alias" = .ok c2)
    (hnext : c2.token_id c2.i = TOKEN_NEXT)
    (hcl : c2.token_id (c2.i + 1) ≠ TOKEN_CLOSE)
    (hva : traits.has AST_FUNC_VARARG = false) (hvd : traits.has AST_FUNC_VARIADIC = false) :
    parse_func_alias_args_loop ext (fuel + 1) ctx types arity traits
      = parse_func_alias_args_loop ext fuel { c2 with i := c2.i + 1 } (types ++ [t])
          (arity + 1) traits := by
  conv => lhs; unfold parse_func_alias_args_loop
  rw [if_neg (by simpa using hclose), hc]
  simp only
  rw [if_neg (by simpa using hell), if_neg (by simpa using hrange), hT]
  simp only [hc2]
  rw [if_pos (by rw [hnext]; rfl), if_neg (by simp [hva, hvd])]
  rw [if_neg (by show ¬ (c2.token_id (c2.i + 1) == TOKEN_CLOSE) = true; simpa using hcl)]

/-- A failure of the loop is the failure of `parse_func_alias_args`. -/
theorem parse_func_alias_args_of_loop_error (ext : parse_externals_t) (fuel : Nat)
    (ctx : parse_ctx_t) (e : String) (hopen : ctx.token_id ctx.i = TOKEN_OPEN)
    (h : parse_func_alias_args_loop ext fuel { ctx with i := ctx.i + 1 } [] 0 TRAIT_NONE
      = .error e) :
    parse_func_alias_args ext fuel ctx = .error e := by
  unfold parse_func_alias_args
  simp only
  rw [if_neg (by rw [hopen]; decide)]
  have hE : parse_eat ctx TOKEN_OPEN "Expected '(' after function alias name"
      = .ok { ctx with i := ctx.i + 1 } := by
    unfold parse_eat parse_ctx_peek
    rw [if_neg (by rw [hopen]; decide)]
  rw [hE]
  simp only [h]

theorem alias_args_listed_traits (ext : parse_externals_t) :
    ∀ (types : List ast_type_t) (ctx : parse_ctx_t) (traits : trait_t) (ctxEnd : parse_ctx_t),
      alias_args_listed ext ctx types traits ctxEnd →
      traits = TRAIT_NONE ∨ traits = AST_FUNC_VARARG ∨ traits = AST_FUNC_VARIADIC := by
  intro types
  induction types with
  | nil =>
    intro ctx traits ctxEnd h
    unfold alias_args_listed at h
    rcases h with ⟨-, h, -⟩ | ⟨-, c, -, ⟨-, h⟩ | ⟨-, h⟩, -⟩
    · exact Or.inl h
    · exact Or.inr (Or.inl h)
    · exact Or.inr (Or.inr h)
  | cons t ts ih =>
    intro ctx traits ctxEnd h
    unfold alias_args_listed at h
    obtain ⟨-, c, i, c2, -, -, -, -, -, ⟨-, -, h, -⟩ | ⟨-, -, h⟩⟩ := h
    · exact Or.inl h
    · exact ih _ _ _ h

/-- What `parse_func_alias_args` has read when it returns `SUCCESS` on a
parenthesised list. -/
theorem parse_func_alias_args_listed (ext : parse_externals_t) (fuel : Nat)
    (ctx ctx2 : parse_ctx_t) (types : List ast_type_t) (arity : Nat) (traits : trait_t)
    (mfn : Bool)
    (h : parse_func_alias_args ext fuel ctx = .ok (ctx2, types, arity, traits, mfn))
    (hopen : ctx.token_id ctx.i = TOKEN_OPEN) :
    mfn = false ∧ arity = types.length
    ∧ alias_args_listed ext { ctx with i := ctx.i + 1 } types traits
        { ctx with i := ctx2.i - 1 } := by
  unfold parse_func_alias_args at h
  simp only at h
  rw [if_neg (by rw [hopen]; decide)] at h
  split at h
  · cases h
  · rename_i c1 hc1
    have hc1eq := parse_eat_ok _ _ _ _ hc1
    split at h
    · cases h
    · rename_i c3 types3 arity3 traits3 hloop
      split at h
      · cases h
      · rename_i c4 hc4
        have hc4eq := parse_eat_ok _ _ _ _ hc4
        simp only [Except.ok.injEq, Prod.mk.injEq] at h
        obtain ⟨rfl, rfl, rfl, rfl, rfl⟩ := h
        obtain ⟨new, marker, e1, e2, e3, hl⟩ := parse_func_alias_args_loop_listed ext _ _ _ _
          _ _ _ _ _ (by decide) (by decide) hloop
        obtain ⟨-, r2, -, -⟩ := parse_func_alias_args_loop_ok ext _ _ _ _ _ _ _ _ _ hloop
        have hc3 : ({ ctx with i := c4.i - 1 } : parse_ctx_t) = c3 := by
          rw [hc4eq]
          show ({ ctx with i := c3.i + 1 - 1 } : parse_ctx_t) = c3
          rw [Nat.add_sub_cancel]
          conv => rhs; rw [r2, hc1eq]
        rw [List.nil_append] at e1
        rw [trait_or_none] at e3
        rw [hc3, e1, e3, ← hc1eq]
        refine ⟨rfl, ?_, hl⟩
        rw [e2]
        simp

/-- C31: when `parse_func_alias_args` returns `SUCCESS` on a parenthesised list,
the list is a sequence of types followed by at most one arity marker, which is the
last item before the `)`, newlines apart: the traits required are none, or
`AST_FUNC_VARARG` alone, or `AST_FUNC_VARIADIC` alone, never both. At any turn of
the loop, whatever was listed before: a marker that anything but the `)` follows,
newlines skipped, be it a `,` or another token, makes the loop fail, with
"Expected ')' after variadic argument" when a token is there; a `,` with the `)`
directly behind it makes the loop fail; behind a type and a `,` that no `)`
follows the loop goes on; and a failure of the loop is the failure of
`parse_func_alias_args`. -/
theorem parse_func_alias_args_marker (ext : parse_externals_t) (fuel : Nat)
    (ctx ctx2 : parse_ctx_t) (types : List ast_type_t) (arity : Nat) (traits : trait_t)
    (mfn : Bool)
    (h : parse_func_alias_args ext fuel ctx = .ok (ctx2, types, arity, traits, mfn))
    (hopen : ctx.token_id ctx.i = TOKEN_OPEN) :
    alias_args_listed ext { ctx with i := ctx.i + 1 } types traits { ctx with i := ctx2.i - 1 }
    ∧ (traits = TRAIT_NONE ∨ traits = AST_FUNC_VARARG ∨ traits = AST_FUNC_VARIADIC)
    ∧ ¬ (traits.has AST_FUNC_VARARG = true ∧ traits.has AST_FUNC_VARIADIC = true)
    ∧ (∀ (fuel0 : Nat) (c0 c : parse_ctx_t) (types0 : List ast_type_t) (arity0 : Nat)
        (traits0 : trait_t),
        c0.token_id c0.i ≠ TOKEN_CLOSE →
        parse_ignore_newlines c0 "Expected argument type for function alias" = .ok c →
        c.token_id c.i = TOKEN_ELLIPSIS ∨ c.token_id c.i = TOKEN_RANGE →
        (∀ e, parse_ignore_newlines { c with i := c.i + 1 }
              "Expected argument type for function alias" = .error e →
            parse_func_alias_args_loop ext (fuel0 + 1) c0 types0 arity0 traits0 = .error e)
        ∧ (∀ c2, parse_ignore_newlines { c with i := c.i + 1 }
              "Expected argument type for function alias" = .ok c2 →
            c2.token_id c2.i ≠ TOKEN_CLOSE →
            parse_func_alias_args_loop ext (fuel0 + 1) c0 types0 arity0 traits0
              = .error "Expected ')' after variadic argument"))
    ∧ (∀ (fuel0 : Nat) (c0 c c2 : parse_ctx_t) (t : ast_type_t) (i : Nat)
        (types0 : List ast_type_t) (arity0 : Nat) (traits0 : trait_t),
        c0.token_id c0.i ≠ TOKEN_CLOSE →
        parse_ignore_newlines c0 "Expected argument type for function alias" = .ok c →
        c.token_id c.i ≠ TOKEN_ELLIPSIS → c.token_id c.i ≠ TOKEN_RANGE →
        ext.parse_type c = .ok (t, i) →
        parse_ignore_newlines { c with i := i } "Expected argument type for function alias"
          = .ok c2 →
        c2.token_id c2.i = TOKEN_NEXT →
        (c2.token_id (c2.i + 1) = TOKEN_CLOSE →
          parse_func_alias_args_loop ext (fuel0 + 1) c0 types0 arity0 traits0
            = .error (if traits0.has AST_FUNC_VARARG || traits0.has AST_FUNC_VARIADIC then
                "Expected ')' after variadic argument"
              else "Expected type after ',' in argument types"))
        ∧ (c2.token_id (c2.i + 1) ≠ TOKEN_CLOSE →
          traits0.has AST_FUNC_VARARG = false → traits0.has AST_FUNC_VARIADIC = false →
          parse_func_alias_args_loop ext (fuel0 + 1) c0 types0 arity0 traits0
            = parse_func_alias_args_loop ext fuel0 { c2 with i := c2.i + 1 } (types0 ++ [t])
                (arity0 + 1) traits0))
    ∧ (∀ (fuel0 : Nat) (ctx0 : parse_ctx_t) (e : String),
        ctx0.token_id ctx0.i = TOKEN_OPEN →
        parse_func_alias_args_loop ext fuel0 { ctx0 with i := ctx0.i + 1 } [] 0 TRAIT_NONE
          = .error e →
        parse_func_alias_args ext fuel0 ctx0 = .error e) := by
  obtain ⟨-, -, hl⟩ := parse_func_alias_args_listed ext fuel ctx ctx2 types arity traits mfn h
    hopen
  have ht := alias_args_listed_traits ext _ _ _ _ hl
  refine ⟨hl, ht, ?_, ?_, ?_, ?_⟩
  · rcases ht with ht | ht | ht <;> rw [ht] <;> decide
  · intro fuel0 c0 c types0 arity0 traits0 hclose hc hm
    exact parse_func_alias_args_loop_after_marker ext fuel0 c0 c types0 arity0 traits0 hclose
      hc hm
  · intro fuel0 c0 c c2 t i types0 arity0 traits0 hclose hc hell hrange hT hc2 hnext
    exact ⟨fun hcl => parse_func_alias_args_loop_next_close ext fuel0 c0 c c2 t i types0 arity0
        traits0 hclose hc hell hrange hT hc2 hnext hcl,
      fun hcl hva hvd => parse_func_alias_args_loop_next ext fuel0 c0 c c2 t i types0 arity0
        traits0 hclose hc hell hrange hT hc2 hnext hcl hva hvd⟩
  · intro fuel0 ctx0 e hopen0 hE
    exact parse_func_alias_args_of_loop_error ext fuel0 ctx0 e hopen0 hE

/-- The witness of C31: `(int, long, ...)` is accepted with `AST_FUNC_VARARG`
alone; `func alias f(..., int) => g` and `func alias f(int, ... ..) => g` fail with
"Expected ')' after variadic argument", and `func alias f(int, long,) => g` with
"Expected type after ',' in argument types". -/
theorem parse_func_alias_args_marker_witness :
    (∃ ctx2 types,
      parse_func_alias_args parse_fragment 10 { parse_ctx_of tokens_alias_vararg with i := 3 }
        = .ok (ctx2, types, 2, AST_FUNC_VARARG, false)
      ∧ ¬ (AST_FUNC_VARARG.has AST_FUNC_VARARG = true
          ∧ AST_FUNC_VARARG.has AST_FUNC_VARIADIC = true))
    ∧ parse_func_diagnostic
        (parse_func parse_fragment 10 100 (parse_ctx_of tokens_alias_marker_next))
      = some "Expected ')' after variadic argument"
    ∧ parse_func_diagnostic
        (parse_func parse_fragment 10 100 (parse_ctx_of tokens_alias_two_markers))
      = some "Expected ')' after variadic argument"
    ∧ parse_func_diagnostic
        (parse_func parse_fragment 10 100 (parse_ctx_of tokens_alias_next_close))
      = some "Expected type after ',' in argument types" := by
  obtain ⟨⟨ctx2, types, arity, traits, mfn⟩, h⟩ := except_ok_of_isSome
    (parse_func_alias_args parse_fragment 10 { parse_ctx_of tokens_alias_vararg with i := 3 })
    (by decide!)
  have ha : arity = 2 := except_ok_fact _ _ (fun r => r.2.2.1) _ h (by decide!)
  have ht : traits = AST_FUNC_VARARG := except_ok_fact _ _ (fun r => r.2.2.2.1) _ h (by decide!)
  have hm : mfn = false := except_ok_fact _ _ (fun r => r.2.2.2.2) _ h (by decide!)
  have hboth := (parse_func_alias_args_marker parse_fragment 10
    { parse_ctx_of tokens_alias_vararg with i := 3 } ctx2 types arity traits mfn h
    (by decide)).2.2.1
  subst ha ht hm
  exact ⟨⟨ctx2, types, h, hboth⟩, by decide!, by decide!, by decide!⟩

/-! ## The polycount collapse -/

theorem getElem?_collapse (types : List (Option ast_type_t)) (n j : Nat) :
    (parse_collapse_polycount_var_fixed_arrays types n)[j]?
      = if j < n then (types[j]?).map (Option.map parse_collapse_polycount_type)
        else types[j]? := by
  unfold parse_collapse_polycount_var_fixed_arrays
  by_cases hj : j < n
  · rw [if_pos hj]
    by_cases hlen : j < types.length
    · rw [List.getElem?_append_left (by simp; omega)]
      simp [List.getElem?_take, hj]
    · rw [List.getElem?_eq_none (by simp; omega), List.getElem?_eq_none (by omega)]
      rfl
  · rw [if_neg hj]
    by_cases hlen : n ≤ types.length
    · rw [List.getElem?_append_right (by simp; omega)]
      simp only [List.length_map, List.length_take, List.getElem?_drop]
      congr 1
      omega
    · rw [List.getElem?_eq_none (by simp; omega), List.getElem?_eq_none (by omega)]

theorem parse_collapse_polycount_elem_idem (x : ast_elem_t) :
    parse_collapse_polycount_elem (parse_collapse_polycount_elem x)
      = parse_collapse_polycount_elem x := by
  cases x with
  | var_fixed_array length source =>
    cases length with
    | polycount n s1 => rfl
    | other i t s1 => rfl
  | _ => rfl

theorem parse_collapse_polycount_type_idem (t : ast_type_t) :
    parse_collapse_polycount_type (parse_collapse_polycount_type t)
      = parse_collapse_polycount_type t := by
  unfold parse_collapse_polycount_type
  simp only [List.map_map]
  congr 1
  apply List.map_congr_left
  intro x _
  exact parse_collapse_polycount_elem_idem x

/-- C32: `parse_collapse_polycount_var_fixed_arrays`, on every array of types and
every length: the array keeps its length, the slots from `length` on are left as
they are, and each of the first `length` types keeps its source and its number of
elements, its element at each position being the collapse of the element that was
there; the collapse of an element turns a var-fixed-array whose length is a
polycount expression into the polycount element of that expression's name and
source, and leaves every other element as it is (a var-fixed-array of another
length and an element with nested types included); and a second application
changes nothing. -/
theorem parse_collapse_polycount_var_fixed_arrays_idempotent
    (types : List (Option ast_type_t)) (length : Nat) :
    (parse_collapse_polycount_var_fixed_arrays types length).length = types.length
    ∧ (∀ j : Nat, (parse_collapse_polycount_var_fixed_arrays types length)[j]?
        = if j < length then (types[j]?).map (Option.map parse_collapse_polycount_type)
          else types[j]?)
    ∧ (∀ t : ast_type_t,
        (parse_collapse_polycount_type t).elements_length = t.elements_length
        ∧ (parse_collapse_polycount_type t).source = t.source
        ∧ ∀ k : Nat, (parse_collapse_polycount_type t).elements[k]?
            = (t.elements[k]?).map parse_collapse_polycount_elem)
    ∧ (∀ name source source2,
        parse_collapse_polycount_elem (.var_fixed_array (.polycount name source) source2)
          = .polycount name source)
    ∧ (∀ e, (∀ name source source2, e ≠ .var_fixed_array (.polycount name source) source2) →
        parse_collapse_polycount_elem e = e)
    ∧ parse_collapse_polycount_var_fixed_arrays
        (parse_collapse_polycount_var_fixed_arrays types length) length
      = parse_collapse_polycount_var_fixed_arrays types length := by
  refine ⟨?_, getElem?_collapse types length, ?_, fun _ _ _ => rfl, ?_, ?_⟩
  · unfold parse_collapse_polycount_var_fixed_arrays
    simp only [List.length_append, List.length_map, List.length_take, List.length_drop]
    omega
  · intro t
    refine ⟨?_, rfl, ?_⟩
    · unfold parse_collapse_polycount_type ast_type_t.elements_length
      simp
    · intro k
      unfold parse_collapse_polycount_type
      simp
  · intro e he
    cases e with
    | var_fixed_array length source =>
      cases length with
      | polycount n s1 => exact absurd rfl (he n s1 source)
      | other i t s1 => rfl
    | _ => rfl
  · apply List.ext_getElem?
    intro j
    rw [getElem?_collapse, getElem?_collapse]
    by_cases hj : j < length
    · rw [if_pos hj, if_pos hj]
      cases types[j]? with
      | none => rfl
      | some o =>
        cases o with
        | none => rfl
        | some t =>
          show some (some (parse_collapse_polycount_type (parse_collapse_polycount_type t))) = _
          rw [parse_collapse_polycount_type_idem]
          rfl
    · rw [if_neg hj, if_neg hj]

/-! ## The pending count at the end of the argument list -/

/-- The pending count behind `parse_func_argument_after_name`: it is 0, or the
argument is left pending, the count is one more, and the cursor is behind the `,`
of the argument, on a token that is no `)`. -/
theorem parse_func_argument_after_name_counter (ext : parse_externals_t)
    (ctxN ctx2 : parse_ctx_t) (funcN func2 : ast_func_t) (capacity backfill backfill2 : Nat)
    (is_solid : Bool)
    (h : parse_func_argument_after_name ext ctxN funcN capacity backfill
      = .ok (ctx2, func2, backfill2, is_solid)) :
    (backfill2 = 0 ∧ (is_solid = false → backfill = 0))
    ∨ (backfill2 = backfill + 1 ∧ is_solid = false
      ∧ func2.traits.has AST_FUNC_FOREIGN = false
      ∧ ctx2.token_id ctx2.i ≠ TOKEN_CLOSE
      ∧ 1 ≤ ctx2.i ∧ ctx2.token_id (ctx2.i - 1) = TOKEN_NEXT) := by
  unfold parse_func_argument_after_name at h
  split at h
  · split at h
    · cases h
    · split at h
      · cases h
      · rename_i hb
        simp only [Except.ok.injEq, Prod.mk.injEq] at h
        obtain ⟨-, -, h3, h4⟩ := h
        have hb0 : backfill = 0 := by simpa using hb
        exact Or.inl ⟨by omega, fun _ => hb0⟩
  · split at h
    · cases h
    · rename_i ctxA hA
      split at h
      · cases h
      · rename_i ctxB funcD hD
        split at h
        · cases h
        · rename_i ctxE hE
          split at h
          · rename_i hpend
            simp only at h
            split at h
            · cases h
            · rename_i hnc
              simp only [Except.ok.injEq, Prod.mk.injEq] at h
              obtain ⟨rfl, rfl, rfl, rfl⟩ := h
              simp only [Bool.and_eq_true, Bool.not_eq_true', beq_iff_eq] at hpend
              refine Or.inr ⟨rfl, rfl, hpend.1, ?_, ?_, ?_⟩
              · simpa using hnc
              · show 1 ≤ ctxE.i + 1
                omega
              · show ctxE.token_id (ctxE.i + 1 - 1) = TOKEN_NEXT
                rw [Nat.add_sub_cancel]
                exact hpend.2
          · split at h
            · obtain ⟨h1, h2, -⟩ := parse_func_argument_type_ok _ _ _ _ _ _ _ _ _ h
              exact Or.inl ⟨h1, fun hs => by rw [h2] at hs; cases hs⟩
            · obtain ⟨h1, h2, -⟩ := parse_func_argument_type_ok _ _ _ _ _ _ _ _ _ h
              exact Or.inl ⟨h1, fun hs => by rw [h2] at hs; cases hs⟩

/-- The pending count behind `parse_func_argument`: a solid argument and a marker
leave it 0, a marker being accepted only when it was 0; a pending argument makes
it one more, and then the cursor is behind the `,` of the argument, on a token
that is no `)`. -/
theorem parse_func_argument_counter (ext : parse_externals_t) (ctx ctx2 : parse_ctx_t)
    (func func2 : ast_func_t) (capacity backfill backfill2 : Nat) (is_solid : Bool)
    (h : parse_func_argument ext ctx func capacity backfill
      = .ok (ctx2, func2, backfill2, is_solid)) :
    (backfill2 = 0 ∧ (is_solid = false → backfill = 0))
    ∨ (backfill2 = backfill + 1 ∧ is_solid = false
      ∧ func2.traits.has AST_FUNC_FOREIGN = false
      ∧ ctx2.token_id ctx2.i ≠ TOKEN_CLOSE
      ∧ 1 ≤ ctx2.i ∧ ctx2.token_id (ctx2.i - 1) = TOKEN_NEXT) := by
  rcases parse_func_argument_ok ext ctx ctx2 func func2 capacity backfill backfill2 is_solid h
    with ⟨hb, hb2, -, -, -⟩ | ⟨ctxN, funcN, -, hA⟩
  · exact Or.inl ⟨hb2, fun _ => hb⟩
  · exact parse_func_argument_after_name_counter ext ctxN ctx2 funcN func2 capacity backfill
      backfill2 is_solid hA

/-- The loop of `parse_func_arguments`, entered with no argument pending or on a
token that is no `)`, leaves no argument pending when it ends on the `)`. -/
theorem parse_func_arguments_loop_counter (ext : parse_externals_t) :
    ∀ (fuel : Nat) (ctx ctxF : parse_ctx_t) (func funcF : ast_func_t)
      (capacity backfill backfillF : Nat),
      backfill = 0 ∨ ctx.token_id ctx.i ≠ TOKEN_CLOSE →
      parse_func_arguments_loop ext fuel ctx func capacity backfill
        = .ok (ctxF, funcF, backfillF) →
      backfillF = 0 ∧ ctxF.token_id ctxF.i = TOKEN_CLOSE := by
  intro fuel
  induction fuel with
  | zero =>
    intro ctx ctxF func funcF capacity backfill backfillF _ h
    unfold parse_func_arguments_loop at h
    cases h
  | succ f ih =>
    intro ctx ctxF func funcF capacity backfill backfillF hinv h
    unfold parse_func_arguments_loop at h
    split at h
    · rename_i hclose
      have hcl : ctx.token_id ctx.i = TOKEN_CLOSE := by simpa using hclose
      simp only [Except.ok.injEq, Prod.mk.injEq] at h
      obtain ⟨rfl, rfl, rfl⟩ := h
      rcases hinv with hb | hn
      · exact ⟨hb, hcl⟩
      · exact absurd hcl hn
    · split at h
      · cases h
      · rename_i ctxA hA
        simp only at h
        split at h
        · cases h
        · rename_i ctxB func2 backfill2 is_solid hP
          have hcount := parse_func_argument_counter ext _ _ _ _ _ _ _ _ hP
          split at h
          · -- not solid: a marker or a pending argument
            refine ih _ _ _ _ _ _ _ ?_ h
            rcases hcount with ⟨hb, -⟩ | ⟨-, -, -, hn, -⟩
            · exact Or.inl hb
            · exact Or.inr hn
          · have hb2 : backfill2 = 0 := by
              rcases hcount with ⟨hb, -⟩ | ⟨-, hs, -⟩
              · exact hb
              · rename_i hsolid
                rw [hs] at hsolid
                simp at hsolid
            split at h
            · cases h
            · split at h
              · split at h
                · cases h
                · exact ih _ _ _ _ _ _ _ (Or.inl hb2) h
              · split at h
                · cases h
                · exact ih _ _ _ _ _ _ _ (Or.inl hb2) h

theorem parse_ignore_newlines_error (ctx : parse_ctx_t) (msg e : String)
    (h : parse_ignore_newlines ctx msg = .error e) : e = msg := by
  unfold parse_ignore_newlines at h
  simp only at h
  split at h
  · cases h
    rfl
  · cases h

/-- Every failure of `parse_func_arguments` is a failure met before the end of
the loop: the final test of the pending count never fails. -/
theorem parse_func_arguments_error (ext : parse_externals_t) (fuel : Nat) (ctx : parse_ctx_t)
    (func : ast_func_t) (e : String) (h : parse_func_arguments ext fuel ctx func = .error e) :
    e = "Expected '(' after function name"
    ∨ e = "Cannot declare foreign function inside of struct domain"
    ∨ ∃ ctx1 func1 capacity1,
        parse_func_arguments_loop ext fuel ctx1 func1 capacity1 0 = .error e := by
  unfold parse_func_arguments at h
  simp only at h
  split at h
  · rename_i e1 h1
    cases h
    exact Or.inl (parse_ignore_newlines_error _ _ _ h1)
  · rename_i ctxA hA
    split at h
    · rename_i e2 h2
      cases h
      split at h2
      · cases h2
      · split at h2
        · cases h2
          exact Or.inr (Or.inl rfl)
        · cases h2
    · rename_i func1 capacity1 h2
      split at h
      · cases h
      · split at h
        · rename_i e3 h3
          cases h
          exact Or.inr (Or.inr ⟨_, _, _, h3⟩)
        · rename_i ctxF funcF backfillF hL
          obtain ⟨hb, -⟩ := parse_func_arguments_loop_counter ext _ _ _ _ _ _ _ _ (Or.inl rfl) hL
          rw [if_neg (by simp [hb])] at h
          cases h

/-- In a function that is not foreign, a name with the `)` directly behind it
is refused by `parse_func_argument`, with the diagnostic the type parser gives for
the `)`. -/
theorem parse_func_argument_untyped_name (ext : parse_externals_t) (ctx : parse_ctx_t)
    (func : ast_func_t) (capacity backfill : Nat) (name e : String)
    (hf : func.traits.has AST_FUNC_FOREIGN = false)
    (hword : ctx.tokens[ctx.i]? = some ⟨TOKEN_WORD, name⟩)
    (hclose : ctx.token_id (ctx.i + 1) = TOKEN_CLOSE)
    (hT : ext.parse_type { ctx with i := ctx.i + 1 } = .error e) :
    parse_func_argument ext ctx func capacity backfill = .error e := by
  have hw : ctx.token_id ctx.i = TOKEN_WORD := parse_ctx_token_id_of_getElem ctx ctx.i _ hword
  have hflow := parse_func_argument_flow_word ctx hw
  rw [parse_func_argument_of_not_ellipsis ext ctx func capacity backfill
    (by rw [hflow, hw]; decide)]
  rw [hflow]
  have hname : parse_func_argument_name ctx (parse_func_argument_start ctx func backfill).2
      capacity backfill
      = .ok ({ ctx with i := ctx.i + 1 },
          { (parse_func_argument_start ctx func backfill).2 with arg_names :=
            ((parse_func_argument_start ctx func backfill).2.arg_names.map
              (fun names => names.set (func.arity + backfill) (some (some name)))) }) := by
    unfold parse_func_argument_name
    have hf2 : (parse_func_argument_start ctx func backfill).2.traits.has AST_FUNC_FOREIGN
        = false := hf
    rw [if_neg (by simp [hf2])]
    unfold parse_take_word
    rw [hword]
    rfl
  simp only [hname]
  have hlt : ctx.i + 1 < ctx.tokens.length :=
    parse_ctx_token_id_lt ctx (ctx.i + 1) (by rw [hclose]; decide)
  have hnl : ∀ msg, parse_ignore_newlines ({ ctx with i := ctx.i + 1 } : parse_ctx_t) msg
      = .ok { ctx with i := ctx.i + 1 } :=
    fun msg => parse_ignore_newlines_stay _ msg (by show ctx.token_id (ctx.i + 1) ≠ _
                                                    rw [hclose]; decide) hlt
  unfold parse_func_argument_after_name
  rw [if_neg (by show ¬ (ctx.token_id (ctx.i + 1) == TOKEN_ELLIPSIS) = true
                 rw [hclose]; decide)]
  simp only [hnl]
  rw [parse_func_default_arg_value_skip ext _ _ capacity backfill
    (by show ctx.token_id (ctx.i + 1) ≠ _
        rw [hclose]; decide)]
  simp only [hnl]
  have hnn : (ctx.token_id (ctx.i + 1) == TOKEN_NEXT) = false := by rw [hclose]; decide
  rw [if_neg (by show ¬ (_ && (ctx.token_id (ctx.i + 1) == TOKEN_NEXT)) = true
                 rw [hnn]; simp),
    if_neg (by show ¬ (ctx.token_id (ctx.i + 1) == TOKEN_POD) = true
               rw [hclose]; decide)]
  unfold parse_func_argument_type
  simp only [hnl, hT]

/-- C33: a run of the loop of `parse_func_arguments` that is entered with no
argument pending (or on a token that is no `)`) and ends normally, on the `)`,
leaves the pending count 0. For `parse_func_argument` leaves the count 0 behind a
solid argument and behind a marker, which it accepts only when the count was 0,
and when it leaves an argument pending the cursor is behind the `,` of the
argument, on a token that is no `)`. So every failure of `parse_func_arguments` is
one met before the end of the loop, never the final test of the count; and in a
function that is not foreign a name with the `)` directly behind it, as the `b`
of `func f(a, b)`, is refused inside `parse_func_argument`, with the diagnostic
the type parser gives for the `)`. -/
theorem parse_func_arguments_loop_backfill (ext : parse_externals_t) (fuel : Nat)
    (ctx ctxF : parse_ctx_t) (func funcF : ast_func_t) (capacity backfill backfillF : Nat)
    (hstart : backfill = 0 ∨ ctx.token_id ctx.i ≠ TOKEN_CLOSE)
    (h : parse_func_arguments_loop ext fuel ctx func capacity backfill
      = .ok (ctxF, funcF, backfillF)) :
    backfillF = 0 ∧ ctxF.token_id ctxF.i = TOKEN_CLOSE
    ∧ (∀ (ctx1 ctx2 : parse_ctx_t) (func1 func2 : ast_func_t)
        (capacity1 backfill1 backfill2 : Nat) (is_solid : Bool),
        parse_func_argument ext ctx1 func1 capacity1 backfill1
          = .ok (ctx2, func2, backfill2, is_solid) →
        (backfill2 = 0 ∧ (is_solid = false → backfill1 = 0))
        ∨ (backfill2 = backfill1 + 1 ∧ is_solid = false
          ∧ func2.traits.has AST_FUNC_FOREIGN = false
          ∧ ctx2.token_id ctx2.i ≠ TOKEN_CLOSE
          ∧ 1 ≤ ctx2.i ∧ ctx2.token_id (ctx2.i - 1) = TOKEN_NEXT))
    ∧ (∀ (fuel0 : Nat) (ctx0 : parse_ctx_t) (func0 : ast_func_t) (e : String),
        parse_func_arguments ext fuel0 ctx0 func0 = .error e →
        e = "Expected '(' after function name"
        ∨ e = "Cannot declare foreign function inside of struct domain"
        ∨ ∃ ctx1 func1 capacity1,
            parse_func_arguments_loop ext fuel0 ctx1 func1 capacity1 0 = .error e)
    ∧ (∀ (ctx1 : parse_ctx_t) (func1 : ast_func_t) (capacity1 backfill1 : Nat)
        (name e : String),
        func1.traits.has AST_FUNC_FOREIGN = false →
        ctx1.tokens[ctx1.i]? = some ⟨TOKEN_WORD, name⟩ →
        ctx1.token_id (ctx1.i + 1) = TOKEN_CLOSE →
        ext.parse_type { ctx1 with i := ctx1.i + 1 } = .error e →
        parse_func_argument ext ctx1 func1 capacity1 backfill1 = .error e) := by
  obtain ⟨hb, hc⟩ := parse_func_arguments_loop_counter ext fuel ctx ctxF func funcF capacity
    backfill backfillF hstart h
  refine ⟨hb, hc, ?_, ?_, ?_⟩
  · intro ctx1 ctx2 func1 func2 capacity1 backfill1 backfill2 is_solid hP
    exact parse_func_argument_counter ext ctx1 ctx2 func1 func2 capacity1 backfill1 backfill2
      is_solid hP
  · intro fuel0 ctx0 func0 e hE
    exact parse_func_arguments_error ext fuel0 ctx0 func0 e hE
  · intro ctx1 func1 capacity1 backfill1 name e hf hword hclose hT
    exact parse_func_argument_untyped_name ext ctx1 func1 capacity1 backfill1 name e hf hword
      hclose hT

/-- The witness of C33: the loop on `(a, b, c int)` ends with no argument
pending; `func f(a, b)` is refused with the diagnostic of the type parser, and
the argument `b` of it already by `parse_func_argument`, an argument being
pending then. -/
theorem parse_func_arguments_loop_backfill_witness :
    (∃ ctxF funcF,
      parse_func_arguments_loop parse_fragment 20 { parse_ctx_of tokens_backfill with i := 1 }
        (ast_func_create_template "f" ⟨0, 0⟩ TRAIT_NONE) 0 0 = .ok (ctxF, funcF, 0)
      ∧ ctxF.token_id ctxF.i = TOKEN_CLOSE)
    ∧ parse_func_diagnostic
        (parse_func parse_fragment 20 100 (parse_ctx_of tokens_untyped_names))
      = some "Expected type"
    ∧ parse_func_argument parse_fragment { parse_ctx_of tokens_untyped_names with i := 5 }
        func_pending_example 4 1 = .error "Expected type" := by
  obtain ⟨⟨ctxF, funcF, backfillF⟩, h⟩ := except_ok_of_isSome
    (parse_func_arguments_loop parse_fragment 20 { parse_ctx_of tokens_backfill with i := 1 }
      (ast_func_create_template "f" ⟨0, 0⟩ TRAIT_NONE) 0 0)
    (by decide!)
  obtain ⟨hb, hc, -, -, hU⟩ := parse_func_arguments_loop_backfill parse_fragment 20
    { parse_ctx_of tokens_backfill with i := 1 } ctxF
    (ast_func_create_template "f" ⟨0, 0⟩ TRAIT_NONE) funcF 0 0 backfillF (Or.inl rfl) h
  subst hb
  exact ⟨⟨ctxF, funcF, h, hc⟩, by decide!,
    hU { parse_ctx_of tokens_untyped_names with i := 5 } func_pending_example 4 1 "b"
      "Expected type" rfl rfl rfl rfl⟩

/-! ## What one argument leaves of the function -/

theorem parse_func_argument_name_names (ctx ctx2 : parse_ctx_t) (func func2 : ast_func_t)
    (capacity backfill : Nat)
    (h : parse_func_argument_name ctx func capacity backfill = .ok (ctx2, func2)) :
    func.arg_names.isSome = true → func2.arg_names.isSome = true := by
  unfold parse_func_argument_name at h
  split at h
  · split at h
    · split at h
      · cases h
      · simp only [Except.ok.injEq, Prod.mk.injEq] at h
        obtain ⟨-, rfl⟩ := h
        intro _
        rfl
    · cases h
      exact id
  · split at h
    · cases h
    · simp only [Except.ok.injEq, Prod.mk.injEq] at h
      obtain ⟨-, rfl⟩ := h
      intro hs
      show (func.arg_names.map _).isSome = true
      rw [Option.isSome_map']
      exact hs

/-- What a successful `parse_func_argument_after_name` leaves of the function:
the foreign trait, the names array if there is one, the flows and the sources. -/
theorem parse_func_argument_after_name_fields (ext : parse_externals_t)
    (ctxN ctx2 : parse_ctx_t) (funcN func2 : ast_func_t) (capacity backfill backfill2 : Nat)
    (is_solid : Bool)
    (h : parse_func_argument_after_name ext ctxN funcN capacity backfill
      = .ok (ctx2, func2, backfill2, is_solid)) :
    func2.traits.has AST_FUNC_FOREIGN = funcN.traits.has AST_FUNC_FOREIGN
    ∧ (funcN.arg_names.isSome = true → func2.arg_names.isSome = true)
    ∧ func2.arg_flows = funcN.arg_flows
    ∧ func2.arg_sources = funcN.arg_sources := by
  rcases parse_func_argument_after_name_ok ext ctxN ctx2 funcN func2 capacity backfill backfill2
      is_solid h with
    ⟨-, -, -, -, -, hf2⟩ | ⟨-, -, -, ctxA, ctxB, hD⟩
      | ⟨-, -, ctxA, ctxB, funcD, tt, type, ctxC, ctxD, ctxE, funcE, hD, -, -, hD2, hf2⟩
  · subst hf2
    refine ⟨trait_has_foreign_or_variadic _, ?_, rfl, rfl⟩
    intro hs
    show (funcN.arg_names.map _).isSome = true
    rw [Option.isSome_map']
    exact hs
  · obtain ⟨hd, -, -⟩ := parse_func_default_arg_value_frame ext _ _ _ _ _ _ hD
    rcases hd with rfl | ⟨-, e, rfl⟩
    · exact ⟨rfl, id, rfl, rfl⟩
    · exact ⟨rfl, id, rfl, rfl⟩
  · obtain ⟨hd, -, -⟩ := parse_func_default_arg_value_frame ext _ _ _ _ _ _ hD
    obtain ⟨hd2, -, -⟩ := parse_func_default_arg_value_frame ext _ _ _ _ _ _ hD2
    obtain ⟨-, b2, b3, b4, b5, -⟩ := parse_func_backfill_arguments_frame funcE backfill
    subst hf2
    show (parse_func_backfill_arguments funcE backfill).traits.has AST_FUNC_FOREIGN = _
      ∧ (_ → (parse_func_backfill_arguments funcE backfill).arg_names.isSome = true)
      ∧ (parse_func_backfill_arguments funcE backfill).arg_flows = _
      ∧ (parse_func_backfill_arguments funcE backfill).arg_sources = _
    rw [b2, b3, b4, b5]
    have hE : funcE.traits = funcD.traits ∧ funcE.arg_names = funcD.arg_names
        ∧ funcE.arg_flows = funcD.arg_flows ∧ funcE.arg_sources = funcD.arg_sources := by
      rcases hd2 with rfl | ⟨-, e, rfl⟩
      · exact ⟨rfl, rfl, rfl, rfl⟩
      · exact ⟨rfl, rfl, rfl, rfl⟩
    have hDD : funcD.traits = funcN.traits ∧ funcD.arg_names = funcN.arg_names
        ∧ funcD.arg_flows = funcN.arg_flows ∧ funcD.arg_sources = funcN.arg_sources := by
      rcases hd with rfl | ⟨-, e, rfl⟩
      · exact ⟨rfl, rfl, rfl, rfl⟩
      · exact ⟨rfl, rfl, rfl, rfl⟩
    rw [hE.1, hE.2.1, hE.2.2.1, hE.2.2.2, hDD.1, hDD.2.1, hDD.2.2.1, hDD.2.2.2]
    exact ⟨rfl, id, rfl, rfl⟩

/-- What a successful `parse_func_argument` leaves of the function: the foreign
trait is as it was, a names array that was there is still there, and the flows
are as they were but for the slot of the argument, which holds the flow that the
keyword at the start of the argument gives. -/
theorem parse_func_argument_fields (ext : parse_externals_t) (ctx ctx2 : parse_ctx_t)
    (func func2 : ast_func_t) (capacity backfill backfill2 : Nat) (is_solid : Bool)
    (h : parse_func_argument ext ctx func capacity backfill
      = .ok (ctx2, func2, backfill2, is_solid)) :
    func2.traits.has AST_FUNC_FOREIGN = func.traits.has AST_FUNC_FOREIGN
    ∧ (func.arg_names.isSome = true → func2.arg_names.isSome = true)
    ∧ func2.arg_flows
      = func.arg_flows.set (func.arity + backfill) (some (parse_func_argument_flow ctx).1) := by
  rcases parse_func_argument_ok ext ctx ctx2 func func2 capacity backfill backfill2 is_solid h
    with ⟨-, -, -, -, hf2⟩ | ⟨ctxN, funcN, hN, hA⟩
  · subst hf2
    exact ⟨trait_has_foreign_or_vararg _, id, rfl⟩
  · obtain ⟨-, -, ⟨names, hnames⟩, -⟩ := parse_func_argument_name_frame _ _ _ _ _ _ hN
    have hns := parse_func_argument_name_names _ _ _ _ _ _ hN
    obtain ⟨a1, a2, a3, -⟩ := parse_func_argument_after_name_fields ext ctxN ctx2 funcN func2
      capacity backfill backfill2 is_solid hA
    rw [a1, a3, hnames]
    refine ⟨rfl, fun hs => a2 (hns hs), rfl⟩

/-! ## The type trait and the flows of a group of arguments -/

/-- A solid argument: the type trait stored in its slot is POD when the keyword
`POD` stands where the type is to start, behind the name and a default value,
newlines skipped, and none otherwise. -/
theorem parse_func_argument_after_name_pod (ext : parse_externals_t)
    (ctxN ctx2 : parse_ctx_t) (funcN func2 : ast_func_t) (capacity backfill backfill2 : Nat)
    (hlen : funcN.arity + backfill < funcN.arg_type_traits.length)
    (h : parse_func_argument_after_name ext ctxN funcN capacity backfill
      = .ok (ctx2, func2, backfill2, true)) :
    ∃ ctxA ctxB funcD ctxE,
      parse_ignore_newlines ctxN "Expected type" = .ok ctxA
      ∧ parse_func_default_arg_value_if_applicable ext ctxA funcN capacity backfill
        = .ok (ctxB, funcD)
      ∧ parse_ignore_newlines ctxB "Expected type" = .ok ctxE
      ∧ slot_val func2.arg_type_traits (funcN.arity + backfill)
        = some (if ctxE.token_id ctxE.i == TOKEN_POD then AST_FUNC_ARG_TYPE_TRAIT_POD
                else TRAIT_NONE) := by
  unfold parse_func_argument_after_name at h
  split at h
  · split at h
    · cases h
    · split at h
      · cases h
      · simp only [Except.ok.injEq, Prod.mk.injEq] at h
        obtain ⟨-, -, -, h4⟩ := h
        cases h4
  · split at h
    · cases h
    · rename_i ctxA hA
      split at h
      · cases h
      · rename_i ctxB funcD hD
        split at h
        · cases h
        · rename_i ctxE hE
          obtain ⟨e1, -, -, -, e5⟩ := parse_func_default_arg_value_fields ext _ _ _ _ _ _ hD
          refine ⟨ctxA, ctxB, funcD, ctxE, hA, hD, hE, ?_⟩
          have key : ∀ (c : parse_ctx_t) (tt : trait_t),
              parse_func_argument_type ext c
                { funcD with arg_type_traits :=
                    (funcD.arg_type_traits.set (funcD.arity + backfill) (some tt)) }
                capacity backfill = .ok (ctx2, func2, backfill2, true) →
              slot_val func2.arg_type_traits (funcN.arity + backfill) = some tt := by
            intro c tt hT
            obtain ⟨-, -, ctxC, type, ctxD, ctxF, funcE, -, hD2, hf2⟩ :=
              parse_func_argument_type_ok _ _ _ _ _ _ _ _ _ hT
            obtain ⟨d1, -, -, -, d5⟩ := parse_func_default_arg_value_fields ext _ _ _ _ _ _ hD2
            have hEtt : funcE.arg_type_traits
                = funcN.arg_type_traits.set (funcN.arity + backfill) (some tt) := by
              rw [d5]
              show funcD.arg_type_traits.set (funcD.arity + backfill) (some tt) = _
              rw [e5, e1]
            have hEar : funcE.arity = funcN.arity := by
              rw [d1]
              exact e1
            rw [hf2]
            show slot_val (parse_func_backfill_arguments funcE backfill).arg_type_traits _ = _
            rw [parse_func_backfill_arguments_type_traits funcE backfill
              (by rw [hEtt, List.length_set, hEar]; exact hlen)]
            rw [if_neg (by rw [hEar]; omega), hEtt, slot_val_set_self _ _ _ hlen]
          split at h
          · simp only at h
            split at h
            · cases h
            · simp only [Except.ok.injEq, Prod.mk.injEq] at h
              obtain ⟨-, -, -, h4⟩ := h
              cases h4
          · split at h
            · rename_i hpod
              rw [if_pos hpod]
              exact key _ _ h
            · rename_i hpod
              rw [if_neg hpod]
              exact key _ _ h

/-- The same for `parse_func_argument`. -/
theorem parse_func_argument_pod (ext : parse_externals_t) (ctx ctx2 : parse_ctx_t)
    (func func2 : ast_func_t) (capacity backfill backfill2 : Nat)
    (hlen : func.arity + backfill < func.arg_type_traits.length)
    (h : parse_func_argument ext ctx func capacity backfill = .ok (ctx2, func2, backfill2, true)) :
    ∃ ctxN funcN ctxA ctxB funcD ctxE,
      parse_func_argument_name (parse_func_argument_flow ctx).2
        (parse_func_argument_start ctx func backfill).2 capacity backfill = .ok (ctxN, funcN)
      ∧ parse_ignore_newlines ctxN "Expected type" = .ok ctxA
      ∧ parse_func_default_arg_value_if_applicable ext ctxA funcN capacity backfill
        = .ok (ctxB, funcD)
      ∧ parse_ignore_newlines ctxB "Expected type" = .ok ctxE
      ∧ slot_val func2.arg_type_traits (func.arity + backfill)
        = some (if ctxE.token_id ctxE.i == TOKEN_POD then AST_FUNC_ARG_TYPE_TRAIT_POD
                else TRAIT_NONE) := by
  rcases parse_func_argument_ok ext ctx ctx2 func func2 capacity backfill backfill2 true h
    with ⟨-, -, hs, -⟩ | ⟨ctxN, funcN, hN, hA⟩
  · cases hs
  · obtain ⟨-, -, ⟨names, hnames⟩, -⟩ := parse_func_argument_name_frame _ _ _ _ _ _ hN
    have hNar : funcN.arity = func.arity := by rw [hnames]; rfl
    have hNtt : funcN.arg_type_traits = func.arg_type_traits := by rw [hnames]; rfl
    obtain ⟨ctxA, ctxB, funcD, ctxE, q1, q2, q3, q4⟩ := parse_func_argument_after_name_pod ext
      ctxN ctx2 funcN func2 capacity backfill backfill2 (by rw [hNar, hNtt]; exact hlen) hA
    rw [hNar] at q4
    exact ⟨ctxN, funcN, ctxA, ctxB, funcD, ctxE, hN, q1, q2, q3, q4⟩

theorem parse_func_grow_arguments_flows_below (func : ast_func_t) (backfill capacity : Nat)
    (hbound : func.arity + backfill ≤ capacity) (j : Nat) (hj : j < func.arity + backfill) :
    slot_val (parse_func_grow_arguments func backfill capacity).1.arg_flows j
      = slot_val func.arg_flows j := by
  unfold parse_func_grow_arguments
  split
  · rename_i hc
    have : capacity = 0 := by simpa using hc
    omega
  · split
    · rfl
    · rename_i hne
      have hcap : func.arity + backfill = capacity := by simpa using hne
      show slot_val (grow func.arg_flows (func.arity + backfill) (capacity * 2)) j = _
      rw [slot_val_grow, if_pos ⟨hj, by omega⟩]

/-- One turn of a run of the loop of `parse_func_arguments` that succeeds. -/
theorem parse_func_arguments_loop_turn (ext : parse_externals_t) (fuel : Nat)
    (ctx ctxF : parse_ctx_t) (func funcF : ast_func_t) (capacity backfill backfillF : Nat)
    (hclose : ctx.token_id ctx.i ≠ TOKEN_CLOSE)
    (h : parse_func_arguments_loop ext (fuel + 1) ctx func capacity backfill
      = .ok (ctxF, funcF, backfillF)) :
    ∃ ctxA ctxB ctxC func2 backfill2 is_solid,
      parse_ignore_newlines ctx "Expected function argument" = .ok ctxA
      ∧ parse_func_argument ext ctxA (parse_func_grow_arguments func backfill capacity).1
          (parse_func_grow_arguments func backfill capacity).2 backfill
          = .ok (ctxB, func2, backfill2, is_solid)
      ∧ parse_func_arguments_loop ext fuel ctxC func2
          (parse_func_grow_arguments func backfill capacity).2 backfill2
          = .ok (ctxF, funcF, backfillF) := by
  rw [parse_func_arguments_loop] at h
  rw [if_neg (by simpa using hclose)] at h
  cases hA : parse_ignore_newlines ctx "Expected function argument" with
  | error e => rw [hA] at h; cases h
  | ok ctxA =>
    rw [hA] at h
    simp only at h
    cases hP : parse_func_argument ext ctxA (parse_func_grow_arguments func backfill capacity).1
        (parse_func_grow_arguments func backfill capacity).2 backfill with
    | error e => rw [hP] at h; cases h
    | ok r =>
      obtain ⟨ctxB, func2, backfill2, is_solid⟩ := r
      rw [hP] at h
      simp only at h
      split at h
      · exact ⟨ctxA, ctxB, _, func2, backfill2, is_solid, rfl, hP, h⟩
      · cases hB : parse_ignore_newlines ctxB "Expected type after ',' in argument list" with
        | error e => rw [hB] at h; cases h
        | ok ctxB2 =>
          rw [hB] at h
          simp only at h
          split at h
          · split at h
            · cases h
            · exact ⟨ctxA, ctxB, _, func2, backfill2, is_solid, rfl, hP, h⟩
          · split at h
            · cases h
            · exact ⟨ctxA, ctxB, _, func2, backfill2, is_solid, rfl, hP, h⟩

/-- The loop of `parse_func_arguments` leaves the flows of the arguments read
before as they are, in every function. -/
theorem parse_func_arguments_loop_flows_below (ext : parse_externals_t) :
    ∀ (fuel : Nat) (ctx ctxF : parse_ctx_t) (func funcF : ast_func_t)
      (capacity backfill backfillF : Nat),
      parse_func_arguments_inv func capacity backfill →
      parse_func_arguments_loop ext fuel ctx func capacity backfill
        = .ok (ctxF, funcF, backfillF) →
      ∀ j, j < func.arity + backfill → slot_val funcF.arg_flows j = slot_val func.arg_flows j
  | 0, _, _, _, _, _, _, _, _, h => by
      rw [parse_func_arguments_loop] at h
      cases h
  | fuel + 1, ctx, ctxF, func, funcF, capacity, backfill, backfillF, hinv, h => by
      rcases parse_func_arguments_loop_ok _ _ _ _ _ _ _ _ _ h with
        ⟨_, _, hf, hk⟩ | ⟨_, ctxA, ctxB, ctxC, func2, backfill2, is_solid, hP, hL⟩
      · subst hf hk
        exact fun j _ => rfl
      · obtain ⟨hinvG, hroom⟩ := parse_func_grow_arguments_inv func backfill capacity hinv
        obtain ⟨g1, g2, _⟩ := parse_func_grow_arguments_frame func backfill capacity
        rw [← g1] at hroom
        obtain ⟨hinv2, -, hns, hs⟩ := parse_func_argument_effect _ _ _ _ _ _ _ _ _
          hinvG hroom hP
        obtain ⟨-, -, hflows⟩ := parse_func_argument_fields ext _ _ _ _ _ _ _ _ hP
        have hle : func.arity + backfill ≤ func2.arity + backfill2 := by
          cases is_solid with
          | false =>
            obtain ⟨ha, _, _, hb⟩ := hns rfl
            rw [ha, g1]
            omega
          | true =>
            obtain ⟨hb, ha, _⟩ := hs rfl
            rw [ha, g1]
            omega
        intro j hj
        rw [parse_func_arguments_loop_flows_below ext fuel ctxC ctxF func2 funcF _
          backfill2 backfillF hinv2 hL j (by omega), hflows, g1,
          slot_val_set_ne _ _ _ _ (by omega),
          parse_func_grow_arguments_flows_below func backfill capacity hinv.bound j hj]

/-- C34: in a run of the loop of `parse_func_arguments` that succeeds, at the
turn that parses an argument into slot `arity + backfill`, `backfill` arguments
being pending in the slots before it: the flows of the arguments read before are
left as they are to the end of the run, and the flow of the argument, pending or
solid, is to the end the one its own leading keyword gives, `in` when it has
none; and when the argument is solid, the type trait that the function ends with
is the same in the slot of the solid argument and in the slot of each pending
argument, POD when the keyword `POD` stands where the type is to start, and none
otherwise. -/
theorem parse_func_arguments_loop_group (ext : parse_externals_t) (fuel : Nat)
    (ctx ctxF : parse_ctx_t) (func funcF : ast_func_t) (capacity backfill backfillF : Nat)
    (hinv : parse_func_arguments_inv func capacity backfill)
    (hclose : ctx.token_id ctx.i ≠ TOKEN_CLOSE)
    (h : parse_func_arguments_loop ext (fuel + 1) ctx func capacity backfill
      = .ok (ctxF, funcF, backfillF)) :
    ∃ ctxA ctxB func2 backfill2 is_solid,
      parse_ignore_newlines ctx "Expected function argument" = .ok ctxA
      ∧ parse_func_argument ext ctxA (parse_func_grow_arguments func backfill capacity).1
          (parse_func_grow_arguments func backfill capacity).2 backfill
          = .ok (ctxB, func2, backfill2, is_solid)
      ∧ (∀ j, j < func.arity + backfill →
          slot_val funcF.arg_flows j = slot_val func.arg_flows j)
      ∧ (is_solid = true ∨ backfill2 = backfill + 1 →
          slot_val funcF.arg_flows (func.arity + backfill)
            = some (parse_func_argument_flow ctxA).1)
      ∧ (parse_func_argument_flow ctxA).1
          = (if ctxA.token_id ctxA.i == TOKEN_OUT then FLOW_OUT
             else if ctxA.token_id ctxA.i == TOKEN_INOUT then FLOW_INOUT
             else FLOW_IN)
      ∧ (is_solid = true →
          ∃ ctxN funcN ctxT ctxD funcD ctxE,
            parse_func_argument_name (parse_func_argument_flow ctxA).2
              (parse_func_argument_start ctxA
                (parse_func_grow_arguments func backfill capacity).1 backfill).2
              (parse_func_grow_arguments func backfill capacity).2 backfill = .ok (ctxN, funcN)
            ∧ parse_ignore_newlines ctxN "Expected type" = .ok ctxT
            ∧ parse_func_default_arg_value_if_applicable ext ctxT funcN
                (parse_func_grow_arguments func backfill capacity).2 backfill = .ok (ctxD, funcD)
            ∧ parse_ignore_newlines ctxD "Expected type" = .ok ctxE
            ∧ ∀ j, func.arity ≤ j → j ≤ func.arity + backfill →
                slot_val funcF.arg_type_traits j
                  = some (if ctxE.token_id ctxE.i == TOKEN_POD then AST_FUNC_ARG_TYPE_TRAIT_POD
                          else TRAIT_NONE)) := by
  obtain ⟨ctxA, ctxB, ctxC, func2, backfill2, is_solid, hA, hP, hL⟩ :=
    parse_func_arguments_loop_turn ext fuel ctx ctxF func funcF capacity backfill backfillF
      hclose h
  obtain ⟨hinvG, hroom⟩ := parse_func_grow_arguments_inv func backfill capacity hinv
  obtain ⟨g1, g2, _⟩ := parse_func_grow_arguments_frame func backfill capacity
  have hroomG : (parse_func_grow_arguments func backfill capacity).1.arity + backfill
      < (parse_func_grow_arguments func backfill capacity).2 := by rw [g1]; exact hroom
  obtain ⟨hinv2, -, hns, hs⟩ := parse_func_argument_effect _ _ _ _ _ _ _ _ _ hinvG hroomG hP
  obtain ⟨-, -, hflows⟩ := parse_func_argument_fields ext _ _ _ _ _ _ _ _ hP
  have hrest := parse_func_arguments_loop_flows_below ext fuel ctxC ctxF func2 funcF _ backfill2
    backfillF hinv2 hL
  refine ⟨ctxA, ctxB, func2, backfill2, is_solid, hA, hP, ?_, ?_, ?_, ?_⟩
  · exact parse_func_arguments_loop_flows_below ext (fuel + 1) ctx ctxF func funcF capacity
      backfill backfillF hinv h
  · intro hitem
    have hlt : func.arity + backfill < func2.arity + backfill2 := by
      cases is_solid with
      | true =>
        obtain ⟨hb, ha, _⟩ := hs rfl
        rw [ha, g1]
        omega
      | false =>
        obtain ⟨ha, _, _, _⟩ := hns rfl
        rcases hitem with hc | hb
        · cases hc
        · rw [ha, g1, hb]
          omega
    rw [hrest _ hlt, hflows, g1]
    exact slot_val_set_self _ _ _ (by rw [hinvG.flows.1]; exact hroom)
  · unfold parse_func_argument_flow
    split_ifs <;> simp_all [TOKEN_IN, TOKEN_OUT, TOKEN_INOUT]
  · intro hsolid
    subst hsolid
    obtain ⟨hb, ha, type, tt, -, -, -, htraits⟩ := hs rfl
    obtain ⟨ctxN, funcN, ctxT, ctxD, funcD, ctxE, q1, q2, q3, q4, q5⟩ :=
      parse_func_argument_pod ext _ _ _ _ _ _ _
        (by rw [hinvG.type_traits.1]; exact hroomG) hP
    refine ⟨ctxN, funcN, ctxT, ctxD, funcD, ctxE, q1, q2, q3, q4, ?_⟩
    have htt : some tt = some (if ctxE.token_id ctxE.i == TOKEN_POD
        then AST_FUNC_ARG_TYPE_TRAIT_POD else TRAIT_NONE) := by
      rw [← q5, htraits, if_pos ⟨by omega, by omega⟩]
    obtain ⟨-, -, -, hkeep⟩ := parse_func_arguments_loop_inv ext fuel ctxC ctxF func2 funcF _
      backfill2 backfillF hinv2 hL
    intro j hj1 hj2
    rw [(hkeep j (by rw [ha, g1]; omega)).2, htraits, if_pos ⟨by rw [g1]; exact hj1,
      by rw [g1]; exact hj2⟩]
    exact htt

/-- The witness of C34: in `(a, b, c POD int)`, at the turn that reads `c`, the
two arguments pending, the run ends with the flows of `a` and `b` as they were;
and `(in a, out b, c POD int, inout d long)` yields the flows `in`, `out`, `in`
and `inout`, and the type trait POD for `a`, `b` and `c`, none for `d`. -/
theorem parse_func_arguments_loop_group_witness :
    (∃ ctxF funcF backfillF,
      parse_func_arguments_loop parse_fragment (9 + 1)
        { parse_ctx_of tokens_backfill_pod with i := 5 } func_pending_example 4 2
        = .ok (ctxF, funcF, backfillF)
      ∧ ∀ j, j < func_pending_example.arity + 2 →
          slot_val funcF.arg_flows j = slot_val func_pending_example.arg_flows j)
    ∧ parse_func_arguments_flows 4
        (parse_func_arguments parse_fragment 20 (parse_ctx_of tokens_backfill_flows)
          (ast_func_create_template "f" ⟨0, 0⟩ TRAIT_NONE))
      = some (4, [some FLOW_IN, some FLOW_OUT, some FLOW_IN, some FLOW_INOUT],
          [some AST_FUNC_ARG_TYPE_TRAIT_POD, some AST_FUNC_ARG_TYPE_TRAIT_POD,
           some AST_FUNC_ARG_TYPE_TRAIT_POD, some TRAIT_NONE]) := by
  obtain ⟨⟨ctxF, funcF, backfillF⟩, h⟩ := except_ok_of_isSome
    (parse_func_arguments_loop parse_fragment (9 + 1)
      { parse_ctx_of tokens_backfill_pod with i := 5 } func_pending_example 4 2)
    (by decide!)
  obtain ⟨ctxA, ctxB, func2, backfill2, is_solid, -, -, h3, -⟩ :=
    parse_func_arguments_loop_group parse_fragment 9
      { parse_ctx_of tokens_backfill_pod with i := 5 } ctxF func_pending_example funcF 4 2
      backfillF func_pending_example_inv (by decide) h
  exact ⟨⟨ctxF, funcF, backfillF, h, h3⟩, by decide!⟩

/-! ## The structure of the cache -/

theorem ir_gen_sf_cache_locate_or_insert_capacity (hash : ast_type_t → hash_t)
    (cache : ir_gen_sf_cache_t) (type : ast_type_t) :
    (ir_gen_sf_cache_locate_or_insert hash cache type).1.capacity = cache.capacity :=
  ir_gen_sf_cache_run_capacity hash [type] cache

/-- A call on a well-formed type keeps the keys in place. -/
theorem ir_gen_sf_cache_locate_or_insert_keys_ok (hash : ast_type_t → hash_t)
    (cache : ir_gen_sf_cache_t) (type : ast_type_t) (hwf : ir_gen_sf_cache_wf cache)
    (htype : 1 ≤ type.elements_length) (hkeys : ir_gen_sf_cache_keys_ok hash cache) :
    ir_gen_sf_cache_keys_ok hash (ir_gen_sf_cache_locate_or_insert hash cache type).1 := by
  obtain ⟨hin, hpw⟩ := hkeys
  have hcap := ir_gen_sf_cache_locate_or_insert_capacity hash cache type
  have hafter := ir_gen_sf_cache_bucket_after hash cache type hwf htype
  have hother := ir_gen_sf_cache_bucket_other hash cache type
  refine ⟨?_, ?_⟩
  · intro b e he
    rw [hcap]
    by_cases hb : b = hash type % cache.capacity
    · subst hb
      rw [hafter] at he
      split at he
      · exact hin _ e he
      · rcases List.mem_append.1 he with he | he
        · exact hin _ e he
        · rw [List.mem_singleton] at he
          subst he
          exact ⟨rfl, htype⟩
    · rw [hother b hb] at he
      exact hin b e he
  · intro b
    by_cases hb : b = hash type % cache.capacity
    · subst hb
      rw [hafter]
      split
      · exact hpw _
      · rename_i hany
        rw [List.pairwise_append]
        refine ⟨hpw _, List.pairwise_singleton _ _, ?_⟩
        intro x hx y hy
        rw [List.mem_singleton] at hy
        subst hy
        have hmiss : ir_gen_sf_cache_hit type x = false := by
          by_contra hc
          exact hany (List.any_eq_true.mpr ⟨x, hx, by simpa using hc⟩)
        unfold ir_gen_sf_cache_hit at hmiss
        by_contra hc
        have hc2 : ast_types_identical x.ast_type type = true := by simpa using hc
        rw [ast_types_identical_symm _ _ hc2] at hmiss
        cases hmiss
    · rw [hother b hb]
      exact hpw b

theorem ir_gen_sf_cache_reachable_keys_ok (hash : ast_type_t → hash_t)
    (cache : ir_gen_sf_cache_t) (h : ir_gen_sf_cache_reachable hash cache) :
    ir_gen_sf_cache_keys_ok hash cache ∧ cache.capacity = IR_GEN_SF_CACHE_SIZE := by
  induction h with
  | init =>
    refine ⟨⟨?_, ?_⟩, rfl⟩
    · intro b e he
      rw [ir_gen_sf_cache_bucket_init] at he
      cases he
    · intro b
      rw [ir_gen_sf_cache_bucket_init]
      exact List.Pairwise.nil
  | locate_or_insert cache type hreach htype ih =>
    exact ⟨ir_gen_sf_cache_locate_or_insert_keys_ok hash cache type
      (ir_gen_sf_cache_reachable_wf hash cache hreach) htype ih.1,
      (ir_gen_sf_cache_locate_or_insert_capacity hash cache type).trans ih.2⟩

/-- C35: in every cache state reached from `ir_gen_sf_cache_init` by calls of
`ir_gen_sf_cache_locate_or_insert` on well-formed types, with a hash that agrees
on structurally identical types: the cache has its `IR_GEN_SF_CACHE_SIZE` buckets;
every entry lies in the bucket of index `hash(key) mod capacity`, and its key is
a well-formed type; no two entries, of one bucket or of two, have structurally
identical keys; and a chain hangs only off an occupied embedded entry, so that
the entries of a bucket are the embedded entry and its chain. After
`ir_gen_sf_cache_init` every bucket is empty. -/
theorem ir_gen_sf_cache_reachable_structure (hash : ast_type_t → hash_t)
    (hhash : ∀ a b, ast_types_identical a b = true → hash a = hash b)
    (cache : ir_gen_sf_cache_t) (hreach : ir_gen_sf_cache_reachable hash cache) :
    cache.capacity = IR_GEN_SF_CACHE_SIZE ∧ cache.storage.length = cache.capacity
    ∧ (∀ b e, e ∈ ir_gen_sf_cache_bucket cache b →
        hash e.ast_type % cache.capacity = b ∧ b < cache.capacity
        ∧ 1 ≤ e.ast_type.elements_length)
    ∧ (∀ (b1 b2 k1 k2 : Nat) (e1 e2 : ir_gen_sf_cache_entry_t),
        (ir_gen_sf_cache_bucket cache b1)[k1]? = some e1 →
        (ir_gen_sf_cache_bucket cache b2)[k2]? = some e2 →
        b1 ≠ b2 ∨ k1 ≠ k2 →
        ast_types_identical e1.ast_type e2.ast_type = false)
    ∧ (∀ slot ∈ cache.storage, slot.next ≠ [] →
        ir_gen_sf_cache_entry_is_occupied slot.entry = true
        ∧ ir_gen_sf_cache_slot_entries slot = slot.entry :: slot.next)
    ∧ (∀ b, ir_gen_sf_cache_bucket ir_gen_sf_cache_init b = []) := by
  obtain ⟨hcap, hlen, hok⟩ := ir_gen_sf_cache_reachable_wf hash cache hreach
  obtain ⟨⟨hin, hpw⟩, hsize⟩ := ir_gen_sf_cache_reachable_keys_ok hash cache hreach
  refine ⟨hsize, hlen, ?_, ?_, ?_, ir_gen_sf_cache_bucket_init⟩
  · intro b e he
    obtain ⟨h1, h2⟩ := hin b e he
    refine ⟨h1, ?_, h2⟩
    rw [← h1]
    exact Nat.mod_lt _ hcap
  · intro b1 b2 k1 k2 e1 e2 h1 h2 hne
    have hm1 : e1 ∈ ir_gen_sf_cache_bucket cache b1 := by
      obtain ⟨hl, hg⟩ := List.getElem?_eq_some_iff.1 h1
      rw [← hg]
      exact List.getElem_mem hl
    have hm2 : e2 ∈ ir_gen_sf_cache_bucket cache b2 := by
      obtain ⟨hl, hg⟩ := List.getElem?_eq_some_iff.1 h2
      rw [← hg]
      exact List.getElem_mem hl
    by_cases hb : b1 = b2
    · subst hb
      have hk : k1 ≠ k2 := by
        rcases hne with hne | hne
        · exact absurd rfl hne
        · exact hne
      have hp := hpw b1
      rw [List.pairwise_iff_getElem] at hp
      obtain ⟨hl1, hg1⟩ := List.getElem?_eq_some_iff.1 h1
      obtain ⟨hl2, hg2⟩ := List.getElem?_eq_some_iff.1 h2
      rcases Nat.lt_or_gt_of_ne hk with hlt | hgt
      · have := hp k1 k2 hl1 hl2 hlt
        rw [hg1, hg2] at this
        exact this
      · have := hp k2 k1 hl2 hl1 hgt
        rw [hg1, hg2] at this
        by_contra hc
        have hc2 : ast_types_identical e1.ast_type e2.ast_type = true := by simpa using hc
        rw [ast_types_identical_symm _ _ hc2] at this
        cases this
    · by_contra hc
      have hc2 : ast_types_identical e1.ast_type e2.ast_type = true := by simpa using hc
      have hh := hhash _ _ hc2
      apply hb
      rw [← (hin b1 e1 hm1).1, ← (hin b2 e2 hm2).1, hh]
  · intro slot hslot hnext
    have hocc : ir_gen_sf_cache_entry_is_occupied slot.entry = true := by
      by_contra hc
      exact hnext (hok slot hslot (by simpa using hc))
    refine ⟨hocc, ?_⟩
    unfold ir_gen_sf_cache_slot_entries
    rw [if_pos hocc]

/-- The witness of C35: the fresh cache after a call on `int`, with the number of
elements as hash. -/
theorem ir_gen_sf_cache_reachable_structure_witness :
    (ir_gen_sf_cache_run ast_type_t.elements_length ir_gen_sf_cache_init
        [ast_type_make_base "int"]).capacity = IR_GEN_SF_CACHE_SIZE
    ∧ ∀ b e, e ∈ ir_gen_sf_cache_bucket
          (ir_gen_sf_cache_run ast_type_t.elements_length ir_gen_sf_cache_init
            [ast_type_make_base "int"]) b →
        e.ast_type.elements_length % IR_GEN_SF_CACHE_SIZE = b := by
  have h := ir_gen_sf_cache_reachable_structure ast_type_t.elements_length
    (fun a b h => by
      unfold ast_types_identical at h
      unfold ast_type_t.elements_length
      exact ast_elems_identical_length a.elements b.elements h)
    (ir_gen_sf_cache_run ast_type_t.elements_length ir_gen_sf_cache_init
      [ast_type_make_base "int"])
    (ir_gen_sf_cache_reachable.locate_or_insert _ _ ir_gen_sf_cache_reachable.init
      (by decide))
  refine ⟨h.1, fun b e he => ?_⟩
  have hb := (h.2.2.1 b e he).1
  rw [h.1] at hb
  exact hb

/-! ## The pending count of a foreign function -/

theorem parse_free_unbackfilled_arguments_defined (func : ast_func_t) (backfill : Nat) :
    parse_free_unbackfilled_arguments func backfill = some ()
      ↔ (backfill = 0 ∨ func.arg_names.isSome = true) := by
  unfold parse_free_unbackfilled_arguments
  cases hn : func.arg_names.isSome with
  | true => simp
  | false =>
    cases backfill with
    | zero => simp
    | succ n =>
      simp only [Nat.add_one_ne_zero, Bool.false_eq_true, or_self, iff_false]
      rw [if_neg]
      · intro h
        cases h
      · simp [List.range_succ]

/-- The call that a failing `parse_func_argument` makes is given the count the
function was entered with, and a names array if there was one. -/
theorem parse_func_argument_freed_spec (ext : parse_externals_t) (ctx : parse_ctx_t)
    (func : ast_func_t) (capacity backfill : Nat)
    (names : Option (List (Option (Option String)))) (b : Nat)
    (h : parse_func_argument_freed ext ctx func capacity backfill = some (names, b)) :
    b = backfill ∧ (func.arg_names.isSome = true → names.isSome = true) := by
  unfold parse_func_argument_freed at h
  simp only at h
  split at h
  · split at h
    · simp only [Option.some.injEq, Prod.mk.injEq] at h
      obtain ⟨rfl, rfl⟩ := h
      exact ⟨rfl, id⟩
    · cases h
  · split at h
    · simp only [Option.some.injEq, Prod.mk.injEq] at h
      obtain ⟨rfl, rfl⟩ := h
      exact ⟨rfl, id⟩
    · rename_i ctxN funcN hN
      split at h
      · simp only [Option.some.injEq, Prod.mk.injEq] at h
        obtain ⟨rfl, rfl⟩ := h
        exact ⟨rfl, parse_func_argument_name_names _ _
          (parse_func_argument_start ctx func backfill).2 _ _ _ hN⟩
      · cases h

theorem parse_func_arguments_names_ok_safe (func : ast_func_t) (capacity backfill : Nat)
    (h : parse_func_arguments_names_ok func capacity backfill) :
    (func.arg_names = none → backfill = 0)
    ∧ (func.traits.has AST_FUNC_FOREIGN = true → backfill = 0) := by
  rcases h with ⟨hf, hb⟩ | ⟨hf, hs | ⟨-, hb⟩⟩
  · exact ⟨fun _ => hb, fun _ => hb⟩
  · refine ⟨fun hn => ?_, fun hf2 => ?_⟩
    · rw [hn] at hs
      cases hs
    · rw [hf] at hf2
      cases hf2
  · refine ⟨fun _ => hb, fun hf2 => ?_⟩
    rw [hf] at hf2
    cases hf2

theorem parse_func_grow_arguments_names_ok (func : ast_func_t) (capacity backfill : Nat)
    (h : parse_func_arguments_names_ok func capacity backfill) :
    ((parse_func_grow_arguments func backfill capacity).1.traits.has AST_FUNC_FOREIGN = true
      ∧ backfill = 0)
    ∨ ((parse_func_grow_arguments func backfill capacity).1.traits.has AST_FUNC_FOREIGN = false
      ∧ (parse_func_grow_arguments func backfill capacity).1.arg_names.isSome = true) := by
  obtain ⟨-, g2, -⟩ := parse_func_grow_arguments_frame func backfill capacity
  rw [g2]
  rcases h with ⟨hf, hb⟩ | ⟨hf, hs⟩
  · exact Or.inl ⟨hf, hb⟩
  · refine Or.inr ⟨hf, ?_⟩
    unfold parse_func_grow_arguments
    split
    · simp [hf]
    · rename_i hc
      have hc0 : capacity ≠ 0 := by simpa using hc
      have hsome : func.arg_names.isSome = true := by
        rcases hs with hs | ⟨hc1, -⟩
        · exact hs
        · exact absurd hc1 hc0
      split
      · exact hsome
      · simp [hf]

/-- One argument keeps the state that the calls of
`parse_free_unbackfilled_arguments` need. -/
theorem parse_func_argument_names_ok (ext : parse_externals_t) (ctx ctx2 : parse_ctx_t)
    (func func2 : ast_func_t) (capacity backfill backfill2 : Nat) (is_solid : Bool)
    (hK : (func.traits.has AST_FUNC_FOREIGN = true ∧ backfill = 0)
      ∨ (func.traits.has AST_FUNC_FOREIGN = false ∧ func.arg_names.isSome = true))
    (h : parse_func_argument ext ctx func capacity backfill
      = .ok (ctx2, func2, backfill2, is_solid)) :
    ∀ capacity2, parse_func_arguments_names_ok func2 capacity2 backfill2 := by
  intro capacity2
  obtain ⟨f1, f2, -⟩ := parse_func_argument_fields ext ctx ctx2 func func2 capacity backfill
    backfill2 is_solid h
  have hcount := parse_func_argument_counter ext ctx ctx2 func func2 capacity backfill backfill2
    is_solid h
  rcases hK with ⟨hf, -⟩ | ⟨hf, hs⟩
  · refine Or.inl ⟨by rw [f1]; exact hf, ?_⟩
    rcases hcount with ⟨hb, -⟩ | ⟨-, -, hnf, -⟩
    · exact hb
    · rw [f1, hf] at hnf
      cases hnf
  · exact Or.inr ⟨by rw [f1]; exact hf, Or.inl (f2 hs)⟩

/-- Every call of `parse_free_unbackfilled_arguments` that a run of the loop of
`parse_func_arguments` makes is given no pending argument when the names array is
missing, and none at all in a foreign function. -/
theorem parse_func_arguments_loop_freed_spec (ext : parse_externals_t) :
    ∀ (fuel : Nat) (ctx : parse_ctx_t) (func : ast_func_t) (capacity backfill : Nat)
      (names : Option (List (Option (Option String)))) (b : Nat),
      parse_func_arguments_names_ok func capacity backfill →
      parse_func_arguments_loop_freed ext fuel ctx func capacity backfill = some (names, b) →
      (names = none → b = 0) ∧ (func.traits.has AST_FUNC_FOREIGN = true → b = 0) := by
  intro fuel
  induction fuel with
  | zero =>
    intro ctx func capacity backfill names b _ h
    unfold parse_func_arguments_loop_freed at h
    cases h
  | succ f ih =>
    intro ctx func capacity backfill names b hJ h
    unfold parse_func_arguments_loop_freed at h
    split at h
    · cases h
    · split at h
      · simp only [Option.some.injEq, Prod.mk.injEq] at h
        obtain ⟨rfl, rfl⟩ := h
        exact parse_func_arguments_names_ok_safe func capacity _ hJ
      · rename_i ctxA hA
        simp only at h
        have hK := parse_func_grow_arguments_names_ok func capacity backfill hJ
        obtain ⟨-, g2, -⟩ := parse_func_grow_arguments_frame func backfill capacity
        split at h
        · -- the argument fails
          obtain ⟨hb, hn⟩ := parse_func_argument_freed_spec ext _ _ _ _ _ _ h
          subst hb
          rcases hK with ⟨hf, hb0⟩ | ⟨hf, hs⟩
          · exact ⟨fun _ => hb0, fun _ => hb0⟩
          · refine ⟨fun hnone => ?_, fun hf2 => ?_⟩
            · have := hn hs
              rw [hnone] at this
              cases this
            · rw [g2] at hf
              rw [hf] at hf2
              cases hf2
        · rename_i ctxB func2 backfill2 is_solid hP
          have hJ2 := parse_func_argument_names_ok ext _ _ _ _ _ _ _ _ hK hP
          obtain ⟨f1, -, -⟩ := parse_func_argument_fields ext _ _ _ _ _ _ _ _ hP
          have hfor : func.traits.has AST_FUNC_FOREIGN = true →
              func2.traits.has AST_FUNC_FOREIGN = true := by
            intro hf
            rw [f1, g2]
            exact hf
          have hsafe := parse_func_arguments_names_ok_safe func2 0 backfill2 (hJ2 0)
          have hrec : ∀ (c : parse_ctx_t),
              parse_func_arguments_loop_freed ext f c func2
                (parse_func_grow_arguments func backfill capacity).2 backfill2
                = some (names, b) →
              (names = none → b = 0) ∧ (func.traits.has AST_FUNC_FOREIGN = true → b = 0) := by
            intro c hc
            obtain ⟨r1, r2⟩ := ih c func2 _ backfill2 names b (hJ2 _) hc
            exact ⟨r1, fun hf => r2 (hfor hf)⟩
          have hhere : some (func2.arg_names, backfill2) = some (names, b) →
              (names = none → b = 0) ∧ (func.traits.has AST_FUNC_FOREIGN = true → b = 0) := by
            intro hc
            simp only [Option.some.injEq, Prod.mk.injEq] at hc
            obtain ⟨rfl, rfl⟩ := hc
            exact ⟨hsafe.1, fun hf => hsafe.2 (hfor hf)⟩
          split at h
          · exact hrec _ h
          · split at h
            · exact hhere h
            · split at h
              · split at h
                · exact hhere h
                · exact hrec _ h
              · split at h
                · exact hhere h
                · exact hrec _ h

/-- Every call of `parse_free_unbackfilled_arguments` that `parse_func_arguments`
makes is given no pending argument when the names array is missing, and none at
all in a foreign function. -/
theorem parse_func_arguments_freed_spec (ext : parse_externals_t) (fuel : Nat)
    (ctx : parse_ctx_t) (func : ast_func_t)
    (names : Option (List (Option (Option String)))) (b : Nat)
    (h : parse_func_arguments_freed ext fuel ctx func = some (names, b)) :
    (names = none → b = 0) ∧ (func.traits.has AST_FUNC_FOREIGN = true → b = 0) := by
  unfold parse_func_arguments_freed at h
  simp only at h
  split at h
  · cases h
  · rename_i ctxA hA
    split at h
    · cases h
    · rename_i func1 capacity1 h1
      have hJ : parse_func_arguments_names_ok func1 capacity1 0
          ∧ func1.traits = func.traits := by
        split at h1
        · simp only [Option.some.injEq, Prod.mk.injEq] at h1
          obtain ⟨rfl, rfl⟩ := h1
          refine ⟨?_, rfl⟩
          cases hf : func.traits.has AST_FUNC_FOREIGN with
          | true => exact Or.inl ⟨hf, rfl⟩
          | false => exact Or.inr ⟨hf, Or.inr ⟨rfl, rfl⟩⟩
        · split at h1
          · cases h1
          · rename_i hnf
            have hf : func.traits.has AST_FUNC_FOREIGN = false := by simpa using hnf
            simp only [Option.some.injEq, Prod.mk.injEq] at h1
            obtain ⟨rfl, rfl⟩ := h1
            refine ⟨Or.inr ⟨hf, Or.inl ?_⟩, rfl⟩
            show (Option.map _ (parse_func_grow_arguments _ 0 0).1.arg_names).isSome = true
            rw [Option.isSome_map']
            unfold parse_func_grow_arguments
            simp [hf]
      split at h
      · cases h
      · split at h
        · obtain ⟨r1, r2⟩ := parse_func_arguments_loop_freed_spec ext _ _ _ _ _ _ _ hJ.1 h
          exact ⟨r1, fun hf => r2 (by rw [hJ.2]; exact hf)⟩
        · rename_i ctxF funcF backfillF hL
          obtain ⟨hb, -⟩ := parse_func_arguments_loop_counter ext _ _ _ _ _ _ _ _ (Or.inl rfl) hL
          rw [if_neg (by simp [hb])] at h
          cases h

/-- No call is traced when `parse_func_arguments` succeeds. -/
theorem parse_func_arguments_freed_ok (ext : parse_externals_t) (fuel : Nat)
    (ctx ctx2 : parse_ctx_t) (func func2 : ast_func_t)
    (h : parse_func_arguments ext fuel ctx func = .ok (ctx2, func2)) :
    parse_func_arguments_freed ext fuel ctx func = none := by
  unfold parse_func_arguments at h
  unfold parse_func_arguments_freed
  simp only at h ⊢
  split at h
  · cases h
  · rename_i ctxA hA
    try simp only [hA]
    cases hc : ctxA.composite_association with
    | none =>
      simp only [hc] at h ⊢
      split at h
      · rename_i hno
        rw [if_pos hno]
      · rename_i hopen
        rw [if_neg hopen]
        split at h
        · cases h
        · rename_i ctxF funcF backfillF hL
          try simp only [hL]
          obtain ⟨hb, -⟩ := parse_func_arguments_loop_counter ext _ _ _ _ _ _ _ _ (Or.inl rfl) hL
          rw [if_neg (by simp [hb])]
    | some composite =>
      simp only [hc] at h ⊢
      by_cases hf : func.traits.has AST_FUNC_FOREIGN = true
      · simp only [hf, if_true] at h
        cases h
      · simp only [hf, if_false, Bool.false_eq_true] at h ⊢
        split at h
        · rename_i hno
          rw [if_pos hno]
        · rename_i hopen
          rw [if_neg hopen]
          split at h
          · cases h
          · rename_i ctxF funcF backfillF hL
            try simp only [hL]
            obtain ⟨hb, -⟩ := parse_func_arguments_loop_counter ext _ _ _ _ _ _ _ _ (Or.inl rfl)
              hL
            rw [if_neg (by simp [hb])]

/-- The loop of `parse_func_arguments` keeps the foreign trait of the function. -/
theorem parse_func_arguments_loop_foreign (ext : parse_externals_t) :
    ∀ (fuel : Nat) (ctx ctxF : parse_ctx_t) (func funcF : ast_func_t)
      (capacity backfill backfillF : Nat),
      parse_func_arguments_loop ext fuel ctx func capacity backfill
        = .ok (ctxF, funcF, backfillF) →
      funcF.traits.has AST_FUNC_FOREIGN = func.traits.has AST_FUNC_FOREIGN
  | 0, _, _, _, _, _, _, _, h => by
      rw [parse_func_arguments_loop] at h
      cases h
  | fuel + 1, ctx, ctxF, func, funcF, capacity, backfill, backfillF, h => by
      rcases parse_func_arguments_loop_ok _ _ _ _ _ _ _ _ _ h with
        ⟨_, _, hf, _⟩ | ⟨_, ctxA, ctxB, ctxC, func2, backfill2, is_solid, hP, hL⟩
      · rw [hf]
      · obtain ⟨-, g2, -⟩ := parse_func_grow_arguments_frame func backfill capacity
        obtain ⟨f1, -, -⟩ := parse_func_argument_fields ext _ _ _ _ _ _ _ _ hP
        rw [parse_func_arguments_loop_foreign ext fuel ctxC ctxF func2 funcF _ backfill2
          backfillF hL, f1, g2]

/-- In a foreign function a word that a `,` follows, newlines skipped, is no
argument name: the name step leaves it, and it is parsed as the type of the
argument. -/
theorem parse_func_argument_foreign_word_next (ext : parse_externals_t) (ctx : parse_ctx_t)
    (func : ast_func_t) (capacity backfill : Nat)
    (hf : func.traits.has AST_FUNC_FOREIGN = true)
    (hword : ctx.token_id ctx.i = TOKEN_WORD)
    (hnext : ctx.token_id (skip_newlines ctx (ctx.tokens.length - (ctx.i + 1)) (ctx.i + 1))
      = TOKEN_NEXT) :
    parse_func_argument_is_name ctx = false
    ∧ parse_func_argument ext ctx func capacity backfill
      = parse_func_argument_type ext ctx
          { (parse_func_argument_start ctx func backfill).2 with arg_type_traits :=
              ((parse_func_argument_start ctx func backfill).2.arg_type_traits.set
                (func.arity + backfill) (some TRAIT_NONE)) }
          capacity backfill := by
  have hname : parse_func_argument_is_name ctx = false := by
    unfold parse_func_argument_is_name
    rw [if_pos (by rw [hword]; rfl)]
    simp only [hnext]
    decide
  refine ⟨hname, ?_⟩
  have hflow := parse_func_argument_flow_word ctx hword
  rw [parse_func_argument_of_not_ellipsis ext ctx func capacity backfill
    (by rw [hflow, hword]; decide)]
  rw [hflow]
  have hf2 : (parse_func_argument_start ctx func backfill).2.traits.has AST_FUNC_FOREIGN
      = true := hf
  have hN : parse_func_argument_name ctx (parse_func_argument_start ctx func backfill).2
      capacity backfill = .ok (ctx, (parse_func_argument_start ctx func backfill).2) := by
    unfold parse_func_argument_name
    rw [if_pos hf2, if_neg (by rw [hname]; decide)]
  simp only [hN]
  exact (parse_func_argument_after_name_word ext ctx _ capacity backfill hf2 hword).1

/-- C37: in a foreign function `parse_func_argument` never leaves an argument
pending: whatever the pending count it is entered with, it leaves the count 0 and
the function foreign, and a marker is accepted only when the count was 0; a word
that a `,` follows is no argument name, and is parsed as the type of the argument.
So the loop of `parse_func_arguments`, entered with the count 0, ends with the
count 0 and a foreign function; every call of `parse_free_unbackfilled_arguments`
that `parse_func_arguments` makes on a foreign function is given the count 0; and,
foreign or not, every call it makes while the names array is missing is given the
count 0, so that the call never reads through the missing array. No call is made
when `parse_func_arguments` succeeds. -/
theorem parse_func_arguments_foreign_backfill (ext : parse_externals_t) :
    (∀ (ctx ctx2 : parse_ctx_t) (func func2 : ast_func_t) (capacity backfill backfill2 : Nat)
        (is_solid : Bool),
        func.traits.has AST_FUNC_FOREIGN = true →
        parse_func_argument ext ctx func capacity backfill
          = .ok (ctx2, func2, backfill2, is_solid) →
        backfill2 = 0 ∧ (is_solid = false → backfill = 0)
        ∧ func2.traits.has AST_FUNC_FOREIGN = true)
    ∧ (∀ (ctx : parse_ctx_t) (func : ast_func_t) (capacity backfill : Nat),
        func.traits.has AST_FUNC_FOREIGN = true →
        ctx.token_id ctx.i = TOKEN_WORD →
        ctx.token_id (skip_newlines ctx (ctx.tokens.length - (ctx.i + 1)) (ctx.i + 1))
          = TOKEN_NEXT →
        parse_func_argument_is_name ctx = false
        ∧ parse_func_argument ext ctx func capacity backfill
          = parse_func_argument_type ext ctx
              { (parse_func_argument_start ctx func backfill).2 with arg_type_traits :=
                  ((parse_func_argument_start ctx func backfill).2.arg_type_traits.set
                    (func.arity + backfill) (some TRAIT_NONE)) }
              capacity backfill)
    ∧ (∀ (fuel : Nat) (ctx ctxF : parse_ctx_t) (func funcF : ast_func_t)
        (capacity backfillF : Nat),
        func.traits.has AST_FUNC_FOREIGN = true →
        parse_func_arguments_loop ext fuel ctx func capacity 0 = .ok (ctxF, funcF, backfillF) →
        backfillF = 0 ∧ funcF.traits.has AST_FUNC_FOREIGN = true)
    ∧ (∀ (fuel : Nat) (ctx : parse_ctx_t) (func : ast_func_t)
        (names : Option (List (Option (Option String)))) (b : Nat),
        parse_func_arguments_freed ext fuel ctx func = some (names, b) →
        (func.traits.has AST_FUNC_FOREIGN = true → b = 0)
        ∧ (names = none → b = 0)
        ∧ parse_free_unbackfilled_arguments { func with arg_names := names } b = some ())
    ∧ (∀ (fuel : Nat) (ctx ctx2 : parse_ctx_t) (func func2 : ast_func_t),
        parse_func_arguments ext fuel ctx func = .ok (ctx2, func2) →
        parse_func_arguments_freed ext fuel ctx func = none) := by
  refine ⟨?_, ?_, ?_, ?_, ?_⟩
  · intro ctx ctx2 func func2 capacity backfill backfill2 is_solid hf h
    obtain ⟨f1, -, -⟩ := parse_func_argument_fields ext ctx ctx2 func func2 capacity backfill
      backfill2 is_solid h
    have hf2 : func2.traits.has AST_FUNC_FOREIGN = true := by rw [f1]; exact hf
    rcases parse_func_argument_counter ext ctx ctx2 func func2 capacity backfill backfill2
        is_solid h with ⟨hb, hm⟩ | ⟨-, -, hnf, -⟩
    · exact ⟨hb, hm, hf2⟩
    · rw [hf2] at hnf
      cases hnf
  · intro ctx func capacity backfill hf hword hnext
    exact parse_func_argument_foreign_word_next ext ctx func capacity backfill hf hword hnext
  · intro fuel ctx ctxF func funcF capacity backfillF hf h
    obtain ⟨hb, -⟩ := parse_func_arguments_loop_counter ext fuel ctx ctxF func funcF capacity 0
      backfillF (Or.inl rfl) h
    refine ⟨hb, ?_⟩
    rw [parse_func_arguments_loop_foreign ext fuel ctx ctxF func funcF capacity 0 backfillF h]
    exact hf
  · intro fuel ctx func names b h
    obtain ⟨r1, r2⟩ := parse_func_arguments_freed_spec ext fuel ctx func names b h
    refine ⟨r2, r1, ?_⟩
    rw [parse_free_unbackfilled_arguments_defined]
    cases names with
    | none => exact Or.inl (r1 rfl)
    | some l => exact Or.inr rfl
  · intro fuel ctx ctx2 func func2 h
    exact parse_func_arguments_freed_ok ext fuel ctx ctx2 func func2 h

/-- The witness of C37: in `foreign f(a, $T c)` the word `a` is parsed as a type,
no argument being pending behind it, and the call made when the list fails at `c`
is given no names array and the count 0; so is the call made at the ambiguity of
`(cstring, n int)`. -/
theorem parse_func_arguments_foreign_backfill_witness :
    (parse_func_argument parse_fragment { parse_ctx_of tokens_foreign_words with i := 3 }
        func_example_foreign 4 0).toOption.map
        (fun r => (r.1.i, r.2.1.arity, r.2.1.arg_names.isSome, r.2.2.1, r.2.2.2))
      = some (4, 1, false, 0, true)
    ∧ parse_func_argument_is_name { parse_ctx_of tokens_foreign_words with i := 3 } = false
    ∧ (parse_func_arguments_freed parse_fragment 10
        { parse_ctx_of tokens_foreign_words with i := 2 } func_puts).map
        (fun r => (r.1.isSome, r.2)) = some (false, 0)
    ∧ (parse_func_arguments_freed parse_fragment 10 (parse_ctx_of tokens_foreign_ambiguous)
        func_puts).map (fun r => (r.1.isSome, r.2)) = some (false, 0) := by
  have hw := (parse_func_arguments_foreign_backfill parse_fragment).2.1
    { parse_ctx_of tokens_foreign_words with i := 3 } func_example_foreign 4 0
    (by decide) (by decide) (by decide)
  exact ⟨by decide!, hw.1, by decide!, by decide!⟩

/-! ## The reads of the checks are in range -/

/-- A parsed signature: the head was accepted, the argument list of the template
of the head was accepted, and the function is the one `parse_func_arguments` left,
with the return type. -/
theorem parse_func_signature_parts (ext : parse_externals_t) (fuel MAX_FUNCID : Nat)
    (ctx : parse_ctx_t) (s : parse_func_signature_t)
    (h : parse_func_signature ext fuel MAX_FUNCID ctx = .ok s) :
    ∃ ctxH ctxA funcA,
      parse_func_head ext ctx = .ok (ctxH, s.func_head)
      ∧ parse_func_arguments ext fuel (parse_func_begin ctxH s.func_head)
          (parse_func_template ctxH s.func_head) = .ok (ctxA, funcA)
      ∧ s.func = { funcA with return_type := s.func.return_type } := by
  unfold parse_func_signature at h
  split at h
  · cases h
  · split at h
    · cases h
    · rename_i ctxH func_head hH
      split at h
      · cases h
      · simp only at h
        split at h
        · cases h
        · rename_i ctxA funcA hA
          try simp only at h
          split at h
          · cases h
          · try simp only at h
            split at h
            · cases h
              exact ⟨ctxH, ctxA, funcA, hH, hA, rfl⟩
            · split at h
              · cases h
              · cases h
                exact ⟨ctxH, ctxA, funcA, hH, hA, rfl⟩

/-- The template of line 54 with the traits of lines 56-59, as one call of
`ast_func_create_template`. -/
theorem parse_func_template_eq (ctx : parse_ctx_t) (func_head : ast_func_head_t) :
    parse_func_template ctx func_head
      = ast_func_create_template func_head.name func_head.source
          (if ctx.next_builtin_traits != TRAIT_NONE
            then func_head.traits ||| ctx.next_builtin_traits else func_head.traits) := by
  unfold parse_func_template ast_func_head_t.create_template ast_func_create_template
  split <;> rfl

/-- A run of `parse_func_arguments` that succeeds: when no `(` stands behind the
name nothing is parsed, and otherwise the loop is run behind the `(` on the
function of `parse_func_arguments_begin`, and the types it leaves are collapsed. -/
theorem parse_func_arguments_run (ext : parse_externals_t) (fuel : Nat)
    (ctx ctx2 : parse_ctx_t) (func func2 : ast_func_t)
    (h : parse_func_arguments ext fuel ctx func = .ok (ctx2, func2)) :
    ∃ ctxN, parse_ignore_newlines ctx "Expected '(' after function name" = .ok ctxN
      ∧ (ctxN.token_id ctxN.i ≠ TOKEN_OPEN → func2 = (parse_func_arguments_begin ctxN func).1)
      ∧ (ctxN.token_id ctxN.i = TOKEN_OPEN →
          ∃ ctxF funcF,
            parse_func_arguments_loop ext fuel
                { ctxN with i := ctxN.i + 1, allow_polymorphic_prereqs := true }
                (parse_func_arguments_begin ctxN func).1
                (parse_func_arguments_begin ctxN func).2 0 = .ok (ctxF, funcF, 0)
            ∧ func2 = { funcF with
                arg_types := parse_collapse_polycount_var_fixed_arrays funcF.arg_types
                  funcF.arity
                return_type := parse_collapse_polycount_type funcF.return_type }) := by
  unfold parse_func_arguments at h
  simp only at h
  cases hA : parse_ignore_newlines ctx "Expected '(' after function name" with
  | error e => rw [hA] at h; cases h
  | ok ctxN =>
    rw [hA] at h
    simp only at h
    refine ⟨ctxN, rfl, ?_⟩
    unfold parse_func_arguments_begin
    cases hc : ctxN.composite_association with
    | none =>
      rw [hc] at h
      simp only at h ⊢
      split at h
      · rename_i hno
        have hno2 : ctxN.token_id ctxN.i ≠ TOKEN_OPEN := by simpa using hno
        cases h
        exact ⟨fun _ => rfl, fun ho => absurd ho hno2⟩
      · rename_i hopen
        have ho2 : ctxN.token_id ctxN.i = TOKEN_OPEN := by simpa using hopen
        refine ⟨fun hno => absurd ho2 hno, fun _ => ?_⟩
        split at h
        · cases h
        · rename_i ctxF funcF backfillF hL
          try simp only at h
          split at h
          · cases h
          · rename_i hb
            have hb0 : backfillF = 0 := by simpa using hb
            subst hb0
            cases h
            exact ⟨ctxF, funcF, hL, rfl⟩
    | some composite =>
      rw [hc] at h
      simp only at h ⊢
      by_cases hf : func.traits.has AST_FUNC_FOREIGN = true
      · rw [if_pos hf] at h
        cases h
      · rw [if_neg hf] at h
        simp only at h
        split at h
        · rename_i hno
          have hno2 : ctxN.token_id ctxN.i ≠ TOKEN_OPEN := by simpa using hno
          cases h
          exact ⟨fun _ => rfl, fun ho => absurd ho hno2⟩
        · rename_i hopen
          have ho2 : ctxN.token_id ctxN.i = TOKEN_OPEN := by simpa using hopen
          refine ⟨fun hno => absurd ho2 hno, fun _ => ?_⟩
          split at h
          · cases h
          · rename_i ctxF funcF backfillF hL
            try simp only at h
            split at h
            · cases h
            · rename_i hb
              have hb0 : backfillF = 0 := by simpa using hb
              subst hb0
              cases h
              exact ⟨ctxF, funcF, hL, rfl⟩

/-- C19, as amended. After `parse_func` has accepted a declaration, the function
is the new last element of `funcs`, and no argument type of it has, among its own
elements, a var-fixed-array whose length is a polycount expression. The head of
the declaration being parsed and the newlines behind it skipped: when a `(`
stands there, the argument loop of this declaration, run behind the `(` on the
template of the head (with `this` in the domain of a composite), ends with no
argument pending, and each argument type of the function is the type that this
run left in the same slot, with every element of its own that is a var-fixed-array
of polycount length replaced by the polycount element of the same name and
source, the other elements being as they were; when no `(` stands there, the
argument types are those the function had before the loop. -/
theorem parse_func_collapse (ext : parse_externals_t) (fuel MAX_FUNCID : Nat)
    (ctx ctx2 : parse_ctx_t)
    (halias : (ctx.token_id (ctx.i + 1) == TOKEN_ALIAS && ctx.token_id ctx.i == TOKEN_FUNC)
      = false)
    (h : parse_func ext fuel MAX_FUNCID ctx = .ok ctx2) :
    ∃ ctxH func_head ctxN f,
      parse_func_head ext ctx = .ok (ctxH, func_head)
      ∧ parse_ignore_newlines (parse_func_begin ctxH func_head)
          "Expected '(' after function name" = .ok ctxN
      ∧ ctx2.ast.funcs = ctx.ast.funcs ++ [f]
      ∧ (∀ j, j < f.arity → ∀ e ∈ (f.arg_type j).elements,
          ∀ (name : String) (source source2 : source_t),
            e ≠ .var_fixed_array (.polycount name source) source2)
      ∧ (ctxN.token_id ctxN.i ≠ TOKEN_OPEN →
          f.arity
              = (parse_func_arguments_begin ctxN (parse_func_template ctxH func_head)).1.arity
          ∧ f.arg_types
              = (parse_func_arguments_begin ctxN
                  (parse_func_template ctxH func_head)).1.arg_types)
      ∧ (ctxN.token_id ctxN.i = TOKEN_OPEN →
          ∃ ctxF funcF,
            parse_func_arguments_loop ext fuel
                { ctxN with i := ctxN.i + 1, allow_polymorphic_prereqs := true }
                (parse_func_arguments_begin ctxN (parse_func_template ctxH func_head)).1
                (parse_func_arguments_begin ctxN (parse_func_template ctxH func_head)).2 0
              = .ok (ctxF, funcF, 0)
            ∧ f.arity = funcF.arity
            ∧ ∀ j, j < f.arity →
                slot_val f.arg_types j
                  = (slot_val funcF.arg_types j).map (fun t =>
                      { t with elements := t.elements.map (fun e =>
                          match e with
                          | .var_fixed_array (.polycount name source) _ => .polycount name source
                          | e => e) })) := by
  cases hsig : parse_func_signature ext fuel MAX_FUNCID ctx with
  | error e =>
    unfold parse_func at h
    rw [halias, hsig] at h
    cases h
  | ok s =>
    rw [parse_func_of_signature ext fuel MAX_FUNCID ctx s halias hsig] at h
    obtain ⟨-, hid, hast⟩ := parse_func_signature_ok ext fuel MAX_FUNCID ctx s hsig
    obtain ⟨ctxH, ctxA, funcA, hH, hA, hsf⟩ :=
      parse_func_signature_parts ext fuel MAX_FUNCID ctx s hsig
    have hA2 := hA
    rw [parse_func_template_eq] at hA2
    obtain ⟨hcol, -⟩ := parse_func_arguments_collapsed ext fuel _ ctxA _ _ _ funcA hA2
    obtain ⟨ctxN, hN, hclosed, hopen⟩ := parse_func_arguments_run ext fuel _ ctxA _ funcA hA
    obtain ⟨ast1, ctxP, funcP, ctxB, funcB, hC, hP, hB, h2⟩ := parse_func_finish_ok ext s ctx2 h
    have hframe := parse_func_checks_frame _ _ _ hC
    obtain ⟨hastB, hfB⟩ := parse_func_body_ok _ _ _ _ _ hB
    have hPfuncs : ctxP.ast.funcs = ctx.ast.funcs ++ [s.func] := by
      rcases parse_func_polymorphic_ok _ _ _ _ _ _ hP with ⟨-, hc, -⟩ | ⟨-, -, -, hc⟩
      · rw [hc]
        show ast1.funcs = _
        rw [hframe, hast]
      · rw [hc]
        show ast1.funcs = _
        rw [hframe, hast]
    have hPargs : funcP.arg_types = funcA.arg_types ∧ funcP.arity = funcA.arity := by
      rcases parse_func_polymorphic_ok _ _ _ _ _ _ hP with ⟨-, -, hf⟩ | ⟨-, -, hf, -⟩
      · rw [hf, hsf]; exact ⟨rfl, rfl⟩
      · rw [hf, hsf]; exact ⟨rfl, rfl⟩
    have hBargs : funcB.arg_types = funcA.arg_types ∧ funcB.arity = funcA.arity := by
      rw [hfB]
      exact hPargs
    refine ⟨ctxH, s.func_head, ctxN, funcB, hH, hN, ?_, ?_, ?_, ?_⟩
    · rw [h2]
      show ctxB.ast.funcs.set s.ast_func_id funcB = _
      rw [hastB]
      show (ctxP.ast.funcs.set s.ast_func_id funcP).set s.ast_func_id funcB = _
      rw [List.set_set, hPfuncs, hid, list_set_append_last]
    · intro j hj e he name source source2
      obtain ⟨parsed, hp⟩ := hcol j (by rw [← hBargs.2]; exact hj)
      have hty : (funcB.arg_type j).elements
          = parsed.elements.map parse_collapse_polycount_elem := by
        unfold ast_func_t.arg_type
        rw [hBargs.1, hp]
        rfl
      rw [hty] at he
      obtain ⟨x, -, hx⟩ := List.mem_map.mp he
      rw [← hx]
      exact parse_collapse_polycount_elem_ne x name source source2
    · intro hno
      rw [hBargs.1, hBargs.2, hclosed hno]
      exact ⟨rfl, rfl⟩
    · intro ho
      obtain ⟨ctxF, funcF, hL, hfA⟩ := hopen ho
      refine ⟨ctxF, funcF, hL, by rw [hBargs.2, hfA], ?_⟩
      intro j hj
      rw [hBargs.1, hfA]
      show slot_val (parse_collapse_polycount_var_fixed_arrays funcF.arg_types funcF.arity) j = _
      rw [slot_val_collapse, if_pos (by rw [hBargs.2, hfA] at hj; exact hj)]
      rfl

/-- The witness of C19 as amended: `func f(a [$#N] int, b <[$#N] int> Box) [$#N] int`
with an empty body is accepted with arity 2. The argument loop of the declaration
leaves in slot 0 the type whose first element is the var-fixed-array of length
`$#N`, and the function ends with the polycount element of the same name and
source there, the element `int` behind it being as it was; the one element of the
type of `b` is no such element and is as the loop left it, the var-fixed-array
nested in it included. -/
theorem parse_func_collapse_witness :
    ∃ ctx2 ctxH func_head ctxN ctxF funcF f,
      parse_func parse_fragment 20 0xFFFFFFFF (parse_ctx_of tokens_polycount_nested) = .ok ctx2
      ∧ parse_func_head parse_fragment (parse_ctx_of tokens_polycount_nested)
          = .ok (ctxH, func_head)
      ∧ parse_ignore_newlines (parse_func_begin ctxH func_head)
          "Expected '(' after function name" = .ok ctxN
      ∧ parse_func_arguments_loop parse_fragment 20
            { ctxN with i := ctxN.i + 1, allow_polymorphic_prereqs := true }
            (parse_func_arguments_begin ctxN (parse_func_template ctxH func_head)).1
            (parse_func_arguments_begin ctxN (parse_func_template ctxH func_head)).2 0
          = .ok (ctxF, funcF, 0)
      ∧ ctx2.ast.funcs = [f] ∧ f.arity = 2
      ∧ (∀ j, j < 2 → ∀ e ∈ (f.arg_type j).elements,
          ∀ (name : String) (source source2 : source_t),
            e ≠ .var_fixed_array (.polycount name source) source2)
      ∧ (∀ j, j < 2 →
          slot_val f.arg_types j
            = (slot_val funcF.arg_types j).map (fun t =>
                { t with elements := t.elements.map (fun e =>
                    match e with
                    | .var_fixed_array (.polycount name source) _ => .polycount name source
                    | e => e) }))
      ∧ (funcF.arg_type 0).elements.map ast_elem_t.polycount_of
          = [some (true, "N", ⟨0, 5⟩), none]
      ∧ (f.arg_type 0).elements.map ast_elem_t.polycount_of
          = [some (false, "N", ⟨0, 5⟩), none]
      ∧ (funcF.arg_type 1).elements.map ast_elem_t.polycount_of = [none]
      ∧ (f.arg_type 1).elements.map ast_elem_t.polycount_of = [none]
      ∧ ast_elems_has_polycount_length (funcF.arg_type 1).elements = true
      ∧ ast_elems_has_polycount_length (f.arg_type 1).elements = true := by
  obtain ⟨ctx2, h2⟩ := except_ok_of_isSome (parse_func parse_fragment 20 0xFFFFFFFF
    (parse_ctx_of tokens_polycount_nested)) (by decide!)
  obtain ⟨ctxH, func_head, ctxN, f, hH, hN, hf, hno, -, hopen⟩ :=
    parse_func_collapse parse_fragment 20 0xFFFFFFFF
      (parse_ctx_of tokens_polycount_nested) ctx2 (by decide!) h2
  have hf2 : ctx2.ast.funcs = [f] := hf
  have hsum : ctx2.ast.funcs.map (fun f => (f.arity == 2
      && (f.arg_type 0).elements.map ast_elem_t.polycount_of
          == [some (false, "N", ⟨0, 5⟩), none]
      && (f.arg_type 1).elements.map ast_elem_t.polycount_of == [none]
      && ast_elems_has_polycount_length (f.arg_type 1).elements)) = [true] :=
    except_ok_fact _ ctx2 (fun c => c.ast.funcs.map (fun f => (f.arity == 2
      && (f.arg_type 0).elements.map ast_elem_t.polycount_of
          == [some (false, "N", ⟨0, 5⟩), none]
      && (f.arg_type 1).elements.map ast_elem_t.polycount_of == [none]
      && ast_elems_has_polycount_length (f.arg_type 1).elements))) _ h2 (by decide!)
  rw [hf2] at hsum
  simp only [List.map_cons, List.map_nil, List.cons.injEq, and_true, Bool.and_eq_true,
    beq_iff_eq] at hsum
  obtain ⟨⟨⟨har, hf0⟩, hf1⟩, hfn⟩ := hsum
  have hopenN : ((parse_func_head parse_fragment
      (parse_ctx_of tokens_polycount_nested)).toOption.bind (fun r =>
        (parse_ignore_newlines (parse_func_begin r.1 r.2)
          "Expected '(' after function name").toOption.map (fun c => c.token_id c.i)))
      = some TOKEN_OPEN := by decide!
  rw [hH] at hopenN
  simp only [Except.toOption, Option.bind, hN, Option.map, Option.some.injEq] at hopenN
  obtain ⟨ctxF, funcF, hL, -, hty⟩ := hopen hopenN
  have hloop : ((parse_func_head parse_fragment
      (parse_ctx_of tokens_polycount_nested)).toOption.bind (fun r =>
        (parse_ignore_newlines (parse_func_begin r.1 r.2)
          "Expected '(' after function name").toOption.bind (fun c =>
          (parse_func_arguments_loop parse_fragment 20
            { c with i := c.i + 1, allow_polymorphic_prereqs := true }
            (parse_func_arguments_begin c (parse_func_template r.1 r.2)).1
            (parse_func_arguments_begin c (parse_func_template r.1 r.2)).2 0).toOption.map
            (fun l => ((l.2.1.arg_type 0).elements.map ast_elem_t.polycount_of
                == [some (true, "N", ⟨0, 5⟩), none]
              && (l.2.1.arg_type 1).elements.map ast_elem_t.polycount_of == [none]
              && ast_elems_has_polycount_length (l.2.1.arg_type 1).elements))))) = some true := by
    decide!
  rw [hH] at hloop
  simp only [Except.toOption, Option.bind, hN, hL, Option.map, Option.some.injEq,
    Bool.and_eq_true, beq_iff_eq] at hloop
  obtain ⟨⟨hl0, hl1⟩, hln⟩ := hloop
  exact ⟨ctx2, ctxH, func_head, ctxN, ctxF, funcF, f, h2, hH, hN, hL, hf2, har,
    fun j hj => hno j (by omega), fun j hj => hty j (by omega), hl0, hf0, hl1, hf1, hln, hfn⟩
end Adept
